import Mathlib

/-!
# quick-lint-js statement parser: a shallow embedding

This development embeds `src/quick-lint-js/fe/parse-statement.cpp` in Lean 4.

* The lexer is a cursor over a list of tokens (`PState.input`); `peek` is the head of
  the list, `skip` drops it, `insert_semicolon` pushes a zero-width `;` in front, and a
  lexer transaction is a snapshot of the cursor.
* The visitor `v` a parse function is called with is the event log `PState.out`.  Where
  the source passes another visitor (a buffering visitor, the null visitor) the callee
  runs with the log redirected (`capture`); the buffering-visitor stack of the parser is
  `PState.buffering_visitor_stack`.
* `QLJS_PARSER_UNIMPLEMENTED()` and the depth guard stop the parse: `Res.stop`.  The
  state at the stop (events and diagnostics emitted so far) is kept.
* Loops and recursion are bounded by a fuel argument; `Res.out_of_fuel` is an artefact
  of the embedding, never a result of the program.
* Code of the repository that lives in other files (the expression parser, the class,
  interface and type parsers, a few helpers) is a field of `Externals`.
* `QLJS_ASSERT` is a debug-build check and is not executed.
-/

namespace quick_lint_js

/-! ## Source locations, tokens -/

/-- A half-open byte range of the source buffer. -/
structure source_code_span where
  begin_ : Nat
  end_ : Nat
deriving DecidableEq, Repr, Inhabited

/-- The tags of `token_type` (declared in `token.h`). -/
inductive token_type where
  | ampersand | bang | circumflex | colon | comma | slash | dot | equal | greater
  | left_curly | left_paren | left_square | less | minus | percent | pipe | plus
  | question | right_curly | right_paren | right_square | semicolon | star | tilde
  | complete_template | end_of_file | identifier | incomplete_template | number
  | private_identifier | regexp | reserved_keyword_with_escape_sequence | string
  | kw_abstract | kw_any | kw_as | kw_assert | kw_asserts | kw_async | kw_await
  | kw_bigint | kw_boolean | kw_break | kw_case | kw_catch | kw_class | kw_const
  | kw_constructor | kw_continue | kw_debugger | kw_declare | kw_default | kw_delete
  | kw_do | kw_else | kw_enum | kw_export | kw_extends | kw_false | kw_finally | kw_for
  | kw_from | kw_function | kw_get | kw_global | kw_if | kw_implements | kw_import
  | kw_in | kw_infer | kw_instanceof | kw_interface | kw_intrinsic | kw_is | kw_keyof
  | kw_let | kw_module | kw_namespace | kw_never | kw_new | kw_null | kw_number
  | kw_object | kw_of | kw_out | kw_override | kw_package | kw_private | kw_protected
  | kw_public | kw_readonly | kw_require | kw_return | kw_set | kw_static | kw_string
  | kw_super | kw_switch | kw_symbol | kw_this | kw_throw | kw_true | kw_try | kw_type
  | kw_typeof | kw_undefined | kw_unique | kw_unknown | kw_var | kw_void | kw_while
  | kw_with | kw_yield
  | ampersand_ampersand | ampersand_ampersand_equal | ampersand_equal | bang_equal
  | bang_equal_equal | circumflex_equal | dot_dot_dot | equal_equal | equal_equal_equal
  | equal_greater | greater_equal | greater_greater | greater_greater_equal
  | greater_greater_greater | greater_greater_greater_equal | less_equal | less_less
  | less_less_equal | minus_equal | minus_minus | percent_equal | pipe_equal | pipe_pipe
  | pipe_pipe_equal | plus_equal | plus_plus | question_dot | question_question
  | question_question_equal | slash_equal | star_equal | star_star | star_star_equal
deriving DecidableEq, Repr, Inhabited

/-- An identifier: where it is written and its normalized name. -/
structure identifier where
  span : source_code_span
  normalized_name : String
deriving DecidableEq, Repr, Inhabited

/-- A lexeme: tag, byte range, leading-newline flag and (for identifier-shaped tokens)
the normalized name. -/
structure token where
  type : token_type
  begin_ : Nat
  end_ : Nat
  has_leading_newline : Bool
  normalized_identifier : String
deriving DecidableEq, Repr, Inhabited

/-- The method `token::span()`. -/
def token.span (t : token) : source_code_span := ⟨t.begin_, t.end_⟩

/-- The method `token::identifier_name()`. -/
def token.identifier_name (t : token) : identifier := ⟨t.span, t.normalized_identifier⟩

/-! ## Token groups (the `QLJS_CASE_*` macros) -/

/-- Modelled from the spec: the macro `QLJS_CASE_RESERVED_KEYWORD_EXCEPT_AWAIT_AND_YIELD`
of `token.h`, which is not among the sources; the strict reserved words of the token
taxonomy other than `await` and `yield`. -/
def is_reserved_keyword_except_await_and_yield : token_type → Bool
  | .kw_break | .kw_case | .kw_catch | .kw_class | .kw_const | .kw_continue
  | .kw_debugger | .kw_default | .kw_delete | .kw_do | .kw_else | .kw_enum | .kw_export
  | .kw_extends | .kw_false | .kw_finally | .kw_for | .kw_function | .kw_if | .kw_import
  | .kw_in | .kw_instanceof | .kw_new | .kw_null | .kw_return | .kw_super | .kw_switch
  | .kw_this | .kw_throw | .kw_true | .kw_try | .kw_typeof | .kw_var | .kw_void
  | .kw_while | .kw_with => true
  | _ => false

/-- Modelled from the spec: the macro `QLJS_CASE_STRICT_ONLY_RESERVED_KEYWORD` of
`token.h`, which is not among the sources; words reserved in strict mode only. -/
def is_strict_only_reserved_keyword : token_type → Bool
  | .kw_implements | .kw_interface | .kw_package | .kw_private | .kw_protected
  | .kw_public => true
  | _ => false

/-- Modelled from the spec: the macro `QLJS_CASE_STRICT_RESERVED_KEYWORD` of `token.h`,
which is not among the sources. -/
def is_strict_reserved_keyword (t : token_type) : Bool :=
  is_reserved_keyword_except_await_and_yield t || is_strict_only_reserved_keyword t
    || t == .kw_await || t == .kw_yield

/-- Modelled from the spec: the macro
`QLJS_CASE_TYPESCRIPT_ONLY_CONTEXTUAL_KEYWORD_EXCEPT_TYPE` of `token.h`, which is not
among the sources. -/
def is_typescript_only_contextual_keyword_except_type : token_type → Bool
  | .kw_abstract | .kw_any | .kw_assert | .kw_asserts | .kw_bigint | .kw_boolean
  | .kw_constructor | .kw_declare | .kw_global | .kw_infer | .kw_intrinsic | .kw_is
  | .kw_keyof | .kw_module | .kw_namespace | .kw_never | .kw_number | .kw_object
  | .kw_out | .kw_override | .kw_readonly | .kw_require | .kw_string | .kw_symbol
  | .kw_undefined | .kw_unique | .kw_unknown => true
  | _ => false

/-- Modelled from the spec: the macro `QLJS_CASE_TYPESCRIPT_ONLY_CONTEXTUAL_KEYWORD` of
`token.h`, which is not among the sources. -/
def is_typescript_only_contextual_keyword (t : token_type) : Bool :=
  is_typescript_only_contextual_keyword_except_type t || t == .kw_type

/-- Modelled from the spec: the macro
`QLJS_CASE_CONTEXTUAL_KEYWORD_EXCEPT_ASYNC_AND_GET_AND_SET_AND_STATIC_AND_TYPE` of
`token.h`, which is not among the sources. -/
def is_contextual_keyword_except_async_and_get_and_set_and_static_and_type
    (t : token_type) : Bool :=
  is_typescript_only_contextual_keyword_except_type t
    || t == .kw_as || t == .kw_from || t == .kw_let || t == .kw_of

/-- Modelled from the spec: the macro `QLJS_CASE_CONTEXTUAL_KEYWORD` of `token.h`, which
is not among the sources. -/
def is_contextual_keyword (t : token_type) : Bool :=
  is_contextual_keyword_except_async_and_get_and_set_and_static_and_type t
    || t == .kw_static || t == .kw_type || t == .kw_async || t == .kw_get || t == .kw_set

/-- Modelled from the spec: the macro `QLJS_CASE_KEYWORD` of `token.h`, which is not
among the sources. -/
def is_keyword (t : token_type) : Bool :=
  is_contextual_keyword t || is_strict_reserved_keyword t

/-- Modelled from the spec: the macro `QLJS_CASE_BINARY_ONLY_OPERATOR` of `token.h`,
which is not among the sources; the operators that can only be binary. -/
def is_binary_only_operator : token_type → Bool
  | .kw_instanceof | .ampersand | .ampersand_ampersand | .bang_equal | .bang_equal_equal
  | .circumflex | .equal_equal | .equal_equal_equal | .greater | .greater_equal
  | .greater_greater | .greater_greater_greater | .less_equal | .less_less | .percent
  | .pipe | .pipe_pipe | .question_question | .star | .star_star => true
  | _ => false

/-- Modelled from the spec: the macro `QLJS_CASE_COMPOUND_ASSIGNMENT_OPERATOR` of
`token.h`, which is not among the sources. -/
def is_compound_assignment_operator : token_type → Bool
  | .ampersand_equal | .circumflex_equal | .greater_greater_equal
  | .greater_greater_greater_equal | .less_less_equal | .minus_equal | .percent_equal
  | .pipe_equal | .plus_equal | .slash_equal | .star_equal | .star_star_equal => true
  | _ => false

/-- Modelled from the spec: the macro `QLJS_CASE_CONDITIONAL_ASSIGNMENT_OPERATOR` of
`token.h`, which is not among the sources. -/
def is_conditional_assignment_operator : token_type → Bool
  | .ampersand_ampersand_equal | .pipe_pipe_equal | .question_question_equal => true
  | _ => false

/-! ## Visitor events and diagnostics -/

/-- The closed enumeration `variable_kind`. -/
inductive variable_kind where
  | _catch | _class | _const | _enum | _function | _generic_parameter | _import
  | _import_type | _interface | _let | _namespace | _parameter | _type_alias | _var
deriving DecidableEq, Repr, Inhabited

/-- The enumeration `variable_init_kind`. -/
inductive variable_init_kind where
  | normal | initialized_with_equals
deriving DecidableEq, Repr, Inhabited

/-- The scopes a visitor can be told to enter and exit. -/
inductive scope_kind where
  | block | function | for_ | class_ | enum | type_alias | with_ | interface
  | named_function | index_signature
deriving DecidableEq, Repr, Inhabited

/-- One call of a `parse_visitor_base` method. -/
inductive Event where
  | visit_variable_declaration (name : identifier) (kind : variable_kind)
      (init_kind : variable_init_kind)
  | visit_variable_use (name : identifier)
  | visit_variable_export_use (name : identifier)
  | visit_variable_type_use (name : identifier)
  | visit_variable_assignment (name : identifier)
  | visit_enter_scope (k : scope_kind)
  | visit_exit_scope (k : scope_kind)
  | visit_enter_function_scope_body
  | visit_end_of_module
deriving DecidableEq, Repr, Inhabited

/-- The diagnostic types reported by `parse-statement.cpp`. -/
inductive diag_type where
  | diag_c_style_for_loop_is_missing_third_component
  | diag_cannot_assign_to_loop_variable_in_for_of_or_in_loop
  | diag_cannot_assign_to_variable_named_async_in_for_of_loop
  | diag_cannot_declare_await_in_async_function
  | diag_cannot_declare_variable_named_let_with_let
  | diag_cannot_declare_variable_with_keyword_name
  | diag_cannot_declare_yield_in_generator_function
  | diag_cannot_export_default_variable
  | diag_cannot_export_let
  | diag_cannot_export_variable_named_keyword
  | diag_cannot_import_from_unquoted_module
  | diag_cannot_import_let
  | diag_cannot_import_variable_named_keyword
  | diag_cannot_update_variable_during_declaration
  | diag_catch_without_try
  | diag_comma_not_allowed_after_spread_parameter
  | diag_comma_not_allowed_before_first_generic_parameter
  | diag_depth_limit_exceeded
  | diag_else_has_no_if
  | diag_expected_as_before_imported_namespace_alias
  | diag_expected_expression_before_newline
  | diag_expected_expression_before_semicolon
  | diag_expected_expression_for_switch_case
  | diag_expected_from_and_module_specifier
  | diag_expected_from_before_module_specifier
  | diag_expected_left_curly
  | diag_expected_parentheses_around_do_while_condition
  | diag_expected_parentheses_around_if_condition
  | diag_expected_parentheses_around_switch_condition
  | diag_expected_parentheses_around_while_condition
  | diag_expected_parentheses_around_with_expression
  | diag_expected_parenthesis_around_do_while_condition
  | diag_expected_parenthesis_around_if_condition
  | diag_expected_parenthesis_around_switch_condition
  | diag_expected_parenthesis_around_while_condition
  | diag_expected_parenthesis_around_with_expression
  | diag_expected_variable_name_for_catch
  | diag_expected_variable_name_for_import_as
  | diag_exporting_requires_curlies
  | diag_exporting_requires_default
  | diag_exporting_string_name_only_allowed_for_export_from
  | diag_extra_comma_not_allowed_between_enum_members
  | diag_finally_without_try
  | diag_functions_or_methods_should_not_have_arrow_operator
  | diag_generator_function_star_belongs_before_name
  | diag_in_disallowed_in_c_style_for_loop
  | diag_interface_methods_cannot_contain_bodies
  | diag_invalid_break
  | diag_invalid_continue
  | diag_invalid_parameter
  | diag_label_named_await_not_allowed_in_async_function
  | diag_let_with_no_bindings
  | diag_missing_body_for_catch_clause
  | diag_missing_body_for_do_while_statement
  | diag_missing_body_for_finally_clause
  | diag_missing_body_for_for_statement
  | diag_missing_body_for_if_statement
  | diag_missing_body_for_switch_statement
  | diag_missing_body_for_try_statement
  | diag_missing_body_for_while_statement
  | diag_missing_catch_or_finally_for_try_statement
  | diag_missing_catch_variable_between_parentheses
  | diag_missing_comma_between_generic_parameters
  | diag_missing_comma_between_variable_declarations
  | diag_missing_condition_for_if_statement
  | diag_missing_condition_for_switch_statement
  | diag_missing_condition_for_while_statement
  | diag_missing_equal_after_variable
  | diag_missing_expression_between_parentheses
  | diag_missing_for_loop_header
  | diag_missing_for_loop_rhs_or_components_after_declaration
  | diag_missing_for_loop_rhs_or_components_after_expression
  | diag_missing_function_body
  | diag_missing_function_parameter_list
  | diag_missing_header_of_for_loop
  | diag_missing_if_after_else
  | diag_missing_initializer_in_const_declaration
  | diag_missing_name_in_function_statement
  | diag_missing_name_of_exported_function
  | diag_missing_name_or_parentheses_for_function
  | diag_missing_semicolon_after_statement
  | diag_missing_semicolon_between_for_loop_condition_and_update
  | diag_missing_semicolon_between_for_loop_init_and_condition
  | diag_missing_token_after_export
  | diag_missing_variable_name_in_declaration
  | diag_missing_while_and_condition_for_do_while_statement
  | diag_multiple_commas_in_generic_parameter_list
  | diag_non_null_assertion_not_allowed_in_parameter
  | diag_return_statement_returns_nothing
  | diag_statement_before_first_switch_case
  | diag_stray_comma_in_let_statement
  | diag_stray_comma_in_parameter
  | diag_typescript_abstract_class_not_allowed_in_javascript
  | diag_typescript_catch_type_annotation_must_be_any
  | diag_typescript_enum_auto_member_needs_initializer_after_computed
  | diag_typescript_enum_computed_name_must_be_simple
  | diag_typescript_enum_is_not_allowed_in_javascript
  | diag_typescript_enum_member_name_cannot_be_number
  | diag_typescript_enum_value_must_be_constant
  | diag_typescript_generic_parameter_list_is_empty
  | diag_typescript_generics_not_allowed_in_javascript
  | diag_typescript_inline_type_import_not_allowed_in_javascript
  | diag_typescript_inline_type_import_not_allowed_in_type_only_import
  | diag_typescript_interfaces_not_allowed_in_javascript
  | diag_typescript_type_alias_not_allowed_in_javascript
  | diag_typescript_type_annotations_not_allowed_in_javascript
  | diag_typescript_type_only_import_cannot_import_default_and_named
  | diag_typescript_type_only_import_not_allowed_in_javascript
  | diag_unclosed_code_block
  | diag_unexpected_case_outside_switch_statement
  | diag_unexpected_default_outside_switch_statement
  | diag_unexpected_literal_in_parameter_list
  | diag_unexpected_semicolon_in_c_style_for_loop
  | diag_unexpected_semicolon_in_for_in_loop
  | diag_unexpected_semicolon_in_for_of_loop
  | diag_unexpected_token
  | diag_unexpected_token_after_export
  | diag_unexpected_token_in_variable_declaration
  | diag_unmatched_parenthesis
  | diag_unmatched_right_curly
deriving DecidableEq, Repr, Inhabited

/-- The TypeScript enum flavours (`enum_kind`). -/
inductive enum_kind where
  | declare_const_enum | const_enum | declare_enum | normal
deriving DecidableEq, Repr, Inhabited

/-- A reported diagnostic: its type, its span fields in declaration order (an
`identifier` field is given by its span), and the `enum_kind` field of the one
diagnostic that has it. -/
structure Diag where
  type : diag_type
  spans : List source_code_span
  declared_enum_kind : Option enum_kind := none
deriving DecidableEq, Repr, Inhabited

/-! ## Expressions -/

/-- The tags of expression nodes (`expression_kind`). -/
inductive expression_kind where
  | _class | _delete | _invalid | _missing | _new | _template | _typeof | array
  | arrow_function | assignment | await | binary_operator | call | compound_assignment
  | conditional | conditional_assignment | dot | function | import_ | index
  | jsx_element | jsx_element_with_members | jsx_element_with_namespace | jsx_fragment
  | literal | named_function | new_target | non_null_assertion | object | paren
  | paren_empty | private_variable | rw_unary_prefix_ | rw_unary_suffix | spread | super
  | tagged_template_literal | trailing_comma | type_annotated | unary_operator
  | variable | yield_many | yield_none | yield_one
deriving DecidableEq, Repr, Inhabited

/-- The enumeration `function_attributes`. -/
inductive function_attributes where
  | async | async_generator | generator | normal
deriving DecidableEq, Repr, Inhabited

/-- The fields of an expression node other than its sub-expressions: its span, the
identifier and token type of a `variable` node, the operator span of an assignment,
`await`, non-null assertion or trailing comma, the buffered visits of a type annotation
and the attributes of a function. -/
structure expression_fields where
  span : source_code_span := ⟨0, 0⟩
  variable_identifier : identifier := ⟨⟨0, 0⟩, ""⟩
  variable_identifier_token_type : token_type := .identifier
  operator_span : source_code_span := ⟨0, 0⟩
  type_annotation : List Event := []
  attributes : function_attributes := .normal
deriving DecidableEq, Repr, Inhabited

mutual
/-- An expression node: tag, fields, children and (for `object`) entries. -/
inductive expression where
  | mk (kind : expression_kind) (fields : expression_fields)
      (children : List expression) (object_entries : List object_property_value_pair)
/-- An entry of an object literal (`object_property_value_pair`). -/
inductive object_property_value_pair where
  | mk (property : Option expression) (value : expression) (init : Option expression)
end

/-- The method `expression::kind()`. -/
def expression.kind : expression → expression_kind
  | .mk k _ _ _ => k

/-- The method `expression::span()`. -/
def expression.span : expression → source_code_span
  | .mk _ f _ _ => f.span

/-- The fields of a node. -/
def expression.fields : expression → expression_fields
  | .mk _ f _ _ => f

/-- The method `expression::children()`. -/
def expression.children : expression → List expression
  | .mk _ _ cs _ => cs

/-- A node with no children, standing for a child that does not exist. -/
def expression.missing : expression := .mk ._missing {} [] []

/-- The method `expression::child_0()`. -/
def expression.child_0 (e : expression) : expression := e.children.headD expression.missing

/-- The method `expression::child_1()`. -/
def expression.child_1 (e : expression) : expression :=
  e.children.tail.headD expression.missing

/-- The call `make_expression<expression::variable>(ident, type)`. -/
def make_expression_variable (ident : identifier) (type : token_type) : expression :=
  .mk .variable { span := ident.span, variable_identifier := ident,
                  variable_identifier_token_type := type } [] []

/-- The call `make_expression<expression::function>(attributes, span)`. -/
def make_expression_function (attributes : function_attributes) (span : source_code_span) :
    expression :=
  .mk .function { span := span, attributes := attributes } [] []

/-- The call `make_expression<expression::import>(span)`. -/
def make_expression_import (span : source_code_span) : expression :=
  .mk .import_ { span := span } [] []

/-! ## The enum-value classifier -/

/-- The enumeration `enum_value_kind`. -/
inductive enum_value_kind where
  | constant | computed | unknown
deriving DecidableEq, Repr, Inhabited

mutual
/-- The function `parser::classify_enum_value_expression`. -/
def classify_enum_value_expression : expression → enum_value_kind
  | .mk kind _ children _ =>
    match kind with
    | .call => .computed
    | .literal => .constant
    | .binary_operator => classify_enum_value_expression.visit_children children .constant
    | .paren => classify_enum_value_expression.visit_children children .constant
    | _ => .unknown
/-- The lambda `visit_children` of `classify_enum_value_expression`: the loop over the
children not yet seen, with the current value of the local `kind`. -/
def classify_enum_value_expression.visit_children :
    List expression → enum_value_kind → enum_value_kind
  | [], kind => kind
  | child :: rest, kind =>
    match classify_enum_value_expression child with
    | .computed =>
      classify_enum_value_expression.visit_children rest
        (if kind ≠ .unknown then .computed else kind)
    | .unknown => classify_enum_value_expression.visit_children rest .unknown
    | .constant => classify_enum_value_expression.visit_children rest kind
end

/-- The order `constant < computed < unknown` of the spec, as a rank. -/
def enum_value_kind.rank : enum_value_kind → Nat
  | .constant => 0
  | .computed => 1
  | .unknown => 2

/-- The worse of two classifications under `constant < computed < unknown`. -/
def enum_value_kind.worst (a b : enum_value_kind) : enum_value_kind :=
  if a.rank ≤ b.rank then b else a

mutual
/-- The classifier as the spec words it: `literal` is constant, `call` is computed,
`binary_operator` and `paren` inherit the worst of their children, everything else is
unknown. -/
def spec_classify : expression → enum_value_kind
  | .mk kind _ children _ =>
    match kind with
    | .literal => .constant
    | .call => .computed
    | .binary_operator => spec_classify.worst_of children
    | .paren => spec_classify.worst_of children
    | _ => .unknown
/-- The worst classification among a list of children; `constant` for no children. -/
def spec_classify.worst_of : List expression → enum_value_kind
  | [] => .constant
  | child :: rest => (spec_classify child).worst (spec_classify.worst_of rest)
end

/-! ## Parser state and the parser monad -/

/-- The options fixed at parser construction. -/
structure parser_options where
  typescript : Bool := false
  jsx : Bool := false
deriving DecidableEq, Repr, Inhabited

/-- The state of one parser instance: the lexer cursor (`input`, `last_token_end`), the
diagnostics reported so far, the events delivered so far to the visitor of the running
call, the buffering-visitor stack, the context flags, the depth counter, the options, and
the number of lexer transactions begun and neither committed nor rolled back yet. -/
structure PState where
  input : List token
  last_token_end : Nat := 0
  diags : List Diag := []
  out : List Event := []
  buffering_visitor_stack : List (List Event) := []
  in_async_function : Bool := false
  in_generator_function : Bool := false
  in_loop_statement : Bool := false
  in_switch_statement : Bool := false
  depth : Nat := 0
  options : parser_options := {}
  open_transactions : Nat := 0
deriving DecidableEq, Repr, Inhabited

/-- Why a parse stopped before returning to its caller. -/
inductive stop_reason where
  | parser_unimplemented
  | depth_limit_exceeded
  | unimplemented
deriving DecidableEq, Repr, Inhabited

/-- The outcome of running a piece of the parser. -/
inductive Res (α : Type) where
  | ok (a : α) (s : PState)
  | stop (r : stop_reason) (s : PState)
  | out_of_fuel
deriving DecidableEq, Repr

/-- A piece of the parser: a function of the parser state. -/
def P (α : Type) : Type := PState → Res α

/-- Sequencing: a stop or exhausted fuel ends the run. -/
def P.bind {α β : Type} (m : P α) (f : α → P β) : P β := fun s =>
  match m s with
  | .ok a s1 => f a s1
  | .stop r s1 => .stop r s1
  | .out_of_fuel => .out_of_fuel

/-- Return a value without touching the state. -/
def P.pure {α : Type} (a : α) : P α := fun s => .ok a s

instance : Monad P where
  pure := P.pure
  bind := P.bind

/-- The embedding ran out of fuel. -/
def out_of_fuel {α : Type} : P α := fun _ => .out_of_fuel

/-- Modelled from the spec: the macro `QLJS_PARSER_UNIMPLEMENTED()` of `parse.h`, which
is not among the sources; the parser-unimplemented signal ends the parse. -/
def QLJS_PARSER_UNIMPLEMENTED {α : Type} : P α := fun s => .stop .parser_unimplemented s

/-- Modelled from the spec: the macro `QLJS_UNIMPLEMENTED()` of `unreachable.h`, which is
not among the sources; the program ends. -/
def QLJS_UNIMPLEMENTED {α : Type} : P α := fun s => .stop .unimplemented s

/-- Read the parser state. -/
def get_state : P PState := fun s => .ok s s

/-- Modelled from the spec: the end-of-file token the lexer yields once the input is
used up (`lex.h` is not among the sources). -/
def end_of_file_token (s : PState) : token :=
  { type := .end_of_file, begin_ := s.last_token_end, end_ := s.last_token_end,
    has_leading_newline := false, normalized_identifier := "" }

/-- The current token of a state. -/
def PState.peek (s : PState) : token := s.input.headD (end_of_file_token s)

/-- Modelled from the spec: `peek()`, the current token (`lex.h` is not among the
sources). -/
def peek : P token := fun s => .ok s.peek s

/-- The state after `skip()`. -/
def PState.skip (s : PState) : PState :=
  { s with input := s.input.tail, last_token_end := s.peek.end_ }

/-- Modelled from the spec: `skip()`, advance past the current token (`lex.h` is not
among the sources). -/
def skip : P Unit := fun s => .ok () s.skip

/-- The state after `lexer_.insert_semicolon()`. -/
def PState.insert_semicolon (s : PState) : PState :=
  { s with input :=
      { type := .semicolon, begin_ := s.last_token_end, end_ := s.last_token_end,
        has_leading_newline := false, normalized_identifier := "" } :: s.input }

/-- Modelled from the spec: `lexer_.insert_semicolon()`, push back a synthetic `;` at the
current position (`lex.h` is not among the sources). -/
def insert_semicolon : P Unit := fun s => .ok () s.insert_semicolon

/-- Modelled from the spec: `lexer_.end_of_previous_token()` (`lex.h` is not among the
sources). -/
def end_of_previous_token : P Nat := fun s => .ok s.last_token_end s

/-- A lexer transaction: the cursor to return to. -/
structure lexer_transaction where
  input : List token
  last_token_end : Nat
deriving DecidableEq, Repr, Inhabited

/-- Modelled from the spec: `lexer_.begin_transaction()` (`lex.h` is not among the
sources): a snapshot of the cursor; one more transaction is open. -/
def begin_transaction : P lexer_transaction := fun s =>
  .ok ⟨s.input, s.last_token_end⟩ { s with open_transactions := s.open_transactions + 1 }

/-- Modelled from the spec: `lexer_.commit_transaction(t)`; the tokens stay consumed, and
the transaction is no longer open. -/
def commit_transaction (_t : lexer_transaction) : P Unit := fun s =>
  .ok () { s with open_transactions := s.open_transactions - 1 }

/-- Modelled from the spec: `lexer_.roll_back_transaction(t)`; the tokens reappear at the
cursor, and the transaction is no longer open. -/
def roll_back_transaction (t : lexer_transaction) : P Unit := fun s =>
  .ok () { s with input := t.input, last_token_end := t.last_token_end,
                  open_transactions := s.open_transactions - 1 }

/-- The call `diag_reporter_->report(d)`. -/
def report (type : diag_type) (spans : List source_code_span) : P Unit := fun s =>
  .ok () { s with diags := s.diags ++ [{ type := type, spans := spans }] }

/-- The call `diag_reporter_->report(d)` for the diagnostic with an `enum_kind` field. -/
def report_with_enum_kind (type : diag_type) (spans : List source_code_span)
    (kind : enum_kind) : P Unit := fun s =>
  .ok () { s with diags := s.diags ++
    [{ type := type, spans := spans, declared_enum_kind := some kind }] }

/-- Deliver one event to the visitor `v` of the running call. -/
def visit (e : Event) : P Unit := fun s => .ok () { s with out := s.out ++ [e] }

/-- Deliver a list of events, in order, to the visitor `v` of the running call. -/
def visit_all (es : List Event) : P Unit := fun s => .ok () { s with out := s.out ++ es }

/-- Run `m` with another visitor in the place of `v`: the events `m` delivers are
returned instead of being delivered to `v`.  If `m` stops, the parse stops with what `v`
had received. -/
def capture {α : Type} (m : P α) : P (α × List Event) := fun s =>
  match m { s with out := [] } with
  | .ok a s1 => .ok (a, s1.out) { s1 with out := s.out }
  | .stop r s1 => .stop r { s1 with out := s.out }
  | .out_of_fuel => .out_of_fuel

/-- Run `m` with `null_visitor::instance` in the place of `v`. -/
def with_null_visitor {α : Type} (m : P α) : P α := do
  let r ← capture m
  pure r.1

/-- The call `buffering_visitor_stack_.emplace(...)`: a new, empty buffering visitor. -/
def buffering_visitor_stack_emplace : P Unit := fun s =>
  .ok () { s with buffering_visitor_stack := [] :: s.buffering_visitor_stack }

/-- The call `buffering_visitor_stack_.pop()`. -/
def buffering_visitor_stack_pop : P Unit := fun s =>
  .ok () { s with buffering_visitor_stack := s.buffering_visitor_stack.tail }

/-- Run `m` with the buffering visitor on top of the stack in the place of `v`. -/
def with_top_buffering_visitor {α : Type} (m : P α) : P α := do
  let r ← capture m
  fun s => .ok r.1 { s with buffering_visitor_stack :=
    (s.buffering_visitor_stack.headD [] ++ r.2) :: s.buffering_visitor_stack.tail }

/-- The call `b.move_into(v)` for the buffering visitor `b` on top of the stack: its
recorded events are replayed, in order, into `v`. -/
def top_buffering_visitor_move_into_v : P Unit := fun s =>
  .ok () { s with out := s.out ++ s.buffering_visitor_stack.headD [] }

/-- The events `visit_enter_*_scope` and `visit_exit_*_scope` of the source. -/
def visit_enter_block_scope : P Unit := visit (.visit_enter_scope .block)
/-- See `visit_enter_block_scope`. -/
def visit_exit_block_scope : P Unit := visit (.visit_exit_scope .block)
/-- See `visit_enter_block_scope`. -/
def visit_enter_function_scope : P Unit := visit (.visit_enter_scope .function)
/-- See `visit_enter_block_scope`. -/
def visit_exit_function_scope : P Unit := visit (.visit_exit_scope .function)
/-- See `visit_enter_block_scope`. -/
def visit_enter_function_scope_body : P Unit := visit .visit_enter_function_scope_body
/-- See `visit_enter_block_scope`. -/
def visit_enter_for_scope : P Unit := visit (.visit_enter_scope .for_)
/-- See `visit_enter_block_scope`. -/
def visit_exit_for_scope : P Unit := visit (.visit_exit_scope .for_)
/-- See `visit_enter_block_scope`. -/
def visit_enter_enum_scope : P Unit := visit (.visit_enter_scope .enum)
/-- See `visit_enter_block_scope`. -/
def visit_exit_enum_scope : P Unit := visit (.visit_exit_scope .enum)
/-- See `visit_enter_block_scope`. -/
def visit_enter_type_alias_scope : P Unit := visit (.visit_enter_scope .type_alias)
/-- See `visit_enter_block_scope`. -/
def visit_exit_type_alias_scope : P Unit := visit (.visit_exit_scope .type_alias)
/-- See `visit_enter_block_scope`. -/
def visit_enter_with_scope : P Unit := visit (.visit_enter_scope .with_)
/-- See `visit_enter_block_scope`. -/
def visit_exit_with_scope : P Unit := visit (.visit_exit_scope .with_)
/-- The event `visit_end_of_module`. -/
def visit_end_of_module : P Unit := visit .visit_end_of_module
/-- The event `visit_variable_declaration`. -/
def visit_variable_declaration (name : identifier) (kind : variable_kind)
    (init_kind : variable_init_kind) : P Unit :=
  visit (.visit_variable_declaration name kind init_kind)
/-- The event `visit_variable_use`. -/
def visit_variable_use (name : identifier) : P Unit := visit (.visit_variable_use name)
/-- The event `visit_variable_export_use`. -/
def visit_variable_export_use (name : identifier) : P Unit :=
  visit (.visit_variable_export_use name)

/-- The macro `QLJS_PARSER_UNIMPLEMENTED_IF_NOT_TOKEN(t)`. -/
def QLJS_PARSER_UNIMPLEMENTED_IF_NOT_TOKEN (t : token_type) : P Unit := do
  let tok ← peek
  if tok.type ≠ t then QLJS_PARSER_UNIMPLEMENTED else pure ()

/-! ## Code of the repository outside `parse-statement.cpp` -/

/-- The enumeration `parse_statement_type`. -/
inductive parse_statement_type where
  | any_statement | any_statement_in_block | no_declarations
deriving DecidableEq, Repr, Inhabited

/-- The enumeration `name_requirement`. -/
inductive name_requirement where
  | optional | required_for_export | required_for_statement
deriving DecidableEq, Repr, Inhabited

/-- The enumeration `variable_context`. -/
inductive variable_context where
  | lhs | rhs
deriving DecidableEq, Repr, Inhabited

/-- The enumeration `statement_kind`. -/
inductive statement_kind where
  | do_while_loop | for_loop | if_statement | while_loop | with_statement
deriving DecidableEq, Repr, Inhabited

/-- The record `precedence` handed to the expression parser. -/
structure precedence where
  commas : Bool := true
  in_operator : Bool := true
  trailing_curly_is_arrow_body : Bool := true
deriving DecidableEq, Repr, Inhabited

/-- The parts of the parser that `parse-statement.cpp` calls and that are defined in
other files of the repository.  Each is an arbitrary piece of the parser; what a theorem
needs of one it states as a hypothesis. -/
structure Externals where
  /-- The constant `parser::stack_limit`. -/
  stack_limit : Nat
  /-- The default argument of `parse_and_visit_statement`. -/
  default_statement_type : parse_statement_type
  /-- The call `parse_expression(v, prec)`. -/
  parse_expression : precedence → P expression
  /-- The call `parse_expression_remainder(v, ast, prec)`. -/
  parse_expression_remainder : expression → precedence → P expression
  /-- The call `parse_async_expression(v, async_token, prec)`. -/
  parse_async_expression : token → precedence → P expression
  /-- The call `parse_await_expression(v, await_token, prec)`. -/
  parse_await_expression : token → precedence → P expression
  /-- The call `visit_expression(ast, v, context)`. -/
  visit_expression : expression → variable_context → P Unit
  /-- The call `visit_assignment_expression(lhs, rhs, v)`. -/
  visit_assignment_expression : expression → expression → P Unit
  /-- The call `maybe_visit_assignment(ast, v)`. -/
  maybe_visit_assignment : expression → P Unit
  /-- The call `parse_and_visit_class(v, require_name)`. -/
  parse_and_visit_class : name_requirement → P Unit
  /-- The call `parse_and_visit_typescript_interface(v)`. -/
  parse_and_visit_typescript_interface : P Unit
  /-- The call `parse_and_visit_typescript_type_expression(v)`. -/
  parse_and_visit_typescript_type_expression : P Unit
  /-- The call `parse_and_visit_typescript_colon_type_expression(v)`. -/
  parse_and_visit_typescript_colon_type_expression : P Unit
  /-- The call `parse_and_visit_parenthesized_expression<D1, D2, Check>(v)`. -/
  parse_and_visit_parenthesized_expression : diag_type → diag_type → Bool → P Unit
  /-- The call `is_let_token_a_variable_reference(following_token, allow_declarations)`. -/
  is_let_token_a_variable_reference : token → Bool → P Bool
  /-- The call `try_parse_function_with_leading_star()`. -/
  try_parse_function_with_leading_star : P (Option function_attributes)
  /-- The call `parse_generator_star(attributes)`. -/
  parse_generator_star : function_attributes → P function_attributes
  /-- What `enter_function(attributes)` does to the state when the guard is made. -/
  enter_function : function_attributes → P Unit
  /-- The call `error_on_class_statement(kind)`. -/
  error_on_class_statement : statement_kind → P Unit
  /-- The call `error_on_function_statement(kind)`. -/
  error_on_function_statement : statement_kind → P Unit
  /-- The call `error_on_lexical_declaration(kind)`. -/
  error_on_lexical_declaration : statement_kind → P Unit
  /-- The call `error_on_sketchy_condition(ast)`. -/
  error_on_sketchy_condition : expression → P Unit
  /-- The call `is_maybe_function_statement()`. -/
  is_maybe_function_statement : P Bool
  /-- The call `token.report_errors_for_escape_sequences_in_keyword(reporter)`. -/
  report_errors_for_escape_sequences_in_keyword : token → P Unit

/-! ## Helpers of the parser defined outside `parse-statement.cpp` -/

/-- Modelled from the spec: `consume_semicolon_after_statement` (`parse.cpp` is not among
the sources) accepts `;`, a preceding line terminator, a following right curly or
end-of-file; else it reports `diag_missing_semicolon_after_statement`.  An accepted or
missing terminator other than a real `;`, a right curly or end-of-file is a synthetic
`;` that is inserted and consumed. -/
def consume_semicolon_after_statement : P Unit := do
  let t ← peek
  if t.type == .semicolon then
    skip
  else if t.type == .end_of_file || t.type == .right_curly then
    pure ()
  else if t.has_leading_newline then
    insert_semicolon
    skip
  else
    insert_semicolon
    let semi ← peek
    report .diag_missing_semicolon_after_statement [semi.span]
    skip

/-- Modelled from the spec: `parse_and_visit_expression(v, prec)` (`parse.h` is not among
the sources) parses an expression and walks it as a right-hand side. -/
def parse_and_visit_expression (X : Externals) (prec : precedence) : P Unit := do
  let ast ← X.parse_expression prec
  X.visit_expression ast .rhs

/-- Modelled from the spec: the constructor of `depth_guard` (`parse.h` is not among the
sources); exceeding the configured limit emits `depth_limit_exceeded` and ends the
parse. -/
def depth_guard_enter (X : Externals) : P Unit := fun s =>
  if s.depth + 1 > X.stack_limit then
    .stop .depth_limit_exceeded
      { s with diags := s.diags ++ [{ type := .diag_depth_limit_exceeded, spans := [s.peek.span] }] }
  else
    .ok () { s with depth := s.depth + 1 }

/-- Modelled from the spec: the destructor of `depth_guard`. -/
def depth_guard_exit : P Unit := fun s => .ok () { s with depth := s.depth - 1 }

/-- Put back the four context flags of an earlier state. -/
def restore_flags (s0 : PState) : P Unit := fun s =>
  .ok () { s with in_async_function := s0.in_async_function,
                  in_generator_function := s0.in_generator_function,
                  in_loop_statement := s0.in_loop_statement,
                  in_switch_statement := s0.in_switch_statement }

/-- Modelled from the spec: `function_guard guard = this->enter_function(attributes)`
around `body` (`parse.h` is not among the sources); the context flags are saved and
restored as a scoped guard. -/
def with_function_guard {α : Type} (X : Externals) (attributes : function_attributes)
    (body : P α) : P α := do
  let s0 ← get_state
  X.enter_function attributes
  let r ← body
  restore_flags s0
  pure r

/-- Modelled from the spec: `loop_guard guard = this->enter_loop()` around `body`
(`parse.h` is not among the sources); `in_loop_statement` is set, and restored on exit. -/
def with_loop_guard {α : Type} (body : P α) : P α := do
  let s0 ← get_state
  (fun s => .ok () { s with in_loop_statement := true })
  let r ← body
  (fun s => .ok () { s with in_loop_statement := s0.in_loop_statement })
  pure r

/-- The guard `switch_guard s(this, std::exchange(this->in_switch_statement_, true))`
around `body`. -/
def with_switch_guard {α : Type} (body : P α) : P α := do
  let s0 ← get_state
  (fun s => .ok () { s with in_switch_statement := true })
  let r ← body
  (fun s => .ok () { s with in_switch_statement := s0.in_switch_statement })
  pure r

/-- Set `in_generator_function_ = true`. -/
def set_in_generator_function : P Unit := fun s =>
  .ok () { s with in_generator_function := true }

/-- Modelled from the spec: `try_parse(parse_func, catch_func)` (`parse.h` is not among
the sources): a transaction around `parse_func`; if it returns false the tokens it
consumed reappear at the cursor, the diagnostics it reported are dropped, and
`catch_func` runs. -/
def try_parse (parse_func : P Bool) (catch_func : P Unit) : P Unit := do
  let s0 ← get_state
  let ok ← parse_func
  if ok then
    pure ()
  else
    (fun s => .ok () { s with input := s0.input, last_token_end := s0.last_token_end,
                              diags := s0.diags })
    catch_func

/-! ## `parse-statement.cpp` -/

/-- The loop `while (peek().type == comma) { f(peek().span()); skip(); }`. -/
def skip_commas (f : source_code_span → P Unit) : Nat → P Unit
  | 0 => out_of_fuel
  | fuel + 1 => do
    let t ← peek
    if t.type == .comma then
      f t.span
      skip
      skip_commas f fuel
    else
      pure ()

/-- The first loop of `parse_and_visit_typescript_generic_parameters`: the spans of the
leading commas. -/
def parse_and_visit_typescript_generic_parameters.leading_commas :
    Nat → List source_code_span → P (List source_code_span)
  | 0, _ => out_of_fuel
  | fuel + 1, acc => do
    let t ← peek
    if t.type == .comma then
      skip
      parse_and_visit_typescript_generic_parameters.leading_commas fuel (acc ++ [t.span])
    else
      pure acc

/-- Report one diagnostic per span of a list. -/
def report_each (type : diag_type) : List source_code_span → P Unit
  | [] => pure ()
  | sp :: rest => do
    report type [sp]
    report_each type rest

/-- The case labels of the first `switch` at `next_parameter`. -/
def parse_and_visit_typescript_generic_parameters.is_parameter_name : token_type → Bool
  | .identifier | .kw_abstract | .kw_as | .kw_assert | .kw_asserts | .kw_async
  | .kw_await | .kw_constructor | .kw_declare | .kw_from | .kw_get | .kw_global
  | .kw_infer | .kw_intrinsic | .kw_is | .kw_keyof | .kw_module | .kw_namespace
  | .kw_of | .kw_out | .kw_override | .kw_readonly | .kw_require | .kw_set | .kw_type
  | .kw_undefined | .kw_unique => true
  | _ => false

/-- The part of `parse_and_visit_typescript_generic_parameters` from the label
`next_parameter` on. -/
def parse_and_visit_typescript_generic_parameters.next_parameter (X : Externals) :
    Nat → P Unit
  | 0 => out_of_fuel
  | fuel + 1 => do
    let t ← peek
    if parse_and_visit_typescript_generic_parameters.is_parameter_name t.type then
      visit_variable_declaration t.identifier_name ._generic_parameter .normal
      skip
    else
      QLJS_PARSER_UNIMPLEMENTED
    let t ← peek
    if t.type == .kw_extends then
      skip
      X.parse_and_visit_typescript_type_expression
    let t ← peek
    if t.type == .greater then
      skip
    else if t.type == .comma then
      skip
      skip_commas (fun sp => report .diag_multiple_commas_in_generic_parameter_list [sp]) fuel
      let t ← peek
      if t.type != .greater then
        parse_and_visit_typescript_generic_parameters.next_parameter X fuel
      else
        skip
    else if t.type == .identifier then
      let here ← end_of_previous_token
      report .diag_missing_comma_between_generic_parameters [⟨here, here⟩]
      parse_and_visit_typescript_generic_parameters.next_parameter X fuel
    else
      QLJS_PARSER_UNIMPLEMENTED

/-- The function `parser::parse_and_visit_typescript_generic_parameters`. -/
def parse_and_visit_typescript_generic_parameters (X : Externals) (fuel : Nat) : P Unit := do
  let less ← peek
  let less_end := less.end_
  skip
  let leading_commas ← parse_and_visit_typescript_generic_parameters.leading_commas fuel []
  let t ← peek
  if t.type == .greater then
    report .diag_typescript_generic_parameter_list_is_empty [⟨less_end, less_end⟩]
    report_each .diag_multiple_commas_in_generic_parameter_list leading_commas.tail
    skip
  else
    report_each .diag_comma_not_allowed_before_first_generic_parameter leading_commas
    parse_and_visit_typescript_generic_parameters.next_parameter X fuel

/-- The function `parser::parse_and_visit_typescript_type_alias`. -/
def parse_and_visit_typescript_type_alias (X : Externals) (fuel : Nat)
    (type_token : source_code_span) : P Unit := do
  let s ← get_state
  if !s.options.typescript then
    report .diag_typescript_type_alias_not_allowed_in_javascript [type_token]
  let name ← peek
  visit_variable_declaration name.identifier_name ._type_alias .normal
  skip
  visit_enter_type_alias_scope
  let t ← peek
  if t.type == .less then
    parse_and_visit_typescript_generic_parameters X fuel
  QLJS_PARSER_UNIMPLEMENTED_IF_NOT_TOKEN .equal
  skip
  X.parse_and_visit_typescript_type_expression
  visit_exit_type_alias_scope
  consume_semicolon_after_statement

/-- The locals `last_enum_value_kind` and `last_enum_value` of
`parse_and_visit_typescript_enum_members`. -/
structure enum_members_locals where
  last_enum_value_kind : Option enum_value_kind := none
  last_enum_value : Option source_code_span := none
deriving DecidableEq, Repr, Inhabited

/-- The lambda `auto_member` of `parse_and_visit_typescript_enum_members`. -/
def parse_and_visit_typescript_enum_members.auto_member (kind : enum_kind)
    (l : enum_members_locals) (member_name : source_code_span) : P enum_members_locals := do
  if kind == .normal && l.last_enum_value_kind == some .computed then
    report .diag_typescript_enum_auto_member_needs_initializer_after_computed
      [member_name, l.last_enum_value.getD ⟨0, 0⟩]
  pure { l with last_enum_value_kind := none }

/-- The lambda `parse_after_member_name` of `parse_and_visit_typescript_enum_members`. -/
def parse_and_visit_typescript_enum_members.parse_after_member_name (X : Externals)
    (kind : enum_kind) (l : enum_members_locals) (name : source_code_span) :
    P enum_members_locals := do
  let t ← peek
  if t.type == .comma then
    let l1 ← parse_and_visit_typescript_enum_members.auto_member kind l name
    skip
    pure l1
  else if t.type == .right_curly then
    parse_and_visit_typescript_enum_members.auto_member kind l name
  else if t.type == .equal then
    skip
    let ast ← X.parse_expression { commas := false }
    X.visit_expression ast .rhs
    let ast_span := ast.span
    let value_kind := classify_enum_value_expression ast
    if kind == .declare_const_enum || kind == .const_enum || kind == .declare_enum then
      if value_kind == .computed then
        report_with_enum_kind .diag_typescript_enum_value_must_be_constant [ast_span] kind
    let t ← peek
    if t.type == .comma then
      skip
    pure { last_enum_value_kind := some value_kind, last_enum_value := some ast_span }
  else
    QLJS_PARSER_UNIMPLEMENTED

/-- The function `parser::parse_and_visit_typescript_enum_members`, from the label
`next_member` on, with the current values of its locals. -/
def parse_and_visit_typescript_enum_members.next_member (X : Externals) (kind : enum_kind) :
    Nat → enum_members_locals → P Unit
  | 0, _ => out_of_fuel
  | fuel + 1, l => do
    let t ← peek
    if is_keyword t.type || t.type == .identifier || t.type == .string then
      let member_name := t.span
      skip
      let l1 ← parse_and_visit_typescript_enum_members.parse_after_member_name X kind l
        member_name
      parse_and_visit_typescript_enum_members.next_member X kind fuel l1
    else if t.type == .left_square then
      let name_begin := t.begin_
      skip
      let ast ← X.parse_expression {}
      if ast.kind != .literal then
        report .diag_typescript_enum_computed_name_must_be_simple [ast.span]
      X.visit_expression ast .rhs
      QLJS_PARSER_UNIMPLEMENTED_IF_NOT_TOKEN .right_square
      let close ← peek
      let name_end := close.end_
      skip
      let l1 ← parse_and_visit_typescript_enum_members.parse_after_member_name X kind l
        ⟨name_begin, name_end⟩
      parse_and_visit_typescript_enum_members.next_member X kind fuel l1
    else if t.type == .number then
      let member_name := t.span
      report .diag_typescript_enum_member_name_cannot_be_number [member_name]
      skip
      let l1 ← parse_and_visit_typescript_enum_members.parse_after_member_name X kind l
        member_name
      parse_and_visit_typescript_enum_members.next_member X kind fuel l1
    else if t.type == .right_curly then
      pure ()
    else if t.type == .comma then
      report .diag_extra_comma_not_allowed_between_enum_members [t.span]
      skip
      parse_and_visit_typescript_enum_members.next_member X kind fuel l
    else
      QLJS_PARSER_UNIMPLEMENTED

/-- The function `parser::parse_and_visit_typescript_enum_members`. -/
def parse_and_visit_typescript_enum_members (X : Externals) (fuel : Nat) (kind : enum_kind) :
    P Unit :=
  parse_and_visit_typescript_enum_members.next_member X kind fuel {}

/-- The case labels of the `switch` on the enum name that fall to `break`. -/
def parse_and_visit_typescript_enum.is_enum_name : token_type → Bool
  | .kw_abstract | .kw_as | .kw_assert | .kw_asserts | .kw_async | .kw_constructor
  | .kw_declare | .kw_from | .kw_get | .kw_global | .kw_infer | .kw_intrinsic | .kw_is
  | .kw_keyof | .kw_module | .kw_namespace | .kw_of | .kw_out | .kw_override
  | .kw_readonly | .kw_require | .kw_set | .kw_type | .kw_unique | .identifier => true
  | _ => false

/-- The function `parser::parse_and_visit_typescript_enum`. -/
def parse_and_visit_typescript_enum (X : Externals) (fuel : Nat) (kind : enum_kind) :
    P Unit := do
  let s ← get_state
  let enum_keyword ← peek
  if !s.options.typescript then
    report .diag_typescript_enum_is_not_allowed_in_javascript [enum_keyword.span]
  skip
  let t ← peek
  if parse_and_visit_typescript_enum.is_enum_name t.type then
    pure ()
  else if t.type == .kw_await then
    if s.in_async_function then
      report .diag_cannot_declare_await_in_async_function [t.identifier_name.span]
  else
    QLJS_PARSER_UNIMPLEMENTED
  visit_variable_declaration t.identifier_name ._enum .normal
  skip
  visit_enter_enum_scope
  QLJS_PARSER_UNIMPLEMENTED_IF_NOT_TOKEN .left_curly
  skip
  parse_and_visit_typescript_enum_members X fuel kind
  QLJS_PARSER_UNIMPLEMENTED_IF_NOT_TOKEN .right_curly
  skip
  visit_exit_enum_scope

/-- Whether `declaration_kind` is one of `_const`, `_let`, `_var`. -/
def variable_kind.is_const_let_var : variable_kind → Bool
  | ._const | ._let | ._var => true
  | _ => false

/-- Modelled from the spec: `paren_empty::report_missing_expression_error` (`expression.h`
is not among the sources): the diagnostic for `()`, with the span of the parentheses, of
the left and of the right parenthesis. -/
def report_missing_expression_error (span : source_code_span) : P Unit :=
  report .diag_missing_expression_between_parentheses
    [span, ⟨span.begin_, span.begin_ + 1⟩, ⟨span.end_ - 1, span.end_⟩]

mutual
/-- The function `parser::visit_binding_element`.  A child that a node of the given kind
always has, when it is absent from the list of children, is not visited. -/
def visit_binding_element (X : Externals) : expression → variable_kind →
    Option source_code_span → variable_init_kind → P Unit
  | .mk kind f children object_entries, declaration_kind, declaring_token, init_kind =>
    match kind with
    | .array =>
      visit_binding_element_children X children declaration_kind declaring_token init_kind
    | .compound_assignment => do
      match declaring_token with
      | some declaring =>
        report .diag_cannot_update_variable_during_declaration [declaring, f.operator_span]
      | none =>
        report .diag_invalid_parameter [f.span]
      X.visit_expression (children.tail.headD expression.missing) .rhs
      let lhs_init_kind : variable_init_kind :=
        if declaration_kind.is_const_let_var then .initialized_with_equals else .normal
      match children with
      | child_0 :: _ => visit_binding_element X child_0 declaration_kind declaring_token lhs_init_kind
      | [] => pure ()
    | .assignment => do
      X.visit_expression (children.tail.headD expression.missing) .rhs
      let lhs_init_kind : variable_init_kind :=
        if declaration_kind.is_const_let_var then .initialized_with_equals else .normal
      match children with
      | child_0 :: _ => visit_binding_element X child_0 declaration_kind declaring_token lhs_init_kind
      | [] => pure ()
    | .variable => do
      let ident := f.variable_identifier
      if (declaration_kind == ._const || declaration_kind == ._import
            || declaration_kind == ._let)
          && f.variable_identifier_token_type == .kw_let then
        report .diag_cannot_declare_variable_named_let_with_let [ident.span]
      visit_variable_declaration ident declaration_kind init_kind
    | .object =>
      visit_binding_element_entries X object_entries declaration_kind declaring_token init_kind
    | .spread =>
      match children with
      | child_0 :: _ => visit_binding_element X child_0 declaration_kind declaring_token init_kind
      | [] => pure ()
    | .await => do
      let ident : identifier := ⟨f.operator_span, "await"⟩
      visit_variable_declaration ident declaration_kind init_kind
      report .diag_cannot_declare_await_in_async_function [ident.span]
    | .yield_none => do
      let ident : identifier := ⟨f.span, "yield"⟩
      visit_variable_declaration ident declaration_kind init_kind
      report .diag_cannot_declare_yield_in_generator_function [ident.span]
    | ._class | ._delete | ._new | ._template | ._typeof | .arrow_function
    | .binary_operator | .conditional | .conditional_assignment | .dot | .function
    | .import_ | .index | .jsx_element | .jsx_element_with_members
    | .jsx_element_with_namespace | .jsx_fragment | .named_function | .new_target
    | .rw_unary_prefix_ | .rw_unary_suffix | .super | .tagged_template_literal
    | .unary_operator | .yield_many | .yield_one =>
      report .diag_invalid_parameter [f.span]
    | .non_null_assertion => do
      report .diag_non_null_assertion_not_allowed_in_parameter [f.operator_span]
      match children with
      | child_0 :: _ => visit_binding_element X child_0 declaration_kind declaring_token init_kind
      | [] => pure ()
    | .trailing_comma => do
      report .diag_stray_comma_in_parameter [f.operator_span]
      match children with
      | child_0 :: _ => visit_binding_element X child_0 declaration_kind declaring_token init_kind
      | [] => pure ()
    | ._invalid | ._missing | .private_variable => pure ()
    | .call => report .diag_invalid_parameter [f.span]
    | .paren =>
      match children with
      | child_0 :: _ => visit_binding_element X child_0 declaration_kind declaring_token init_kind
      | [] => pure ()
    | .paren_empty => report_missing_expression_error f.span
    | .literal => report .diag_unexpected_literal_in_parameter_list [f.span]
    | .type_annotated => do
      visit_all f.type_annotation
      match children with
      | child_0 :: _ => visit_binding_element X child_0 declaration_kind declaring_token init_kind
      | [] => pure ()
/-- The loop `for (expression *item : ast->children())` of `visit_binding_element`. -/
def visit_binding_element_children (X : Externals) : List expression → variable_kind →
    Option source_code_span → variable_init_kind → P Unit
  | [], _, _, _ => pure ()
  | item :: rest, declaration_kind, declaring_token, init_kind => do
    visit_binding_element X item declaration_kind declaring_token init_kind
    visit_binding_element_children X rest declaration_kind declaring_token init_kind
/-- The loop over the entries of an object literal of `visit_binding_element`. -/
def visit_binding_element_entries (X : Externals) : List object_property_value_pair →
    variable_kind → Option source_code_span → variable_init_kind → P Unit
  | [], _, _, _ => pure ()
  | .mk _ value init :: rest, declaration_kind, declaring_token, init_kind => do
    match init with
    | some init_expression => X.visit_expression init_expression .rhs
    | none => pure ()
    visit_binding_element X value declaration_kind declaring_token init_kind
    visit_binding_element_entries X rest declaration_kind declaring_token init_kind
end

/-- Replace `children_[1]` of a node. -/
def expression.set_child_1 : expression → expression → expression
  | .mk k f (c0 :: _ :: rest) es, c1 => .mk k f (c0 :: c1 :: rest) es
  | e, _ => e

/-- The case labels of the `switch` of `parse_and_visit_let_bindings` that reach the
label `variable_name` without a diagnostic. -/
def parse_and_visit_let_bindings.is_variable_name (t : token_type) : Bool :=
  is_strict_only_reserved_keyword t || is_typescript_only_contextual_keyword t
    || t == .identifier || t == .kw_as || t == .kw_async || t == .kw_from || t == .kw_get
    || t == .kw_let || t == .kw_of || t == .kw_set || t == .kw_static

/-- The case labels `kw_await`, `kw_class`, ... of the `switch` after the variable name. -/
def parse_and_visit_let_bindings.is_expression_keyword_after_name : token_type → Bool
  | .kw_await | .kw_class | .kw_function | .kw_new | .kw_null | .kw_this
  | .kw_typeof => true
  | _ => false

/-- The case labels of the `switch` of `parse_and_visit_let_bindings` that lead to
`QLJS_PARSER_UNIMPLEMENTED()`. -/
def parse_and_visit_let_bindings.is_unimplemented_start (t : token_type) : Bool :=
  is_compound_assignment_operator t || t == .comma || t == .dot || t == .equal_greater
    || t == .left_paren || t == .minus || t == .plus || t == .question || t == .slash

/-- The code of `parse_and_visit_let_bindings` at the label `variable_name`.  The result
is false where the source returns from the function, true where it goes on to the next
binding. -/
def parse_and_visit_let_bindings.variable_name (X : Externals) (declaring_token : token)
    (declaration_kind : variable_kind) (allow_in_operator : Bool)
    (allow_const_without_initializer : Bool) (is_in_for_initializer : Bool) : P Bool := do
  let name ← peek
  let variable_ast := make_expression_variable name.identifier_name name.type
  skip
  let t ← peek
  if t.type == .colon then
    X.parse_and_visit_typescript_colon_type_expression
  let t ← peek
  if is_compound_assignment_operator t.type || t.type == .equal then
    let equal_token := t
    let assignment_ast ← X.parse_expression_remainder variable_ast
      { commas := false, in_operator := allow_in_operator }
    let t ← peek
    if is_in_for_initializer && t.type == .kw_in then
      let in_token_span := t.span
      let s0 ← get_state
      let in_ast ← X.parse_expression_remainder assignment_ast.child_1 { commas := false }
      let t ← peek
      if t.type != .semicolon then
        (fun s => .ok () { s with input := s0.input, last_token_end := s0.last_token_end,
                                  diags := s0.diags })
        if declaration_kind == ._var then
          pure ()
        else
          report .diag_cannot_assign_to_loop_variable_in_for_of_or_in_loop [equal_token.span]
        visit_binding_element X assignment_ast declaration_kind (some declaring_token.span)
          .initialized_with_equals
      else
        report .diag_in_disallowed_in_c_style_for_loop [in_token_span]
        visit_binding_element X (assignment_ast.set_child_1 in_ast) declaration_kind
          (some declaring_token.span) .initialized_with_equals
    else
      if is_in_for_initializer && t.type == .kw_of then
        report .diag_cannot_assign_to_loop_variable_in_for_of_or_in_loop [equal_token.span]
      visit_binding_element X assignment_ast declaration_kind (some declaring_token.span)
        .initialized_with_equals
    pure true
  else if parse_and_visit_let_bindings.is_expression_keyword_after_name t.type then
    if t.has_leading_newline then
      visit_binding_element X variable_ast declaration_kind (some declaring_token.span) .normal
      insert_semicolon
      pure false
    else
      let here ← end_of_previous_token
      report .diag_missing_equal_after_variable [⟨here, here⟩]
      parse_and_visit_expression X { commas := false, in_operator := allow_in_operator }
      visit_binding_element X variable_ast declaration_kind (some declaring_token.span) .normal
      pure true
  else
    if declaration_kind == ._const && !allow_const_without_initializer then
      report .diag_missing_initializer_in_const_declaration [variable_ast.span]
    visit_binding_element X variable_ast declaration_kind (some declaring_token.span) .normal
    pure true

/-- The second `switch` of the loop of `parse_and_visit_let_bindings`: one binding.  The
result is false where the source returns from the function. -/
def parse_and_visit_let_bindings.binding (X : Externals) (declaring_token : token)
    (declaration_kind : variable_kind) (allow_in_operator : Bool)
    (allow_const_without_initializer : Bool) (is_in_for_initializer : Bool)
    (first_binding : Bool) (comma_span : Option source_code_span) : P Bool := do
  let let_span := declaring_token.span
  let s ← get_state
  let t ← peek
  if t.type == .kw_await then
    if s.in_async_function then
      report .diag_cannot_declare_await_in_async_function [t.identifier_name.span]
    parse_and_visit_let_bindings.variable_name X declaring_token declaration_kind
      allow_in_operator allow_const_without_initializer is_in_for_initializer
  else if t.type == .kw_yield then
    if s.in_generator_function then
      report .diag_cannot_declare_yield_in_generator_function [t.identifier_name.span]
    parse_and_visit_let_bindings.variable_name X declaring_token declaration_kind
      allow_in_operator allow_const_without_initializer is_in_for_initializer
  else if parse_and_visit_let_bindings.is_variable_name t.type then
    parse_and_visit_let_bindings.variable_name X declaring_token declaration_kind
      allow_in_operator allow_const_without_initializer is_in_for_initializer
  else if t.type == .reserved_keyword_with_escape_sequence then
    X.report_errors_for_escape_sequences_in_keyword t
    parse_and_visit_let_bindings.variable_name X declaring_token declaration_kind
      allow_in_operator allow_const_without_initializer is_in_for_initializer
  else if t.type == .left_curly || t.type == .left_square then
    let ast ← X.parse_expression { commas := false, in_operator := allow_in_operator }
    visit_binding_element X ast declaration_kind (some declaring_token.span) .normal
    pure true
  else if is_reserved_keyword_except_await_and_yield t.type then
    let keyword_span := t.span
    let transaction ← begin_transaction
    skip
    let t ← peek
    if t.type == .end_of_file || t.type == .equal || t.type == .semicolon then
      commit_transaction transaction
      report .diag_cannot_declare_variable_with_keyword_name [keyword_span]
      skip
      parse_and_visit_expression X { commas := false, in_operator := allow_in_operator }
    else
      roll_back_transaction transaction
      let t ← peek
      if t.has_leading_newline then
        report .diag_let_with_no_bindings [let_span]
      else
        report .diag_unexpected_token_in_variable_declaration [keyword_span]
        insert_semicolon
    pure true
  else if t.type == .complete_template || t.type == .number
      || t.type == .incomplete_template then
    report .diag_unexpected_token_in_variable_declaration [t.span]
    insert_semicolon
    pure true
  else if parse_and_visit_let_bindings.is_unimplemented_start t.type then
    QLJS_PARSER_UNIMPLEMENTED
  else if t.type == .equal then
    report .diag_missing_variable_name_in_declaration [t.span]
    skip
    parse_and_visit_expression X { commas := false, in_operator := allow_in_operator }
    pure true
  else
    if first_binding then
      report .diag_let_with_no_bindings [let_span]
    else
      report .diag_stray_comma_in_let_statement [comma_span.getD ⟨0, 0⟩]
    pure true

/-- The loop of `parse_and_visit_let_bindings` (the overload that takes the
`declaration_kind`), with the current value of `first_binding`. -/
def parse_and_visit_let_bindings.loop (X : Externals) (declaring_token : token)
    (declaration_kind : variable_kind) (allow_in_operator : Bool)
    (allow_const_without_initializer : Bool) (is_in_for_initializer : Bool) :
    Nat → Bool → P Unit
  | 0, _ => out_of_fuel
  | fuel + 1, first_binding => do
    let t ← peek
    if first_binding then
      let go_on ← parse_and_visit_let_bindings.binding X declaring_token declaration_kind
        allow_in_operator allow_const_without_initializer is_in_for_initializer
        first_binding none
      if go_on then
        parse_and_visit_let_bindings.loop X declaring_token declaration_kind
          allow_in_operator allow_const_without_initializer is_in_for_initializer fuel false
    else if t.type == .comma then
      skip
      let go_on ← parse_and_visit_let_bindings.binding X declaring_token declaration_kind
        allow_in_operator allow_const_without_initializer is_in_for_initializer
        first_binding (some t.span)
      if go_on then
        parse_and_visit_let_bindings.loop X declaring_token declaration_kind
          allow_in_operator allow_const_without_initializer is_in_for_initializer fuel false
    else if t.type == .identifier || t.type == .left_curly || t.type == .left_square then
      if t.has_leading_newline then
        pure ()
      else
        let here ← end_of_previous_token
        report .diag_missing_comma_between_variable_declarations [⟨here, here⟩]
        let go_on ← parse_and_visit_let_bindings.binding X declaring_token declaration_kind
          allow_in_operator allow_const_without_initializer is_in_for_initializer
          first_binding none
        if go_on then
          parse_and_visit_let_bindings.loop X declaring_token declaration_kind
            allow_in_operator allow_const_without_initializer is_in_for_initializer fuel false
    else
      pure ()

/-- The function `parser::parse_and_visit_let_bindings` (the overload that computes the
`declaration_kind` from the declaring token).  Where the source leaves out the last two
arguments, the defaults of the declaration are `false`. -/
def parse_and_visit_let_bindings (X : Externals) (fuel : Nat) (declaring_token : token)
    (allow_in_operator : Bool) (allow_const_without_initializer : Bool)
    (is_in_for_initializer : Bool) : P Unit :=
  let declaration_kind : variable_kind :=
    if declaring_token.type == .kw_const then ._const
    else if declaring_token.type == .kw_let then ._let
    else if declaring_token.type == .kw_var then ._var
    else ._let
  parse_and_visit_let_bindings.loop X declaring_token declaration_kind allow_in_operator
    allow_const_without_initializer is_in_for_initializer fuel true

/-- The function `parser::parse_and_visit_variable_declaration_statement`. -/
def parse_and_visit_variable_declaration_statement (X : Externals) (fuel : Nat) : P Unit := do
  let declaring_token ← peek
  skip
  let t ← peek
  if t.type == .kw_enum && declaring_token.type == .kw_const then
    parse_and_visit_typescript_enum X fuel .const_enum
  else
    parse_and_visit_let_bindings X fuel declaring_token true false false
    consume_semicolon_after_statement

/-- The case labels of the `switch` on the token after `as` in
`parse_and_visit_named_exports` (and after `export * as`). -/
def is_export_alias_token (t : token_type) : Bool :=
  t == .string || is_keyword t || t == .identifier
    || t == .reserved_keyword_with_escape_sequence

/-- The code of `parse_and_visit_named_exports` at the label `named_export`, with the
current values of `is_local_type_import` and `left_is_keyword`. -/
def parse_and_visit_named_exports.named_export (X : Externals)
    (typescript_type_only_import_keyword : Option source_code_span) (is_export : Bool)
    (is_local_type_import : Bool) (left_is_keyword : Bool) : P Unit := do
  let left ← peek
  let left_name := left.identifier_name
  skip
  let t ← peek
  let has_as := t.type == .kw_as
  let right_token ←
    if has_as then do
      skip
      let t ← peek
      if is_export_alias_token t.type then
        skip
        pure t
      else
        QLJS_PARSER_UNIMPLEMENTED
    else
      pure left
  if is_export then
    if left_is_keyword then
      pure ()
    else
      visit_variable_export_use left_name
  else
    if is_contextual_keyword right_token.type || right_token.type == .identifier then
      if right_token.type == .kw_let then
        report .diag_cannot_import_let [right_token.span]
      visit_variable_declaration right_token.identifier_name
        (if is_local_type_import || typescript_type_only_import_keyword.isSome
         then ._import_type else ._import)
        .normal
    else if is_strict_reserved_keyword right_token.type then
      report .diag_cannot_import_variable_named_keyword [right_token.identifier_name.span]
      visit_variable_declaration right_token.identifier_name ._import .normal
    else if right_token.type == .reserved_keyword_with_escape_sequence then
      X.report_errors_for_escape_sequences_in_keyword right_token
      visit_variable_declaration right_token.identifier_name ._import .normal
    else if right_token.type == .string then
      report .diag_expected_variable_name_for_import_as [right_token.span]
    else
      QLJS_UNIMPLEMENTED

/-- The lambda `report_diag_for_inline_type_import_if_needed`. -/
def parse_and_visit_named_exports.report_diag_for_inline_type_import_if_needed
    (typescript_type_only_import_keyword : Option source_code_span)
    (type_span : source_code_span) : P Unit := do
  let s ← get_state
  if !s.options.typescript then
    report .diag_typescript_inline_type_import_not_allowed_in_javascript [type_span]
  match typescript_type_only_import_keyword with
  | some type_only_keyword =>
    report .diag_typescript_inline_type_import_not_allowed_in_type_only_import
      [type_span, type_only_keyword]
  | none => pure ()

/-- The case labels of the `switch` on the token after `type` in a list of named
exports that make `type` a modifier. -/
def parse_and_visit_named_exports.is_name_after_type (t : token_type) : Bool :=
  is_typescript_only_contextual_keyword_except_type t || t == .identifier
    || t == .kw_async || t == .kw_from || t == .kw_get || t == .kw_let || t == .kw_of
    || t == .kw_set || t == .kw_static || t == .kw_type

/-- The case labels that reach `named_export` directly. -/
def parse_and_visit_named_exports.is_plain_name (t : token_type) : Bool :=
  is_contextual_keyword_except_async_and_get_and_set_and_static_and_type t
    || t == .identifier || t == .kw_async || t == .kw_get || t == .kw_set
    || t == .kw_static

/-- The case `token_type::string` of the loop of `parse_and_visit_named_exports`, for an
import. -/
def parse_and_visit_named_exports.string_import (X : Externals) : P Unit := do
  skip
  QLJS_PARSER_UNIMPLEMENTED_IF_NOT_TOKEN .kw_as
  skip
  let t ← peek
  if is_contextual_keyword t.type || t.type == .identifier then
    if t.type == .kw_let then
      report .diag_cannot_import_let [t.span]
    visit_variable_declaration t.identifier_name ._import .normal
    skip
  else if is_strict_reserved_keyword t.type then
    report .diag_cannot_import_variable_named_keyword [t.identifier_name.span]
    visit_variable_declaration t.identifier_name ._import .normal
    skip
  else if t.type == .reserved_keyword_with_escape_sequence then
    X.report_errors_for_escape_sequences_in_keyword t
    visit_variable_declaration t.identifier_name ._import .normal
    skip
  else if t.type == .string then
    report .diag_expected_variable_name_for_import_as [t.span]
    skip
  else
    QLJS_PARSER_UNIMPLEMENTED

/-- The loop `for (;;)` of `parse_and_visit_named_exports` and the code after it; the
argument and result list is `*out_exported_bad_tokens` (`is_export` tells whether that
pointer is non-null). -/
def parse_and_visit_named_exports.loop (X : Externals)
    (typescript_type_only_import_keyword : Option source_code_span) (is_export : Bool) :
    Nat → List token → P (List token)
  | 0, _ => out_of_fuel
  | fuel + 1, bad => do
    let t ← peek
    if t.type == .right_curly then
      QLJS_PARSER_UNIMPLEMENTED_IF_NOT_TOKEN .right_curly
      skip
      pure bad
    else do
      let bad1 ←
        if is_strict_reserved_keyword t.type
            || t.type == .reserved_keyword_with_escape_sequence then do
          parse_and_visit_named_exports.named_export X typescript_type_only_import_keyword
            is_export false true
          pure (if is_export then bad ++ [t] else bad)
        else if parse_and_visit_named_exports.is_plain_name t.type then do
          parse_and_visit_named_exports.named_export X typescript_type_only_import_keyword
            is_export false false
          pure bad
        else if t.type == .kw_type then do
          let type_span := t.span
          let transaction ← begin_transaction
          skip
          let t ← peek
          if parse_and_visit_named_exports.is_name_after_type t.type then
            parse_and_visit_named_exports.report_diag_for_inline_type_import_if_needed
              typescript_type_only_import_keyword type_span
            commit_transaction transaction
            parse_and_visit_named_exports.named_export X
              typescript_type_only_import_keyword is_export true false
          else if t.type == .kw_as then
            skip
            let t ← peek
            if t.type == .comma || t.type == .right_curly then
              parse_and_visit_named_exports.report_diag_for_inline_type_import_if_needed
                typescript_type_only_import_keyword type_span
              roll_back_transaction transaction
              skip
              parse_and_visit_named_exports.named_export X
                typescript_type_only_import_keyword is_export true false
            else
              roll_back_transaction transaction
              parse_and_visit_named_exports.named_export X
                typescript_type_only_import_keyword is_export false false
          else
            roll_back_transaction transaction
            parse_and_visit_named_exports.named_export X
              typescript_type_only_import_keyword is_export false false
          pure bad
        else if t.type == .string then do
          if is_export then
            skip
            pure (bad ++ [t])
          else
            parse_and_visit_named_exports.string_import X
            pure bad
        else
          QLJS_PARSER_UNIMPLEMENTED
      let t ← peek
      if t.type == .comma then
        skip
      parse_and_visit_named_exports.loop X typescript_type_only_import_keyword is_export
        fuel bad1

/-- The function `parser::parse_and_visit_named_exports`. -/
def parse_and_visit_named_exports (X : Externals) (fuel : Nat)
    (typescript_type_only_import_keyword : Option source_code_span) (is_export : Bool) :
    P (List token) := do
  skip
  parse_and_visit_named_exports.loop X typescript_type_only_import_keyword is_export fuel []

/-- The function `parser::parse_and_visit_named_exports_for_export`; the result is the
list `out_exported_bad_tokens`. -/
def parse_and_visit_named_exports_for_export (X : Externals) (fuel : Nat) :
    P (List token) :=
  parse_and_visit_named_exports X fuel none true

/-- The function `parser::parse_and_visit_named_exports_for_import`. -/
def parse_and_visit_named_exports_for_import (X : Externals) (fuel : Nat) : P Unit := do
  let _ ← parse_and_visit_named_exports X fuel none false
  pure ()

/-- The function
`parser::parse_and_visit_named_exports_for_typescript_type_only_import`. -/
def parse_and_visit_named_exports_for_typescript_type_only_import (X : Externals)
    (fuel : Nat) (type_keyword : source_code_span) : P Unit := do
  let _ ← parse_and_visit_named_exports X fuel (some type_keyword) false
  pure ()

/-- The function `parser::parse_and_visit_name_space_import`. -/
def parse_and_visit_name_space_import (X : Externals) : P Unit := do
  let star ← peek
  let star_span := star.span
  skip
  let t ← peek
  if t.type == .kw_as then
    skip
  else if t.type == .identifier then
    report .diag_expected_as_before_imported_namespace_alias
      [⟨star_span.begin_, t.end_⟩, t.span, star_span]
  else
    QLJS_PARSER_UNIMPLEMENTED
  let t ← peek
  if is_strict_reserved_keyword t.type then
    report .diag_cannot_import_variable_named_keyword [t.identifier_name.span]
  else if t.type == .reserved_keyword_with_escape_sequence then
    X.report_errors_for_escape_sequences_in_keyword t
  else if is_contextual_keyword t.type || t.type == .identifier then
    pure ()
  else
    QLJS_PARSER_UNIMPLEMENTED
  if t.type == .kw_let then
    report .diag_cannot_import_let [t.identifier_name.span]
  visit_variable_declaration t.identifier_name ._import .normal
  skip

/-- The code of `parse_and_visit_import` at the label `identifier`, up to the `break`. -/
def parse_and_visit_import.identifier (X : Externals) (fuel : Nat) : P Unit := do
  let t ← peek
  if t.type == .kw_let then
    report .diag_cannot_import_let [t.span]
  visit_variable_declaration t.identifier_name ._import .normal
  skip
  let t ← peek
  if t.type == .comma then
    skip
    let t ← peek
    if t.type == .left_curly then
      parse_and_visit_named_exports_for_import X fuel
    else if t.type == .star then
      parse_and_visit_name_space_import X
    else
      QLJS_PARSER_UNIMPLEMENTED

/-- The case labels of the `switch` on the token after `import type` that make `type` a
modifier of a default import. -/
def parse_and_visit_import.is_name_after_type (t : token_type) : Bool :=
  is_typescript_only_contextual_keyword_except_type t || t == .identifier || t == .kw_as
    || t == .kw_async || t == .kw_get || t == .kw_let || t == .kw_of || t == .kw_set
    || t == .kw_static || t == .kw_type

/-- The case labels of the first `switch` of `parse_and_visit_import` that reach the
label `identifier` directly. -/
def parse_and_visit_import.is_plain_name (t : token_type) : Bool :=
  is_contextual_keyword_except_async_and_get_and_set_and_static_and_type t
    || t == .identifier || t == .kw_async || t == .kw_get || t == .kw_set
    || t == .kw_static

/-- The code of `parse_and_visit_import` after its first `switch`: `from` and the module
specifier. -/
def parse_and_visit_import.from_module : P Unit := do
  let t ← peek
  if t.type == .kw_from || t.type == .string then
    if t.type == .kw_from then
      skip
    else
      report .diag_expected_from_before_module_specifier [t.span]
    let t ← peek
    if t.type != .string then
      if is_keyword t.type || t.type == .identifier then
        report .diag_cannot_import_from_unquoted_module [t.identifier_name.span]
      else
        QLJS_PARSER_UNIMPLEMENTED
    skip
    let t ← peek
    if t.type == .semicolon then
      skip
  else
    let where_ ← end_of_previous_token
    report .diag_expected_from_and_module_specifier [⟨where_, where_⟩]

/-- The function `parser::parse_and_visit_import`. -/
def parse_and_visit_import (X : Externals) (fuel : Nat) : P Unit := do
  let s ← get_state
  let import_token ← peek
  let import_span := import_token.span
  skip
  let t ← peek
  if is_strict_reserved_keyword t.type then
    report .diag_cannot_import_variable_named_keyword [t.identifier_name.span]
    parse_and_visit_import.identifier X fuel
    parse_and_visit_import.from_module
  else if t.type == .reserved_keyword_with_escape_sequence then
    X.report_errors_for_escape_sequences_in_keyword t
    parse_and_visit_import.identifier X fuel
    parse_and_visit_import.from_module
  else if parse_and_visit_import.is_plain_name t.type then
    parse_and_visit_import.identifier X fuel
    parse_and_visit_import.from_module
  else if t.type == .left_curly then
    parse_and_visit_named_exports_for_import X fuel
    parse_and_visit_import.from_module
  else if t.type == .dot || t.type == .left_paren then
    let ast ← X.parse_expression_remainder (make_expression_import import_span) {}
    X.visit_expression ast .rhs
    consume_semicolon_after_statement
  else if t.type == .star then
    parse_and_visit_name_space_import X
    parse_and_visit_import.from_module
  else if t.type == .string then
    skip
    consume_semicolon_after_statement
  else if t.type == .kw_type then
    let type_span := t.span
    let transaction ← begin_transaction
    skip
    let t ← peek
    if parse_and_visit_import.is_name_after_type t.type then
      commit_transaction transaction
      if !s.options.typescript then
        report .diag_typescript_type_only_import_not_allowed_in_javascript [type_span]
      visit_variable_declaration t.identifier_name ._import_type .normal
      skip
      let t ← peek
      if t.type == .comma then
        skip
        let t ← peek
        if t.type == .left_curly then
          report .diag_typescript_type_only_import_cannot_import_default_and_named [type_span]
          parse_and_visit_named_exports_for_import X fuel
        else if t.type == .star then
          report .diag_typescript_type_only_import_cannot_import_default_and_named [type_span]
          parse_and_visit_name_space_import X
        else
          QLJS_PARSER_UNIMPLEMENTED
    else if t.type == .left_curly then
      commit_transaction transaction
      if !s.options.typescript then
        report .diag_typescript_type_only_import_not_allowed_in_javascript [type_span]
      parse_and_visit_named_exports_for_typescript_type_only_import X fuel type_span
    else if t.type == .star then
      commit_transaction transaction
      if !s.options.typescript then
        report .diag_typescript_type_only_import_not_allowed_in_javascript [type_span]
      parse_and_visit_name_space_import X
    else
      roll_back_transaction transaction
      parse_and_visit_import.identifier X fuel
    parse_and_visit_import.from_module
  else
    QLJS_PARSER_UNIMPLEMENTED

/-- The case labels of the loop of `parse_and_visit_function_parameters(v)` that start a
parameter. -/
def parse_and_visit_function_parameters.is_parameter_start (t : token_type) : Bool :=
  is_strict_only_reserved_keyword t || t == .kw_await || is_contextual_keyword t
    || t == .dot_dot_dot || t == .identifier || t == .kw_yield || t == .left_curly
    || t == .left_paren || t == .left_square || t == .number
    || t == .reserved_keyword_with_escape_sequence

/-- The one-argument function `parser::parse_and_visit_function_parameters(v)`: the loop,
with the current values of `last_parameter_spread_span` and `first_parameter`. -/
def parse_and_visit_function_parameters.loop (X : Externals) :
    Nat → Option source_code_span → Bool → P Unit
  | 0, _, _ => out_of_fuel
  | fuel + 1, last_parameter_spread_span, first_parameter => do
    let t ← peek
    if !first_parameter && t.type != .comma then
      pure ()
    else
      let comma_span : Option source_code_span := if first_parameter then none else some t.span
      if !first_parameter then
        skip
      let t ← peek
      if parse_and_visit_function_parameters.is_parameter_start t.type then
        let parameter ← X.parse_expression { commas := false, in_operator := true }
        visit_binding_element X parameter ._parameter none .normal
        parse_and_visit_function_parameters.loop X fuel
          (if parameter.kind == .spread then some parameter.span else none) false
      else if t.type == .right_paren then
        match last_parameter_spread_span with
        | some spread =>
          report .diag_comma_not_allowed_after_spread_parameter
            [comma_span.getD ⟨0, 0⟩, spread]
        | none => pure ()
      else
        QLJS_PARSER_UNIMPLEMENTED

/-- The enumeration `function_parameter_parse_result`. -/
inductive function_parameter_parse_result where
  | parsed_parameters | parsed_parameters_missing_body | missing_parameters
  | missing_parameters_ignore_body
deriving DecidableEq, Repr, Inhabited

/-- The two-argument function `parser::parse_and_visit_function_parameters(v, name)`. -/
def parse_and_visit_function_parameters (X : Externals) (fuel : Nat)
    (name : Option source_code_span) : P function_parameter_parse_result := do
  let s ← get_state
  let t ← peek
  if t.type == .star then
    match name with
    | none => QLJS_PARSER_UNIMPLEMENTED
    | some function_name =>
      report .diag_generator_function_star_belongs_before_name [function_name, t.span]
    set_in_generator_function
    skip
  let t ← peek
  if t.type == .less then
    if !s.options.typescript then
      report .diag_typescript_generics_not_allowed_in_javascript [t.span]
    parse_and_visit_typescript_generic_parameters X fuel
  let t ← peek
  if t.type == .left_paren then
    skip
    parse_and_visit_function_parameters.loop X fuel none true
    let t ← peek
    if t.type != .right_paren then
      QLJS_PARSER_UNIMPLEMENTED
    skip
    let t ← peek
    if t.type == .colon then
      X.parse_and_visit_typescript_colon_type_expression
    let t ← peek
    if t.type == .equal_greater then
      report .diag_functions_or_methods_should_not_have_arrow_operator [t.span]
      skip
    let t ← peek
    if t.type != .left_curly then
      pure .parsed_parameters_missing_body
    else
      pure .parsed_parameters
  else if t.type == .left_curly then
    let here ← end_of_previous_token
    report .diag_missing_function_parameter_list [⟨here, here⟩]
    pure .missing_parameters
  else if t.type == .comma || t.type == .dot || t.type == .number
      || t.type == .right_curly then
    let here ← end_of_previous_token
    report .diag_missing_function_parameter_list [⟨here, here⟩]
    pure .missing_parameters_ignore_body
  else
    QLJS_PARSER_UNIMPLEMENTED

mutual
/-- Structural equality of expression nodes; it stands for the pointer comparison
`full_expression == function` of `parse_and_visit_function_declaration`. -/
def expression.same : expression → expression → Bool
  | .mk k1 f1 cs1 es1, .mk k2 f2 cs2 es2 =>
    k1 == k2 && f1 == f2 && expression.same_list cs1 cs2 && expression.same_entries es1 es2
/-- Structural equality of lists of expression nodes. -/
def expression.same_list : List expression → List expression → Bool
  | [], [] => true
  | a :: as, b :: bs => expression.same a b && expression.same_list as bs
  | _, _ => false
/-- Structural equality of optional expression nodes. -/
def expression.same_option : Option expression → Option expression → Bool
  | none, none => true
  | some a, some b => expression.same a b
  | _, _ => false
/-- Structural equality of lists of object entries. -/
def expression.same_entries :
    List object_property_value_pair → List object_property_value_pair → Bool
  | [], [] => true
  | .mk p1 v1 i1 :: as, .mk p2 v2 i2 :: bs =>
    expression.same_option p1 p2 && expression.same v1 v2 && expression.same_option i1 i2
      && expression.same_entries as bs
  | _, _ => false
end

/-- The loop `for (;;)` of `parse_and_visit_statement_block_no_scope`.  The argument
`stmt` is the call `this->parse_and_visit_statement(v, _)`. -/
def parse_and_visit_statement_block_no_scope.loop (stmt : parse_statement_type → P Bool)
    (left_curly_span : source_code_span) : Nat → P Unit
  | 0 => out_of_fuel
  | fuel + 1 => do
    let parsed_statement ← stmt .any_statement_in_block
    if !parsed_statement then
      let t ← peek
      if t.type == .right_curly then
        skip
      else if t.type == .end_of_file then
        report .diag_unclosed_code_block [left_curly_span]
      else
        QLJS_PARSER_UNIMPLEMENTED
    else
      parse_and_visit_statement_block_no_scope.loop stmt left_curly_span fuel

/-- The function `parser::parse_and_visit_statement_block_no_scope`. -/
def parse_and_visit_statement_block_no_scope (stmt : parse_statement_type → P Bool)
    (fuel : Nat) : P Unit := do
  let left_curly ← peek
  let left_curly_span := left_curly.span
  skip
  parse_and_visit_statement_block_no_scope.loop stmt left_curly_span fuel

/-- The function `parser::parse_and_visit_function_parameters_and_body_no_scope`. -/
def parse_and_visit_function_parameters_and_body_no_scope (X : Externals)
    (stmt : parse_statement_type → P Bool) (fuel : Nat) (name : Option source_code_span)
    (attributes : function_attributes) : P Unit :=
  with_function_guard X attributes do
    let result ← parse_and_visit_function_parameters X fuel name
    match result with
    | .parsed_parameters | .missing_parameters =>
      visit_enter_function_scope_body
      parse_and_visit_statement_block_no_scope stmt fuel
    | .missing_parameters_ignore_body => pure ()
    | .parsed_parameters_missing_body =>
      let expected_body ← end_of_previous_token
      report .diag_missing_function_body [⟨expected_body, expected_body⟩]

/-- The function `parser::parse_and_visit_function_parameters_and_body`. -/
def parse_and_visit_function_parameters_and_body (X : Externals)
    (stmt : parse_statement_type → P Bool) (fuel : Nat) (name : Option source_code_span)
    (attributes : function_attributes) : P Unit := do
  visit_enter_function_scope
  parse_and_visit_function_parameters_and_body_no_scope X stmt fuel name attributes
  visit_exit_function_scope

/-- The function
`parser::parse_and_visit_interface_function_parameters_and_body_no_scope`. -/
def parse_and_visit_interface_function_parameters_and_body_no_scope (X : Externals)
    (stmt : parse_statement_type → P Bool) (fuel : Nat) (name : Option source_code_span)
    (attributes : function_attributes) : P Unit :=
  with_function_guard X attributes do
    let result ← parse_and_visit_function_parameters X fuel name
    match result with
    | .missing_parameters_ignore_body | .parsed_parameters_missing_body => pure ()
    | .parsed_parameters | .missing_parameters =>
      let body_start ← peek
      report .diag_interface_methods_cannot_contain_bodies [body_start.span]
      visit_enter_function_scope_body
      parse_and_visit_statement_block_no_scope stmt fuel

/-- The code of `parse_and_visit_function_declaration` at the label `named_function`. -/
def parse_and_visit_function_declaration.named_function (X : Externals)
    (stmt : parse_statement_type → P Bool) (fuel : Nat) (attributes : function_attributes)
    (require_name : name_requirement) : P Unit := do
  let t ← peek
  if t.type == .kw_let && require_name == .required_for_export then
    report .diag_cannot_export_let [t.span]
  let function_name := t.identifier_name
  visit_variable_declaration function_name ._function .normal
  skip
  parse_and_visit_function_parameters_and_body X stmt fuel (some function_name.span)
    attributes

/-- The function `parser::parse_and_visit_function_declaration`. -/
def parse_and_visit_function_declaration (X : Externals)
    (stmt : parse_statement_type → P Bool) (fuel : Nat) (attributes : function_attributes)
    (begin_ : Nat) (require_name : name_requirement) : P Unit := do
  let s ← get_state
  let function_token ← peek
  let function_token_span := function_token.span
  let function_token_begin := function_token_span.begin_
  skip
  let attributes ← X.parse_generator_star attributes
  let t ← peek
  if t.type == .kw_await then
    if s.in_async_function then
      report .diag_cannot_declare_await_in_async_function [t.identifier_name.span]
    parse_and_visit_function_declaration.named_function X stmt fuel attributes require_name
  else if t.type == .kw_yield then
    if s.in_generator_function then
      report .diag_cannot_declare_yield_in_generator_function [t.identifier_name.span]
    parse_and_visit_function_declaration.named_function X stmt fuel attributes require_name
  else if is_strict_only_reserved_keyword t.type || is_contextual_keyword t.type
      || t.type == .identifier then
    parse_and_visit_function_declaration.named_function X stmt fuel attributes require_name
  else if t.type == .left_paren then
    match require_name with
    | .required_for_statement =>
      let left_paren_end := t.end_
      parse_and_visit_function_parameters_and_body X stmt fuel none attributes
      let function_end ← end_of_previous_token
      let function := make_expression_function attributes ⟨function_token_begin, function_end⟩
      let full_expression ← X.parse_expression_remainder function {}
      X.visit_expression full_expression .rhs
      if full_expression.same function then
        report .diag_missing_name_in_function_statement
          [⟨function_token_begin, left_paren_end⟩]
      else
        report .diag_missing_name_or_parentheses_for_function
          [⟨function_token_begin, left_paren_end⟩, ⟨begin_, function.span.end_⟩]
    | .required_for_export =>
      report .diag_missing_name_of_exported_function [function_token_span]
      parse_and_visit_function_parameters_and_body X stmt fuel none attributes
    | .optional =>
      parse_and_visit_function_parameters_and_body X stmt fuel none attributes
  else
    report .diag_missing_name_in_function_statement [function_token_span]

/-- The loop `while (keep_going)` of `parse_and_visit_switch`, with the current value of
`is_before_first_switch_case`. -/
def parse_and_visit_switch.loop (X : Externals) (stmt : parse_statement_type → P Bool) :
    Nat → Bool → P Unit
  | 0, _ => out_of_fuel
  | fuel + 1, is_before_first_switch_case => do
    let t ← peek
    if t.type == .right_curly then
      skip
    else if t.type == .kw_case then
      let case_token_span := t.span
      skip
      let t ← peek
      if t.type == .colon then
        report .diag_expected_expression_for_switch_case [case_token_span]
        skip
      else
        parse_and_visit_expression X {}
        QLJS_PARSER_UNIMPLEMENTED_IF_NOT_TOKEN .colon
        skip
      parse_and_visit_switch.loop X stmt fuel false
    else if t.type == .kw_default then
      skip
      QLJS_PARSER_UNIMPLEMENTED_IF_NOT_TOKEN .colon
      skip
      parse_and_visit_switch.loop X stmt fuel false
    else
      if is_before_first_switch_case then
        report .diag_statement_before_first_switch_case [t.span]
      let parsed_statement ← stmt .any_statement_in_block
      if !parsed_statement then
        QLJS_PARSER_UNIMPLEMENTED
      parse_and_visit_switch.loop X stmt fuel is_before_first_switch_case

/-- The function `parser::parse_and_visit_switch`. -/
def parse_and_visit_switch (X : Externals) (stmt : parse_statement_type → P Bool)
    (fuel : Nat) : P Unit := do
  let switch_token ← peek
  let switch_token_span := switch_token.span
  skip
  let t ← peek
  if t.type == .left_curly then
    report .diag_missing_condition_for_switch_statement [switch_token_span]
  else
    X.parse_and_visit_parenthesized_expression
      .diag_expected_parentheses_around_switch_condition
      .diag_expected_parenthesis_around_switch_condition false
  let t ← peek
  if t.type == .left_curly || t.type == .kw_case || t.type == .kw_default then
    if t.type == .left_curly then
      skip
    else
      let here ← end_of_previous_token
      report .diag_expected_left_curly [⟨here, here⟩]
    visit_enter_block_scope
    parse_and_visit_switch.loop X stmt fuel true
    visit_exit_block_scope
  else
    let here ← end_of_previous_token
    report .diag_missing_body_for_switch_statement [⟨here, here⟩]

/-- The function `parser::parse_and_visit_catch_or_finally_or_both`. -/
def parse_and_visit_catch_or_finally_or_both (X : Externals)
    (stmt : parse_statement_type → P Bool) (fuel : Nat) : P Bool := do
  let s ← get_state
  let t ← peek
  let parsed_catch := t.type == .kw_catch
  if parsed_catch then
    skip
    visit_enter_block_scope
    let t ← peek
    if t.type == .left_paren then
      let catch_left_paren_span := t.span
      skip
      let t ← peek
      if t.type == .kw_await || t.type == .kw_yield || is_strict_only_reserved_keyword t.type
          || is_contextual_keyword t.type || t.type == .identifier then
        if t.type == .kw_await && s.in_async_function then
          report .diag_cannot_declare_await_in_async_function [t.identifier_name.span]
        if t.type == .kw_yield && s.in_generator_function then
          report .diag_cannot_declare_yield_in_generator_function [t.identifier_name.span]
        visit_variable_declaration t.identifier_name ._catch .normal
        skip
      else if t.type == .left_curly || t.type == .left_square then
        let ast ← X.parse_expression { commas := false, in_operator := false }
        visit_binding_element X ast ._catch none .normal
      else if t.type == .right_paren then
        report .diag_missing_catch_variable_between_parentheses
          [⟨catch_left_paren_span.begin_, t.end_⟩, catch_left_paren_span, t.span]
      else if t.type == .string then
        report .diag_expected_variable_name_for_catch [t.span]
        skip
      else
        QLJS_PARSER_UNIMPLEMENTED
      let t ← peek
      if t.type == .colon then
        if !s.options.typescript then
          report .diag_typescript_type_annotations_not_allowed_in_javascript [t.span]
        skip
        let t ← peek
        if t.type == .kw_any || t.type == .kw_unknown || t.type == .star then
          skip
        else
          let type_expression_begin := t.begin_
          with_null_visitor X.parse_and_visit_typescript_type_expression
          let type_expression_end ← end_of_previous_token
          if s.options.typescript then
            report .diag_typescript_catch_type_annotation_must_be_any
              [⟨type_expression_begin, type_expression_end⟩]
      QLJS_PARSER_UNIMPLEMENTED_IF_NOT_TOKEN .right_paren
      skip
    let t ← peek
    if t.type == .left_curly then
      parse_and_visit_statement_block_no_scope stmt fuel
    else
      let here ← end_of_previous_token
      report .diag_missing_body_for_catch_clause [⟨here, here⟩]
    visit_exit_block_scope
  let t ← peek
  let parsed_finally := t.type == .kw_finally
  if parsed_finally then
    let finally_token_span := t.span
    skip
    let t ← peek
    if t.type == .left_curly then
      visit_enter_block_scope
      parse_and_visit_statement_block_no_scope stmt fuel
      visit_exit_block_scope
    else
      report .diag_missing_body_for_finally_clause [finally_token_span]
  pure (parsed_catch || parsed_finally)

/-- The function `parser::parse_and_visit_try_maybe_catch_maybe_finally`. -/
def parse_and_visit_try_maybe_catch_maybe_finally (X : Externals)
    (stmt : parse_statement_type → P Bool) (fuel : Nat) : P Unit := do
  let try_token ← peek
  let try_token_span := try_token.span
  skip
  let t ← peek
  let parsed_try_body := t.type == .left_curly
  if parsed_try_body then
    visit_enter_block_scope
    parse_and_visit_statement_block_no_scope stmt fuel
    visit_exit_block_scope
  else
    report .diag_missing_body_for_try_statement [try_token_span]
  let parsed_catch_or_finally ← parse_and_visit_catch_or_finally_or_both X stmt fuel
  if parsed_try_body && !parsed_catch_or_finally then
    let expected_catch_or_finally ← end_of_previous_token
    report .diag_missing_catch_or_finally_for_try_statement
      [⟨expected_catch_or_finally, expected_catch_or_finally⟩, try_token_span]

/-- The function `parser::parse_and_visit_do_while`. -/
def parse_and_visit_do_while (X : Externals) (stmt : parse_statement_type → P Bool) :
    P Unit := do
  let do_token ← peek
  let do_token_span := do_token.span
  skip
  let t ← peek
  if t.type == .kw_while then
    report .diag_missing_body_for_do_while_statement [do_token_span]
  else
    X.error_on_class_statement .do_while_loop
    X.error_on_function_statement .do_while_loop
    X.error_on_lexical_declaration .do_while_loop
    let parsed_statement ← stmt X.default_statement_type
    if !parsed_statement then
      QLJS_PARSER_UNIMPLEMENTED
  let t ← peek
  if t.type != .kw_while then
    let here ← end_of_previous_token
    report .diag_missing_while_and_condition_for_do_while_statement
      [do_token_span, ⟨here, here⟩]
  else
    skip
    X.parse_and_visit_parenthesized_expression
      .diag_expected_parentheses_around_do_while_condition
      .diag_expected_parenthesis_around_do_while_condition true
    let t ← peek
    if t.type == .semicolon then
      skip

/-- The function `parser::parse_and_visit_while`. -/
def parse_and_visit_while (X : Externals) (stmt : parse_statement_type → P Bool) :
    P Unit := do
  let while_token ← peek
  let while_token_span := while_token.span
  skip
  let t ← peek
  if t.type == .left_curly then
    report .diag_missing_condition_for_while_statement [while_token_span]
  else
    X.parse_and_visit_parenthesized_expression
      .diag_expected_parentheses_around_while_condition
      .diag_expected_parenthesis_around_while_condition true
  X.error_on_class_statement .while_loop
  X.error_on_function_statement .while_loop
  X.error_on_lexical_declaration .while_loop
  let parsed_body ← stmt .no_declarations
  if !parsed_body then
    let here ← end_of_previous_token
    report .diag_missing_body_for_while_statement [⟨here, here⟩]

/-- The function `parser::parse_and_visit_with`. -/
def parse_and_visit_with (X : Externals) (stmt : parse_statement_type → P Bool) :
    P Unit := do
  skip
  X.parse_and_visit_parenthesized_expression
    .diag_expected_parentheses_around_with_expression
    .diag_expected_parenthesis_around_with_expression false
  X.error_on_class_statement .with_statement
  X.error_on_function_statement .with_statement
  X.error_on_lexical_declaration .with_statement
  visit_enter_with_scope
  let parsed_body ← stmt .no_declarations
  if !parsed_body then
    QLJS_PARSER_UNIMPLEMENTED
  visit_exit_with_scope

/-- The lambda `parse_and_visit_body` of `parse_and_visit_if`. -/
def parse_and_visit_if.parse_and_visit_body (X : Externals)
    (stmt : parse_statement_type → P Bool) : P Unit := do
  X.error_on_class_statement .if_statement
  X.error_on_lexical_declaration .if_statement
  let entered_block_scope ← X.is_maybe_function_statement
  if entered_block_scope then
    visit_enter_block_scope
  let parsed_if_body ← stmt .no_declarations
  if !parsed_if_body then
    QLJS_PARSER_UNIMPLEMENTED
  if entered_block_scope then
    visit_exit_block_scope

/-- The code of `parse_and_visit_if` from the label `parse_maybe_else` on. -/
def parse_and_visit_if.parse_maybe_else (X : Externals)
    (stmt : parse_statement_type → P Bool) : Nat → P Unit
  | 0 => out_of_fuel
  | fuel + 1 => do
    let t ← peek
    if t.type == .kw_else then
      skip
      let end_of_else ← end_of_previous_token
      let t ← peek
      let has_left_paren := t.type == .left_paren
      if has_left_paren then
        parse_and_visit_expression X { trailing_curly_is_arrow_body := false }
      else
        parse_and_visit_if.parse_and_visit_body X stmt
      let t ← peek
      let has_left_curly := t.type == .left_curly
      if !t.has_leading_newline && has_left_paren && has_left_curly then
        report .diag_missing_if_after_else [⟨end_of_else, end_of_else⟩]
        parse_and_visit_if.parse_and_visit_body X stmt
        parse_and_visit_if.parse_maybe_else X stmt fuel

/-- The function `parser::parse_and_visit_if`. -/
def parse_and_visit_if (X : Externals) (stmt : parse_statement_type → P Bool)
    (fuel : Nat) : P Unit := do
  let if_token ← peek
  let if_token_span := if_token.span
  skip
  let t ← peek
  if t.type == .left_curly then
    report .diag_missing_condition_for_if_statement [if_token_span]
  else
    X.parse_and_visit_parenthesized_expression
      .diag_expected_parentheses_around_if_condition
      .diag_expected_parenthesis_around_if_condition true
  let t ← peek
  if t.type == .end_of_file || t.type == .kw_else || t.type == .right_curly then
    let end_of_if_condition ← end_of_previous_token
    report .diag_missing_body_for_if_statement [⟨end_of_if_condition, end_of_if_condition⟩]
  else
    parse_and_visit_if.parse_and_visit_body X stmt
  parse_and_visit_if.parse_maybe_else X stmt fuel

/-- The local enumeration `loop_style` of `parse_and_visit_for`. -/
inductive loop_style where
  | c_style | for_in | for_of | other
deriving DecidableEq, Repr, Inhabited

/-- The lambda `parse_c_style_head_remainder` of `parse_and_visit_for`; the result is the
value it leaves in `after_expression`. -/
def parse_and_visit_for.parse_c_style_head_remainder (X : Externals)
    (first_semicolon_span : source_code_span) : P (Option expression) := do
  let t ← peek
  if t.type != .semicolon then
    let ast ← X.parse_expression {}
    X.visit_expression ast .rhs
    X.error_on_sketchy_condition ast
  let t ← peek
  if t.type == .right_paren then
    report .diag_c_style_for_loop_is_missing_third_component [t.span, first_semicolon_span]
    pure none
  else
    if t.type != .semicolon then
      insert_semicolon
      let semi ← peek
      report .diag_missing_semicolon_between_for_loop_condition_and_update [semi.span]
    skip
    let t ← peek
    if t.type != .right_paren then
      let after ← X.parse_expression {}
      pure (some after)
    else
      pure none

/-- The lambda `parse_in_or_of_or_condition_update` of `parse_and_visit_for`; the result
is the value it leaves in `for_loop_style` (none where it assigns none) and in
`after_expression`. -/
def parse_and_visit_for.parse_in_or_of_or_condition_update (X : Externals)
    (left_paren_token_begin : Nat) (for_token_span : source_code_span)
    (init_expression : expression) : P (Option loop_style × Option expression) := do
  let t ← peek
  if t.type == .kw_in then
    let in_token_span := t.span
    skip
    let rhs ← X.parse_expression {}
    X.visit_assignment_expression init_expression rhs
    let t ← peek
    if t.type == .semicolon then
      report .diag_in_disallowed_in_c_style_for_loop [in_token_span]
      let first_semicolon_span := t.span
      skip
      let after ← parse_and_visit_for.parse_c_style_head_remainder X first_semicolon_span
      pure (some .for_in, after)
    else
      pure (none, none)
  else if t.type == .kw_of then
    skip
    let rhs ← X.parse_expression {}
    X.visit_assignment_expression init_expression rhs
    pure (some .for_of, none)
  else if t.type == .right_paren then
    report .diag_missing_for_loop_rhs_or_components_after_expression
      [⟨left_paren_token_begin, t.end_⟩, for_token_span]
    X.visit_expression init_expression .rhs
    pure (some .c_style, none)
  else
    if t.type != .semicolon then
      insert_semicolon
      let semi ← peek
      report .diag_missing_semicolon_between_for_loop_init_and_condition [semi.span]
    let semi ← peek
    let first_semicolon_span := semi.span
    skip
    X.visit_expression init_expression .rhs
    let after ← parse_and_visit_for.parse_c_style_head_remainder X first_semicolon_span
    pure (some .c_style, after)

/-- The case `kw_const`, `kw_let`, `kw_var` of the `switch` on the first token of the head
in `parse_and_visit_for`, from `token declaring_token = this->peek()` on. -/
def parse_and_visit_for.declaration (X : Externals) (fuel : Nat)
    (left_paren_token_begin : Nat) (for_token_span : source_code_span) :
    P (Option loop_style × Option expression) := do
  let declaring_token ← peek
  let transaction ← begin_transaction
  skip
  buffering_visitor_stack_emplace
  let t ← peek
  let let_is_reference ←
    if declaring_token.type == .kw_let then X.is_let_token_a_variable_reference t true
    else pure false
  if declaring_token.type == .kw_let && let_is_reference then
    roll_back_transaction transaction
    let ast ← X.parse_expression { in_operator := false }
    with_top_buffering_visitor (X.visit_expression ast .lhs)
    with_top_buffering_visitor (X.maybe_visit_assignment ast)
  else if declaring_token.type == .kw_let && t.type == .kw_of then
    skip
    let t ← peek
    if t.type == .identifier then
      roll_back_transaction transaction
      skip
      report .diag_let_with_no_bindings [declaring_token.span]
    else
      roll_back_transaction transaction
      skip
      with_top_buffering_visitor
        (parse_and_visit_let_bindings X fuel declaring_token false false true)
  else
    commit_transaction transaction
    with_top_buffering_visitor
      (parse_and_visit_let_bindings X fuel declaring_token false true true)
  let t ← peek
  let r ←
    if t.type == .semicolon then do
      let first_semicolon_span := t.span
      skip
      top_buffering_visitor_move_into_v
      let after ← parse_and_visit_for.parse_c_style_head_remainder X first_semicolon_span
      pure (some loop_style.c_style, after)
    else if t.type == .kw_in || t.type == .kw_of then do
      let for_loop_style := if t.type == .kw_in then loop_style.for_in else loop_style.for_of
      let is_var_in := declaring_token.type == .kw_var && for_loop_style == .for_in
      skip
      let rhs ← X.parse_expression {}
      if is_var_in then
        top_buffering_visitor_move_into_v
      X.visit_expression rhs .rhs
      if !is_var_in then
        top_buffering_visitor_move_into_v
      pure (some for_loop_style, none)
    else if t.type == .right_paren then do
      report .diag_missing_for_loop_rhs_or_components_after_declaration
        [⟨left_paren_token_begin, t.end_⟩, for_token_span]
      top_buffering_visitor_move_into_v
      pure (some loop_style.for_of, none)
    else
      QLJS_PARSER_UNIMPLEMENTED
  buffering_visitor_stack_pop
  pure r

/-- The case `kw_async` of the `switch` on the first token of the head in
`parse_and_visit_for`. -/
def parse_and_visit_for.async (X : Externals) (left_paren_token_begin : Nat)
    (for_token_span : source_code_span) : P (Option loop_style × Option expression) := do
  let async_token ← peek
  let transaction ← begin_transaction
  skip
  let t ← peek
  let is_invalid_async_of_sequence ←
    if t.type == .kw_of then do
      skip
      let t ← peek
      pure (t.type != .equal_greater)
    else
      pure false
  roll_back_transaction transaction
  let init_expression ←
    if is_invalid_async_of_sequence then do
      report .diag_cannot_assign_to_variable_named_async_in_for_of_loop
        [async_token.identifier_name.span]
      skip
      pure (make_expression_variable async_token.identifier_name async_token.type)
    else
      X.parse_expression { in_operator := false }
  parse_and_visit_for.parse_in_or_of_or_condition_update X left_paren_token_begin
    for_token_span init_expression

/-- The loop `while (this->peek().type == token_type::semicolon)` of
`parse_and_visit_for`.  A `for_loop_style` that was never assigned is read as `other`. -/
def parse_and_visit_for.extra_semicolons (X : Externals) (for_loop_style : Option loop_style) :
    Nat → P Unit
  | 0 => out_of_fuel
  | fuel + 1 => do
    let t ← peek
    if t.type == .semicolon then
      match for_loop_style.getD .other with
      | .c_style | .other => report .diag_unexpected_semicolon_in_c_style_for_loop [t.span]
      | .for_in => report .diag_unexpected_semicolon_in_for_in_loop [t.span]
      | .for_of => report .diag_unexpected_semicolon_in_for_of_loop [t.span]
      skip
      let t ← peek
      if t.type == .semicolon || t.type == .right_paren then
        pure ()
      else
        parse_and_visit_expression X {}
      parse_and_visit_for.extra_semicolons X for_loop_style fuel

/-- The function `parser::parse_and_visit_for`. -/
def parse_and_visit_for (X : Externals) (stmt : parse_statement_type → P Bool)
    (fuel : Nat) : P Unit := do
  let for_token ← peek
  let for_token_span := for_token.span
  skip
  let t ← peek
  if t.type == .kw_await then
    skip
  let t ← peek
  if t.type != .left_paren then
    report .diag_missing_for_loop_header [for_token_span]
  else
    let left_paren_token_begin := t.begin_
    skip
    let t ← peek
    let entered_for_scope := t.type == .kw_const || t.type == .kw_let
    let head ←
      if t.type == .semicolon then do
        let first_semicolon_span := t.span
        skip
        let after ← parse_and_visit_for.parse_c_style_head_remainder X first_semicolon_span
        pure (some loop_style.c_style, after)
      else if t.type == .kw_const || t.type == .kw_let || t.type == .kw_var then do
        if entered_for_scope then
          visit_enter_for_scope
        parse_and_visit_for.declaration X fuel left_paren_token_begin for_token_span
      else if t.type == .kw_async then
        parse_and_visit_for.async X left_paren_token_begin for_token_span
      else if t.type == .right_paren then do
        report .diag_missing_header_of_for_loop [⟨left_paren_token_begin, t.end_⟩]
        pure (some loop_style.other, none)
      else do
        let init_expression ← X.parse_expression { in_operator := false }
        parse_and_visit_for.parse_in_or_of_or_condition_update X left_paren_token_begin
          for_token_span init_expression
    parse_and_visit_for.extra_semicolons X head.1 fuel
    QLJS_PARSER_UNIMPLEMENTED_IF_NOT_TOKEN .right_paren
    skip
    X.error_on_class_statement .for_loop
    X.error_on_function_statement .for_loop
    X.error_on_lexical_declaration .for_loop
    let parsed_body ← stmt .no_declarations
    if !parsed_body then
      let here ← end_of_previous_token
      report .diag_missing_body_for_for_statement [⟨here, here⟩]
    match head.2 with
    | some after_expression => X.visit_expression after_expression .rhs
    | none => pure ()
    if entered_for_scope then
      visit_exit_for_scope

/-- The loop over `exported_bad_tokens` of `parse_and_visit_export`. -/
def parse_and_visit_export.report_bad_tokens (X : Externals) : List token → P Unit
  | [] => pure ()
  | exported_bad_token :: rest => do
    if exported_bad_token.type == .reserved_keyword_with_escape_sequence then
      X.report_errors_for_escape_sequences_in_keyword exported_bad_token
    else if exported_bad_token.type == .string then
      report .diag_exporting_string_name_only_allowed_for_export_from
        [exported_bad_token.span]
    else
      report .diag_cannot_export_variable_named_keyword
        [exported_bad_token.identifier_name.span]
    parse_and_visit_export.report_bad_tokens X rest

/-- The function `parser::parse_and_visit_export`. -/
def parse_and_visit_export (X : Externals) (stmt : parse_statement_type → P Bool)
    (fuel : Nat) : P Unit := do
  let export_token ← peek
  let export_token_span := export_token.span
  skip
  let t ← peek
  if t.type == .kw_default then
    skip
    let t ← peek
    if t.type == .kw_async then
      let async_token := t
      skip
      let t ← peek
      if t.type == .kw_function then
        parse_and_visit_function_declaration X stmt fuel .async async_token.begin_ .optional
      else
        let ast ← X.parse_async_expression async_token {}
        X.visit_expression ast .rhs
        consume_semicolon_after_statement
    else if t.type == .kw_class then
      X.parse_and_visit_class .optional
    else if t.type == .kw_function then
      parse_and_visit_function_declaration X stmt fuel .normal t.begin_ .optional
    else if t.type == .kw_const || t.type == .kw_let || t.type == .kw_var then
      let declaring_token := t
      skip
      report .diag_cannot_export_default_variable [declaring_token.span]
      parse_and_visit_let_bindings X fuel declaring_token true false false
    else
      parse_and_visit_expression X {}
      consume_semicolon_after_statement
  else if t.type == .star then
    skip
    let t ← peek
    if t.type == .kw_as then
      skip
      let t ← peek
      if is_export_alias_token t.type then
        skip
      else
        QLJS_PARSER_UNIMPLEMENTED
    QLJS_PARSER_UNIMPLEMENTED_IF_NOT_TOKEN .kw_from
    skip
    QLJS_PARSER_UNIMPLEMENTED_IF_NOT_TOKEN .string
    skip
    consume_semicolon_after_statement
  else if t.type == .left_curly then
    buffering_visitor_stack_emplace
    let exported_bad_tokens ←
      with_top_buffering_visitor (parse_and_visit_named_exports_for_export X fuel)
    let t ← peek
    if t.type == .kw_from then
      skip
      QLJS_PARSER_UNIMPLEMENTED_IF_NOT_TOKEN .string
      skip
    else
      parse_and_visit_export.report_bad_tokens X exported_bad_tokens
      top_buffering_visitor_move_into_v
    buffering_visitor_stack_pop
    consume_semicolon_after_statement
  else if t.type == .kw_async then
    let async_token_begin := t.begin_
    skip
    QLJS_PARSER_UNIMPLEMENTED_IF_NOT_TOKEN .kw_function
    parse_and_visit_function_declaration X stmt fuel .async async_token_begin
      .required_for_export
  else if t.type == .kw_function then
    parse_and_visit_function_declaration X stmt fuel .normal t.begin_ .required_for_export
  else if t.type == .kw_class then
    X.parse_and_visit_class .required_for_export
  else if t.type == .kw_const || t.type == .kw_let || t.type == .kw_var then
    parse_and_visit_variable_declaration_statement X fuel
  else if t.type == .identifier || t.type == .number then
    let ast ← X.parse_expression {}
    if ast.kind == .variable then
      report .diag_exporting_requires_curlies [ast.span]
    else
      report .diag_exporting_requires_default [ast.span]
    X.visit_expression ast .rhs
    consume_semicolon_after_statement
  else if t.type == .end_of_file || t.type == .semicolon then
    report .diag_missing_token_after_export [export_token_span]
  else
    report .diag_unexpected_token_after_export [t.span]

/-- The loop of the lambda `parse_expression_end` of `parse_and_visit_statement`. -/
def parse_and_visit_statement.unmatched_parentheses : Nat → P Unit
  | 0 => out_of_fuel
  | fuel + 1 => do
    let t ← peek
    if t.type == .right_paren then
      report .diag_unmatched_parenthesis [t.span]
      skip
      parse_and_visit_statement.unmatched_parentheses fuel

/-- The lambda `parse_expression_end` of `parse_and_visit_statement`. -/
def parse_and_visit_statement.parse_expression_end (fuel : Nat) : P Unit := do
  parse_and_visit_statement.unmatched_parentheses fuel
  consume_semicolon_after_statement

/-- The code of `parse_and_visit_statement` at the label
`parse_loop_label_or_expression_starting_with_identifier`.  The result is none where the
source jumps back to the label `parse_statement`, and the value returned otherwise. -/
def parse_and_visit_statement.label_or_expression_starting_with_identifier (X : Externals)
    (fuel : Nat) : P (Option Bool) := do
  let t ← peek
  let ident_token_type := t.type
  let ident := t.identifier_name
  skip
  let t ← peek
  if t.type == .colon then
    skip
    pure none
  else
    let ast ← X.parse_expression_remainder (make_expression_variable ident ident_token_type) {}
    X.visit_expression ast .rhs
    parse_and_visit_statement.parse_expression_end fuel
    pure (some true)

/-- The case labels of `parse_and_visit_statement` that start an expression statement
(the case that begins with `QLJS_CASE_BINARY_ONLY_OPERATOR`). -/
def parse_and_visit_statement.is_expression_start (t : token_type) : Bool :=
  is_binary_only_operator t || t == .bang || t == .comma || t == .complete_template
    || t == .dot || t == .equal || t == .equal_greater || t == .incomplete_template
    || t == .kw_delete || t == .kw_false || t == .kw_in || t == .kw_new || t == .kw_null
    || t == .kw_super || t == .kw_this || t == .kw_true || t == .kw_typeof
    || t == .kw_void || t == .left_paren || t == .left_square || t == .less
    || t == .minus || t == .minus_minus || t == .number || t == .plus || t == .plus_plus
    || t == .private_identifier || t == .right_paren || t == .slash || t == .slash_equal
    || t == .string || t == .tilde

/-- The case labels of `parse_and_visit_statement` at the label
`parse_loop_label_or_expression_starting_with_identifier`. -/
def parse_and_visit_statement.is_identifier_start : token_type → Bool
  | .identifier | .kw_any | .kw_as | .kw_assert | .kw_asserts | .kw_bigint | .kw_boolean
  | .kw_constructor | .kw_from | .kw_get | .kw_global | .kw_infer | .kw_intrinsic
  | .kw_is | .kw_keyof | .kw_module | .kw_namespace | .kw_never | .kw_number
  | .kw_object | .kw_of | .kw_out | .kw_override | .kw_readonly | .kw_require | .kw_set
  | .kw_static | .kw_string | .kw_symbol | .kw_undefined | .kw_unique
  | .kw_unknown => true
  | _ => false

/-- The case labels of the `switch` after `async` in `parse_and_visit_statement` that
lead to `parse_async_expression`. -/
def parse_and_visit_statement.is_async_expression_continuation (t : token_type) : Bool :=
  is_binary_only_operator t || is_compound_assignment_operator t
    || is_conditional_assignment_operator t || is_contextual_keyword t || t == .comma
    || t == .complete_template || t == .dot || t == .end_of_file || t == .equal
    || t == .equal_greater || t == .identifier || t == .incomplete_template
    || t == .kw_in || t == .kw_yield || t == .left_paren || t == .less || t == .minus
    || t == .minus_minus || t == .plus || t == .plus_plus || t == .question
    || t == .semicolon || t == .slash

/-- The case labels of the `switch` after `type` in `parse_and_visit_statement` that can
name a type alias. -/
def parse_and_visit_statement.is_type_alias_name : token_type → Bool
  | .identifier | .kw_abstract | .kw_as | .kw_assert | .kw_asserts | .kw_async
  | .kw_await | .kw_constructor | .kw_declare | .kw_from | .kw_get | .kw_global
  | .kw_infer | .kw_intrinsic | .kw_is | .kw_keyof | .kw_module | .kw_namespace
  | .kw_of | .kw_out | .kw_override | .kw_readonly | .kw_require | .kw_set | .kw_type
  | .kw_unique => true
  | _ => false

/-- The case labels of the `switch` after `return` and a newline that report
`diag_return_statement_returns_nothing`. -/
def parse_and_visit_statement.is_expression_start_after_return : token_type → Bool
  | .bang | .complete_template | .identifier | .incomplete_template | .kw_await
  | .kw_false | .kw_function | .kw_new | .kw_null | .kw_super | .kw_this | .kw_true
  | .kw_typeof | .left_curly | .left_paren | .left_square | .less | .minus | .number
  | .plus | .slash | .slash_equal | .string | .tilde => true
  | _ => false

/-- The case labels of the `switch` after `break` or `continue` that can be a label. -/
def parse_and_visit_statement.is_label_after_break (t : token_type) : Bool :=
  is_contextual_keyword t || t == .identifier || t == .kw_await || t == .kw_yield

/-- The case `kw_export` of the `switch` of `parse_and_visit_statement`. -/
def parse_and_visit_statement.case_kw_export (X : Externals)
    (stmt : parse_statement_type → P Bool) (fuel : Nat) :
    P (Option Bool) := do
  parse_and_visit_export X stmt fuel
  pure (some true)

/-- The case `semicolon` of the `switch` of `parse_and_visit_statement`. -/
def parse_and_visit_statement.case_semicolon :
    P (Option Bool) := do
  skip
  pure (some true)

/-- The case `kw_function` of the `switch` of `parse_and_visit_statement`; `t` is the token
at the head of the statement. -/
def parse_and_visit_statement.case_kw_function (X : Externals)
    (stmt : parse_statement_type → P Bool) (fuel : Nat) (t : token) :
    P (Option Bool) := do
  parse_and_visit_function_declaration X stmt fuel .normal t.begin_
    .required_for_statement
  pure (some true)

/-- The case `kw_const_or_kw_var` of the `switch` of `parse_and_visit_statement`. -/
def parse_and_visit_statement.case_kw_const_or_kw_var (X : Externals) (fuel : Nat) :
    P (Option Bool) := do
  parse_and_visit_variable_declaration_statement X fuel
  pure (some true)

/-- The case `kw_let` of the `switch` of `parse_and_visit_statement`; `t` is the token
at the head of the statement. -/
def parse_and_visit_statement.case_kw_let (X : Externals) (fuel : Nat)
    (statement_type : parse_statement_type) (t : token) :
    P (Option Bool) := do
  let let_token := t
  let transaction ← begin_transaction
  skip
  let t ← peek
  if t.type == .colon then
    commit_transaction transaction
    skip
    pure none
  else
    let is_reference ← X.is_let_token_a_variable_reference t
      (statement_type != .no_declarations)
    if is_reference then
      roll_back_transaction transaction
      let ast ← X.parse_expression { in_operator := true }
      X.visit_expression ast .rhs
      parse_and_visit_statement.parse_expression_end fuel
    else
      commit_transaction transaction
      parse_and_visit_let_bindings X fuel let_token true false false
      consume_semicolon_after_statement
    pure (some true)

/-- The case `kw_abstract` of the `switch` of `parse_and_visit_statement`; `t` is the token
at the head of the statement. -/
def parse_and_visit_statement.case_kw_abstract (X : Externals) (fuel : Nat) (t : token) :
    P (Option Bool) := do
  let s ← get_state
  let abstract_token := t.span
  let transaction ← begin_transaction
  skip
  let t ← peek
  if t.type == .kw_class && !t.has_leading_newline then
    commit_transaction transaction
    if !s.options.typescript then
      report .diag_typescript_abstract_class_not_allowed_in_javascript [abstract_token]
    X.parse_and_visit_class .required_for_statement
    pure (some true)
  else
    roll_back_transaction transaction
    parse_and_visit_statement.label_or_expression_starting_with_identifier X fuel

/-- The case `kw_declare` of the `switch` of `parse_and_visit_statement`. -/
def parse_and_visit_statement.case_kw_declare (X : Externals) (fuel : Nat) :
    P (Option Bool) := do
  let transaction ← begin_transaction
  skip
  let t ← peek
  if t.type == .kw_enum && !t.has_leading_newline then
    commit_transaction transaction
    parse_and_visit_typescript_enum X fuel .declare_enum
    pure (some true)
  else if t.type == .kw_const && !t.has_leading_newline then
    commit_transaction transaction
    skip
    QLJS_PARSER_UNIMPLEMENTED_IF_NOT_TOKEN .kw_enum
    parse_and_visit_typescript_enum X fuel .declare_const_enum
    pure (some true)
  else
    roll_back_transaction transaction
    parse_and_visit_statement.label_or_expression_starting_with_identifier X fuel

/-- The case `kw_async` of the `switch` of `parse_and_visit_statement`; `t` is the token
at the head of the statement. -/
def parse_and_visit_statement.case_kw_async (X : Externals)
    (stmt : parse_statement_type → P Bool) (fuel : Nat) (t : token) :
    P (Option Bool) := do
  let async_token := t
  skip
  let t ← peek
  if t.type == .kw_function then
    if t.has_leading_newline then
      visit_variable_use async_token.identifier_name
    else
      parse_and_visit_function_declaration X stmt fuel .async async_token.begin_
        .required_for_statement
    pure (some true)
  else if parse_and_visit_statement.is_async_expression_continuation t.type then
    let ast ← X.parse_async_expression async_token {}
    X.visit_expression ast .rhs
    pure (some true)
  else if t.type == .colon then
    skip
    pure none
  else
    QLJS_PARSER_UNIMPLEMENTED

/-- The case `kw_import` of the `switch` of `parse_and_visit_statement`. -/
def parse_and_visit_statement.case_kw_import (X : Externals) (fuel : Nat) :
    P (Option Bool) := do
  parse_and_visit_import X fuel
  pure (some true)

/-- The case `expression` of the `switch` of `parse_and_visit_statement`; `t` is the token
at the head of the statement. -/
def parse_and_visit_statement.case_expression (X : Externals)
    (stmt : parse_statement_type → P Bool) (fuel : Nat) (t : token) :
    P (Option Bool) := do
  let attributes ←
    if t.type == .star then X.try_parse_function_with_leading_star else pure none
  match attributes with
  | some attrs =>
    parse_and_visit_function_declaration X stmt fuel attrs t.begin_
      .required_for_statement
  | none =>
    parse_and_visit_expression X {}
    parse_and_visit_statement.parse_expression_end fuel
  pure (some true)

/-- The case `kw_await` of the `switch` of `parse_and_visit_statement`; `t` is the token
at the head of the statement. -/
def parse_and_visit_statement.case_kw_await (X : Externals) (fuel : Nat) (t : token) :
    P (Option Bool) := do
  let s ← get_state
  let await_token := t
  skip
  let t ← peek
  if t.type == .colon then
    if s.in_async_function then
      report .diag_label_named_await_not_allowed_in_async_function
        [await_token.span, t.span]
    skip
    pure none
  else
    let ast ← X.parse_await_expression await_token {}
    let ast ← X.parse_expression_remainder ast {}
    X.visit_expression ast .rhs
    parse_and_visit_statement.parse_expression_end fuel
    pure (some true)

/-- The case `kw_yield` of the `switch` of `parse_and_visit_statement`. -/
def parse_and_visit_statement.case_kw_yield (X : Externals) (fuel : Nat) :
    P (Option Bool) := do
  let s ← get_state
  if s.in_generator_function then
    parse_and_visit_expression X {}
    parse_and_visit_statement.parse_expression_end fuel
    pure (some true)
  else
    parse_and_visit_statement.label_or_expression_starting_with_identifier X fuel

/-- The case `reserved_keyword_with_escape_sequence` of the `switch` of `parse_and_visit_statement`; `t` is the token
at the head of the statement. -/
def parse_and_visit_statement.case_reserved_keyword_with_escape_sequence (X : Externals)
    (fuel : Nat) (t : token) :
    P (Option Bool) := do
  X.report_errors_for_escape_sequences_in_keyword t
  parse_and_visit_statement.label_or_expression_starting_with_identifier X fuel

/-- The case `kw_interface` of the `switch` of `parse_and_visit_statement`; `t` is the token
at the head of the statement. -/
def parse_and_visit_statement.case_kw_interface (X : Externals) (fuel : Nat) (t : token) :
    P (Option Bool) := do
  let s ← get_state
  if s.options.typescript then
    X.parse_and_visit_typescript_interface
    pure (some true)
  else
    let interface_keyword_span := t.span
    let transaction ← begin_transaction
    skip
    let t ← peek
    let is_typescript_interface := t.type == .identifier
    roll_back_transaction transaction
    if is_typescript_interface then
      report .diag_typescript_interfaces_not_allowed_in_javascript
        [interface_keyword_span]
      X.parse_and_visit_typescript_interface
      pure (some true)
    else
      parse_and_visit_statement.label_or_expression_starting_with_identifier X fuel

/-- The case `kw_type` of the `switch` of `parse_and_visit_statement`; `t` is the token
at the head of the statement. -/
def parse_and_visit_statement.case_kw_type (X : Externals) (fuel : Nat) (t : token) :
    P (Option Bool) := do
  let type_span := t.span
  let transaction ← begin_transaction
  skip
  let t ← peek
  if t.type == .colon then
    commit_transaction transaction
    skip
    pure none
  else if parse_and_visit_statement.is_type_alias_name t.type
      && !t.has_leading_newline then
    parse_and_visit_typescript_type_alias X fuel type_span
    pure (some true)
  else
    roll_back_transaction transaction
    parse_and_visit_expression X {}
    parse_and_visit_statement.parse_expression_end fuel
    pure (some true)

/-- The case `kw_class` of the `switch` of `parse_and_visit_statement`. -/
def parse_and_visit_statement.case_kw_class (X : Externals) :
    P (Option Bool) := do
  X.parse_and_visit_class .required_for_statement
  pure (some true)

/-- The case `kw_switch` of the `switch` of `parse_and_visit_statement`. -/
def parse_and_visit_statement.case_kw_switch (X : Externals)
    (stmt : parse_statement_type → P Bool) (fuel : Nat) :
    P (Option Bool) := do
  with_switch_guard (parse_and_visit_switch X stmt fuel)
  pure (some true)

/-- The case `kw_return` of the `switch` of `parse_and_visit_statement`; `t` is the token
at the head of the statement. -/
def parse_and_visit_statement.case_kw_return (X : Externals) (fuel : Nat)
    (statement_type : parse_statement_type) (t : token) :
    P (Option Bool) := do
  let return_span := t.span
  skip
  let t ← peek
  if t.type == .semicolon then
    skip
  else if t.type == .right_curly then
    pure ()
  else if t.has_leading_newline then
    if parse_and_visit_statement.is_expression_start_after_return t.type then
      if statement_type == .any_statement_in_block then
        report .diag_return_statement_returns_nothing [return_span]
  else
    parse_and_visit_expression X {}
    parse_and_visit_statement.parse_expression_end fuel
  pure (some true)

/-- The case `kw_throw` of the `switch` of `parse_and_visit_statement`. -/
def parse_and_visit_statement.case_kw_throw (X : Externals) (fuel : Nat) :
    P (Option Bool) := do
  skip
  let t ← peek
  if t.type == .semicolon then
    report .diag_expected_expression_before_semicolon [t.span]
    skip
  else if t.has_leading_newline then
    insert_semicolon
    let semi ← peek
    report .diag_expected_expression_before_newline [semi.span]
    skip
  else
    parse_and_visit_expression X {}
    parse_and_visit_statement.parse_expression_end fuel
  pure (some true)

/-- The case `kw_try` of the `switch` of `parse_and_visit_statement`. -/
def parse_and_visit_statement.case_kw_try (X : Externals)
    (stmt : parse_statement_type → P Bool) (fuel : Nat) :
    P (Option Bool) := do
  parse_and_visit_try_maybe_catch_maybe_finally X stmt fuel
  pure (some true)

/-- The case `kw_catch` of the `switch` of `parse_and_visit_statement`; `t` is the token
at the head of the statement. -/
def parse_and_visit_statement.case_kw_catch (X : Externals)
    (stmt : parse_statement_type → P Bool) (fuel : Nat) (t : token) :
    P (Option Bool) := do
  report .diag_catch_without_try [t.span]
  let _ ← parse_and_visit_catch_or_finally_or_both X stmt fuel
  pure (some true)

/-- The case `kw_finally` of the `switch` of `parse_and_visit_statement`; `t` is the token
at the head of the statement. -/
def parse_and_visit_statement.case_kw_finally (X : Externals)
    (stmt : parse_statement_type → P Bool) (fuel : Nat) (t : token) :
    P (Option Bool) := do
  report .diag_finally_without_try [t.span]
  let _ ← parse_and_visit_catch_or_finally_or_both X stmt fuel
  pure (some true)

/-- The case `kw_do` of the `switch` of `parse_and_visit_statement`. -/
def parse_and_visit_statement.case_kw_do (X : Externals)
    (stmt : parse_statement_type → P Bool) :
    P (Option Bool) := do
  with_loop_guard (parse_and_visit_do_while X stmt)
  pure (some true)

/-- The case `kw_for` of the `switch` of `parse_and_visit_statement`. -/
def parse_and_visit_statement.case_kw_for (X : Externals)
    (stmt : parse_statement_type → P Bool) (fuel : Nat) :
    P (Option Bool) := do
  with_loop_guard (parse_and_visit_for X stmt fuel)
  pure (some true)

/-- The case `kw_while` of the `switch` of `parse_and_visit_statement`. -/
def parse_and_visit_statement.case_kw_while (X : Externals)
    (stmt : parse_statement_type → P Bool) :
    P (Option Bool) := do
  with_loop_guard (parse_and_visit_while X stmt)
  pure (some true)

/-- The case `kw_with` of the `switch` of `parse_and_visit_statement`. -/
def parse_and_visit_statement.case_kw_with (X : Externals)
    (stmt : parse_statement_type → P Bool) :
    P (Option Bool) := do
  parse_and_visit_with X stmt
  pure (some true)

/-- The case `kw_if` of the `switch` of `parse_and_visit_statement`. -/
def parse_and_visit_statement.case_kw_if (X : Externals)
    (stmt : parse_statement_type → P Bool) (fuel : Nat) :
    P (Option Bool) := do
  parse_and_visit_if X stmt fuel
  pure (some true)

/-- The case `kw_else` of the `switch` of `parse_and_visit_statement`; `t` is the token
at the head of the statement. -/
def parse_and_visit_statement.case_kw_else (X : Externals)
    (stmt : parse_statement_type → P Bool)
    (t : token) :
    P (Option Bool) := do
  report .diag_else_has_no_if [t.span]
  skip
  let parsed_else_body ← stmt X.default_statement_type
  if !parsed_else_body then
    QLJS_PARSER_UNIMPLEMENTED
  pure (some true)

/-- The case `kw_break_or_kw_continue` of the `switch` of `parse_and_visit_statement`; `t` is the token
at the head of the statement. -/
def parse_and_visit_statement.case_kw_break_or_kw_continue (t : token) :
    P (Option Bool) := do
  let s ← get_state
  let is_break := t.type == .kw_break
  let token_span := t.span
  skip
  let t ← peek
  if parse_and_visit_statement.is_label_after_break t.type then
    if t.has_leading_newline then
      insert_semicolon
    else
      skip
  else
    if is_break then
      if !(s.in_switch_statement || s.in_loop_statement) then
        report .diag_invalid_break [token_span]
    else
      if !s.in_loop_statement then
        report .diag_invalid_continue [token_span]
  consume_semicolon_after_statement
  pure (some true)

/-- The case `kw_debugger` of the `switch` of `parse_and_visit_statement`. -/
def parse_and_visit_statement.case_kw_debugger :
    P (Option Bool) := do
  skip
  consume_semicolon_after_statement
  pure (some true)

/-- The case `kw_enum` of the `switch` of `parse_and_visit_statement`. -/
def parse_and_visit_statement.case_kw_enum (X : Externals) (fuel : Nat) :
    P (Option Bool) := do
  parse_and_visit_typescript_enum X fuel .normal
  pure (some true)

/-- The case `left_curly` of the `switch` of `parse_and_visit_statement`. -/
def parse_and_visit_statement.case_left_curly
    (stmt : parse_statement_type → P Bool) (fuel : Nat) :
    P (Option Bool) := do
  visit_enter_block_scope
  parse_and_visit_statement_block_no_scope stmt fuel
  visit_exit_block_scope
  pure (some true)

/-- The case `kw_case` of the `switch` of `parse_and_visit_statement`; `t` is the token
at the head of the statement. -/
def parse_and_visit_statement.case_kw_case (X : Externals) (t : token) :
    P (Option Bool) := do
  report .diag_unexpected_case_outside_switch_statement [t.span]
  skip
  parse_and_visit_expression X {}
  let t ← peek
  if t.type == .colon then
    skip
  pure (some true)

/-- The case `kw_default` of the `switch` of `parse_and_visit_statement`; `t` is the token
at the head of the statement. -/
def parse_and_visit_statement.case_kw_default (t : token) :
    P (Option Bool) := do
  report .diag_unexpected_default_outside_switch_statement [t.span]
  skip
  let t ← peek
  if t.type == .colon then
    skip
  pure (some true)

/-- The case `unexpected_token` of the `switch` of `parse_and_visit_statement`; `t` is the token
at the head of the statement. -/
def parse_and_visit_statement.case_unexpected_token (t : token) :
    P (Option Bool) := do
  report .diag_unexpected_token [t.span]
  skip
  pure (some true)

/-- The `switch` of `parse_and_visit_statement`, entered at the label `parse_statement`.
The result is none where the source jumps back to `parse_statement` (after a label), and
the value the function returns otherwise.  The argument `stmt` is the recursive call
`this->parse_and_visit_statement(v, _)`. -/
def parse_and_visit_statement.dispatch (X : Externals)
    (stmt : parse_statement_type → P Bool) (fuel : Nat)
    (statement_type : parse_statement_type) : P (Option Bool) := do
  let t ← peek
  if t.type == .kw_export then
    parse_and_visit_statement.case_kw_export X stmt fuel
  else if t.type == .semicolon then
    parse_and_visit_statement.case_semicolon
  else if t.type == .kw_function then
    parse_and_visit_statement.case_kw_function X stmt fuel t
  else if t.type == .kw_const || t.type == .kw_var then
    parse_and_visit_statement.case_kw_const_or_kw_var X fuel
  else if t.type == .kw_let then
    parse_and_visit_statement.case_kw_let X fuel statement_type t
  else if t.type == .kw_abstract then
    parse_and_visit_statement.case_kw_abstract X fuel t
  else if t.type == .kw_declare then
    parse_and_visit_statement.case_kw_declare X fuel
  else if t.type == .kw_async then
    parse_and_visit_statement.case_kw_async X stmt fuel t
  else if t.type == .kw_import then
    parse_and_visit_statement.case_kw_import X fuel
  else if parse_and_visit_statement.is_expression_start t.type then
    parse_and_visit_statement.case_expression X stmt fuel t
  else if t.type == .kw_await then
    parse_and_visit_statement.case_kw_await X fuel t
  else if t.type == .kw_yield then
    parse_and_visit_statement.case_kw_yield X fuel
  else if parse_and_visit_statement.is_identifier_start t.type then
    parse_and_visit_statement.label_or_expression_starting_with_identifier X fuel
  else if t.type == .reserved_keyword_with_escape_sequence then
    parse_and_visit_statement.case_reserved_keyword_with_escape_sequence X fuel t
  else if t.type == .kw_interface then
    parse_and_visit_statement.case_kw_interface X fuel t
  else if t.type == .kw_type then
    parse_and_visit_statement.case_kw_type X fuel t
  else if t.type == .kw_implements || t.type == .kw_package || t.type == .kw_private
      || t.type == .kw_protected || t.type == .kw_public then
    parse_and_visit_statement.label_or_expression_starting_with_identifier X fuel
  else if t.type == .kw_class then
    parse_and_visit_statement.case_kw_class X
  else if t.type == .kw_switch then
    parse_and_visit_statement.case_kw_switch X stmt fuel
  else if t.type == .kw_return then
    parse_and_visit_statement.case_kw_return X fuel statement_type t
  else if t.type == .kw_throw then
    parse_and_visit_statement.case_kw_throw X fuel
  else if t.type == .kw_try then
    parse_and_visit_statement.case_kw_try X stmt fuel
  else if t.type == .kw_catch then
    parse_and_visit_statement.case_kw_catch X stmt fuel t
  else if t.type == .kw_finally then
    parse_and_visit_statement.case_kw_finally X stmt fuel t
  else if t.type == .kw_do then
    parse_and_visit_statement.case_kw_do X stmt
  else if t.type == .kw_for then
    parse_and_visit_statement.case_kw_for X stmt fuel
  else if t.type == .kw_while then
    parse_and_visit_statement.case_kw_while X stmt
  else if t.type == .kw_with then
    parse_and_visit_statement.case_kw_with X stmt
  else if t.type == .kw_if then
    parse_and_visit_statement.case_kw_if X stmt fuel
  else if t.type == .kw_else then
    parse_and_visit_statement.case_kw_else X stmt t
  else if t.type == .kw_break || t.type == .kw_continue then
    parse_and_visit_statement.case_kw_break_or_kw_continue t
  else if t.type == .kw_debugger then
    parse_and_visit_statement.case_kw_debugger
  else if t.type == .kw_enum then
    parse_and_visit_statement.case_kw_enum X fuel
  else if t.type == .left_curly then
    parse_and_visit_statement.case_left_curly stmt fuel
  else if t.type == .kw_case then
    parse_and_visit_statement.case_kw_case X t
  else if t.type == .kw_default then
    parse_and_visit_statement.case_kw_default t
  else if t.type == .colon || t.type == .kw_extends || t.type == .question then
    parse_and_visit_statement.case_unexpected_token t
  else if t.type == .end_of_file || t.type == .right_curly then
    pure (some false)
  else
    QLJS_PARSER_UNIMPLEMENTED

/-- The label `parse_statement` of `parse_and_visit_statement`: the `switch`, entered
again after each label. -/
def parse_and_visit_statement.parse_statement (X : Externals)
    (stmt : parse_statement_type → P Bool) (statement_type : parse_statement_type) :
    Nat → P Bool
  | 0 => out_of_fuel
  | fuel + 1 => do
    let r ← parse_and_visit_statement.dispatch X stmt fuel statement_type
    match r with
    | some returned => pure returned
    | none => parse_and_visit_statement.parse_statement X stmt statement_type fuel

/-- The function `parser::parse_and_visit_statement`. -/
def parse_and_visit_statement (X : Externals) : Nat → parse_statement_type → P Bool
  | 0, _ => out_of_fuel
  | fuel + 1, statement_type => do
    depth_guard_enter X
    let r ← parse_and_visit_statement.parse_statement X (parse_and_visit_statement X fuel)
      statement_type fuel
    depth_guard_exit
    pure r

/-- The loop `while (!done)` of `parse_and_visit_module`. -/
def parse_and_visit_module.loop (X : Externals) : Nat → P Unit
  | 0 => out_of_fuel
  | fuel + 1 => do
    let parsed_statement ← parse_and_visit_statement X fuel .any_statement_in_block
    if !parsed_statement then
      let t ← peek
      if t.type == .end_of_file then
        pure ()
      else if t.type == .right_curly then
        report .diag_unmatched_right_curly [t.span]
        skip
        parse_and_visit_module.loop X fuel
      else
        QLJS_PARSER_UNIMPLEMENTED
    else
      parse_and_visit_module.loop X fuel

/-- The function `parser::parse_and_visit_module`. -/
def parse_and_visit_module (X : Externals) (fuel : Nat) : P Unit := do
  parse_and_visit_module.loop X fuel
  visit_end_of_module

/-! ## A small instance of the external parts -/

/-- Modelled from the spec: a walk of a completed expression that emits a variable-use
event for each variable read and a variable-assignment event for each variable written;
the sample `visit_expression` of `sample_externals` (the real one is in a file that is not
among the sources). -/
def sample_visit_expression : expression → variable_context → P Unit
  | .mk kind f children _, context =>
    match kind with
    | .variable =>
      match context with
      | .rhs => visit (.visit_variable_use f.variable_identifier)
      | .lhs => pure ()
    | .assignment =>
      match children with
      | [.mk .variable lf _ _, .mk .variable rf _ _] => do
        visit (.visit_variable_use rf.variable_identifier)
        visit (.visit_variable_assignment lf.variable_identifier)
      | [.mk .variable lf _ _, _] => visit (.visit_variable_assignment lf.variable_identifier)
      | _ => pure ()
    | .binary_operator =>
      match children with
      | [.mk .variable lf _ _, .mk .variable rf _ _] => do
        visit (.visit_variable_use lf.variable_identifier)
        visit (.visit_variable_use rf.variable_identifier)
      | [.mk .variable lf _ _, _] => visit (.visit_variable_use lf.variable_identifier)
      | [_, .mk .variable rf _ _] => visit (.visit_variable_use rf.variable_identifier)
      | _ => pure ()
    | _ => pure ()

/-- Modelled from the spec: a primary expression of the sample expression parser: an
identifier-shaped token is a `variable`, a number or string a `literal`; any other token
is the parser-unimplemented signal. -/
def sample_parse_primary : P expression := do
  let t ← peek
  if t.type == .identifier || is_contextual_keyword t.type then
    skip
    pure (make_expression_variable t.identifier_name t.type)
  else if t.type == .number || t.type == .string then
    skip
    pure (.mk .literal { span := t.span } [] [])
  else
    QLJS_PARSER_UNIMPLEMENTED

/-- Modelled from the spec: the sample `parse_expression_remainder`: after `lhs`, an
optional `= primary`, then an optional `in primary` where the precedence allows the `in`
operator. -/
def sample_parse_expression_remainder (lhs : expression) (prec : precedence) :
    P expression := do
  let t ← peek
  let e1 ←
    if t.type == .equal then do
      skip
      let rhs ← sample_parse_primary
      pure (expression.mk .assignment
        { span := ⟨lhs.span.begin_, rhs.span.end_⟩, operator_span := t.span } [lhs, rhs] [])
    else
      pure lhs
  let t ← peek
  if t.type == .kw_in && prec.in_operator then
    skip
    let rhs ← sample_parse_primary
    match e1 with
    | .mk .assignment f [l, r] es =>
      pure (.mk .assignment f
        [l, .mk .binary_operator { span := ⟨r.span.begin_, rhs.span.end_⟩ } [r, rhs] []] es)
    | _ =>
      pure (.mk .binary_operator { span := ⟨e1.span.begin_, rhs.span.end_⟩ } [e1, rhs] [])
  else
    pure e1

/-- Modelled from the spec: the sample `parse_expression`. -/
def sample_parse_expression (prec : precedence) : P expression := do
  let lhs ← sample_parse_primary
  sample_parse_expression_remainder lhs prec

/-- Modelled from the spec: the sample `is_let_token_a_variable_reference`: `let` starts
a declaration when the next token starts a binding pattern or is an identifier-like
name, and is an expression otherwise. -/
def sample_is_let_token_a_variable_reference (following_token : token)
    (_allow_declarations : Bool) : P Bool :=
  pure !(following_token.type == .left_square || following_token.type == .left_curly
    || following_token.type == .identifier || is_contextual_keyword following_token.type)

/-- Modelled from the spec: the sample `enter_function`: the function context flags follow
the attributes; a function body is neither in a loop nor in a switch. -/
def sample_enter_function (attributes : function_attributes) : P Unit := fun s =>
  .ok () { s with
    in_async_function := attributes == .async || attributes == .async_generator,
    in_generator_function := attributes == .generator || attributes == .async_generator,
    in_loop_statement := false,
    in_switch_statement := false }

/-- A small instance of the external parts: the sample expression parser above, a stack
limit of 150, and for every other part the parser-unimplemented signal or no action. -/
def sample_externals : Externals where
  stack_limit := 150
  default_statement_type := .any_statement
  parse_expression := sample_parse_expression
  parse_expression_remainder := sample_parse_expression_remainder
  parse_async_expression := fun _ _ => QLJS_PARSER_UNIMPLEMENTED
  parse_await_expression := fun _ _ => QLJS_PARSER_UNIMPLEMENTED
  visit_expression := sample_visit_expression
  visit_assignment_expression := fun lhs rhs => do
    sample_visit_expression rhs .rhs
    sample_visit_expression lhs .lhs
  maybe_visit_assignment := fun _ => pure ()
  parse_and_visit_class := fun _ => QLJS_PARSER_UNIMPLEMENTED
  parse_and_visit_typescript_interface := QLJS_PARSER_UNIMPLEMENTED
  parse_and_visit_typescript_type_expression := QLJS_PARSER_UNIMPLEMENTED
  parse_and_visit_typescript_colon_type_expression := QLJS_PARSER_UNIMPLEMENTED
  parse_and_visit_parenthesized_expression := fun _ _ _ => QLJS_PARSER_UNIMPLEMENTED
  is_let_token_a_variable_reference := sample_is_let_token_a_variable_reference
  try_parse_function_with_leading_star := pure none
  parse_generator_star := fun attributes => pure attributes
  enter_function := sample_enter_function
  error_on_class_statement := fun _ => pure ()
  error_on_function_statement := fun _ => pure ()
  error_on_lexical_declaration := fun _ => pure ()
  error_on_sketchy_condition := fun _ => pure ()
  is_maybe_function_statement := pure false
  report_errors_for_escape_sequences_in_keyword := fun _ => pure ()

/-- A token of the given type at byte range `[b, e)`, with no leading newline. -/
def tok (type : token_type) (b e : Nat) : token :=
  { type := type, begin_ := b, end_ := e, has_leading_newline := false,
    normalized_identifier := "" }

/-- An identifier token with the given name at byte range `[b, e)`. -/
def ident_tok (name : String) (b e : Nat) : token :=
  { type := .identifier, begin_ := b, end_ := e, has_leading_newline := false,
    normalized_identifier := name }

/-- The same token, on a new line. -/
def token.on_new_line (t : token) : token := { t with has_leading_newline := true }

/-- The state of a fresh parser over a token list. -/
def initial_state (input : List token) : PState := { input := input }

/-! ## Vocabulary of the properties -/

/-- The state in which the `switch` of `parse_and_visit_statement` is entered for the
last time, after every label prefix has been skipped: the state at which dispatch finally
lands.  It follows the loop of `parse_and_visit_statement.parse_statement`. -/
def parse_and_visit_statement.landing (X : Externals)
    (stmt : parse_statement_type → P Bool) (statement_type : parse_statement_type) :
    Nat → PState → Option PState
  | 0, _ => none
  | fuel + 1, s =>
    match parse_and_visit_statement.dispatch X stmt fuel statement_type s with
    | .ok none s1 => parse_and_visit_statement.landing X stmt statement_type fuel s1
    | _ => some s

/-- Every value that `m` returns satisfies `Q`. -/
def Returns {α : Type} (Q : α → Prop) (m : P α) : Prop :=
  ∀ s a s1, m s = .ok a s1 → Q a

/-- The contained statements of a block or of a module: `contained_statements stmt n s s1`
holds when, from the state `s`, `n` calls of `stmt` in turn each parse a statement
(return true) and the next call returns false, in the state `s1`. -/
inductive contained_statements (stmt : P Bool) : Nat → PState → PState → Prop where
  | declined (s s1 : PState) (h : stmt s = .ok false s1) : contained_statements stmt 0 s s1
  | parsed (n : Nat) (s s1 s2 : PState) (h : stmt s = .ok true s1)
      (rest : contained_statements stmt n s1 s2) : contained_statements stmt (n + 1) s s2

/-- The diagnostic `diag_unclosed_code_block` on the span of a `{` token. -/
def unclosed_code_block_of (left_curly : token) : Diag :=
  { type := .diag_unclosed_code_block, spans := [left_curly.span] }


/-- One entry of a list of named exports as it stands in the token stream: the name, an
optional `as` token with the alias after it, and an optional comma. -/
structure named_export_item where
  name : token
  alias_ : Option (token × token) := none
  comma : Option token := none
deriving DecidableEq, Repr

/-- The tokens of one entry, in source order. -/
def named_export_item.tokens (i : named_export_item) : List token :=
  i.name :: ((match i.alias_ with
              | some (as_token, alias_token) => [as_token, alias_token]
              | none => []) ++ i.comma.toList)

/-- An entry whose name is a non-keyword identifier, whose alias (if any) follows an `as`
and is a token that `export` accepts as an alias, and whose comma (if any) is a comma. -/
def named_export_item.is_plain (i : named_export_item) : Bool :=
  i.name.type == .identifier
    && (match i.alias_ with
        | some (as_token, alias_token) =>
          as_token.type == .kw_as && is_export_alias_token alias_token.type
        | none => true)
    && (match i.comma with
        | some c => c.type == .comma
        | none => true)

/-- The tokens of a list of entries, in source order. -/
def named_export_tokens : List named_export_item → List token
  | [] => []
  | i :: rest => i.tokens ++ named_export_tokens rest

/-- The events `visit_variable_export_use` on the names of a list of entries. -/
def named_export_uses (items : List named_export_item) : List Event :=
  items.map (fun i => .visit_variable_export_use i.name.identifier_name)


/-- The event `visit_enter_for_scope` where `parse_and_visit_for` emits it: before a
declaration with `const` or `let` (the flag `entered_for_scope`), and not otherwise. -/
def for_scope_enter (declaring_token : token) : List Event :=
  if declaring_token.type == .kw_const || declaring_token.type == .kw_let then
    [.visit_enter_scope .for_]
  else
    []

/-- The event `visit_exit_for_scope` where `parse_and_visit_for` emits it: at the end of a
loop with `entered_for_scope` set. -/
def for_scope_exit (declaring_token : token) : List Event :=
  if declaring_token.type == .kw_const || declaring_token.type == .kw_let then
    [.visit_exit_scope .for_]
  else
    []


/-- Modelled from the spec: the sample externals with a type-expression parser that takes
one token as the type (the real one is in a file that is not among the sources). -/
def sample_externals_with_types : Externals :=
  { sample_externals with parse_and_visit_typescript_type_expression := skip }


/-- Modelled from the spec: the sample `parse_expression_remainder` with two more
operators: after `lhs`, a comparison `< primary` or an empty argument list `()` (a call);
otherwise as `sample_parse_expression_remainder`. -/
def operator_sample_parse_expression_remainder (lhs : expression) (prec : precedence) :
    P expression := do
  let t ← peek
  if t.type == .less then
    skip
    let rhs ← sample_parse_primary
    pure (.mk .binary_operator { span := ⟨lhs.span.begin_, rhs.span.end_⟩ } [lhs, rhs] [])
  else if t.type == .left_paren then
    skip
    QLJS_PARSER_UNIMPLEMENTED_IF_NOT_TOKEN .right_paren
    let rp ← peek
    skip
    pure (.mk .call { span := ⟨lhs.span.begin_, rp.end_⟩ } [lhs] [])
  else
    sample_parse_expression_remainder lhs prec

/-- Modelled from the spec: the sample `parse_expression` with a prefix `++`. -/
def operator_sample_parse_expression (prec : precedence) : P expression := do
  let t ← peek
  if t.type == .plus_plus then
    skip
    let operand ← sample_parse_primary
    pure (.mk .rw_unary_prefix_ { span := ⟨t.begin_, operand.span.end_⟩,
                                  operator_span := t.span } [operand] [])
  else
    let lhs ← sample_parse_primary
    operator_sample_parse_expression_remainder lhs prec

/-- Modelled from the spec: the sample `visit_expression` with the two more node kinds: a
prefix `++` reads its operand and then assigns to it, a call reads its callee. -/
def operator_sample_visit_expression : expression → variable_context → P Unit
  | .mk .rw_unary_prefix_ _ [.mk .variable f _ _] _, _ => do
    visit (.visit_variable_use f.variable_identifier)
    visit (.visit_variable_assignment f.variable_identifier)
  | .mk .call _ [.mk .variable f _ _] _, _ =>
    visit (.visit_variable_use f.variable_identifier)
  | e, context => sample_visit_expression e context

/-- Modelled from the spec: the sample externals with the expression parser and the
expression walk above. -/
def operator_sample_externals : Externals :=
  { sample_externals with
    parse_expression := operator_sample_parse_expression
    parse_expression_remainder := operator_sample_parse_expression_remainder
    visit_expression := operator_sample_visit_expression }


/-- Modelled from the spec: the sample externals with a `parse_async_expression` that takes
the token `async` as a variable and parses the rest of the expression after it (the real
one is in a file that is not among the sources). -/
def async_sample_externals : Externals :=
  { sample_externals with
    parse_async_expression := fun async_token prec =>
      sample_parse_expression_remainder
        (make_expression_variable async_token.identifier_name async_token.type) prec }


/-! ## Vocabulary of the properties of whole runs -/

/-- The stack of open scopes (innermost first) after a list of events, starting from a
stack of open scopes; `none` when an exit event does not match the innermost open
scope. -/
def scope_stack_after : List scope_kind → List Event → Option (List scope_kind)
  | st, [] => some st
  | st, .visit_enter_scope k :: es => scope_stack_after (k :: st) es
  | [], .visit_exit_scope _ :: _ => none
  | k1 :: st, .visit_exit_scope k :: es =>
    if k = k1 then scope_stack_after st es else none
  | st, .visit_variable_declaration _ _ _ :: es => scope_stack_after st es
  | st, .visit_variable_use _ :: es => scope_stack_after st es
  | st, .visit_variable_export_use _ :: es => scope_stack_after st es
  | st, .visit_variable_type_use _ :: es => scope_stack_after st es
  | st, .visit_variable_assignment _ :: es => scope_stack_after st es
  | st, .visit_enter_function_scope_body :: es => scope_stack_after st es
  | st, .visit_end_of_module :: es => scope_stack_after st es

/-- Every `visit_enter_X_scope` of the list has its `visit_exit_X_scope` later in the
list, properly nested, and there is no other exit event. -/
def scopes_balanced (es : List Event) : Prop := scope_stack_after [] es = some []

/-- An event other than a scope entry, a scope exit and `visit_end_of_module`. -/
def Event.is_plain : Event → Bool
  | .visit_enter_scope _ | .visit_exit_scope _ | .visit_end_of_module => false
  | _ => true

/-- The four context flags of a state: `in_async_function`, `in_generator_function`,
`in_loop_statement`, `in_switch_statement`. -/
@[reducible] def PState.flags (s : PState) : Bool × Bool × Bool × Bool :=
  (s.in_async_function, s.in_generator_function, s.in_loop_statement, s.in_switch_statement)

/-- A point of a run of the parser, as the properties of whole runs see it: the scopes
that are open (innermost first), the number of buffering visitors pushed and not yet
popped, and whether the run is inside a `function_guard`, which restores the context
flags when it is left. -/
structure parse_point where
  scopes : List scope_kind
  buffers : Nat
  in_function_guard : Bool

/-- A relation `R i j s s1` between the state `s` at the point `i` of a run and the state
`s1` at a later point `j`. -/
abbrev StateRel : Type := parse_point → parse_point → PState → PState → Prop

/-- What a relation between states must satisfy to be followed through the parser: it
composes, it holds across every step that leaves the delivered events, the buffering
visitors and the context flags alone, and it holds across the few steps that touch them.
`G` says which recorded event lists may be replayed. -/
structure StateRel.laws (G : List Event → Prop) (R : StateRel) : Prop where
  good_nil : G []
  trans : ∀ i j k s t u, R i j s t → R j k t u → R i k s u
  frame : ∀ i s s1, s1.out = s.out →
    s1.buffering_visitor_stack = s.buffering_visitor_stack → s1.flags = s.flags → R i i s s1
  guarded_frame : ∀ a n s s1, s1.out = s.out →
    s1.buffering_visitor_stack = s.buffering_visitor_stack → R ⟨a, n, true⟩ ⟨a, n, true⟩ s s1
  function_guard : ∀ a n g s s1, R ⟨a, n, true⟩ ⟨a, n, true⟩ s s1 →
    R ⟨a, n, g⟩ ⟨a, n, g⟩ s
      { s1 with
        in_async_function := s.in_async_function
        in_generator_function := s.in_generator_function
        in_loop_statement := s.in_loop_statement
        in_switch_statement := s.in_switch_statement }
  loop_guard : ∀ i j s s1, R i j { s with in_loop_statement := true } s1 →
    R i j s { s1 with in_loop_statement := s.in_loop_statement }
  switch_guard : ∀ i j s s1, R i j { s with in_switch_statement := true } s1 →
    R i j s { s1 with in_switch_statement := s.in_switch_statement }
  plain : ∀ i s e, e.is_plain = true → R i i s { s with out := s.out ++ [e] }
  enter_scope : ∀ a n g s k,
    R ⟨a, n, g⟩ ⟨k :: a, n, g⟩ s { s with out := s.out ++ [.visit_enter_scope k] }
  exit_scope : ∀ a n g s k,
    R ⟨k :: a, n, g⟩ ⟨a, n, g⟩ s { s with out := s.out ++ [.visit_exit_scope k] }
  replay : ∀ i s es, G es → R i i s { s with out := s.out ++ es }
  discard : ∀ i s s1, R i i { s with out := [] } s1 → R i i s { s1 with out := s.out }
  buffer : ∀ a n g s s1, (∀ b, R ⟨b, n + 1, g⟩ ⟨b, n + 1, g⟩ { s with out := [] } s1) →
    R ⟨a, n + 1, g⟩ ⟨a, n + 1, g⟩ s
      { s1 with
        out := s.out
        buffering_visitor_stack :=
          (s1.buffering_visitor_stack.headD [] ++ s1.out) :: s1.buffering_visitor_stack.tail }
  move_into : ∀ a n g s,
    R ⟨a, n + 1, g⟩ ⟨a, n + 1, g⟩ s
      { s with out := s.out ++ s.buffering_visitor_stack.headD [] }
  emplace : ∀ a n g s,
    R ⟨a, n, g⟩ ⟨a, n + 1, g⟩ s
      { s with buffering_visitor_stack := [] :: s.buffering_visitor_stack }
  pop : ∀ a n g s,
    R ⟨a, n + 1, g⟩ ⟨a, n, g⟩ s
      { s with buffering_visitor_stack := s.buffering_visitor_stack.tail }

/-- The piece `m` of the parser, started at the point `i`, when it returns is at the point
`j`, the states before and after are related by `R`, and the value returned satisfies
`Q`. -/
structure Sat {α : Type} (R : StateRel) (i j : parse_point) (Q : α → Prop) (m : P α) :
    Prop where
  run : ∀ s x s1, m s = .ok x s1 → R i j s s1 ∧ Q x

mutual
/-- The buffered visits of the type annotations in an expression tree. -/
def expression.type_annotations : expression → List (List Event)
  | .mk _ f children object_entries =>
    f.type_annotation :: (expression.type_annotations_of_list children
      ++ expression.type_annotations_of_entries object_entries)
/-- The buffered visits of the type annotations in a list of expression trees. -/
def expression.type_annotations_of_list : List expression → List (List Event)
  | [] => []
  | e :: rest => e.type_annotations ++ expression.type_annotations_of_list rest
/-- The buffered visits of the type annotations in the entries of an object literal. -/
def expression.type_annotations_of_entries :
    List object_property_value_pair → List (List Event)
  | [] => []
  | .mk property value init :: rest =>
    (match property with
     | some p => p.type_annotations
     | none => [])
    ++ value.type_annotations
    ++ (match init with
        | some i => i.type_annotations
        | none => [])
    ++ expression.type_annotations_of_entries rest
end

/-- Every buffered visit in the tree may be replayed. -/
def expression.well_formed (G : List Event → Prop) (e : expression) : Prop :=
  ∀ b ∈ e.type_annotations, G b

/-- What the properties of whole runs ask of the parts of the parser that are defined in
other files: whenever one of them returns, the point of the run is the one at which it
was called and the states before and after are related (an expression walk is asked this
only of a tree whose buffered visits may be replayed; `enter_function` is asked this only
inside a function guard), and the expression trees it builds hold only buffered visits
that may be replayed. -/
structure Externals.respects (G : List Event → Prop) (R : StateRel) (X : Externals) :
    Prop where
  parse_expression :
    ∀ prec i, Sat R i i (expression.well_formed G) (X.parse_expression prec)
  parse_expression_remainder : ∀ e prec i, e.well_formed G →
    Sat R i i (expression.well_formed G) (X.parse_expression_remainder e prec)
  parse_async_expression :
    ∀ t prec i, Sat R i i (expression.well_formed G) (X.parse_async_expression t prec)
  parse_await_expression :
    ∀ t prec i, Sat R i i (expression.well_formed G) (X.parse_await_expression t prec)
  visit_expression : ∀ e context i, e.well_formed G →
    Sat R i i (fun _ => True) (X.visit_expression e context)
  visit_assignment_expression : ∀ lhs rhs i, lhs.well_formed G → rhs.well_formed G →
    Sat R i i (fun _ => True) (X.visit_assignment_expression lhs rhs)
  maybe_visit_assignment : ∀ e i, e.well_formed G →
    Sat R i i (fun _ => True) (X.maybe_visit_assignment e)
  parse_and_visit_class : ∀ r i, Sat R i i (fun _ => True) (X.parse_and_visit_class r)
  parse_and_visit_typescript_interface :
    ∀ i, Sat R i i (fun _ => True) X.parse_and_visit_typescript_interface
  parse_and_visit_typescript_type_expression :
    ∀ i, Sat R i i (fun _ => True) X.parse_and_visit_typescript_type_expression
  parse_and_visit_typescript_colon_type_expression :
    ∀ i, Sat R i i (fun _ => True) X.parse_and_visit_typescript_colon_type_expression
  parse_and_visit_parenthesized_expression : ∀ d1 d2 c i,
    Sat R i i (fun _ => True) (X.parse_and_visit_parenthesized_expression d1 d2 c)
  is_let_token_a_variable_reference :
    ∀ t d i, Sat R i i (fun _ => True) (X.is_let_token_a_variable_reference t d)
  try_parse_function_with_leading_star :
    ∀ i, Sat R i i (fun _ => True) X.try_parse_function_with_leading_star
  parse_generator_star :
    ∀ attributes i, Sat R i i (fun _ => True) (X.parse_generator_star attributes)
  enter_function : ∀ attributes a n,
    Sat R ⟨a, n, true⟩ ⟨a, n, true⟩ (fun _ => True) (X.enter_function attributes)
  error_on_class_statement :
    ∀ k i, Sat R i i (fun _ => True) (X.error_on_class_statement k)
  error_on_function_statement :
    ∀ k i, Sat R i i (fun _ => True) (X.error_on_function_statement k)
  error_on_lexical_declaration :
    ∀ k i, Sat R i i (fun _ => True) (X.error_on_lexical_declaration k)
  error_on_sketchy_condition :
    ∀ e i, Sat R i i (fun _ => True) (X.error_on_sketchy_condition e)
  is_maybe_function_statement :
    ∀ i, Sat R i i (fun _ => True) X.is_maybe_function_statement
  report_errors_for_escape_sequences_in_keyword :
    ∀ t i, Sat R i i (fun _ => True) (X.report_errors_for_escape_sequences_in_keyword t)

/-- The event list leaves every stack of open scopes as it found it. -/
def events_neutral (es : List Event) : Prop := ∀ st, scope_stack_after st es = some st

/-- The relation of the scope balance: if every buffered visit of the state at the earlier
point is neutral, then the later state has the events of the earlier one followed by
events that lead from the scopes open at the earlier point to the scopes open at the
later point, and every buffered visit of the later state is neutral. -/
def balance_rel : StateRel := fun i j s s1 =>
  (∀ b ∈ s.buffering_visitor_stack, events_neutral b) →
    (∃ es, s1.out = s.out ++ es ∧ scope_stack_after i.scopes es = some j.scopes)
      ∧ ∀ b ∈ s1.buffering_visitor_stack, events_neutral b

/-- The relation of the buffering-visitor stack: if the stack of the state at the earlier
point holds the buffering visitors counted at that point, then the stack of the later
state holds those counted at the later point, and below them the two stacks are the
same. -/
def stack_rel : StateRel := fun i j s s1 =>
  i.buffers ≤ s.buffering_visitor_stack.length →
    j.buffers ≤ s1.buffering_visitor_stack.length
      ∧ s1.buffering_visitor_stack.drop j.buffers = s.buffering_visitor_stack.drop i.buffers

/-- The relation of the context flags: the two points are both inside or both outside a
function guard, and outside a function guard the four context flags of the later state
are those of the earlier state. -/
def flags_rel : StateRel := fun i j s s1 =>
  i.in_function_guard = j.in_function_guard
    ∧ (i.in_function_guard = false → s1.flags = s.flags)


/-! ## The file `translation-table-generated.h` -/

/-- The constant `translation_table_mapping_table_size`. -/
def translation_table_mapping_table_size : Nat := 256

/-- The array `const_hash_table` of `translation_table_const_hash_table_look_up`: the
entries `{mapping_table_index, untranslated}` in order. -/
def translation_table_const_hash_table_look_up.const_hash_table : List (Nat × String) := [
  (148, "missing body for do-while loop"),
  (0, ""),
  (0, ""),
  (188, "number literal contains consecutive underscores"),
  (134, "mismatched JSX tags; expected '</\x7b1\x7d>'"),
  (0, ""),
  (0, ""),
  (163, "missing for loop header"),
  (0, ""),
  (179, "missing property name between '.' and '.'"),
  (167, "missing name in function statement"),
  (0, ""),
  (0, ""),
  (247, "variable declared here"),
  (123, "invalid UTF-8 sequence"),
  (0, ""),
  (57, "cannot declare 'await' inside async function"),
  (0, ""),
  (11, "'?' creates a conditional expression"),
  (208, "this \x7b1\x7d looks fishy"),
  (0, ""),
  (217, "unclosed template"),
  (0, ""),
  (162, "missing expression between parentheses"),
  (187, "newline is not allowed between 'async' and arrow function parameter list"),
  (246, "variable assigned before its declaration"),
  (0, ""),
  (0, ""),
  (171, "missing name or parentheses for function"),
  (54, "break can only be used inside of a loop or switch"),
  (71, "code point out of range"),
  (0, ""),
  (0, ""),
  (113, "functions/methods should not have '=>'"),
  (131, "legacy octal literals may not contain underscores"),
  (0, ""),
  (83, "event attributes must be camelCase: '\x7b1\x7d'"),
  (175, "missing parentheses around left-hand side of '**'"),
  (59, "cannot declare and export variable with 'export default'"),
  (5, "\"globals\" descriptor must be a boolean or an object"),
  (236, "unexpected token in export; expected 'export default ...' or 'export \x7b\x7bname\x7d' or 'export * from ...' or 'export class' or 'export function' or 'export let'"),
  (0, ""),
  (225, "unexpected '\x7b0\x7d'"),
  (232, "unexpected identifier in expression; missing operator before"),
  (0, ""),
  (174, "missing parameters for arrow function"),
  (202, "something happened"),
  (1, "\"global-groups\" entries must be strings"),
  (15, "'do-while' loop"),
  (64, "cannot import variable named keyword '\x7b0\x7d'"),
  (105, "for-in loop expression cannot have semicolons"),
  (157, "missing comparison; '\x7b1\x7d' does not extend to the right side of '\x7b0\x7d'"),
  (0, ""),
  (218, "unexpected '#'"),
  (231, "unexpected expression; missing key for object entry"),
  (0, ""),
  (235, "unexpected token"),
  (86, "expected ',' between object literal entries"),
  (68, "children end here"),
  (201, "see here"),
  (142, "missing arrow operator for arrow function"),
  (87, "expected 'as' between '\x7b1\x7d' and '\x7b2\x7d'"),
  (0, ""),
  (169, "missing name of exported class"),
  (0, ""),
  (46, "assigning to 'async' in a for-of loop requires parentheses"),
  (107, "forwarding exports are only allowed in export-from"),
  (82, "escaping '-' is not allowed in tag names; write '-' instead"),
  (75, "const variable declared here"),
  (209, "try statement starts here"),
  (220, "unexpected '\\' in identifier"),
  (124, "invalid expression left of assignment"),
  (109, "function call started here"),
  (0, ""),
  (0, ""),
  (0, ""),
  (216, "unclosed string literal"),
  (6, "\"globals\" must be an object"),
  (0, ""),
  (0, ""),
  (0, ""),
  (176, "missing parentheses around operand of '\x7b0\x7d'"),
  (12, "'async static' is not allowed; write 'static async' instead"),
  (242, "unopened block comment"),
  (165, "missing header and body for 'for' loop"),
  (84, "existing variable declared here"),
  (88, "expected 'from \"name_of_module.mjs\"'"),
  (0, ""),
  (0, ""),
  (0, ""),
  (50, "assignment to imported variable"),
  (42, "an 'if' statement"),
  (147, "missing body for class"),
  (214, "unclosed object literal; expected '\x7d'"),
  (0, ""),
  (0, ""),
  (77, "depth limit exceeded"),
  (130, "legacy octal literal may not be BigInt"),
  (0, ""),
  (166, "missing initializer in const declaration"),
  (194, "opening '<\x7b1\x7d>' tag here"),
  (16, "'else' has no corresponding 'if'"),
  (25, "'\x7d' is not allowed directly in JSX text; write \x7b\x7b'\x7d'\x7d instead"),
  (0, ""),
  (0, ""),
  (63, "cannot import 'let'"),
  (18, "'if' statement"),
  (137, "missing ':' in conditional expression"),
  (21, "'with' statement"),
  (222, "unexpected 'catch' without 'try'"),
  (156, "missing comma between object literal entries"),
  (159, "missing condition for switch statement"),
  (67, "character is not allowed in identifiers"),
  (0, ""),
  (0, ""),
  (0, ""),
  (0, ""),
  (0, ""),
  (139, "missing '=' after variable"),
  (0, ""),
  (160, "missing condition for while statement"),
  (92, "expected expression before newline"),
  (51, "assignment to undeclared variable"),
  (100, "expected \x7b1:singular\x7d"),
  (93, "expected expression before semicolon"),
  (129, "label named 'await' not allowed in async function"),
  (186, "new variable shadows existing variable"),
  (0, ""),
  (27, "BigInt literal contains exponent"),
  (0, ""),
  (0, ""),
  (0, ""),
  (0, ""),
  (30, "JSON syntax error"),
  (110, "function called before declaration in block scope: \x7b0\x7d"),
  (192, "octal literal may not have exponent"),
  (112, "function starts here"),
  (106, "for-of loop expression cannot have semicolons"),
  (193, "octal number literal has no digits"),
  (0, ""),
  (213, "unclosed identifier escape sequence"),
  (19, "'in' disallowed in C-style for loop initializer"),
  (61, "cannot export variable named 'let'"),
  (125, "invalid function parameter"),
  (0, ""),
  (178, "missing property name after '.' operator"),
  (199, "remove '\x7b0\x7d' to update an existing variable"),
  (233, "unexpected literal in parameter list; expected parameter name"),
  (181, "missing semicolon between condition and update parts of for loop"),
  (182, "missing semicolon between init and condition parts of for loop"),
  (0, ""),
  (53, "binary number literal has no digits"),
  (90, "expected '\x7b\x7b'"),
  (0, ""),
  (24, "'\x7b0\x7d' operator cannot be used before '**' without parentheses"),
  (89, "expected 'from' before module specifier"),
  (0, ""),
  (0, ""),
  (0, ""),
  (35, "a 'for' loop"),
  (138, "missing '<>' and '</>' to enclose multiple children"),
  (200, "return statement returns nothing (undefined)"),
  (0, ""),
  (153, "missing body for \x7b1:headlinese\x7d"),
  (0, ""),
  (0, ""),
  (0, ""),
  (40, "a lexical declaration is not allowed as the body of \x7b1:singular\x7d"),
  (0, ""),
  (0, ""),
  (0, ""),
  (128, "keywords cannot contain escape sequences"),
  (114, "generator function '*' belongs after keyword function"),
  (0, ""),
  (38, "a class statement is not allowed as the body of \x7b1:singular\x7d"),
  (141, "missing 'while (condition)' for do-while statement"),
  (69, "classes cannot be named 'let'"),
  (99, "expected \x7b1:headlinese\x7d"),
  (144, "missing body for 'if' statement"),
  (173, "missing operator between expression and arrow function"),
  (119, "if statement needs parentheses around condition"),
  (0, ""),
  (221, "unexpected 'case' outside switch statement"),
  (0, ""),
  (80, "do-while statement starts here"),
  (14, "'await' is only allowed in async functions"),
  (0, ""),
  (238, "unicode byte order mark (BOM) cannot appear before #! at beginning of script"),
  (0, ""),
  (0, ""),
  (0, ""),
  (70, "code point in Unicode escape sequence must not be greater than U+10FFFF"),
  (180, "missing semicolon after statement"),
  (255, "~~~ invalid string, do not use outside benchmark ~~~"),
  (0, ""),
  (62, "cannot export variable named keyword '\x7b0\x7d'"),
  (244, "use of undeclared variable: \x7b0\x7d"),
  (78, "do-while loop is missing '\x7b1\x7d' around condition"),
  (96, "expected parameter for arrow function, but got an expression instead"),
  (195, "private properties are not allowed in object literals"),
  (0, ""),
  (164, "missing function parameter list"),
  (8, "'.' operator needs a key name; use + to concatenate strings; use [] to access with a dynamic key"),
  (151, "missing body for try statement"),
  (198, "redundant delete statement on variable"),
  (26, "BigInt literal contains decimal point"),
  (58, "cannot declare 'yield' inside generator function"),
  (76, "continue can only be used inside of a loop"),
  (227, "unexpected characters in hex literal"),
  (43, "another invalid string, do not use outside benchmark"),
  (52, "attribute has wrong capitalization; write '\x7b1\x7d' instead"),
  (0, ""),
  (0, ""),
  (140, "missing 'if' after 'else'"),
  (0, ""),
  (184, "missing variable name"),
  (212, "unclosed code block; expected '\x7d' by end of file"),
  (0, ""),
  (0, ""),
  (33, "TypeScript's 'enum' feature is not yet implemented by quick-lint-js"),
  (0, ""),
  (22, "'\x7b0\x7d' found here"),
  (0, ""),
  (0, ""),
  (191, "octal literal may not have decimal"),
  (0, ""),
  (0, ""),
  (155, "missing catch variable name between parentheses"),
  (81, "escaped character is not allowed in identifiers"),
  (149, "missing body for finally clause"),
  (0, ""),
  (0, ""),
  (211, "unclosed class; expected '\x7d' by end of file"),
  (152, "missing body for while loop"),
  (240, "unmatched indexing bracket"),
  (55, "cannot access private identifier outside class"),
  (0, ""),
  (170, "missing name of exported function"),
  (0, ""),
  (230, "unexpected control character"),
  (0, ""),
  (0, ""),
  (104, "for loop needs an iterable, or condition and update clauses"),
  (0, ""),
  (150, "missing body for function"),
  (117, "hex number literal has no digits"),
  (177, "missing parentheses around self-invoked function"),
  (4, "\"globals\" descriptor \"writable\" property must be a boolean"),
  (0, ""),
  (190, "object literal started here"),
  (0, ""),
  (204, "stray comma in let statement"),
  (219, "unexpected '@'"),
  (120, "imported variable declared here"),
  (115, "generator function '*' belongs before function name"),
  (102, "exporting requires '\x7b\x7b' and '\x7d'"),
  (251, "while loop needs parentheses around condition"),
  (13, "'await' cannot be followed by an arrow function; use 'async' instead"),
  (49, "assignment to const variable before its declaration"),
  (243, "use 'while' instead to loop until a condition is false"),
  (0, ""),
  (47, "assignment to const global variable"),
  (229, "unexpected characters in octal literal"),
  (0, ""),
  (0, ""),
  (207, "this \x7b0\x7d looks fishy"),
  (56, "cannot assign to loop variable in for of/in loop"),
  (203, "stray comma in function parameter"),
  (228, "unexpected characters in number literal"),
  (108, "free \x7b1\x7d and \x7b0\x7d \x7b1\x7d \x7b2\x7d"),
  (0, ""),
  (0, ""),
  (45, "arrow is here"),
  (0, ""),
  (32, "RegExp literal flags cannot contain Unicode escapes"),
  (118, "if statement is missing '\x7b1\x7d' around condition"),
  (223, "unexpected 'default' outside switch statement"),
  (0, ""),
  (158, "missing condition for if statement"),
  (72, "commas are not allowed after spread parameter"),
  (48, "assignment to const variable"),
  (0, ""),
  (210, "unclosed block comment"),
  (74, "const fields within classes are only allowed in TypeScript, not JavaScript"),
  (101, "exporting requires 'default'"),
  (121, "incomplete export; expected 'export default ...' or 'export \x7b\x7bname\x7d' or 'export * from ...' or 'export class' or 'export function' or 'export let'"),
  (65, "cannot reference private variables without object; use 'this.'"),
  (206, "switch statement needs parentheses around condition"),
  (0, ""),
  (20, "'while' loop"),
  (0, ""),
  (226, "unexpected characters in binary literal"),
  (0, ""),
  (0, ""),
  (36, "a 'while' loop"),
  (7, "'**' operator cannot be used after unary '\x7b1\x7d' without parentheses"),
  (133, "methods should not use the 'function' keyword"),
  (9, "'=' changes variables; to compare, use '===' instead"),
  (0, ""),
  (0, ""),
  (17, "'for' loop"),
  (60, "cannot declare variable named keyword '\x7b0\x7d'"),
  (146, "missing body for catch clause"),
  (237, "unexpected token in variable declaration; expected variable name"),
  (0, ""),
  (122, "indexing requires an expression"),
  (0, ""),
  (44, "array started here"),
  (0, ""),
  (0, ""),
  (254, "\x7b0\x7d with no bindings"),
  (197, "redeclaration of variable: \x7b0\x7d"),
  (136, "missing '...' in JSX attribute spread"),
  (0, ""),
  (23, "'\x7b0\x7d' is not allowed for strings; use \x7b1\x7d instead"),
  (41, "a \x7b\x7b0\x7d b \x7d\x7d c"),
  (39, "a function statement is not allowed as the body of \x7b1:singular\x7d"),
  (28, "C-style for loop is missing its third component"),
  (111, "function declared here"),
  (145, "missing body for 'switch' statement"),
  (161, "missing end of array; expected ']'"),
  (185, "misspelled React attribute; write '\x7b1\x7d' instead"),
  (168, "missing name of class"),
  (3, "\"globals\" descriptor \"shadowable\" property must be a boolean"),
  (79, "do-while loop needs parentheses around condition"),
  (34, "a 'do-while' loop"),
  (0, ""),
  (189, "number literal contains trailing underscore(s)"),
  (0, ""),
  (0, ""),
  (234, "unexpected statement before first switch case, expected 'case' or 'default'"),
  (172, "missing operand for operator"),
  (0, ""),
  (0, ""),
  (0, ""),
  (127, "invalid lone literal in object literal"),
  (10, "'>' is not allowed directly in JSX text; write \x7b\x7b'>'\x7d or &gt; instead"),
  (37, "a 'with' statement"),
  (85, "expected ')' to close function call"),
  (94, "expected hexadecimal digits in Unicode escape sequence"),
  (241, "unmatched parenthesis"),
  (91, "expected expression after 'case'"),
  (239, "unmatched '\x7d'"),
  (103, "extra ',' is not allowed between function call arguments"),
  (0, ""),
  (215, "unclosed regexp literal"),
  (183, "missing value for object property"),
  (31, "React/JSX is not yet implemented"),
  (0, ""),
  (248, "variable used before declaration: \x7b0\x7d"),
  (250, "while loop is missing '\x7b1\x7d' around condition"),
  (196, "redeclaration of global variable"),
  (132, "let statement cannot declare variables named 'let'"),
  (253, "with statement needs parentheses around expression"),
  (0, ""),
  (0, ""),
  (154, "missing catch or finally clause for try statement"),
  (0, ""),
  (0, ""),
  (116, "here"),
  (135, "missing ',' between variable declarations"),
  (252, "with statement is missing '\x7b1\x7d' around expression"),
  (0, ""),
  (73, "commas are not allowed between class methods"),
  (205, "switch statement is missing '\x7b1\x7d' around condition"),
  (29, "C-style for loops have only three semicolon-separated components"),
  (98, "expected variable name for 'import'-'as'"),
  (2, "\"global-groups\" must be a boolean or an array"),
  (97, "expected variable name for 'catch'"),
  (0, ""),
  (0, ""),
  (66, "cannot update variable with '\x7b0\x7d' while declaring it"),
  (249, "what is this '\x7b1\x7d' nonsense?"),
  (95, "expected parameter for arrow function, but got a literal instead"),
  (245, "variable already declared here"),
  (0, ""),
  (126, "invalid hex escape sequence: \x7b0\x7d"),
  (0, ""),
  (0, ""),
  (224, "unexpected 'finally' without 'try'"),
  (143, "missing body for 'for' loop"),
  (0, ""),
  (0, "")]

/-- The local `table_size` of `translation_table_const_hash_table_look_up`. -/
def translation_table_const_hash_table_look_up.table_size : Nat := 383

/-- The index `(hash + attempt * attempt) % table_size` of a probe, in 64-bit unsigned
arithmetic. -/
def translation_table_const_hash_table_look_up.probe_index (hash attempt : Nat) : Nat :=
  (hash + attempt * attempt) % 2 ^ 64 % translation_table_const_hash_table_look_up.table_size

/-- The loop `for (attempt = 0; attempt <= 4; ++attempt)` of
`translation_table_const_hash_table_look_up`, from the given attempt on, with the number
of attempts left; `none` is the failed `QLJS_CONSTEXPR_ASSERT(false)` after the loop. -/
def translation_table_const_hash_table_look_up.probe (hash : Nat) (untranslated : String) :
    Nat → Nat → Option Nat
  | 0, _ => none
  | left + 1, attempt =>
    let hash_entry :=
      translation_table_const_hash_table_look_up.const_hash_table.getD
        (translation_table_const_hash_table_look_up.probe_index hash attempt) (0, "")
    if hash_entry.1 = 0 then none
    else if hash_entry.2 = untranslated then some hash_entry.1
    else translation_table_const_hash_table_look_up.probe hash untranslated left (attempt + 1)

/-- The function `translation_table_const_hash_table_look_up`; `hash_fnv_1a_64` is the
hash function of `hash-fnv.h`, which is not among the sources. -/
def translation_table_const_hash_table_look_up (hash_fnv_1a_64 : String → Nat → Nat)
    (untranslated : String) : Option Nat :=
  translation_table_const_hash_table_look_up.probe
    (hash_fnv_1a_64 untranslated 14695981039346659169 % 2 ^ 64) untranslated 5 0

/-- The entries of `const_hash_table` that are in use: those whose `mapping_table_index`
is not 0. -/
def translation_table_const_hash_table_look_up.used_entries : List (Nat × String) :=
  translation_table_const_hash_table_look_up.const_hash_table.filter (fun e => e.1 != 0)

/-- No number occurs twice in the list, nor is among those whose bit is set in `seen`;
computed in one pass with the bit set of the numbers met so far. -/
def distinct_below : List Nat → Nat → Bool
  | [], _ => true
  | x :: xs, seen => !(seen.testBit x) && distinct_below xs (seen ||| (1 <<< x))

/-- A number computed from the characters of a string; strings with different numbers
are different. -/
def string_key (s : String) : Nat :=
  s.toList.foldl (fun n c => (n * 257 + c.toNat) % 66001) 0


mutual
/-- Modelled from the spec: the leaves of an enum value expression that are reached by
descending only through `paren` and `binary_operator` nodes: a node of another kind is
its own single leaf. -/
def enum_value_leaves : expression → List expression
  | .mk kind f children object_entries =>
    match kind with
    | .binary_operator => enum_value_leaves_of_list children
    | .paren => enum_value_leaves_of_list children
    | _ => [.mk kind f children object_entries]
/-- The leaves of a list of expressions, in order. -/
def enum_value_leaves_of_list : List expression → List expression
  | [] => []
  | child :: rest => enum_value_leaves child ++ enum_value_leaves_of_list rest
end


/-- The tokens that reach the last case (`case token_type::semicolon: default:`) of the
second `switch` of the loop of `parse_and_visit_let_bindings`: those with no earlier case
of their own. -/
def parse_and_visit_let_bindings.is_last_case (t : token_type) : Bool :=
  !(t == .kw_await || t == .kw_yield || parse_and_visit_let_bindings.is_variable_name t
    || t == .reserved_keyword_with_escape_sequence || t == .left_curly
    || t == .left_square || is_reserved_keyword_except_await_and_yield t
    || t == .complete_template || t == .number || t == .incomplete_template
    || parse_and_visit_let_bindings.is_unimplemented_start t || t == .equal)


/-- Whenever the piece `m` of the parser returns, the value returned and the state it
returns in satisfy `Q`. -/
structure Ensures {α : Type} (Q : α → PState → Prop) (m : P α) : Prop where
  run : ∀ s a s1, m s = .ok a s1 → Q a s1


mutual
/-- Modelled from the spec: the binding patterns "built only from variable, array, spread,
paren, non_null_assertion and trailing_comma nodes": a `variable` node is a leaf, and a
node of one of the five other kinds has children that are all such patterns. -/
def expression.is_plain_binding_pattern : expression → Bool
  | .mk kind _ children _ =>
    match kind with
    | .variable => true
    | .array | .spread | .paren | .non_null_assertion | .trailing_comma =>
      expression.is_plain_binding_pattern_list children
    | _ => false
/-- Every expression of the list is a plain binding pattern. -/
def expression.is_plain_binding_pattern_list : List expression → Bool
  | [] => true
  | child :: rest =>
    child.is_plain_binding_pattern && expression.is_plain_binding_pattern_list rest
end

mutual
/-- Modelled from the spec: the names of the "variable leaves" of a pattern, in
left-to-right order. -/
def expression.variable_leaves : expression → List identifier
  | .mk kind f children _ =>
    match kind with
    | .variable => [f.variable_identifier]
    | _ => expression.variable_leaves_of_list children
/-- The variable leaves of a list of patterns, in order. -/
def expression.variable_leaves_of_list : List expression → List identifier
  | [] => []
  | child :: rest => child.variable_leaves ++ expression.variable_leaves_of_list rest
end

mutual
/-- The variable leaves of a pattern that are reached from its root through every item of
an `array` node and through the first child only of a node of another kind, in
left-to-right order. -/
def expression.first_child_variable_leaves : expression → List identifier
  | .mk kind f children _ =>
    match kind with
    | .variable => [f.variable_identifier]
    | .array => expression.first_child_variable_leaves_of_list children
    | _ =>
      match children with
      | child_0 :: _ => child_0.first_child_variable_leaves
      | [] => []
/-- The leaves reached in a list of items, in order. -/
def expression.first_child_variable_leaves_of_list : List expression → List identifier
  | [] => []
  | child :: rest =>
    child.first_child_variable_leaves ++ expression.first_child_variable_leaves_of_list rest
end

mutual
/-- Every node of the pattern that is neither a `variable` nor an `array` has exactly one
child. -/
def expression.has_one_child_wrappers : expression → Bool
  | .mk kind _ children _ =>
    match kind with
    | .variable => true
    | .array => expression.has_one_child_wrappers_list children
    | _ => children.length == 1 && expression.has_one_child_wrappers_list children
/-- Every pattern of the list has one-child wrappers. -/
def expression.has_one_child_wrappers_list : List expression → Bool
  | [] => true
  | child :: rest =>
    child.has_one_child_wrappers && expression.has_one_child_wrappers_list rest
end

/-- Modelled from the spec: "one visit_variable_declaration per variable leaf, ... each
with the given kind and the given init_kind". -/
def declarations_of (names : List identifier) (kind : variable_kind)
    (init_kind : variable_init_kind) : List Event :=
  names.map (fun name => .visit_variable_declaration name kind init_kind)

/-- The state after a run that delivers the events `evs` and reports the diagnostics `ds`
and does nothing else. -/
def PState.declared (s : PState) (evs : List Event) (ds : List Diag) : PState :=
  { s with out := s.out ++ evs, diags := s.diags ++ ds }

/-- The pattern `[(p, q,)]`: an array whose one item is a parenthesised `trailing_comma`
node with the two children `p` and `q`. -/
def trailing_comma_sample : expression :=
  .mk .array {}
    [.mk .paren {}
      [.mk .trailing_comma { operator_span := ⟨6, 7⟩ }
        [make_expression_variable ⟨⟨2, 3⟩, "p"⟩ .identifier,
         make_expression_variable ⟨⟨5, 6⟩, "q"⟩ .identifier] []] []] []


/-- The check at the entry of `visit_binding_element`: under the `default` label of
`switch (declaration_kind)`, the condition of
`QLJS_ASSERT(init_kind == variable_init_kind::normal)`; under the labels `_const`, `_let`
and `_var` nothing is checked. -/
def visit_binding_element.entry_assertion (declaration_kind : variable_kind)
    (init_kind : variable_init_kind) : Bool :=
  match declaration_kind with
  | ._const | ._let | ._var => true
  | _ => init_kind == .normal

mutual
/-- The calls of `visit_binding_element` that one call gives rise to, itself first: the
arguments `declaration_kind` and `init_kind` of each, in the order of the calls. -/
def visit_binding_element.calls : expression → variable_kind → variable_init_kind →
    List (variable_kind × variable_init_kind)
  | .mk kind _ children object_entries, declaration_kind, init_kind =>
    (declaration_kind, init_kind) ::
    match kind with
    | .array => visit_binding_element.calls_of_children children declaration_kind init_kind
    | .compound_assignment | .assignment =>
      let lhs_init_kind : variable_init_kind :=
        if declaration_kind.is_const_let_var then .initialized_with_equals else .normal
      match children with
      | child_0 :: _ => visit_binding_element.calls child_0 declaration_kind lhs_init_kind
      | [] => []
    | .object =>
      visit_binding_element.calls_of_entries object_entries declaration_kind init_kind
    | .spread | .non_null_assertion | .trailing_comma | .paren | .type_annotated =>
      match children with
      | child_0 :: _ => visit_binding_element.calls child_0 declaration_kind init_kind
      | [] => []
    | _ => []
/-- The calls made for the items of an `array` node. -/
def visit_binding_element.calls_of_children : List expression → variable_kind →
    variable_init_kind → List (variable_kind × variable_init_kind)
  | [], _, _ => []
  | item :: rest, declaration_kind, init_kind =>
    visit_binding_element.calls item declaration_kind init_kind
      ++ visit_binding_element.calls_of_children rest declaration_kind init_kind
/-- The calls made for the entries of an `object` node. -/
def visit_binding_element.calls_of_entries : List object_property_value_pair →
    variable_kind → variable_init_kind → List (variable_kind × variable_init_kind)
  | [], _, _ => []
  | .mk _ value _ :: rest, declaration_kind, init_kind =>
    visit_binding_element.calls value declaration_kind init_kind
      ++ visit_binding_element.calls_of_entries rest declaration_kind init_kind
end

/-- A state property that holds after every returning run of `m` from a state in which it
holds. -/
structure Preserves {α : Type} (Inv : PState → Prop) (m : P α) : Prop where
  run : ∀ s a s1, Inv s → m s = .ok a s1 → Inv s1

/-- Every `visit_variable_declaration` among the events has `init_kind` `normal`. -/
def declarations_normal (events : List Event) : Bool :=
  events.all fun event =>
    match event with
    | .visit_variable_declaration _ _ init_kind => init_kind == .normal
    | _ => true


/-- Whenever `m` returns a value that satisfies `Q`, it has delivered no event to the
visitor since it was called. -/
structure Silent {α : Type} (Q : α → Prop) (m : P α) : Prop where
  run : ∀ s a s1, m s = .ok a s1 → Q a → s1.out = s.out


/-- The `switch (this->peek().type)` on the first token of the head in
`parse_and_visit_for`, entered after the `(` has been skipped; the result is what it
leaves in `for_loop_style` and in `after_expression`. -/
def parse_and_visit_for.head (X : Externals) (fuel : Nat) (left_paren_token_begin : Nat)
    (for_token_span : source_code_span) : P (Option loop_style × Option expression) := do
  let t ← peek
  let entered_for_scope := t.type == .kw_const || t.type == .kw_let
  if t.type == .semicolon then do
    let first_semicolon_span := t.span
    skip
    let after ← parse_and_visit_for.parse_c_style_head_remainder X first_semicolon_span
    pure (some loop_style.c_style, after)
  else if t.type == .kw_const || t.type == .kw_let || t.type == .kw_var then do
    if entered_for_scope then
      visit_enter_for_scope
    parse_and_visit_for.declaration X fuel left_paren_token_begin for_token_span
  else if t.type == .kw_async then
    parse_and_visit_for.async X left_paren_token_begin for_token_span
  else if t.type == .right_paren then do
    report .diag_missing_header_of_for_loop [⟨left_paren_token_begin, t.end_⟩]
    pure (some loop_style.other, none)
  else do
    let init_expression ← X.parse_expression { in_operator := false }
    parse_and_visit_for.parse_in_or_of_or_condition_update X left_paren_token_begin
      for_token_span init_expression

end quick_lint_js

/-! # Properties -/

namespace quick_lint_js

theorem visit_children_eq_worst (cs : List expression) (k : enum_value_kind)
    (h : ∀ c ∈ cs, classify_enum_value_expression c = spec_classify c) :
    classify_enum_value_expression.visit_children cs k = k.worst (spec_classify.worst_of cs) := by
  induction cs generalizing k with
  | nil => cases k <;> simp [classify_enum_value_expression.visit_children, spec_classify.worst_of, enum_value_kind.worst, enum_value_kind.rank]
  | cons c rest ih =>
    have hc := h c (List.mem_cons_self _ _)
    have hr : ∀ c ∈ rest, classify_enum_value_expression c = spec_classify c :=
      fun x hx => h x (List.mem_cons_of_mem _ hx)
    rw [classify_enum_value_expression.visit_children, hc]
    simp only [spec_classify.worst_of]
    cases hk : spec_classify c <;> simp only [] <;> rw [ih _ hr] <;>
      cases k <;> cases spec_classify.worst_of rest <;>
      simp [enum_value_kind.worst, enum_value_kind.rank]

end quick_lint_js

namespace quick_lint_js

mutual
theorem classify_agrees_aux : ∀ e : expression,
    classify_enum_value_expression e = spec_classify e
  | .mk kind f cs es => by
    have h := classify_agrees_list_aux cs
    cases kind <;>
      simp [classify_enum_value_expression, spec_classify, visit_children_eq_worst cs _ h,
        enum_value_kind.worst, enum_value_kind.rank]
theorem classify_agrees_list_aux : ∀ cs : List expression,
    ∀ c ∈ cs, classify_enum_value_expression c = spec_classify c
  | [] => by simp
  | c :: rest => by
    intro x hx
    rcases List.mem_cons.mp hx with h | h
    · subst h
      exact classify_agrees_aux x
    · exact classify_agrees_list_aux rest x h
end

/-- C4: `classify_enum_value_expression` is the classifier of the spec: a literal is
constant, a call is computed, a binary operator or a parenthesized expression has the
worst classification of its children under `constant < computed < unknown` (constant when
it has no children), and any other kind of expression is unknown. -/
theorem classify_enum_value_expression_eq_spec (e : expression) :
    classify_enum_value_expression e = spec_classify e :=
  classify_agrees_aux e

/-! ## Running the parser on a state -/

@[simp] theorem peek_apply (s : PState) : peek s = .ok s.peek s := rfl
@[simp] theorem skip_apply (s : PState) : skip s = .ok () s.skip := rfl
@[simp] theorem get_state_apply (s : PState) : get_state s = .ok s s := rfl
@[simp] theorem insert_semicolon_apply (s : PState) :
    insert_semicolon s = .ok () s.insert_semicolon := rfl
@[simp] theorem end_of_previous_token_apply (s : PState) :
    end_of_previous_token s = .ok s.last_token_end s := rfl
@[simp] theorem report_apply (ty : diag_type) (sp : List source_code_span) (s : PState) :
    report ty sp s = .ok () { s with diags := s.diags ++ [{ type := ty, spans := sp }] } := rfl
@[simp] theorem visit_apply (e : Event) (s : PState) :
    visit e s = .ok () { s with out := s.out ++ [e] } := rfl
@[simp] theorem depth_guard_exit_apply (s : PState) :
    depth_guard_exit s = .ok () { s with depth := s.depth - 1 } := rfl
@[simp] theorem unimplemented_apply {α : Type} (s : PState) :
    (QLJS_PARSER_UNIMPLEMENTED : P α) s = .stop .parser_unimplemented s := rfl
@[simp] theorem out_of_fuel_apply {α : Type} (s : PState) :
    (out_of_fuel : P α) s = .out_of_fuel := rfl

theorem depth_guard_enter_ok (X : Externals) (s : PState) (h : s.depth + 1 ≤ X.stack_limit) :
    depth_guard_enter X s = .ok () { s with depth := s.depth + 1 } := by
  simp [depth_guard_enter, Nat.not_lt.mpr h]

theorem parse_and_visit_statement_succ (X : Externals) (fuel : Nat)
    (ty : parse_statement_type) :
    parse_and_visit_statement X (fuel + 1) ty = (do
      depth_guard_enter X
      let r ← parse_and_visit_statement.parse_statement X (parse_and_visit_statement X fuel)
        ty fuel
      depth_guard_exit
      pure r) := rfl

theorem parse_statement_succ (X : Externals) (stmt : parse_statement_type → P Bool)
    (fuel : Nat) (ty : parse_statement_type) :
    parse_and_visit_statement.parse_statement X stmt ty (fuel + 1) = (do
      let r ← parse_and_visit_statement.dispatch X stmt fuel ty
      match r with
      | some returned => pure returned
      | none => parse_and_visit_statement.parse_statement X stmt ty fuel) := rfl

/-- A call of `parse_and_visit_statement` whose `switch` returns at once. -/
theorem parse_and_visit_statement_of_dispatch (X : Externals) (fuel : Nat)
    (ty : parse_statement_type) (s s1 : PState) (b : Bool)
    (hd : s.depth + 1 ≤ X.stack_limit)
    (h : parse_and_visit_statement.dispatch X (parse_and_visit_statement X (fuel + 1)) fuel ty
          { s with depth := s.depth + 1 } = .ok (some b) s1) :
    parse_and_visit_statement X (fuel + 2) ty s = .ok b { s1 with depth := s1.depth - 1 } := by
  simp only [parse_and_visit_statement_succ, parse_statement_succ, bind, P.bind,
    depth_guard_enter_ok X s hd, h]
  rfl

theorem dispatch_kw_throw (X : Externals) (stmt : parse_statement_type → P Bool)
    (fuel : Nat) (ty : parse_statement_type) (s : PState) (h : s.peek.type = .kw_throw) :
    parse_and_visit_statement.dispatch X stmt fuel ty s
      = parse_and_visit_statement.case_kw_throw X fuel s := by
  simp [parse_and_visit_statement.dispatch, bind, P.bind, h,
    parse_and_visit_statement.is_expression_start, is_binary_only_operator,
    parse_and_visit_statement.is_identifier_start]

theorem dispatch_kw_return (X : Externals) (stmt : parse_statement_type → P Bool)
    (fuel : Nat) (ty : parse_statement_type) (s : PState) (h : s.peek.type = .kw_return) :
    parse_and_visit_statement.dispatch X stmt fuel ty s
      = parse_and_visit_statement.case_kw_return X fuel ty s.peek s := by
  simp [parse_and_visit_statement.dispatch, bind, P.bind, h,
    parse_and_visit_statement.is_expression_start, is_binary_only_operator,
    parse_and_visit_statement.is_identifier_start]

theorem dispatch_kw_break_or_kw_continue (X : Externals)
    (stmt : parse_statement_type → P Bool) (fuel : Nat) (ty : parse_statement_type)
    (s : PState) (h : s.peek.type = .kw_break ∨ s.peek.type = .kw_continue) :
    parse_and_visit_statement.dispatch X stmt fuel ty s
      = parse_and_visit_statement.case_kw_break_or_kw_continue s.peek s := by
  rcases h with h | h <;>
  simp [parse_and_visit_statement.dispatch, bind, P.bind, h,
    parse_and_visit_statement.is_expression_start, is_binary_only_operator,
    parse_and_visit_statement.is_identifier_start]

theorem dispatch_left_curly (X : Externals) (stmt : parse_statement_type → P Bool)
    (fuel : Nat) (ty : parse_statement_type) (s : PState) (h : s.peek.type = .left_curly) :
    parse_and_visit_statement.dispatch X stmt fuel ty s
      = parse_and_visit_statement.case_left_curly stmt fuel s := by
  simp [parse_and_visit_statement.dispatch, bind, P.bind, h,
    parse_and_visit_statement.is_expression_start, is_binary_only_operator,
    parse_and_visit_statement.is_identifier_start]

theorem dispatch_end (X : Externals) (stmt : parse_statement_type → P Bool)
    (fuel : Nat) (ty : parse_statement_type) (s : PState)
    (h : s.peek.type = .end_of_file ∨ s.peek.type = .right_curly) :
    parse_and_visit_statement.dispatch X stmt fuel ty s = .ok (some false) s := by
  rcases h with h | h <;>
  simp [parse_and_visit_statement.dispatch, bind, P.bind, pure, P.pure, h,
    parse_and_visit_statement.is_expression_start, is_binary_only_operator,
    parse_and_visit_statement.is_identifier_start]

/-- C7: `throw` followed by a token `T` on a new line, `T` not `;` (the statement being
parsed, which needs the depth limit not to be exceeded): exactly one
`diag_expected_expression_before_newline` is reported (on the synthetic semicolon, at the
end of `throw`), no expression is parsed, no visitor event is emitted, and `T` stays the
current token: only `throw` and the inserted synthetic semicolon are consumed.  `throw`
directly followed by `;` reports `diag_expected_expression_before_semicolon` on the `;`
instead and consumes the `;`. -/
theorem throw_without_expression (X : Externals) (fuel : Nat) (ty : parse_statement_type)
    (s : PState) (thr T : token) (rest : List token)
    (hin : s.input = thr :: T :: rest) (hthr : thr.type = .kw_throw)
    (hd : s.depth + 1 ≤ X.stack_limit) :
    (T.has_leading_newline = true → T.type ≠ .semicolon →
      parse_and_visit_statement X (fuel + 2) ty s =
        .ok true { s with
          input := T :: rest, last_token_end := thr.end_,
          diags := s.diags ++ [{ type := .diag_expected_expression_before_newline,
                                 spans := [⟨thr.end_, thr.end_⟩] }] })
    ∧ (T.type = .semicolon →
      parse_and_visit_statement X (fuel + 2) ty s =
        .ok true { s with
          input := rest, last_token_end := T.end_,
          diags := s.diags ++ [{ type := .diag_expected_expression_before_semicolon,
                                 spans := [T.span] }] }) := by
  obtain ⟨input, lte, diags, out, stack, f1, f2, f3, f4, depth, options, tx⟩ := s
  simp only at hin hd
  subst hin
  constructor
  · intro hnl hT
    have h : parse_and_visit_statement.dispatch X (parse_and_visit_statement X (fuel + 1))
        fuel ty ⟨thr :: T :: rest, lte, diags, out, stack, f1, f2, f3, f4, depth + 1, options, tx⟩
        = .ok (some true) ⟨T :: rest, thr.end_,
            diags ++ [{ type := .diag_expected_expression_before_newline,
                        spans := [⟨thr.end_, thr.end_⟩] }],
            out, stack, f1, f2, f3, f4, depth + 1, options, tx⟩ := by
      rw [dispatch_kw_throw _ _ _ _ _ (by simp [PState.peek, hthr])]
      simp [parse_and_visit_statement.case_kw_throw, bind, P.bind, pure, P.pure,
        PState.peek, PState.skip, hT, hnl, PState.insert_semicolon, token.span]
    rw [parse_and_visit_statement_of_dispatch X fuel ty _ _ true hd h]
    simp
  · intro hT
    have h : parse_and_visit_statement.dispatch X (parse_and_visit_statement X (fuel + 1))
        fuel ty ⟨thr :: T :: rest, lte, diags, out, stack, f1, f2, f3, f4, depth + 1, options, tx⟩
        = .ok (some true) ⟨rest, T.end_,
            diags ++ [{ type := .diag_expected_expression_before_semicolon,
                        spans := [T.span] }],
            out, stack, f1, f2, f3, f4, depth + 1, options, tx⟩ := by
      rw [dispatch_kw_throw _ _ _ _ _ (by simp [PState.peek, hthr])]
      simp [parse_and_visit_statement.case_kw_throw, bind, P.bind, pure, P.pure,
        PState.peek, PState.skip, hT, PState.insert_semicolon, token.span]
    rw [parse_and_visit_statement_of_dispatch X fuel ty _ _ true hd h]
    simp

/-- C7 at a concrete input: `throw` and, on the next line, `x`. -/
theorem throw_without_expression_witness :
    (tok .kw_throw 0 5).type = .kw_throw ∧
    parse_and_visit_statement sample_externals 2 .any_statement_in_block
        (initial_state [tok .kw_throw 0 5, (ident_tok "x" 6 7).on_new_line]) =
      .ok true { initial_state [tok .kw_throw 0 5, (ident_tok "x" 6 7).on_new_line] with
        input := [(ident_tok "x" 6 7).on_new_line], last_token_end := 5,
        diags := [{ type := .diag_expected_expression_before_newline, spans := [⟨5, 5⟩] }] } :=
  ⟨rfl, (throw_without_expression sample_externals 0 .any_statement_in_block
    (initial_state [tok .kw_throw 0 5, (ident_tok "x" 6 7).on_new_line])
    (tok .kw_throw 0 5) (ident_tok "x" 6 7).on_new_line [] rfl rfl (by decide)).1 rfl
      (by decide)⟩

theorem is_expression_start_after_return_iff (t : token_type) :
    parse_and_visit_statement.is_expression_start_after_return t = true ↔
      t ∈ [token_type.bang, .complete_template, .identifier, .incomplete_template,
        .kw_await, .kw_false, .kw_function, .kw_new, .kw_null, .kw_super, .kw_this,
        .kw_true, .kw_typeof, .left_curly, .left_paren, .left_square, .less, .minus,
        .number, .plus, .slash, .slash_equal, .string, .tilde] := by
  cases t <;> simp [parse_and_visit_statement.is_expression_start_after_return]

/-- C6: `return` followed by a token `T` on a new line, `T` neither `;` nor a right curly
(the statement being parsed, which needs the depth limit not to be exceeded): no
expression is parsed, no event is emitted, `T` stays the current token, and
`diag_return_statement_returns_nothing` is reported on the `return` token if and only if
the statement type is `any_statement_in_block` and `T` is one of the listed tokens that
can start an expression.  `return` directly followed by `;` consumes the `;` and reports
nothing; `return` directly followed by a right curly reports nothing and leaves the curly. -/
theorem return_followed_by_newline (X : Externals) (fuel : Nat) (ty : parse_statement_type)
    (s : PState) (ret T : token) (rest : List token)
    (hin : s.input = ret :: T :: rest) (hret : ret.type = .kw_return)
    (hd : s.depth + 1 ≤ X.stack_limit) :
    (T.has_leading_newline = true → T.type ≠ .semicolon → T.type ≠ .right_curly →
      parse_and_visit_statement X (fuel + 2) ty s =
        .ok true { s with
          input := T :: rest, last_token_end := ret.end_,
          diags := s.diags ++
            (if ty = .any_statement_in_block ∧
                T.type ∈ [token_type.bang, .complete_template, .identifier,
                  .incomplete_template, .kw_await, .kw_false, .kw_function, .kw_new,
                  .kw_null, .kw_super, .kw_this, .kw_true, .kw_typeof, .left_curly,
                  .left_paren, .left_square, .less, .minus, .number, .plus, .slash,
                  .slash_equal, .string, .tilde]
             then [{ type := .diag_return_statement_returns_nothing, spans := [ret.span] }]
             else []) })
    ∧ (T.type = .semicolon →
      parse_and_visit_statement X (fuel + 2) ty s =
        .ok true { s with input := rest, last_token_end := T.end_ })
    ∧ (T.type = .right_curly →
      parse_and_visit_statement X (fuel + 2) ty s =
        .ok true { s with input := T :: rest, last_token_end := ret.end_ }) := by
  obtain ⟨input, lte, diags, out, stack, f1, f2, f3, f4, depth, options, tx⟩ := s
  simp only at hin hd
  subst hin
  have hpeek : (⟨ret :: T :: rest, lte, diags, out, stack, f1, f2, f3, f4, depth + 1,
      options, tx⟩ : PState).peek = ret := rfl
  refine ⟨?_, ?_, ?_⟩
  · intro hnl hT1 hT2
    have h : parse_and_visit_statement.dispatch X (parse_and_visit_statement X (fuel + 1))
        fuel ty ⟨ret :: T :: rest, lte, diags, out, stack, f1, f2, f3, f4, depth + 1, options, tx⟩
        = .ok (some true) ⟨T :: rest, ret.end_,
            diags ++
            (if ty = .any_statement_in_block ∧
                T.type ∈ [token_type.bang, .complete_template, .identifier,
                  .incomplete_template, .kw_await, .kw_false, .kw_function, .kw_new,
                  .kw_null, .kw_super, .kw_this, .kw_true, .kw_typeof, .left_curly,
                  .left_paren, .left_square, .less, .minus, .number, .plus, .slash,
                  .slash_equal, .string, .tilde]
             then [{ type := .diag_return_statement_returns_nothing, spans := [ret.span] }]
             else []),
            out, stack, f1, f2, f3, f4, depth + 1, options, tx⟩ := by
      rw [dispatch_kw_return _ _ _ _ _ (by rw [hpeek]; exact hret), hpeek]
      cases hb : parse_and_visit_statement.is_expression_start_after_return T.type
      · rw [if_neg (fun h => by
          have := (is_expression_start_after_return_iff T.type).mpr h.2
          simp [hb] at this)]
        simp [parse_and_visit_statement.case_kw_return, bind, P.bind, pure, P.pure,
          PState.peek, PState.skip, hT1, hT2, hnl, hb]
      · by_cases h2 : ty = .any_statement_in_block
        · rw [if_pos ⟨h2, (is_expression_start_after_return_iff T.type).mp hb⟩]
          simp [parse_and_visit_statement.case_kw_return, bind, P.bind, pure, P.pure,
            PState.peek, PState.skip, hT1, hT2, hnl, hb, h2]
        · rw [if_neg (fun h => h2 h.1)]
          simp [parse_and_visit_statement.case_kw_return, bind, P.bind, pure, P.pure,
            PState.peek, PState.skip, hT1, hT2, hnl, hb, h2]
    rw [parse_and_visit_statement_of_dispatch X fuel ty _ _ true hd h]
    simp
  · intro hT
    have h : parse_and_visit_statement.dispatch X (parse_and_visit_statement X (fuel + 1))
        fuel ty ⟨ret :: T :: rest, lte, diags, out, stack, f1, f2, f3, f4, depth + 1, options, tx⟩
        = .ok (some true) ⟨rest, T.end_, diags, out, stack, f1, f2, f3, f4, depth + 1,
            options, tx⟩ := by
      rw [dispatch_kw_return _ _ _ _ _ (by rw [hpeek]; exact hret), hpeek]
      simp [parse_and_visit_statement.case_kw_return, bind, P.bind, pure, P.pure,
          PState.peek, PState.skip, hT]
    rw [parse_and_visit_statement_of_dispatch X fuel ty _ _ true hd h]
    simp
  · intro hT
    have h : parse_and_visit_statement.dispatch X (parse_and_visit_statement X (fuel + 1))
        fuel ty ⟨ret :: T :: rest, lte, diags, out, stack, f1, f2, f3, f4, depth + 1, options, tx⟩
        = .ok (some true) ⟨T :: rest, ret.end_, diags, out, stack, f1, f2, f3, f4, depth + 1,
            options, tx⟩ := by
      rw [dispatch_kw_return _ _ _ _ _ (by rw [hpeek]; exact hret), hpeek]
      simp [parse_and_visit_statement.case_kw_return, bind, P.bind, pure, P.pure,
          PState.peek, PState.skip, hT]
    rw [parse_and_visit_statement_of_dispatch X fuel ty _ _ true hd h]
    simp

/-- C6 at a concrete input: `return` and, on the next line, the number `42`, in a block. -/
theorem return_followed_by_newline_witness :
    (tok .number 7 9).on_new_line.has_leading_newline = true ∧
    parse_and_visit_statement sample_externals 2 .any_statement_in_block
        (initial_state [tok .kw_return 0 6, (tok .number 7 9).on_new_line, tok .semicolon 9 10]) =
      .ok true { initial_state [tok .kw_return 0 6, (tok .number 7 9).on_new_line,
                                tok .semicolon 9 10] with
        input := [(tok .number 7 9).on_new_line, tok .semicolon 9 10], last_token_end := 6,
        diags := [{ type := .diag_return_statement_returns_nothing, spans := [⟨0, 6⟩] }] } :=
  ⟨rfl, (return_followed_by_newline sample_externals 0 .any_statement_in_block
    (initial_state [tok .kw_return 0 6, (tok .number 7 9).on_new_line, tok .semicolon 9 10])
    (tok .kw_return 0 6) (tok .number 7 9).on_new_line [tok .semicolon 9 10] rfl rfl
    (by decide)).1 rfl (by decide) (by decide)⟩

/-- What `consume_semicolon_after_statement` does to the state: it always returns, emits
no event, leaves the flags and the depth alone, and reports at most
`diag_missing_semicolon_after_statement`. -/
theorem consume_semicolon_after_statement_spec (s : PState) :
    ∃ s1, consume_semicolon_after_statement s = .ok () s1 ∧ s1.out = s.out
      ∧ s1.depth = s.depth
      ∧ s1.buffering_visitor_stack = s.buffering_visitor_stack
      ∧ ∃ E, s1.diags = s.diags ++ E
          ∧ ∀ d ∈ E, d.type = .diag_missing_semicolon_after_statement := by
  unfold consume_semicolon_after_statement
  simp only [bind, P.bind, peek_apply]
  by_cases h1 : (s.peek.type == token_type.semicolon) = true
  · simp only [h1, if_true, skip_apply]
    exact ⟨_, rfl, rfl, rfl, rfl, [], by simp [PState.skip], by simp⟩
  · by_cases h2 : (s.peek.type == token_type.end_of_file
        || s.peek.type == token_type.right_curly) = true
    · simp only [h1, h2, if_true, pure, P.pure]
      exact ⟨_, rfl, rfl, rfl, rfl, [], by simp, by simp⟩
    · by_cases h3 : s.peek.has_leading_newline = true
      · simp only [h1, h2, h3, if_true, insert_semicolon_apply, skip_apply]
        exact ⟨_, rfl, rfl, rfl, rfl, [], by simp [PState.skip, PState.insert_semicolon],
          by simp⟩
      · simp only [h1, h2, h3, insert_semicolon_apply, skip_apply, peek_apply, report_apply]
        refine ⟨_, rfl, rfl, rfl, rfl, _, rfl, ?_⟩
        simp

/-- C5, as amended: a `break` or `continue` statement (being parsed, which needs the depth
limit not to be exceeded) whose keyword is not followed by an identifier-like token
(identifier, contextual keyword, `await`, `yield`) reports `diag_invalid_break` on the
`break` token exactly when neither `in_loop_statement` nor `in_switch_statement` is set,
and `diag_invalid_continue` on the `continue` token exactly when `in_loop_statement` is
not set; when an identifier-like token follows on the same line (a label) neither
diagnostic is reported.  In both cases no event is emitted and any further diagnostic is
`diag_missing_semicolon_after_statement`. -/
theorem invalid_break_or_continue (X : Externals) (fuel : Nat) (ty : parse_statement_type)
    (s : PState) (kw : token) (rest : List token)
    (hin : s.input = kw :: rest)
    (hkw : kw.type = .kw_break ∨ kw.type = .kw_continue)
    (hd : s.depth + 1 ≤ X.stack_limit) :
    (¬ (s.skip.peek.type = .identifier ∨ is_contextual_keyword s.skip.peek.type = true
          ∨ s.skip.peek.type = .kw_await ∨ s.skip.peek.type = .kw_yield) →
      ∃ s1 E, parse_and_visit_statement X (fuel + 2) ty s = .ok true s1 ∧ s1.out = s.out
        ∧ (∀ d ∈ E, d.type = .diag_missing_semicolon_after_statement)
        ∧ s1.diags = s.diags ++
            (if kw.type = .kw_break then
               (if s.in_switch_statement = false ∧ s.in_loop_statement = false
                then [{ type := .diag_invalid_break, spans := [kw.span] }] else [])
             else
               (if s.in_loop_statement = false
                then [{ type := .diag_invalid_continue, spans := [kw.span] }] else []))
            ++ E)
    ∧ ((s.skip.peek.type = .identifier ∨ is_contextual_keyword s.skip.peek.type = true
          ∨ s.skip.peek.type = .kw_await ∨ s.skip.peek.type = .kw_yield) →
        s.skip.peek.has_leading_newline = false →
      ∃ s1 E, parse_and_visit_statement X (fuel + 2) ty s = .ok true s1 ∧ s1.out = s.out
        ∧ (∀ d ∈ E, d.type = .diag_missing_semicolon_after_statement)
        ∧ s1.diags = s.diags ++ E) := by
  obtain ⟨input, lte, diags, out, stack, f1, f2, f3, f4, depth, options, tx⟩ := s
  simp only at hin hd
  subst hin
  have hpeek : (⟨kw :: rest, lte, diags, out, stack, f1, f2, f3, f4, depth + 1,
      options, tx⟩ : PState).peek = kw := rfl
  have hdisp := dispatch_kw_break_or_kw_continue X (parse_and_visit_statement X (fuel + 1))
    fuel ty ⟨kw :: rest, lte, diags, out, stack, f1, f2, f3, f4, depth + 1, options, tx⟩
    (by rw [hpeek]; exact hkw)
  rw [hpeek] at hdisp
  have hpk : (PState.skip ⟨kw :: rest, lte, diags, out, stack, f1, f2, f3, f4, depth + 1,
      options, tx⟩).peek = (PState.skip ⟨kw :: rest, lte, diags, out, stack, f1, f2, f3, f4,
      depth, options, tx⟩).peek := rfl
  generalize (PState.skip ⟨kw :: rest, lte, diags, out, stack, f1, f2, f3, f4,
      depth, options, tx⟩).peek = next at hpk ⊢
  constructor
  · intro hnot
    have hlabel : parse_and_visit_statement.is_label_after_break
        (PState.skip ⟨kw :: rest, lte, diags, out, stack, f1, f2, f3, f4, depth + 1,
          options, tx⟩).peek.type = false := by
      rw [hpk]
      simp only [not_or] at hnot
      simp [parse_and_visit_statement.is_label_after_break, hnot.1, hnot.2.1, hnot.2.2.1,
        hnot.2.2.2]
    obtain ⟨s1, hs1, hout, hdep, _, E, hdiags, hE⟩ := consume_semicolon_after_statement_spec
      ({ (PState.skip ⟨kw :: rest, lte, diags, out, stack, f1, f2, f3, f4, depth + 1,
          options, tx⟩) with
         diags := diags ++
            (if kw.type = .kw_break then
               (if f4 = false ∧ f3 = false
                then [{ type := .diag_invalid_break, spans := [kw.span] }] else [])
             else
               (if f3 = false
                then [{ type := .diag_invalid_continue, spans := [kw.span] }] else [])) })
    have h : parse_and_visit_statement.dispatch X (parse_and_visit_statement X (fuel + 1))
        fuel ty ⟨kw :: rest, lte, diags, out, stack, f1, f2, f3, f4, depth + 1, options, tx⟩
        = .ok (some true) s1 := by
      rw [hdisp]
      simp only [parse_and_visit_statement.case_kw_break_or_kw_continue, bind, P.bind,
        get_state_apply, skip_apply, peek_apply, hlabel]
      rcases hkw with hk | hk
      · cases f3 <;> cases f4 <;>
          simp [hk, bind, P.bind, pure, P.pure, PState.skip, PState.peek] at hs1 ⊢ <;> rw [hs1]
      · cases f3 <;>
          simp [hk, bind, P.bind, pure, P.pure, PState.skip, PState.peek] at hs1 ⊢ <;> rw [hs1]
    refine ⟨{ s1 with depth := s1.depth - 1 }, E, ?_, ?_, hE, ?_⟩
    · exact parse_and_visit_statement_of_dispatch X fuel ty _ _ true hd h
    · simpa [PState.skip] using hout
    · simpa [PState.skip] using hdiags
  · intro hyes hnl
    have hlabel : parse_and_visit_statement.is_label_after_break
        (PState.skip ⟨kw :: rest, lte, diags, out, stack, f1, f2, f3, f4, depth + 1,
          options, tx⟩).peek.type = true := by
      rw [hpk]
      rcases hyes with h | h | h | h <;>
        simp [parse_and_visit_statement.is_label_after_break, h]
    obtain ⟨s1, hs1, hout, hdep, _, E, hdiags, hE⟩ := consume_semicolon_after_statement_spec
      (PState.skip (PState.skip ⟨kw :: rest, lte, diags, out, stack, f1, f2, f3, f4,
        depth + 1, options, tx⟩))
    have hnl' : (PState.skip ⟨kw :: rest, lte, diags, out, stack, f1, f2, f3, f4, depth + 1,
          options, tx⟩).peek.has_leading_newline = false := by rw [hpk]; exact hnl
    have h : parse_and_visit_statement.dispatch X (parse_and_visit_statement X (fuel + 1))
        fuel ty ⟨kw :: rest, lte, diags, out, stack, f1, f2, f3, f4, depth + 1, options, tx⟩
        = .ok (some true) s1 := by
      rw [hdisp]
      simp only [parse_and_visit_statement.case_kw_break_or_kw_continue, bind, P.bind,
        get_state_apply, skip_apply, peek_apply, hlabel, hnl']
      simp [bind, P.bind, pure, P.pure, PState.skip, PState.peek] at hs1 ⊢
      rw [hs1]
    refine ⟨{ s1 with depth := s1.depth - 1 }, E, ?_, ?_, hE, ?_⟩
    · exact parse_and_visit_statement_of_dispatch X fuel ty _ _ true hd h
    · simpa [PState.skip] using hout
    · simpa [PState.skip] using hdiags

/-- C5 at a concrete input: `break;` outside any loop or switch. -/
theorem invalid_break_or_continue_witness :
    ∃ s1 E, parse_and_visit_statement sample_externals 2 .any_statement_in_block
        (initial_state [tok .kw_break 0 5, tok .semicolon 5 6]) = .ok true s1
      ∧ s1.out = []
      ∧ (∀ d ∈ E, d.type = .diag_missing_semicolon_after_statement)
      ∧ s1.diags = [] ++ [{ type := .diag_invalid_break, spans := [⟨0, 5⟩] }] ++ E :=
  (invalid_break_or_continue sample_externals 0 .any_statement_in_block
    (initial_state [tok .kw_break 0 5, tok .semicolon 5 6]) (tok .kw_break 0 5)
    [tok .semicolon 5 6] rfl (Or.inl rfl) (by decide)).1 (by decide)

/-- C5 as stated fails: `break x;` parsed with neither `in_loop_statement` nor
`in_switch_statement` set reports no diagnostic at all, so no `diag_invalid_break`. -/
theorem break_with_label_reports_nothing :
    (initial_state [tok .kw_break 0 5, ident_tok "x" 6 7, tok .semicolon 7 8]).in_loop_statement
        = false
    ∧ (initial_state [tok .kw_break 0 5, ident_tok "x" 6 7,
          tok .semicolon 7 8]).in_switch_statement = false
    ∧ parse_and_visit_statement sample_externals 2 .any_statement_in_block
        (initial_state [tok .kw_break 0 5, ident_tok "x" 6 7, tok .semicolon 7 8]) =
      .ok true { input := [], last_token_end := 8, diags := [], out := [] } := by
  decide

/-! ## What `parse_and_visit_statement` returns -/

theorem Returns.bind {α β : Type} {Q : β → Prop} (m : P α) (f : α → P β)
    (h : ∀ a, Returns Q (f a)) : Returns Q (m >>= f) := by
  intro s b s1 hb
  have hb1 : P.bind m f s = .ok b s1 := hb
  unfold P.bind at hb1
  split at hb1
  · exact h _ _ _ _ hb1
  · cases hb1
  · cases hb1

theorem Returns.pure {α : Type} {Q : α → Prop} (a : α) (h : Q a) :
    Returns Q (pure a : P α) := by
  intro s b s1 hb
  have hb1 : P.pure a s = .ok b s1 := hb
  unfold P.pure at hb1
  cases hb1
  exact h

theorem Returns.unimplemented {α : Type} {Q : α → Prop} :
    Returns Q (QLJS_PARSER_UNIMPLEMENTED : P α) := by
  intro s b s1 hb
  cases hb

theorem Returns.ite {α : Type} {Q : α → Prop} (c : Prop) [Decidable c] (a b : P α)
    (ha : Returns Q a) (hb : Returns Q b) : Returns Q (if c then a else b) := by
  split <;> assumption

theorem returns_label (X : Externals) (fuel : Nat) :
    Returns (fun r => r ≠ some false)
      (parse_and_visit_statement.label_or_expression_starting_with_identifier X fuel) := by
  unfold parse_and_visit_statement.label_or_expression_starting_with_identifier
  repeat (first
    | (with_reducible apply Returns.bind; intro _)
    | with_reducible apply Returns.ite
    | with_reducible exact Returns.pure _ (by simp)
    | with_reducible exact Returns.unimplemented
    | split)

theorem returns_end (t : token)
    (hne : ¬ (t.type = .end_of_file ∨ t.type = .right_curly)) :
    Returns (fun r => r ≠ some false)
      (if (t.type == token_type.end_of_file || t.type == token_type.right_curly) = true
       then (pure (some false) : P (Option Bool)) else QLJS_PARSER_UNIMPLEMENTED) := by
  have hc : ¬ ((t.type == token_type.end_of_file || t.type == token_type.right_curly) = true) := by
    simpa using hne
  rw [if_neg hc]
  exact Returns.unimplemented

set_option maxRecDepth 8000 in
theorem dispatch_ne_false (X : Externals) (stmt : parse_statement_type → P Bool)
    (fuel : Nat) (ty : parse_statement_type) (s s1 : PState) (r : Option Bool)
    (h : parse_and_visit_statement.dispatch X stmt fuel ty s = .ok r s1)
    (hne : ¬ (s.peek.type = .end_of_file ∨ s.peek.type = .right_curly)) :
    r ≠ some false := by
  unfold parse_and_visit_statement.dispatch at h
  have h1 := h
  change P.bind peek _ s = _ at h1
  unfold P.bind at h1
  simp only [peek_apply] at h1
  revert h1
  generalize s.peek = t at hne
  intro h1
  refine (?_ : Returns (fun r => r ≠ some false) _) s r s1 h1
  unfold parse_and_visit_statement.case_kw_export parse_and_visit_statement.case_semicolon
    parse_and_visit_statement.case_kw_function
    parse_and_visit_statement.case_kw_const_or_kw_var parse_and_visit_statement.case_kw_let
    parse_and_visit_statement.case_kw_abstract parse_and_visit_statement.case_kw_declare
    parse_and_visit_statement.case_kw_async parse_and_visit_statement.case_kw_import
    parse_and_visit_statement.case_expression parse_and_visit_statement.case_kw_await
    parse_and_visit_statement.case_kw_yield
    parse_and_visit_statement.case_reserved_keyword_with_escape_sequence
    parse_and_visit_statement.case_kw_interface parse_and_visit_statement.case_kw_type
    parse_and_visit_statement.case_kw_class parse_and_visit_statement.case_kw_switch
    parse_and_visit_statement.case_kw_return parse_and_visit_statement.case_kw_throw
    parse_and_visit_statement.case_kw_try parse_and_visit_statement.case_kw_catch
    parse_and_visit_statement.case_kw_finally parse_and_visit_statement.case_kw_do
    parse_and_visit_statement.case_kw_for parse_and_visit_statement.case_kw_while
    parse_and_visit_statement.case_kw_with parse_and_visit_statement.case_kw_if
    parse_and_visit_statement.case_kw_else
    parse_and_visit_statement.case_kw_break_or_kw_continue
    parse_and_visit_statement.case_kw_debugger parse_and_visit_statement.case_kw_enum
    parse_and_visit_statement.case_left_curly parse_and_visit_statement.case_kw_case
    parse_and_visit_statement.case_kw_default
    parse_and_visit_statement.case_unexpected_token
  repeat (first
    | with_reducible exact returns_end t hne
    | with_reducible exact returns_label X fuel
    | (with_reducible apply Returns.bind; intro _)
    | with_reducible apply Returns.ite
    | with_reducible exact Returns.pure _ (by simp)
    | with_reducible exact Returns.unimplemented
    | split
    | dsimp only)

theorem parse_statement_landing (X : Externals) (stmt : parse_statement_type → P Bool)
    (ty : parse_statement_type) :
    ∀ (fuel : Nat) (s s2 : PState) (b : Bool),
      parse_and_visit_statement.parse_statement X stmt ty fuel s = .ok b s2 →
      ∃ sd, parse_and_visit_statement.landing X stmt ty fuel s = some sd
        ∧ (b = false ↔ (sd.peek.type = .end_of_file ∨ sd.peek.type = .right_curly))
        ∧ (b = false → s2 = sd) := by
  intro fuel
  induction fuel with
  | zero => intro s s2 b h; cases h
  | succ fuel ih =>
    intro s s2 b h
    rw [parse_statement_succ] at h
    have h1 : P.bind (parse_and_visit_statement.dispatch X stmt fuel ty) _ s = .ok b s2 := h
    unfold P.bind at h1
    cases hd : parse_and_visit_statement.dispatch X stmt fuel ty s with
    | out_of_fuel => rw [hd] at h1; cases h1
    | stop r s1 => rw [hd] at h1; cases h1
    | ok r s1 =>
      rw [hd] at h1
      cases r with
      | none =>
        obtain ⟨sd, hsd, hiff, heq⟩ := ih s1 s2 b h1
        refine ⟨sd, ?_, hiff, heq⟩
        simp only [parse_and_visit_statement.landing, hd]
        exact hsd
      | some r =>
        have hb : b = r ∧ s2 = s1 := by
          have h2 : (Res.ok r s1 : Res Bool) = .ok b s2 := h1
          cases h2
          exact ⟨rfl, rfl⟩
        obtain ⟨hb1, hb2⟩ := hb
        subst hb1 hb2
        refine ⟨s, ?_, ?_, ?_⟩
        · simp only [parse_and_visit_statement.landing, hd]
        · by_cases hp : s.peek.type = .end_of_file ∨ s.peek.type = .right_curly
          · rw [dispatch_end X stmt fuel ty s hp] at hd
            cases hd
            simp [hp]
          · have := dispatch_ne_false X stmt fuel ty s s2 (some b) hd hp
            cases b
            · exact absurd rfl this
            · simp [hp]
        · intro hb
          by_cases hp : s.peek.type = .end_of_file ∨ s.peek.type = .right_curly
          · rw [dispatch_end X stmt fuel ty s hp] at hd
            cases hd
            rfl
          · have := dispatch_ne_false X stmt fuel ty s s2 (some b) hd hp
            subst hb
            exact absurd rfl this

/-- C10: when `parse_and_visit_statement` returns, it returns false if and only if the
token at which its `switch` is entered for the last time, after every label prefix has
been skipped, is end-of-file or a right curly, and then nothing has been consumed or
emitted since that landing; in every other case in which it returns, it returns true.
When the head token itself is end-of-file or a right curly (and the call is within the
depth limit) it returns false and leaves the whole state as it was: no token consumed,
no event, no diagnostic. -/
theorem parse_and_visit_statement_returns_false_iff (X : Externals) (fuel : Nat)
    (ty : parse_statement_type) (s : PState) :
    (∀ (b : Bool) (s1 : PState),
      parse_and_visit_statement X (fuel + 1) ty s = .ok b s1 →
      ∃ sd, parse_and_visit_statement.landing X (parse_and_visit_statement X fuel) ty fuel
              { s with depth := s.depth + 1 } = some sd
        ∧ (b = false ↔ (sd.peek.type = .end_of_file ∨ sd.peek.type = .right_curly))
        ∧ (b = true ↔ ¬ (sd.peek.type = .end_of_file ∨ sd.peek.type = .right_curly))
        ∧ (b = false → s1 = { sd with depth := sd.depth - 1 }))
    ∧ ((s.peek.type = .end_of_file ∨ s.peek.type = .right_curly) →
        s.depth + 1 ≤ X.stack_limit →
        parse_and_visit_statement X (fuel + 2) ty s = .ok false s) := by
  constructor
  · intro b s1 h
    rw [parse_and_visit_statement_succ] at h
    have h1 : P.bind (depth_guard_enter X) _ s = .ok b s1 := h
    unfold P.bind at h1
    by_cases hd : s.depth + 1 ≤ X.stack_limit
    · rw [depth_guard_enter_ok X s hd] at h1
      have h2 : P.bind (parse_and_visit_statement.parse_statement X
          (parse_and_visit_statement X fuel) ty fuel) _ { s with depth := s.depth + 1 }
          = .ok b s1 := h1
      unfold P.bind at h2
      cases hp : parse_and_visit_statement.parse_statement X
          (parse_and_visit_statement X fuel) ty fuel { s with depth := s.depth + 1 } with
      | out_of_fuel => rw [hp] at h2; cases h2
      | stop r s2 => rw [hp] at h2; cases h2
      | ok r s2 =>
        rw [hp] at h2
        have h3 : (Res.ok r { s2 with depth := s2.depth - 1 } : Res Bool) = .ok b s1 := h2
        cases h3
        obtain ⟨sd, hsd, hiff, heq⟩ := parse_statement_landing X _ ty fuel _ _ _ hp
        refine ⟨sd, hsd, hiff, ?_, ?_⟩
        · rw [← hiff]
          cases b <;> simp
        · intro hb
          rw [heq hb]
    · have : depth_guard_enter X s = .stop .depth_limit_exceeded
          { s with diags := s.diags ++
            [{ type := .diag_depth_limit_exceeded, spans := [s.peek.span] }] } := by
        simp [depth_guard_enter, Nat.lt_of_not_le hd]
      rw [this] at h1
      cases h1
  · intro hp hd
    rw [parse_and_visit_statement_of_dispatch X fuel ty s _ false hd
      (dispatch_end X _ fuel ty _ hp)]
    cases s
    simp

/-- C10 at concrete inputs: a label followed by the end of the file (false is returned
after the label was consumed), and a right curly at the head (false, state untouched). -/
theorem parse_and_visit_statement_returns_false_iff_witness :
    (∃ sd, parse_and_visit_statement.landing sample_externals
              (parse_and_visit_statement sample_externals 2) .any_statement_in_block 2
              { initial_state [ident_tok "a" 0 1, tok .colon 1 2] with depth := 1 } = some sd
        ∧ (false = false ↔ (sd.peek.type = .end_of_file ∨ sd.peek.type = .right_curly))
        ∧ (false = true ↔ ¬ (sd.peek.type = .end_of_file ∨ sd.peek.type = .right_curly))
        ∧ (false = false → ({ input := [], last_token_end := 2 } : PState)
            = { sd with depth := sd.depth - 1 }))
    ∧ parse_and_visit_statement sample_externals 2 .any_statement_in_block
        (initial_state [tok .right_curly 0 1]) = .ok false (initial_state [tok .right_curly 0 1]) :=
  ⟨(parse_and_visit_statement_returns_false_iff sample_externals 2 .any_statement_in_block
      (initial_state [ident_tok "a" 0 1, tok .colon 1 2])).1 false
      { input := [], last_token_end := 2 } (by decide),
   (parse_and_visit_statement_returns_false_iff sample_externals 0 .any_statement_in_block
      (initial_state [tok .right_curly 0 1])).2 (Or.inr rfl) (by decide)⟩

theorem block_loop_of_contained_statements (stmt : parse_statement_type → P Bool)
    (span : source_code_span) (n : Nat) (s s_e : PState)
    (hrun : contained_statements (stmt .any_statement_in_block) n s s_e) :
    ∀ fuel, n + 1 ≤ fuel →
    (s_e.peek.type = .right_curly →
      parse_and_visit_statement_block_no_scope.loop stmt span fuel s = .ok () s_e.skip)
    ∧ (s_e.peek.type = .end_of_file →
      parse_and_visit_statement_block_no_scope.loop stmt span fuel s
        = .ok () { s_e with diags := s_e.diags ++
            [{ type := .diag_unclosed_code_block, spans := [span] }] }) := by
  induction hrun with
  | declined s s1 h =>
    intro fuel hf
    obtain ⟨f, rfl⟩ : ∃ f, fuel = f + 1 := ⟨fuel - 1, by omega⟩
    constructor
    · intro ht
      simp [parse_and_visit_statement_block_no_scope.loop, bind, P.bind, h, ht]
    · intro ht
      simp [parse_and_visit_statement_block_no_scope.loop, bind, P.bind, h, ht]
  | parsed n s s1 s2 h rest ih =>
    intro fuel hf
    obtain ⟨f, rfl⟩ : ∃ f, fuel = f + 1 := ⟨fuel - 1, by omega⟩
    have := ih f (by omega)
    simpa [parse_and_visit_statement_block_no_scope.loop, bind, P.bind, h] using this


/-- A statement starting with a left curly, in terms of the run of its contained statements. -/
theorem left_curly_statement (X : Externals) (fuel n : Nat) (ty : parse_statement_type)
    (s s_e : PState) (hlc : s.peek.type = .left_curly) (hd : s.depth + 1 ≤ X.stack_limit)
    (hn : n + 1 ≤ fuel)
    (hrun : contained_statements
      (parse_and_visit_statement X (fuel + 1) .any_statement_in_block) n
      { s.skip with out := s.out ++ [.visit_enter_scope .block], depth := s.depth + 1 } s_e) :
    (s_e.peek.type = .right_curly →
      parse_and_visit_statement X (fuel + 2) ty s
        = .ok true { s_e.skip with out := s_e.out ++ [.visit_exit_scope .block],
                                   depth := s_e.depth - 1 })
    ∧ (s_e.peek.type = .end_of_file →
      parse_and_visit_statement X (fuel + 2) ty s
        = .ok true { s_e with out := s_e.out ++ [.visit_exit_scope .block],
                              diags := s_e.diags ++ [unclosed_code_block_of s.peek],
                              depth := s_e.depth - 1 }) := by
  have hl := block_loop_of_contained_statements (parse_and_visit_statement X (fuel + 1))
    s.peek.span n _ s_e hrun fuel hn
  constructor
  · intro ht
    have h : parse_and_visit_statement.dispatch X (parse_and_visit_statement X (fuel + 1))
        fuel ty { s with depth := s.depth + 1 }
        = .ok (some true) { s_e.skip with out := s_e.out ++ [.visit_exit_scope .block] } := by
      rw [dispatch_left_curly _ _ _ _ _ (by simpa [PState.peek] using hlc)]
      have hl1 := hl.1 ht
      simp [PState.skip, PState.peek, end_of_file_token, token.span] at hl1
      simp [end_of_file_token, parse_and_visit_statement.case_left_curly, parse_and_visit_statement_block_no_scope,
        visit_enter_block_scope, visit_exit_block_scope, visit,
        bind, P.bind, pure, P.pure, PState.skip, PState.peek, peek, skip, token.span, hl1]
    rw [parse_and_visit_statement_of_dispatch X fuel ty _ _ true hd h]
    simp [PState.skip]
  · intro ht
    have h : parse_and_visit_statement.dispatch X (parse_and_visit_statement X (fuel + 1))
        fuel ty { s with depth := s.depth + 1 }
        = .ok (some true)
            { s_e with
              out := s_e.out ++ [.visit_exit_scope .block]
              diags := s_e.diags ++ [unclosed_code_block_of s.peek] } := by
      rw [dispatch_left_curly _ _ _ _ _ (by simpa [PState.peek] using hlc)]
      have hl1 := hl.2 ht
      simp [PState.skip, PState.peek, end_of_file_token, token.span] at hl1
      simp [end_of_file_token, parse_and_visit_statement.case_left_curly, parse_and_visit_statement_block_no_scope,
        visit_enter_block_scope, visit_exit_block_scope, visit, unclosed_code_block_of,
        bind, P.bind, pure, P.pure, PState.skip, PState.peek, peek, skip, token.span, hl1]
    rw [parse_and_visit_statement_of_dispatch X fuel ty _ _ true hd h]


/-- At end of file or at a right curly `parse_and_visit_statement` declines: it returns
false and leaves the state as it was. -/
theorem parse_and_visit_statement_declines (X : Externals) (fuel : Nat)
    (ty : parse_statement_type) (s : PState)
    (h : s.peek.type = .end_of_file ∨ s.peek.type = .right_curly)
    (hd : s.depth + 1 ≤ X.stack_limit) :
    parse_and_visit_statement X (fuel + 2) ty s = .ok false s := by
  have hdis : parse_and_visit_statement.dispatch X (parse_and_visit_statement X (fuel + 1))
      fuel ty { s with depth := s.depth + 1 } = .ok (some false) { s with depth := s.depth + 1 } :=
    dispatch_end _ _ _ _ _ (by simpa [PState.peek] using h)
  rw [parse_and_visit_statement_of_dispatch X fuel ty _ _ false hd hdis]
  cases s
  simp

theorem getLast_end_cons (l : List token) (lc : token) (d : Nat) :
    (l.getLast?.getD lc).end_ = (lc.end_ :: l.map token.end_).getLast?.getD d := by
  cases l with
  | nil => simp
  | cons b l =>
    simp [List.getLast?_cons, List.getLast?_map]

/-- Nested blocks that are all left open at the end of the file. -/
theorem nested_unclosed_blocks (X : Externals) :
    ∀ (lcs : List token) (fuel : Nat) (ty : parse_statement_type) (s : PState),
      (∀ t ∈ lcs, t.type = .left_curly) → s.input = lcs →
      s.depth + lcs.length + 1 ≤ X.stack_limit →
      parse_and_visit_statement X (fuel + lcs.length + 3) ty s
        = .ok (!lcs.isEmpty)
            { s with
              input := []
              last_token_end := (lcs.map token.end_).getLastD s.last_token_end
              out := s.out ++ List.replicate lcs.length (.visit_enter_scope .block)
                      ++ List.replicate lcs.length (.visit_exit_scope .block)
              diags := s.diags ++ lcs.reverse.map unclosed_code_block_of } := by
  intro lcs
  induction lcs with
  | nil =>
    intro fuel ty s _ hin hd
    have hp : s.peek.type = .end_of_file := by simp [PState.peek, hin, end_of_file_token]
    rw [show fuel + ([] : List token).length + 3 = (fuel + 1) + 2 from rfl,
      parse_and_visit_statement_declines X (fuel + 1) ty s (Or.inl hp) (by simpa using hd)]
    obtain ⟨input, lte, diags, out, stack, f1, f2, f3, f4, depth, options, tx⟩ := s
    simp only at hin
    subst hin
    simp
  | cons lc rest ih =>
    intro fuel ty s hall hin hd
    have hlc : lc.type = .left_curly := hall lc (List.mem_cons_self _ _)
    have hrest : ∀ t ∈ rest, t.type = .left_curly := fun t ht => hall t (List.mem_cons_of_mem _ ht)
    obtain ⟨input, lte, diags, out, stack, f1, f2, f3, f4, depth, options, tx⟩ := s
    simp only at hin hd
    subst hin
    simp only [List.length_cons] at hd
    have hinner := ih fuel .any_statement_in_block
      ⟨rest, lc.end_, diags, out ++ [.visit_enter_scope .block], stack, f1, f2, f3, f4,
        depth + 1, options, tx⟩ hrest rfl (by simp only; omega)
    have hend := parse_and_visit_statement_declines X (fuel + rest.length + 1)
      .any_statement_in_block
      ⟨[], (rest.map token.end_).getLastD lc.end_, diags ++ rest.reverse.map unclosed_code_block_of,
        out ++ [.visit_enter_scope .block] ++ List.replicate rest.length (.visit_enter_scope .block)
          ++ List.replicate rest.length (.visit_exit_scope .block), stack, f1, f2, f3, f4,
        depth + 1, options, tx⟩ (Or.inl (by simp [PState.peek, end_of_file_token]))
      (by simp only; omega)
    have hrun : contained_statements
        (parse_and_visit_statement X (fuel + rest.length + 2 + 1) .any_statement_in_block)
        (if rest.isEmpty then 0 else 1)
        ⟨rest, lc.end_, diags, out ++ [.visit_enter_scope .block], stack, f1, f2, f3, f4,
          depth + 1, options, tx⟩
        ⟨[], (rest.map token.end_).getLastD lc.end_,
          diags ++ rest.reverse.map unclosed_code_block_of,
          out ++ [.visit_enter_scope .block]
            ++ List.replicate rest.length (.visit_enter_scope .block)
            ++ List.replicate rest.length (.visit_exit_scope .block), stack, f1, f2, f3, f4,
          depth + 1, options, tx⟩ := by
      cases rest with
      | nil =>
        exact contained_statements.declined _ _ (by simpa using hinner)
      | cons r rs =>
        exact contained_statements.parsed 0 _ _ _ (by simpa using hinner)
          (contained_statements.declined _ _ hend)
    have hmain := (left_curly_statement X (fuel + rest.length + 2)
      (if rest.isEmpty then 0 else 1) ty
      ⟨lc :: rest, lte, diags, out, stack, f1, f2, f3, f4, depth, options, tx⟩ _
      (by simp [PState.peek, hlc]) (by simp only; omega) (by split <;> omega)
      (by simpa [PState.skip, PState.peek] using hrun)).2
      (by simp [PState.peek, end_of_file_token])
    rw [show fuel + (lc :: rest).length + 3 = fuel + rest.length + 2 + 2 from by
      simp only [List.length_cons]; omega, hmain]
    simp [PState.peek, unclosed_code_block_of, List.replicate_succ]
    exact ⟨getLast_end_cons rest lc lte, (List.replicate_succ' _ _).symm.trans
      (List.replicate_succ _ _)⟩


/-- A call of `parse_and_visit_statement` that returns false stands at the end of the file
or at a right curly. -/
theorem declined_statement_peek (X : Externals) (fuel : Nat) (ty : parse_statement_type)
    (s s1 : PState) (h : parse_and_visit_statement X fuel ty s = .ok false s1) :
    s1.peek.type = .end_of_file ∨ s1.peek.type = .right_curly := by
  cases fuel with
  | zero => cases h
  | succ fuel =>
    rw [parse_and_visit_statement_succ] at h
    have h1 : P.bind (depth_guard_enter X) _ s = .ok false s1 := h
    unfold P.bind at h1
    by_cases hd : s.depth + 1 ≤ X.stack_limit
    · rw [depth_guard_enter_ok X s hd] at h1
      have h2 : P.bind (parse_and_visit_statement.parse_statement X
          (parse_and_visit_statement X fuel) ty fuel) _ { s with depth := s.depth + 1 }
          = .ok false s1 := h1
      unfold P.bind at h2
      cases hp : parse_and_visit_statement.parse_statement X
          (parse_and_visit_statement X fuel) ty fuel { s with depth := s.depth + 1 } with
      | out_of_fuel => rw [hp] at h2; cases h2
      | stop r s2 => rw [hp] at h2; cases h2
      | ok r s2 =>
        rw [hp] at h2
        have h3 : (Res.ok r { s2 with depth := s2.depth - 1 } : Res Bool) = .ok false s1 := h2
        cases h3
        obtain ⟨sd, _, hiff, heq⟩ := parse_statement_landing X _ ty fuel _ _ _ hp
        have := hiff.1 rfl
        rw [heq rfl]
        simpa [PState.peek, end_of_file_token] using this
    · have : depth_guard_enter X s = .stop .depth_limit_exceeded
          { s with diags := s.diags ++
            [{ type := .diag_depth_limit_exceeded, spans := [s.peek.span] }] } := by
        simp [depth_guard_enter, Nat.lt_of_not_le hd]
      rw [this] at h1
      cases h1

theorem contained_statements_end (X : Externals) (fuel n : Nat) (ty : parse_statement_type)
    (s s_e : PState) (hrun : contained_statements (parse_and_visit_statement X fuel ty) n s s_e) :
    s_e.peek.type = .end_of_file ∨ s_e.peek.type = .right_curly := by
  induction hrun with
  | declined s s1 h => exact declined_statement_peek X fuel ty s s1 h
  | parsed n s s1 s2 _ _ ih => exact ih

/-- C8: a statement starting with a left curly (parsed within the depth limit) whose
contained statements are all parsed, the last call of `parse_and_visit_statement` in the
block declining in the state `s_e`: the events are `visit_enter_block_scope`, then the
events of the contained statements, then `visit_exit_block_scope`, and the statement
returns true.  The contained statements stop at a right curly or at the end of the file;
at a right curly the curly is consumed and nothing is reported; at the end of the file
exactly one `diag_unclosed_code_block` is added, after the diagnostics of the contained
statements, on the span of the block's own left curly, and the exit event is emitted all
the same.  So `k` nested blocks left open at the end of the file give `k` enter events,
`k` exit events and `k` diagnostics, the innermost block's first. -/
theorem block_statement_events (X : Externals) (fuel n : Nat) (ty : parse_statement_type)
    (s s_e : PState) (hlc : s.peek.type = .left_curly) (hd : s.depth + 1 ≤ X.stack_limit)
    (hn : n + 1 ≤ fuel)
    (hrun : contained_statements
      (parse_and_visit_statement X (fuel + 1) .any_statement_in_block) n
      { s.skip with out := s.out ++ [.visit_enter_scope .block], depth := s.depth + 1 } s_e) :
    (s_e.peek.type = .right_curly ∨ s_e.peek.type = .end_of_file)
    ∧ (s_e.peek.type = .right_curly →
      parse_and_visit_statement X (fuel + 2) ty s
        = .ok true { s_e.skip with out := s_e.out ++ [.visit_exit_scope .block],
                                   depth := s_e.depth - 1 })
    ∧ (s_e.peek.type = .end_of_file →
      parse_and_visit_statement X (fuel + 2) ty s
        = .ok true { s_e with out := s_e.out ++ [.visit_exit_scope .block],
                              diags := s_e.diags ++ [unclosed_code_block_of s.peek],
                              depth := s_e.depth - 1 })
    ∧ (∀ (lcs : List token) (s0 : PState), lcs ≠ [] →
      (∀ t ∈ lcs, t.type = .left_curly) → s0.input = lcs →
      s0.depth + lcs.length + 1 ≤ X.stack_limit →
      parse_and_visit_statement X (fuel + lcs.length + 3) ty s0
        = .ok true
            { s0 with
              input := []
              last_token_end := (lcs.map token.end_).getLastD s0.last_token_end
              out := s0.out ++ List.replicate lcs.length (.visit_enter_scope .block)
                      ++ List.replicate lcs.length (.visit_exit_scope .block)
              diags := s0.diags ++ lcs.reverse.map unclosed_code_block_of }) := by
  refine ⟨(contained_statements_end X _ n _ _ s_e hrun).symm,
    (left_curly_statement X fuel n ty s s_e hlc hd hn hrun).1,
    (left_curly_statement X fuel n ty s s_e hlc hd hn hrun).2, ?_⟩
  intro lcs s0 hne hall hin hd0
  rw [nested_unclosed_blocks X lcs fuel ty s0 hall hin hd0]
  cases lcs with
  | nil => exact absurd rfl hne
  | cons a l => rfl

/-- C8 at concrete inputs: `{ let x; }`, the lone `{`, and `{ {`. -/
theorem block_statement_events_witness :
    parse_and_visit_statement sample_externals 6 .any_statement
        (initial_state [tok .left_curly 0 1, tok .kw_let 2 5, ident_tok "x" 6 7,
          tok .semicolon 7 8, tok .right_curly 9 10])
      = .ok true
          { input := [], last_token_end := 10,
            out := [.visit_enter_scope .block,
                    .visit_variable_declaration ⟨⟨6, 7⟩, "x"⟩ ._let .normal,
                    .visit_exit_scope .block] }
    ∧ parse_and_visit_statement sample_externals 3 .any_statement
        (initial_state [tok .left_curly 0 1])
      = .ok true
          { input := [], last_token_end := 1,
            out := [.visit_enter_scope .block, .visit_exit_scope .block],
            diags := [{ type := .diag_unclosed_code_block, spans := [⟨0, 1⟩] }] }
    ∧ parse_and_visit_statement sample_externals 6 .any_statement
        (initial_state [tok .left_curly 0 1, tok .left_curly 2 3])
      = .ok true
          { input := [], last_token_end := 3,
            out := [.visit_enter_scope .block, .visit_enter_scope .block,
                    .visit_exit_scope .block, .visit_exit_scope .block],
            diags := [{ type := .diag_unclosed_code_block, spans := [⟨2, 3⟩] },
                      { type := .diag_unclosed_code_block, spans := [⟨0, 1⟩] }] } :=
  ⟨(block_statement_events sample_externals 4 1 .any_statement
      (initial_state [tok .left_curly 0 1, tok .kw_let 2 5, ident_tok "x" 6 7,
        tok .semicolon 7 8, tok .right_curly 9 10])
      { input := [tok .right_curly 9 10], last_token_end := 8,
        out := [.visit_enter_scope .block,
                .visit_variable_declaration ⟨⟨6, 7⟩, "x"⟩ ._let .normal],
        depth := 1 }
      rfl (by decide) (by decide)
      (contained_statements.parsed 0 _
        { input := [tok .right_curly 9 10], last_token_end := 8,
          out := [.visit_enter_scope .block,
                  .visit_variable_declaration ⟨⟨6, 7⟩, "x"⟩ ._let .normal],
          depth := 1 } _ (by decide)
        (contained_statements.declined _ _ (by decide)))).2.1 rfl,
   (block_statement_events sample_externals 1 0 .any_statement
      (initial_state [tok .left_curly 0 1])
      { input := [], last_token_end := 1, out := [.visit_enter_scope .block], depth := 1 }
      rfl (by decide) (by decide)
      (contained_statements.declined _ _ (by decide))).2.2.1 rfl,
   (block_statement_events sample_externals 1 0 .any_statement
      (initial_state [tok .left_curly 0 1])
      { input := [], last_token_end := 1, out := [.visit_enter_scope .block], depth := 1 }
      rfl (by decide) (by decide)
      (contained_statements.declined _ _ (by decide))).2.2.2
      [tok .left_curly 0 1, tok .left_curly 2 3]
      (initial_state [tok .left_curly 0 1, tok .left_curly 2 3])
      (by decide) (by decide) rfl (by decide)⟩

theorem named_export_tokens_head (items : List named_export_item) (rc : token)
    (tail : List token) (hall : ∀ i ∈ items, i.is_plain = true) (hrc : rc.type = .right_curly) :
    ∃ h t, named_export_tokens items ++ rc :: tail = h :: t
      ∧ (h.type = .identifier ∨ h.type = .right_curly) := by
  cases items with
  | nil => exact ⟨rc, tail, rfl, Or.inr hrc⟩
  | cons i rest =>
    refine ⟨i.name, _, rfl, Or.inl ?_⟩
    have := hall i (List.mem_cons_self _ _)
    simp only [named_export_item.is_plain, Bool.and_eq_true, beq_iff_eq] at this
    exact this.1.1

theorem named_exports_loop_identifier (X : Externals) (f : Nat) (bad : List token)
    (s : PState) (h : s.peek.type = .identifier) :
    parse_and_visit_named_exports.loop X none true (f + 1) bad s
      = (do
          parse_and_visit_named_exports.named_export X none true false false
          let t ← peek
          if t.type == token_type.comma then
            skip
          parse_and_visit_named_exports.loop X none true f bad) s := by
  rw [parse_and_visit_named_exports.loop]
  simp [bind, P.bind, peek, h, is_strict_reserved_keyword,
    is_strict_only_reserved_keyword, is_reserved_keyword_except_await_and_yield,
    parse_and_visit_named_exports.is_plain_name]
  rfl

theorem named_export_without_alias (X : Externals) (s : PState) (name : token)
    (rest : List token) (hin : s.input = name :: rest)
    (hnext : ∀ x ∈ rest.head?, x.type ≠ .kw_as) :
    parse_and_visit_named_exports.named_export X none true false false s
      = .ok () { s with input := rest, last_token_end := name.end_,
                        out := s.out ++ [.visit_variable_export_use name.identifier_name] } := by
  obtain ⟨input, lte, diags, out, stack, f1, f2, f3, f4, depth, options, tx⟩ := s
  simp only at hin
  subst hin
  cases rest with
  | nil =>
    simp [parse_and_visit_named_exports.named_export, bind, P.bind, pure, P.pure, peek, skip,
      PState.peek, PState.skip, visit_variable_export_use, visit, end_of_file_token]
  | cons x r =>
    have hx : x.type ≠ .kw_as := hnext x (by simp)
    simp [parse_and_visit_named_exports.named_export, bind, P.bind, pure, P.pure, peek, skip,
      PState.peek, PState.skip, visit_variable_export_use, visit, hx]

theorem named_export_with_alias (X : Externals) (s : PState) (name a m : token)
    (rest : List token) (hin : s.input = name :: a :: m :: rest)
    (ha : a.type = .kw_as) (hm : is_export_alias_token m.type = true) :
    parse_and_visit_named_exports.named_export X none true false false s
      = .ok () { s with input := rest, last_token_end := m.end_,
                        out := s.out ++ [.visit_variable_export_use name.identifier_name] } := by
  obtain ⟨input, lte, diags, out, stack, f1, f2, f3, f4, depth, options, tx⟩ := s
  simp only at hin
  subst hin
  simp [parse_and_visit_named_exports.named_export, bind, P.bind, pure, P.pure, peek, skip,
    PState.peek, PState.skip, visit_variable_export_use, visit, ha, hm]

theorem named_exports_loop_step (X : Externals) (i : named_export_item) (f : Nat)
    (bad : List token) (s : PState) (h : token) (t : List token)
    (hi : i.is_plain = true) (hh : h.type = .identifier ∨ h.type = .right_curly)
    (hin : s.input = i.tokens ++ h :: t) :
    ∃ lte, parse_and_visit_named_exports.loop X none true (f + 1) bad s
      = parse_and_visit_named_exports.loop X none true f bad
          { s with input := h :: t, last_token_end := lte,
                   out := s.out ++ [.visit_variable_export_use i.name.identifier_name] } := by
  obtain ⟨input, lte, diags, out, stack, f1, f2, f3, f4, depth, options, tx⟩ := s
  obtain ⟨name, al, comma⟩ := i
  simp only [named_export_item.tokens] at hin
  subst hin
  simp only [named_export_item.is_plain, Bool.and_eq_true, beq_iff_eq] at hi
  obtain ⟨⟨hname, hal⟩, hcomma⟩ := hi
  have hhc : (h.type == token_type.comma) = false := by
    rcases hh with hh | hh <;> simp [hh]
  have hha : h.type ≠ .kw_as := by
    rcases hh with hh | hh <;> simp [hh]
  cases al with
  | none =>
    cases comma with
    | none =>
      refine ⟨name.end_, ?_⟩
      rw [named_exports_loop_identifier X f bad _ (by simpa [PState.peek] using hname)]
      simp only [bind, P.bind]
      rw [named_export_without_alias X _ name (h :: t) rfl (by simpa using hha)]
      simp [peek, PState.peek, hhc, pure, P.pure, bind, P.bind]
    | some c =>
      simp only [beq_iff_eq] at hcomma
      refine ⟨c.end_, ?_⟩
      rw [named_exports_loop_identifier X f bad _ (by simpa [PState.peek] using hname)]
      simp only [bind, P.bind]
      rw [named_export_without_alias X _ name (c :: h :: t) rfl (by simp [hcomma])]
      simp [peek, PState.peek, hcomma, skip, PState.skip, bind, P.bind]
  | some am =>
    obtain ⟨a, m⟩ := am
    simp only [Bool.and_eq_true, beq_iff_eq] at hal
    obtain ⟨ha, hm⟩ := hal
    cases comma with
    | none =>
      refine ⟨m.end_, ?_⟩
      rw [named_exports_loop_identifier X f bad _ (by simpa [PState.peek] using hname)]
      simp only [bind, P.bind]
      rw [named_export_with_alias X _ name a m (h :: t) rfl ha hm]
      simp [peek, PState.peek, hhc, pure, P.pure, bind, P.bind]
    | some c =>
      simp only [beq_iff_eq] at hcomma
      refine ⟨c.end_, ?_⟩
      rw [named_exports_loop_identifier X f bad _ (by simpa [PState.peek] using hname)]
      simp only [bind, P.bind]
      rw [named_export_with_alias X _ name a m (c :: h :: t) rfl ha hm]
      simp [peek, PState.peek, hcomma, skip, PState.skip, bind, P.bind]

theorem named_exports_loop_plain (X : Externals) :
    ∀ (items : List named_export_item) (fuel : Nat) (bad : List token) (s : PState)
      (rc : token) (tail : List token),
      (∀ i ∈ items, i.is_plain = true) → rc.type = .right_curly →
      s.input = named_export_tokens items ++ rc :: tail → items.length + 1 ≤ fuel →
      parse_and_visit_named_exports.loop X none true fuel bad s
        = .ok bad { s with input := tail, last_token_end := rc.end_,
                           out := s.out ++ named_export_uses items } := by
  intro items
  induction items with
  | nil =>
    intro fuel bad s rc tail _ hrc hin hf
    obtain ⟨f, rfl⟩ : ∃ f, fuel = f + 1 := ⟨fuel - 1, by simp at hf; omega⟩
    obtain ⟨input, lte, diags, out, stack, f1, f2, f3, f4, depth, options, tx⟩ := s
    simp only [named_export_tokens, List.nil_append] at hin
    subst hin
    simp [parse_and_visit_named_exports.loop, bind, P.bind, pure, P.pure, peek, skip,
      PState.peek, PState.skip, hrc, QLJS_PARSER_UNIMPLEMENTED_IF_NOT_TOKEN, named_export_uses]
  | cons i rest ih =>
    intro fuel bad s rc tail hall hrc hin hf
    obtain ⟨f, rfl⟩ : ∃ f, fuel = f + 1 := ⟨fuel - 1, by simp at hf; omega⟩
    have hi := hall i (List.mem_cons_self _ _)
    have hrest : ∀ j ∈ rest, j.is_plain = true := fun j hj => hall j (List.mem_cons_of_mem _ hj)
    obtain ⟨h, t, hR, hh⟩ := named_export_tokens_head rest rc tail hrest hrc
    have hin2 : s.input = i.tokens ++ h :: t := by
      rw [hin, named_export_tokens, List.append_assoc, hR]
    obtain ⟨lte1, hstep⟩ := named_exports_loop_step X i f bad s h t hi hh hin2
    rw [hstep, ih f bad _ rc tail hrest hrc hR.symm (by simp at hf ⊢; omega)]
    simp [named_export_uses]

theorem dispatch_kw_export (X : Externals) (stmt : parse_statement_type → P Bool)
    (fuel : Nat) (ty : parse_statement_type) (s : PState) (h : s.peek.type = .kw_export) :
    parse_and_visit_statement.dispatch X stmt fuel ty s
      = parse_and_visit_statement.case_kw_export X stmt fuel s := by
  simp [parse_and_visit_statement.dispatch, bind, P.bind, h]

/-- The statement `export {` routes to the branch of the named exports. -/
theorem parse_and_visit_export_left_curly (X : Externals)
    (stmt : parse_statement_type → P Bool) (fuel : Nat) (s : PState)
    (h : s.skip.peek.type = .left_curly) :
    parse_and_visit_export X stmt fuel s
      = (do
          buffering_visitor_stack_emplace
          let exported_bad_tokens ←
            with_top_buffering_visitor (parse_and_visit_named_exports_for_export X fuel)
          let t ← peek
          if t.type == token_type.kw_from then
            skip
            QLJS_PARSER_UNIMPLEMENTED_IF_NOT_TOKEN .string
            skip
          else
            parse_and_visit_export.report_bad_tokens X exported_bad_tokens
            top_buffering_visitor_move_into_v
          buffering_visitor_stack_pop
          consume_semicolon_after_statement) s.skip := by
  rw [parse_and_visit_export]
  simp [bind, P.bind, peek, skip, h]

/-- The named exports of `export { ... }`, run with the buffering visitor on top of the
stack in the place of `v`. -/
theorem named_exports_buffered (X : Externals) (fuel : Nat) (s : PState) (lc rc : token)
    (items : List named_export_item) (tail : List token) (top : List Event)
    (stack : List (List Event))
    (hin : s.input = lc :: (named_export_tokens items ++ rc :: tail))
    (hrc : rc.type = .right_curly) (hitems : ∀ i ∈ items, i.is_plain = true)
    (hfuel : items.length + 1 ≤ fuel) (hstack : s.buffering_visitor_stack = top :: stack) :
    with_top_buffering_visitor (parse_and_visit_named_exports_for_export X fuel) s
      = .ok [] { s with input := tail, last_token_end := rc.end_,
                        buffering_visitor_stack := (top ++ named_export_uses items) :: stack } := by
  obtain ⟨input, lte, diags, out, stack0, f1, f2, f3, f4, depth, options, tx⟩ := s
  simp only at hin hstack
  subst hin hstack
  have hl := named_exports_loop_plain X items fuel []
    ⟨named_export_tokens items ++ rc :: tail, lc.end_, diags, [], top :: stack, f1, f2, f3, f4,
      depth, options, tx⟩ rc tail hitems hrc rfl hfuel
  simp [with_top_buffering_visitor, capture, parse_and_visit_named_exports_for_export,
    parse_and_visit_named_exports, bind, P.bind, pure, P.pure, skip, PState.skip, PState.peek,
    hl]


/-- C3: the statement `export { n1 [as m1], ..., nk [as mk] }` (parsed within the depth
limit) whose names are non-keyword identifiers, each optionally followed by `as` and an
alias and by a comma.  When the list is followed by `from` and a module string, no event
is emitted at all; when the token after the list is not `from`, exactly the events
`visit_variable_export_use(n1)`, ..., `visit_variable_export_use(nk)` are emitted, in
list order, on the names left of `as`: no event (so no declaration) is emitted for an
alias.  In both cases the statement returns true and the buffering-visitor stack is as it
was. -/
theorem named_exports_events (X : Externals) (fuel : Nat) (ty : parse_statement_type)
    (s : PState) (export_token lc rc : token) (items : List named_export_item)
    (tail : List token)
    (hin : s.input = export_token :: lc :: (named_export_tokens items ++ rc :: tail))
    (hexport : export_token.type = .kw_export)
    (hlc : lc.type = .left_curly) (hrc : rc.type = .right_curly)
    (hitems : ∀ i ∈ items, i.is_plain = true)
    (hfuel : items.length + 1 ≤ fuel) (hd : s.depth + 1 ≤ X.stack_limit) :
    (∀ (from_token module_token : token) (rest : List token),
      tail = from_token :: module_token :: rest →
      from_token.type = .kw_from → module_token.type = .string →
      ∃ s1, parse_and_visit_statement X (fuel + 2) ty s = .ok true s1
        ∧ s1.out = s.out
        ∧ s1.buffering_visitor_stack = s.buffering_visitor_stack)
    ∧ ((∀ x ∈ tail.head?, x.type ≠ .kw_from) →
      ∃ s1, parse_and_visit_statement X (fuel + 2) ty s = .ok true s1
        ∧ s1.out = s.out ++ named_export_uses items
        ∧ s1.buffering_visitor_stack = s.buffering_visitor_stack) := by
  obtain ⟨input, lte, diags, out, stack, f1, f2, f3, f4, depth, options, tx⟩ := s
  simp only at hin hd
  subst hin
  have hbuf := named_exports_buffered X fuel
    ⟨lc :: (named_export_tokens items ++ rc :: tail), export_token.end_, diags, out,
      [] :: stack, f1, f2, f3, f4, depth + 1, options, tx⟩ lc rc items tail [] stack rfl hrc hitems
    hfuel rfl
  simp only [List.nil_append] at hbuf
  constructor
  · intro from_token module_token rest htail hfrom hmodule
    subst htail
    obtain ⟨s2, hs2, hout, _, hstack, _⟩ := consume_semicolon_after_statement_spec
      ⟨rest, module_token.end_, diags, out, stack, f1, f2, f3, f4, depth + 1, options, tx⟩
    have h : parse_and_visit_statement.dispatch X (parse_and_visit_statement X (fuel + 1))
        fuel ty ⟨export_token :: lc :: (named_export_tokens items ++ rc :: from_token ::
          module_token :: rest), lte, diags, out, stack, f1, f2, f3, f4, depth + 1, options, tx⟩
        = .ok (some true) s2 := by
      rw [dispatch_kw_export _ _ _ _ _ (by simp [PState.peek, hexport]),
        parse_and_visit_statement.case_kw_export]
      simp only [bind, P.bind]
      rw [parse_and_visit_export_left_curly _ _ _ _ (by simp [PState.peek, PState.skip, hlc])]
      simp only [bind, P.bind, buffering_visitor_stack_emplace, PState.skip, PState.peek,
        List.headD_cons, List.tail_cons, hbuf]
      simp [peek, PState.peek, hfrom, hmodule, skip, PState.skip, bind, P.bind, pure, P.pure,
        QLJS_PARSER_UNIMPLEMENTED_IF_NOT_TOKEN, buffering_visitor_stack_pop, hs2]
    refine ⟨_, parse_and_visit_statement_of_dispatch X fuel ty _ _ true hd h, ?_, ?_⟩
    · simpa using hout
    · simpa using hstack
  · intro hnot
    obtain ⟨s2, hs2, hout, _, hstack, _⟩ := consume_semicolon_after_statement_spec
      ⟨tail, rc.end_, diags, out ++ named_export_uses items, stack, f1, f2, f3, f4, depth + 1,
        options, tx⟩
    have hfrom : ((tail.headD (end_of_file_token
        ⟨tail, rc.end_, diags, out, named_export_uses items :: stack, f1, f2, f3, f4,
          depth + 1, options, tx⟩)).type == token_type.kw_from) = false := by
      cases tail with
      | nil => simp [end_of_file_token]
      | cons x r => simpa using hnot x (by simp)
    have h : parse_and_visit_statement.dispatch X (parse_and_visit_statement X (fuel + 1))
        fuel ty ⟨export_token :: lc :: (named_export_tokens items ++ rc :: tail), lte, diags,
          out, stack, f1, f2, f3, f4, depth + 1, options, tx⟩
        = .ok (some true) s2 := by
      rw [dispatch_kw_export _ _ _ _ _ (by simp [PState.peek, hexport]),
        parse_and_visit_statement.case_kw_export]
      simp only [bind, P.bind]
      rw [parse_and_visit_export_left_curly _ _ _ _ (by simp [PState.peek, PState.skip, hlc])]
      simp only [bind, P.bind, buffering_visitor_stack_emplace, PState.skip, PState.peek,
        List.headD_cons, List.tail_cons, hbuf, peek, hfrom]
      simp [parse_and_visit_export.report_bad_tokens, top_buffering_visitor_move_into_v,
        skip, PState.skip, bind, P.bind, pure, P.pure, buffering_visitor_stack_pop, hs2]
    refine ⟨_, parse_and_visit_statement_of_dispatch X fuel ty _ _ true hd h, ?_, ?_⟩
    · simpa using hout
    · simpa using hstack


/-- C3 at concrete inputs: `export { a as b, c };` and `export { a, c } from "m";`. -/
theorem named_exports_events_witness :
    (∃ s1, parse_and_visit_statement sample_externals 5 .any_statement
        (initial_state [tok .kw_export 0 6, tok .left_curly 7 8, ident_tok "a" 9 10,
          tok .kw_as 11 13, ident_tok "b" 14 15, tok .comma 15 16, ident_tok "c" 17 18,
          tok .right_curly 19 20, tok .semicolon 20 21]) = .ok true s1
      ∧ s1.out = [.visit_variable_export_use ⟨⟨9, 10⟩, "a"⟩,
                  .visit_variable_export_use ⟨⟨17, 18⟩, "c"⟩]
      ∧ s1.buffering_visitor_stack = [])
    ∧ (∃ s1, parse_and_visit_statement sample_externals 5 .any_statement
        (initial_state [tok .kw_export 0 6, tok .left_curly 7 8, ident_tok "a" 9 10,
          tok .comma 10 11, ident_tok "c" 12 13, tok .right_curly 14 15,
          tok .kw_from 16 20, tok .string 21 24, tok .semicolon 24 25]) = .ok true s1
      ∧ s1.out = []
      ∧ s1.buffering_visitor_stack = []) :=
  ⟨(named_exports_events sample_externals 3 .any_statement
      (initial_state [tok .kw_export 0 6, tok .left_curly 7 8, ident_tok "a" 9 10,
        tok .kw_as 11 13, ident_tok "b" 14 15, tok .comma 15 16, ident_tok "c" 17 18,
        tok .right_curly 19 20, tok .semicolon 20 21])
      (tok .kw_export 0 6) (tok .left_curly 7 8) (tok .right_curly 19 20)
      [{ name := ident_tok "a" 9 10, alias_ := some (tok .kw_as 11 13, ident_tok "b" 14 15),
         comma := some (tok .comma 15 16) },
       { name := ident_tok "c" 17 18 }]
      [tok .semicolon 20 21] rfl rfl rfl rfl (by decide) (by decide) (by decide)).2
      (by decide),
   (named_exports_events sample_externals 3 .any_statement
      (initial_state [tok .kw_export 0 6, tok .left_curly 7 8, ident_tok "a" 9 10,
        tok .comma 10 11, ident_tok "c" 12 13, tok .right_curly 14 15,
        tok .kw_from 16 20, tok .string 21 24, tok .semicolon 24 25])
      (tok .kw_export 0 6) (tok .left_curly 7 8) (tok .right_curly 14 15)
      [{ name := ident_tok "a" 9 10, comma := some (tok .comma 10 11) },
       { name := ident_tok "c" 12 13 }]
      [tok .kw_from 16 20, tok .string 21 24, tok .semicolon 24 25]
      rfl rfl rfl rfl (by decide) (by decide) (by decide)).1
      (tok .kw_from 16 20) (tok .string 21 24) [tok .semicolon 24 25] rfl rfl rfl⟩

set_option maxHeartbeats 1000000 in
/-- The declaration of a `for`-`in` or `for`-`of` head, from the declaring token on. -/
theorem for_declaration_replay (X : Externals) (fuel left_paren_token_begin : Nat)
    (for_token_span : source_code_span) (s sB s3 : PState) (decl kw : token)
    (rest rest2 : List token) (rhs : expression) (E R : List Event)
    (hin : s.input = decl :: rest)
    (hdecl : decl.type = .kw_var ∨ decl.type = .kw_let ∨ decl.type = .kw_const)
    (hlet : decl.type = .kw_let →
      X.is_let_token_a_variable_reference s.skip.peek true
        { s.skip with
          buffering_visitor_stack := [] :: s.buffering_visitor_stack
          open_transactions := s.open_transactions + 1 }
        = .ok false
          { s.skip with
            buffering_visitor_stack := [] :: s.buffering_visitor_stack
            open_transactions := s.open_transactions + 1 })
    (hof : decl.type = .kw_let → s.skip.peek.type = .kw_of →
      s.skip.skip.peek.type ≠ .identifier)
    (hbind : parse_and_visit_let_bindings X fuel decl false
        (!(decl.type == .kw_let && s.skip.peek.type == .kw_of)) true
        { s.skip with buffering_visitor_stack := [] :: s.buffering_visitor_stack, out := [] }
        = .ok () sB)
    (hstackB : sB.buffering_visitor_stack = [] :: s.buffering_visitor_stack)
    (hkw : sB.input = kw :: rest2) (hkwt : kw.type = .kw_in ∨ kw.type = .kw_of)
    (hparse : X.parse_expression {}
        { sB with input := rest2, last_token_end := kw.end_, out := s.out,
                  buffering_visitor_stack := sB.out :: s.buffering_visitor_stack }
        = .ok rhs s3)
    (hE : s3.out = s.out ++ E)
    (hstack3 : s3.buffering_visitor_stack = sB.out :: s.buffering_visitor_stack)
    (hvisit : ∀ σ, X.visit_expression rhs .rhs σ = .ok () { σ with out := σ.out ++ R }) :
    parse_and_visit_for.declaration X fuel left_paren_token_begin for_token_span s
      = .ok (some (if kw.type = .kw_in then loop_style.for_in else loop_style.for_of), none)
          { s3 with
            buffering_visitor_stack := s.buffering_visitor_stack
            out := s.out ++ E ++
              (if decl.type = .kw_var ∧ kw.type = .kw_in then sB.out ++ R else R ++ sB.out) } := by
  obtain ⟨input, lte, diags, out, stack, f1, f2, f3, f4, depth, options, tx⟩ := s
  obtain ⟨inputB, lteB, diagsB, outB, stackB, g1, g2, g3, g4, depthB, optionsB, txB⟩ := sB
  obtain ⟨input3, lte3, diags3, out3, stack3, k1, k2, k3, k4, depth3, options3, tx3⟩ := s3
  simp only at hin hstackB hkw hE hstack3
  subst hin hstackB hkw hE hstack3
  simp only [PState.skip, PState.peek, List.headD_cons, List.tail_cons] at hlet hof hbind hparse
  rcases hdecl with hd | hd | hd
  · -- var
    simp [hd, show (token_type.kw_var == token_type.kw_let) = false from rfl] at hbind
    rcases hkwt with hk | hk
    · simp [parse_and_visit_for.declaration, bind, P.bind, pure, P.pure, peek, skip,
        begin_transaction, commit_transaction, buffering_visitor_stack_emplace,
        with_top_buffering_visitor, capture, top_buffering_visitor_move_into_v,
        buffering_visitor_stack_pop, PState.peek, PState.skip, hd, hk, hbind, hparse, hvisit]
    · simp [parse_and_visit_for.declaration, bind, P.bind, pure, P.pure, peek, skip,
        begin_transaction, commit_transaction, buffering_visitor_stack_emplace,
        with_top_buffering_visitor, capture, top_buffering_visitor_move_into_v,
        buffering_visitor_stack_pop, PState.peek, PState.skip, hd, hk, hbind, hparse, hvisit]
  · -- let
    have hlet1 := hlet hd
    simp only [hd] at hof
    by_cases ht : (rest.head?.getD (end_of_file_token
        ⟨rest, decl.end_, diags, out, stack, f1, f2, f3, f4, depth, options, tx⟩)).type
        = token_type.kw_of
    · have hof1 := hof trivial (by simpa using ht)
      simp [hd, ht] at hbind
      simp [end_of_file_token] at hlet1 ht hof1 hbind
      rcases hkwt with hk | hk
      · simp [parse_and_visit_for.declaration, bind, P.bind, pure, P.pure, peek, skip,
        begin_transaction, commit_transaction, roll_back_transaction,
        buffering_visitor_stack_emplace,
        with_top_buffering_visitor, capture, top_buffering_visitor_move_into_v,
        buffering_visitor_stack_pop, PState.peek, PState.skip, hd, hk, hbind, hparse, hvisit, hlet1, ht, hof1, end_of_file_token]
      · simp [parse_and_visit_for.declaration, bind, P.bind, pure, P.pure, peek, skip,
        begin_transaction, commit_transaction, roll_back_transaction,
        buffering_visitor_stack_emplace,
        with_top_buffering_visitor, capture, top_buffering_visitor_move_into_v,
        buffering_visitor_stack_pop, PState.peek, PState.skip, hd, hk, hbind, hparse, hvisit, hlet1, ht, hof1, end_of_file_token]
    · simp [hd] at hbind
      simp [end_of_file_token] at hlet1 ht hbind
      simp only [beq_false_of_ne ht, Bool.not_false] at hbind
      rcases hkwt with hk | hk
      · simp [parse_and_visit_for.declaration, bind, P.bind, pure, P.pure, peek, skip,
        begin_transaction, commit_transaction, roll_back_transaction,
        buffering_visitor_stack_emplace,
        with_top_buffering_visitor, capture, top_buffering_visitor_move_into_v,
        buffering_visitor_stack_pop, PState.peek, PState.skip, hd, hk, hbind, hparse, hvisit, hlet1, ht, end_of_file_token]
      · simp [parse_and_visit_for.declaration, bind, P.bind, pure, P.pure, peek, skip,
        begin_transaction, commit_transaction, roll_back_transaction,
        buffering_visitor_stack_emplace,
        with_top_buffering_visitor, capture, top_buffering_visitor_move_into_v,
        buffering_visitor_stack_pop, PState.peek, PState.skip, hd, hk, hbind, hparse, hvisit, hlet1, ht, end_of_file_token]
  · -- const
    simp [hd, show (token_type.kw_const == token_type.kw_let) = false from rfl] at hbind
    rcases hkwt with hk | hk
    · simp [parse_and_visit_for.declaration, bind, P.bind, pure, P.pure, peek, skip,
        begin_transaction, commit_transaction, roll_back_transaction,
        buffering_visitor_stack_emplace,
        with_top_buffering_visitor, capture, top_buffering_visitor_move_into_v,
        buffering_visitor_stack_pop, PState.peek, PState.skip, hd, hk, hbind, hparse, hvisit]
    · simp [parse_and_visit_for.declaration, bind, P.bind, pure, P.pure, peek, skip,
        begin_transaction, commit_transaction, roll_back_transaction,
        buffering_visitor_stack_emplace,
        with_top_buffering_visitor, capture, top_buffering_visitor_move_into_v,
        buffering_visitor_stack_pop, PState.peek, PState.skip, hd, hk, hbind, hparse, hvisit]


theorem bind_three_ok (m1 m2 m3 : P Unit) (σ σ1 : PState)
    (h : P.bind m1 (fun _ => P.bind m2 (fun _ => m3)) σ = .ok () σ1) :
    ∃ a b, m1 σ = .ok () a ∧ m2 a = .ok () b ∧ m3 b = .ok () σ1 := by
  unfold P.bind at h
  cases h1 : m1 σ with
  | out_of_fuel => rw [h1] at h; cases h
  | stop r s1 => rw [h1] at h; cases h
  | ok u a =>
    rw [h1] at h
    simp only at h
    cases h2 : m2 a with
    | out_of_fuel => rw [h2] at h; cases h
    | stop r s1 => rw [h2] at h; cases h
    | ok v b =>
      rw [h2] at h
      exact ⟨a, b, rfl, h2, h⟩

/-- C2: a `for` loop whose head is a declaration (`var`, `let` or `const`; a `let` that
the parser takes as a declaration, other than `for (let of x)` without bindings) followed
by `in` or `of`, a right-hand side and `)`.  The declaration delivers its events `sB.out`
to a buffering visitor; the right-hand side is parsed (emitting `E`) and its visit emits
`R`; the body emits `B`.  For `var` with `in` the buffered events are replayed before the
visit of the right-hand side, so the order is `E`, declaration events, `R`, body events.
For every other combination (`let` or `const` with `in` or `of`, and `var` with `of`)
they are replayed after it: `E`, `R`, declaration events, body events.  With `let` and
`const` all of this is between `visit_enter_for_scope` and `visit_exit_for_scope`. -/
theorem for_in_of_replay_order (X : Externals) (stmt : parse_statement_type → P Bool)
    (fuel : Nat) (s sB s3 s6 s7 : PState) (for_token lp decl kw rp : token)
    (rest rest2 rest3 : List token) (rhs : expression) (E R B : List Event)
    (parsed_body : Bool)
    (hin : s.input = for_token :: lp :: decl :: rest)
    (hlp : lp.type = .left_paren)
    (hdecl : decl.type = .kw_var ∨ decl.type = .kw_let ∨ decl.type = .kw_const)
    (hfuel : 1 ≤ fuel)
    (hlet : decl.type = .kw_let →
      X.is_let_token_a_variable_reference s.skip.skip.skip.peek true
        { s.skip.skip.skip with
          out := s.out ++ for_scope_enter decl
          buffering_visitor_stack := [] :: s.buffering_visitor_stack
          open_transactions := s.open_transactions + 1 }
        = .ok false
          { s.skip.skip.skip with
            out := s.out ++ for_scope_enter decl
            buffering_visitor_stack := [] :: s.buffering_visitor_stack
            open_transactions := s.open_transactions + 1 })
    (hof : decl.type = .kw_let → s.skip.skip.skip.peek.type = .kw_of →
      s.skip.skip.skip.skip.peek.type ≠ .identifier)
    (hbind : parse_and_visit_let_bindings X fuel decl false
        (!(decl.type == .kw_let && s.skip.skip.skip.peek.type == .kw_of)) true
        { s.skip.skip.skip with
          out := []
          buffering_visitor_stack := [] :: s.buffering_visitor_stack }
        = .ok () sB)
    (hstackB : sB.buffering_visitor_stack = [] :: s.buffering_visitor_stack)
    (hkw : sB.input = kw :: rest2) (hkwt : kw.type = .kw_in ∨ kw.type = .kw_of)
    (hparse : X.parse_expression {}
        { sB with
          input := rest2
          last_token_end := kw.end_
          out := s.out ++ for_scope_enter decl
          buffering_visitor_stack := sB.out :: s.buffering_visitor_stack }
        = .ok rhs s3)
    (hE : s3.out = s.out ++ for_scope_enter decl ++ E)
    (hstack3 : s3.buffering_visitor_stack = sB.out :: s.buffering_visitor_stack)
    (hvisit : ∀ σ, X.visit_expression rhs .rhs σ = .ok () { σ with out := σ.out ++ R })
    (hrp : s3.input = rp :: rest3) (hrpt : rp.type = .right_paren)
    (herr : (do
        X.error_on_class_statement .for_loop
        X.error_on_function_statement .for_loop
        X.error_on_lexical_declaration .for_loop)
        { s3 with
          input := rest3
          last_token_end := rp.end_
          buffering_visitor_stack := s.buffering_visitor_stack
          out := s.out ++ for_scope_enter decl ++ E ++
            (if decl.type = token_type.kw_var ∧ kw.type = token_type.kw_in
             then sB.out ++ R else R ++ sB.out) }
        = .ok () s6)
    (hout6 : s6.out = s.out ++ for_scope_enter decl ++ E ++
        (if decl.type = .kw_var ∧ kw.type = .kw_in then sB.out ++ R else R ++ sB.out))
    (hbody : stmt .no_declarations s6 = .ok parsed_body s7)
    (hB : s7.out = s6.out ++ B) :
    ∃ s1, parse_and_visit_for X stmt fuel s = .ok () s1
      ∧ s1.out = s.out ++ for_scope_enter decl ++ E
          ++ (if decl.type = .kw_var ∧ kw.type = .kw_in then sB.out ++ R else R ++ sB.out)
          ++ B ++ for_scope_exit decl := by
  obtain ⟨f, rfl⟩ : ∃ f, fuel = f + 1 := ⟨fuel - 1, by omega⟩
  obtain ⟨input, lte, diags, out, stack, f1, f2, f3, f4, depth, options, tx⟩ := s
  simp only at hin
  subst hin
  have hdeclaration := for_declaration_replay X (f + 1) lp.begin_ for_token.span
    ⟨decl :: rest, lp.end_, diags, out ++ for_scope_enter decl, stack, f1, f2, f3, f4, depth,
      options, tx⟩ sB s3 decl kw rest rest2 rhs E R rfl hdecl hlet hof hbind hstackB hkw hkwt
    hparse hE hstack3 hvisit
  have hawait : (lp.type == token_type.kw_await) = false := by simp [hlp]
  have hsemi : (lp.type == token_type.semicolon) = false := by simp [hlp]
  obtain ⟨input3, lte3, diags3, out3, stack3, k1, k2, k3, k4, depth3, options3, tx3⟩ := s3
  simp only at hrp hE hstack3
  subst hrp hE hstack3
  have hextra : ∀ (st : Option loop_style) (σ : PState), σ.input = rp :: rest3 →
      parse_and_visit_for.extra_semicolons X st (f + 1) σ = .ok () σ := by
    intro st σ hσ
    simp [parse_and_visit_for.extra_semicolons, bind, P.bind, pure, P.pure, peek, PState.peek,
      hσ, hrpt]
  obtain ⟨input6, lte6, diags6, out6, stack6, m1, m2, m3, m4, depth6, options6, tx6⟩ := s6
  obtain ⟨input7, lte7, diags7, out7, stack7, n1, n2, n3, n4, depth7, options7, tx7⟩ := s7
  simp only at hout6 hB
  subst hout6 hB
  have herr1 : P.bind (X.error_on_class_statement .for_loop) (fun _ =>
      P.bind (X.error_on_function_statement .for_loop) (fun _ =>
        X.error_on_lexical_declaration .for_loop)) _ = _ := herr
  clear herr hlet hof hbind hparse hstackB
  obtain ⟨a, b, h1, h2, h3⟩ := bind_three_ok _ _ _ _ _ herr1
  clear herr1
  rcases hdecl with hd | hd | hd
  · simp [for_scope_enter, for_scope_exit, hd] at hdeclaration h1 h3 hbody ⊢
    simp [parse_and_visit_for, bind, P.bind, pure, P.pure, peek, skip, PState.peek,
      PState.skip, hlp, hd, hdeclaration, hextra, QLJS_PARSER_UNIMPLEMENTED_IF_NOT_TOKEN, hrpt,
      h1, h2, h3, hbody]
    cases parsed_body <;> simp [bind, P.bind, pure, P.pure, end_of_previous_token, report]
  · simp [for_scope_enter, for_scope_exit, hd] at hdeclaration h1 h3 hbody ⊢
    simp [parse_and_visit_for, bind, P.bind, pure, P.pure, peek, skip, PState.peek,
      PState.skip, hlp, hd, hdeclaration, hextra, QLJS_PARSER_UNIMPLEMENTED_IF_NOT_TOKEN, hrpt,
      h1, h2, h3, hbody, visit_enter_for_scope, visit_exit_for_scope, visit]
    cases parsed_body <;> simp [bind, P.bind, pure, P.pure, end_of_previous_token, report]
  · simp [for_scope_enter, for_scope_exit, hd] at hdeclaration h1 h3 hbody ⊢
    simp [parse_and_visit_for, bind, P.bind, pure, P.pure, peek, skip, PState.peek,
      PState.skip, hlp, hd, hdeclaration, hextra, QLJS_PARSER_UNIMPLEMENTED_IF_NOT_TOKEN, hrpt,
      h1, h2, h3, hbody, visit_enter_for_scope, visit_exit_for_scope, visit]
    cases parsed_body <;> simp [bind, P.bind, pure, P.pure, end_of_previous_token, report]


/-- C2 at concrete inputs: `for (var x = a in b) {}` and `for (let x in b) {}`. -/
theorem for_in_of_replay_order_witness :
    (∃ s1, parse_and_visit_for sample_externals (parse_and_visit_statement sample_externals 3) 5
        (initial_state [tok .kw_for 0 3, tok .left_paren 4 5, tok .kw_var 5 8,
          ident_tok "x" 9 10, tok .equal 11 12, ident_tok "a" 13 14, tok .kw_in 15 17,
          ident_tok "b" 18 19, tok .right_paren 19 20, tok .left_curly 21 22,
          tok .right_curly 22 23]) = .ok () s1
      ∧ s1.out = [.visit_variable_use ⟨⟨13, 14⟩, "a"⟩,
                  .visit_variable_declaration ⟨⟨9, 10⟩, "x"⟩ ._var .initialized_with_equals,
                  .visit_variable_use ⟨⟨18, 19⟩, "b"⟩,
                  .visit_enter_scope .block, .visit_exit_scope .block])
    ∧ (∃ s1, parse_and_visit_for sample_externals (parse_and_visit_statement sample_externals 3)
        5
        (initial_state [tok .kw_for 0 3, tok .left_paren 4 5, tok .kw_let 5 8,
          ident_tok "x" 9 10, tok .kw_in 11 13, ident_tok "b" 14 15, tok .right_paren 15 16,
          tok .left_curly 17 18, tok .right_curly 18 19]) = .ok () s1
      ∧ s1.out = [.visit_enter_scope .for_,
                  .visit_variable_use ⟨⟨14, 15⟩, "b"⟩,
                  .visit_variable_declaration ⟨⟨9, 10⟩, "x"⟩ ._let .normal,
                  .visit_enter_scope .block, .visit_exit_scope .block,
                  .visit_exit_scope .for_]) :=
  ⟨for_in_of_replay_order sample_externals (parse_and_visit_statement sample_externals 3) 5
      (initial_state [tok .kw_for 0 3, tok .left_paren 4 5, tok .kw_var 5 8,
        ident_tok "x" 9 10, tok .equal 11 12, ident_tok "a" 13 14, tok .kw_in 15 17,
        ident_tok "b" 18 19, tok .right_paren 19 20, tok .left_curly 21 22,
        tok .right_curly 22 23])
      { input := [tok .kw_in 15 17, ident_tok "b" 18 19,
          tok .right_paren 19 20, tok .left_curly 21 22, tok .right_curly 22 23],
        last_token_end := 14,
        out := [.visit_variable_use ⟨⟨13, 14⟩, "a"⟩,
                .visit_variable_declaration ⟨⟨9, 10⟩, "x"⟩ ._var .initialized_with_equals],
        buffering_visitor_stack := [[]] }
      { input := [tok .right_paren 19 20, tok .left_curly 21 22, tok .right_curly 22 23],
        last_token_end := 19,
        buffering_visitor_stack :=
          [[.visit_variable_use ⟨⟨13, 14⟩, "a"⟩,
            .visit_variable_declaration ⟨⟨9, 10⟩, "x"⟩ ._var .initialized_with_equals]] }
      { input := [tok .left_curly 21 22, tok .right_curly 22 23],
        last_token_end := 20,
        out := [.visit_variable_use ⟨⟨13, 14⟩, "a"⟩,
                .visit_variable_declaration ⟨⟨9, 10⟩, "x"⟩ ._var .initialized_with_equals,
                .visit_variable_use ⟨⟨18, 19⟩, "b"⟩] }
      { input := [],
        last_token_end := 23,
        out := [.visit_variable_use ⟨⟨13, 14⟩, "a"⟩,
                .visit_variable_declaration ⟨⟨9, 10⟩, "x"⟩ ._var .initialized_with_equals,
                .visit_variable_use ⟨⟨18, 19⟩, "b"⟩,
                .visit_enter_scope .block, .visit_exit_scope .block] }
      (tok .kw_for 0 3) (tok .left_paren 4 5) (tok .kw_var 5 8) (tok .kw_in 15 17)
      (tok .right_paren 19 20)
      [ident_tok "x" 9 10, tok .equal 11 12, ident_tok "a" 13 14, tok .kw_in 15 17,
        ident_tok "b" 18 19, tok .right_paren 19 20, tok .left_curly 21 22,
        tok .right_curly 22 23]
      [ident_tok "b" 18 19, tok .right_paren 19 20, tok .left_curly 21 22,
        tok .right_curly 22 23]
      [tok .left_curly 21 22, tok .right_curly 22 23]
      (make_expression_variable ⟨⟨18, 19⟩, "b"⟩ .identifier) []
      [.visit_variable_use ⟨⟨18, 19⟩, "b"⟩]
      [.visit_enter_scope .block, .visit_exit_scope .block] true
      rfl rfl (Or.inl rfl) (by decide)
      (fun h => absurd h (by decide)) (fun h => absurd h (by decide))
      (by decide) rfl rfl (Or.inl rfl) rfl rfl rfl (fun _ => rfl) rfl rfl rfl rfl
      (by decide) rfl,
   for_in_of_replay_order sample_externals (parse_and_visit_statement sample_externals 3) 5
      (initial_state [tok .kw_for 0 3, tok .left_paren 4 5, tok .kw_let 5 8,
        ident_tok "x" 9 10, tok .kw_in 11 13, ident_tok "b" 14 15, tok .right_paren 15 16,
        tok .left_curly 17 18, tok .right_curly 18 19])
      { input := [tok .kw_in 11 13, ident_tok "b" 14 15, tok .right_paren 15 16,
          tok .left_curly 17 18, tok .right_curly 18 19],
        last_token_end := 10,
        out := [.visit_variable_declaration ⟨⟨9, 10⟩, "x"⟩ ._let .normal],
        buffering_visitor_stack := [[]] }
      { input := [tok .right_paren 15 16, tok .left_curly 17 18, tok .right_curly 18 19],
        last_token_end := 15,
        out := [.visit_enter_scope .for_],
        buffering_visitor_stack :=
          [[.visit_variable_declaration ⟨⟨9, 10⟩, "x"⟩ ._let .normal]] }
      { input := [tok .left_curly 17 18, tok .right_curly 18 19],
        last_token_end := 16,
        out := [.visit_enter_scope .for_,
                .visit_variable_use ⟨⟨14, 15⟩, "b"⟩,
                .visit_variable_declaration ⟨⟨9, 10⟩, "x"⟩ ._let .normal] }
      { input := [],
        last_token_end := 19,
        out := [.visit_enter_scope .for_,
                .visit_variable_use ⟨⟨14, 15⟩, "b"⟩,
                .visit_variable_declaration ⟨⟨9, 10⟩, "x"⟩ ._let .normal,
                .visit_enter_scope .block, .visit_exit_scope .block] }
      (tok .kw_for 0 3) (tok .left_paren 4 5) (tok .kw_let 5 8) (tok .kw_in 11 13)
      (tok .right_paren 15 16)
      [ident_tok "x" 9 10, tok .kw_in 11 13, ident_tok "b" 14 15, tok .right_paren 15 16,
        tok .left_curly 17 18, tok .right_curly 18 19]
      [ident_tok "b" 14 15, tok .right_paren 15 16, tok .left_curly 17 18,
        tok .right_curly 18 19]
      [tok .left_curly 17 18, tok .right_curly 18 19]
      (make_expression_variable ⟨⟨14, 15⟩, "b"⟩ .identifier) []
      [.visit_variable_use ⟨⟨14, 15⟩, "b"⟩]
      [.visit_enter_scope .block, .visit_exit_scope .block] true
      rfl rfl (Or.inr (Or.inl rfl)) (by decide)
      (fun _ => rfl) (fun _ h => absurd h (by decide))
      (by decide) rfl rfl (Or.inl rfl) rfl rfl rfl (fun _ => rfl) rfl rfl rfl rfl
      (by decide) rfl⟩

/-- The case `assignment` of `visit_binding_element`, unfolded. -/
theorem visit_binding_element_assignment_eq (X : Externals) (f : expression_fields)
    (lhs rhs : expression) (more : List expression)
    (entries : List object_property_value_pair) (kind : variable_kind)
    (declaring_token : Option source_code_span) (init_kind : variable_init_kind) :
    visit_binding_element X (.mk .assignment f (lhs :: rhs :: more) entries) kind
        declaring_token init_kind
      = (do
          X.visit_expression rhs .rhs
          visit_binding_element X lhs kind declaring_token
            (if kind.is_const_let_var then .initialized_with_equals else .normal)) := by
  rw [visit_binding_element]
  rfl

/-- The case `variable` of `visit_binding_element` for a name that is not `let`. -/
theorem visit_binding_element_variable (X : Externals) (f : expression_fields)
    (children : List expression) (entries : List object_property_value_pair)
    (kind : variable_kind) (declaring_token : Option source_code_span)
    (init_kind : variable_init_kind) (s : PState)
    (h : f.variable_identifier_token_type ≠ .kw_let) :
    visit_binding_element X (.mk .variable f children entries) kind declaring_token init_kind s
      = .ok () { s with out := s.out ++
          [.visit_variable_declaration f.variable_identifier kind init_kind] } := by
  rw [visit_binding_element]
  have h1 : (f.variable_identifier_token_type == token_type.kw_let) = false := by
    simpa using h
  simp [bind, P.bind, pure, P.pure, h1, visit_variable_declaration, visit]

/-- C13, as amended: given an assignment node `lhs = rhs`, `visit_binding_element` first
visits `rhs` as an rvalue and then handles `lhs` with the same declaration kind; the
`init_kind` it hands down is `initialized_with_equals` when the kind is `_const`, `_let`
or `_var`, and `normal` for every other kind (`_parameter`, `_catch`, ...).  So when `lhs`
is a variable (not named `let`), the events are those of the visit of `rhs` followed by
one declaration of `lhs` with that `init_kind`. -/
theorem visit_binding_element_assignment (X : Externals) (f lf : expression_fields)
    (rhs : expression) (more lcs : List expression)
    (entries les : List object_property_value_pair) (kind : variable_kind)
    (declaring_token : Option source_code_span) (init_kind : variable_init_kind)
    (s s1 : PState)
    (hname : lf.variable_identifier_token_type ≠ .kw_let)
    (hvisit : X.visit_expression rhs .rhs s = .ok () s1) :
    (∀ lhs : expression,
      visit_binding_element X (.mk .assignment f (lhs :: rhs :: more) entries) kind
          declaring_token init_kind
        = (do
            X.visit_expression rhs .rhs
            visit_binding_element X lhs kind declaring_token
              (if kind = ._const ∨ kind = ._let ∨ kind = ._var
               then .initialized_with_equals else .normal)))
    ∧ visit_binding_element X
          (.mk .assignment f (.mk .variable lf lcs les :: rhs :: more) entries) kind
          declaring_token init_kind s
        = .ok () { s1 with out := s1.out ++
            [.visit_variable_declaration lf.variable_identifier kind
              (if kind = ._const ∨ kind = ._let ∨ kind = ._var
               then .initialized_with_equals else .normal)] } := by
  have hk : (if kind.is_const_let_var then variable_init_kind.initialized_with_equals
        else variable_init_kind.normal)
      = (if kind = ._const ∨ kind = ._let ∨ kind = ._var
         then variable_init_kind.initialized_with_equals else variable_init_kind.normal) := by
    cases kind <;> simp [variable_kind.is_const_let_var]
  constructor
  · intro lhs
    rw [visit_binding_element_assignment_eq, hk]
  · rw [visit_binding_element_assignment_eq, hk]
    simp only [bind, P.bind, hvisit]
    rw [visit_binding_element_variable X lf lcs les kind declaring_token _ s1 hname]

/-- C13 at a concrete input: `x = 1` declared with `let`. -/
theorem visit_binding_element_assignment_witness :
    visit_binding_element sample_externals
        (.mk .assignment {} [make_expression_variable ⟨⟨0, 1⟩, "x"⟩ .identifier,
          make_expression_variable ⟨⟨4, 5⟩, "y"⟩ .identifier] []) ._let none
        .initialized_with_equals (initial_state [])
      = .ok () { input := [],
                 out := [.visit_variable_use ⟨⟨4, 5⟩, "y"⟩,
                         .visit_variable_declaration ⟨⟨0, 1⟩, "x"⟩ ._let
                           .initialized_with_equals] } :=
  (visit_binding_element_assignment sample_externals {}
    { span := ⟨0, 1⟩, variable_identifier := ⟨⟨0, 1⟩, "x"⟩ }
    (make_expression_variable ⟨⟨4, 5⟩, "y"⟩ .identifier) [] [] [] [] ._let none
    .initialized_with_equals (initial_state [])
    { input := [], out := [.visit_variable_use ⟨⟨4, 5⟩, "y"⟩] } (by decide) rfl).2

/-- C13 as stated fails: for a parameter `x = y` the variable is declared with init_kind
`normal`, not `initialized_with_equals`. -/
theorem parameter_default_declared_normal :
    visit_binding_element sample_externals
        (.mk .assignment {} [make_expression_variable ⟨⟨0, 1⟩, "x"⟩ .identifier,
          make_expression_variable ⟨⟨4, 5⟩, "y"⟩ .identifier] []) ._parameter none .normal
        (initial_state [])
      = .ok () { input := [],
                 out := [.visit_variable_use ⟨⟨4, 5⟩, "y"⟩,
                         .visit_variable_declaration ⟨⟨0, 1⟩, "x"⟩ ._parameter .normal] } := by
  decide

/-- When the next token is neither `catch` nor `finally`,
`parse_and_visit_catch_or_finally_or_both` returns false and changes nothing. -/
theorem parse_and_visit_catch_or_finally_or_both_neither (X : Externals)
    (stmt : parse_statement_type → P Bool) (fuel : Nat) (s : PState)
    (hcatch : s.peek.type ≠ .kw_catch) (hfinally : s.peek.type ≠ .kw_finally) :
    parse_and_visit_catch_or_finally_or_both X stmt fuel s = .ok false s := by
  have h1 : (s.peek.type == token_type.kw_catch) = false := by simpa using hcatch
  have h2 : (s.peek.type == token_type.kw_finally) = false := by simpa using hfinally
  simp [parse_and_visit_catch_or_finally_or_both, bind, P.bind, pure, P.pure, peek, get_state,
    h1, h2, hcatch, hfinally]

/-- C20, as amended: for a `try` statement followed by neither a `catch` clause nor a
`finally` clause, `diag_missing_catch_or_finally_for_try_statement` is reported (at the end
of the last token of the body, with the span of the `try` token) when the try body is
present; when the body is missing too, the only diagnostic of the statement is
`diag_missing_body_for_try_statement` and the missing `catch`/`finally` is not reported. -/
theorem try_without_catch_or_finally (X : Externals) (stmt : parse_statement_type → P Bool)
    (fuel : Nat) (s s2 : PState) (try_token : token) (rest : List token)
    (hin : s.input = try_token :: rest)
    (hbody :
      (if s.skip.peek.type = .left_curly then
        (do
          visit_enter_block_scope
          parse_and_visit_statement_block_no_scope stmt fuel
          visit_exit_block_scope)
       else report .diag_missing_body_for_try_statement [try_token.span]) s.skip = .ok () s2)
    (hcatch : s2.peek.type ≠ .kw_catch) (hfinally : s2.peek.type ≠ .kw_finally) :
    parse_and_visit_try_maybe_catch_maybe_finally X stmt fuel s
        = .ok () (if s.skip.peek.type = .left_curly then
            { s2 with diags := s2.diags ++
                [{ type := .diag_missing_catch_or_finally_for_try_statement,
                   spans := [⟨s2.last_token_end, s2.last_token_end⟩, try_token.span] }] }
          else s2)
      ∧ (s.skip.peek.type ≠ .left_curly →
          s2 = { s.skip with diags := s.diags ++
            [{ type := .diag_missing_body_for_try_statement, spans := [try_token.span] }] }) := by
  have hpk : s.peek = try_token := by simp [PState.peek, hin]
  by_cases hb : s.skip.peek.type = .left_curly
  · simp only [hb, if_true] at hbody ⊢
    refine ⟨?_, fun h => absurd rfl h⟩
    have hb1 : (s.skip.peek.type == token_type.left_curly) = true := by simpa using hb
    simp only [parse_and_visit_try_maybe_catch_maybe_finally, bind, P.bind, peek, skip, hpk,
      hb1, if_true]
    simp only [bind, P.bind] at hbody
    cases h1 : visit_enter_block_scope s.skip with
    | ok a s3 =>
      rw [h1] at hbody
      simp only at hbody ⊢
      cases h2 : parse_and_visit_statement_block_no_scope stmt fuel s3 with
      | ok a2 s4 =>
        rw [h2] at hbody
        simp only at hbody ⊢
        rw [hbody]
        simp [parse_and_visit_catch_or_finally_or_both_neither X stmt fuel s2 hcatch hfinally,
          end_of_previous_token, report, pure, P.pure, bind, P.bind]
      | stop r s4 => rw [h2] at hbody; simp at hbody
      | out_of_fuel => rw [h2] at hbody; simp at hbody
    | stop r s3 => rw [h1] at hbody; simp at hbody
    | out_of_fuel => rw [h1] at hbody; simp at hbody
  · simp only [hb, if_false] at hbody ⊢
    have hb1 : (s.skip.peek.type == token_type.left_curly) = false := by simpa using hb
    have hs2 : s2 = { s.skip with diags := s.diags ++
        [{ type := .diag_missing_body_for_try_statement, spans := [try_token.span] }] } := by
      simp only [report, Res.ok.injEq, true_and] at hbody
      rw [← hbody]
      rfl
    refine ⟨?_, fun _ => hs2⟩
    simp only [parse_and_visit_try_maybe_catch_maybe_finally, bind, P.bind, peek, skip, hpk,
      hb1, Bool.false_eq_true, if_false]
    rw [hbody]
    simp [
      parse_and_visit_catch_or_finally_or_both_neither X stmt fuel s2 hcatch hfinally,
      pure, P.pure, bind, P.bind]

/-- C20 at a concrete input: `try { }` followed by nothing. -/
theorem try_without_catch_or_finally_witness :
    parse_and_visit_try_maybe_catch_maybe_finally sample_externals
        (parse_and_visit_statement sample_externals 3) 3
        (initial_state [tok .kw_try 0 3, tok .left_curly 4 5, tok .right_curly 6 7])
      = .ok () { input := [], last_token_end := 7,
                 out := [.visit_enter_scope .block, .visit_exit_scope .block],
                 diags := [{ type := .diag_missing_catch_or_finally_for_try_statement,
                             spans := [⟨7, 7⟩, ⟨0, 3⟩] }] } :=
  (try_without_catch_or_finally sample_externals
    (parse_and_visit_statement sample_externals 3) 3
    (initial_state [tok .kw_try 0 3, tok .left_curly 4 5, tok .right_curly 6 7])
    { input := [], last_token_end := 7,
      out := [.visit_enter_scope .block, .visit_exit_scope .block] }
    (tok .kw_try 0 3) [tok .left_curly 4 5, tok .right_curly 6 7] rfl (by decide)
    (by decide) (by decide)).1

/-- C20 as stated fails: a `try` with neither body nor `catch` nor `finally` reports only
`diag_missing_body_for_try_statement`. -/
theorem try_without_body_not_reported :
    parse_and_visit_module sample_externals 4 (initial_state [tok .kw_try 0 3])
      = .ok () { input := [], last_token_end := 3,
                 out := [.visit_end_of_module],
                 diags := [{ type := .diag_missing_body_for_try_statement,
                             spans := [⟨0, 3⟩] }] } := by
  decide

/-- C14, as amended: in a `const` declaration handled by `parse_and_visit_let_bindings`, a
binding that is a variable name with no initializer reports
`diag_missing_initializer_in_const_declaration` exactly when the caller passed
`allow_const_without_initializer = false`: with false the diagnostic is reported on the
name, with true (what the head of a `for` loop passes, C-style or not) nothing is
reported; in both cases the name is declared with `init_kind` `normal`. -/
theorem const_without_initializer (X : Externals) (declaring_token : token)
    (allow_in_operator : Bool) (allow_const_without_initializer : Bool)
    (is_in_for_initializer : Bool) (s : PState) (name : token) (rest : List token)
    (hin : s.input = name :: rest)
    (hname : name.type ≠ .kw_let)
    (hcolon : s.skip.peek.type ≠ .colon)
    (hequal : s.skip.peek.type ≠ .equal)
    (hcompound : is_compound_assignment_operator s.skip.peek.type = false)
    (hkeyword : parse_and_visit_let_bindings.is_expression_keyword_after_name
      s.skip.peek.type = false) :
    parse_and_visit_let_bindings.variable_name X declaring_token ._const allow_in_operator
        allow_const_without_initializer is_in_for_initializer s
      = .ok true { s.skip with
          diags := s.diags ++
            (if allow_const_without_initializer then []
             else [{ type := .diag_missing_initializer_in_const_declaration,
                     spans := [name.span] }])
          out := s.out ++ [.visit_variable_declaration name.identifier_name ._const .normal] } := by
  obtain ⟨input, lte, diags, out, stack, f1, f2, f3, f4, depth, options, tx⟩ := s
  simp only at hin
  subst hin
  · have hv := fun (ik : variable_init_kind) (σ : PState) =>
      visit_binding_element_variable X
        { span := name.identifier_name.span, variable_identifier := name.identifier_name,
          variable_identifier_token_type := name.type } [] [] ._const
        (some declaring_token.span) ik σ hname
    simp only [token.identifier_name, token.span] at hv
    rcases rest with _ | ⟨n, rest⟩
    · cases allow_const_without_initializer <;>
      simp [parse_and_visit_let_bindings.variable_name, bind, P.bind, pure, P.pure, peek, skip,
        make_expression_variable, hv, report, token.span, is_compound_assignment_operator, expression.span, expression.fields,
        parse_and_visit_let_bindings.is_expression_keyword_after_name,
        token.identifier_name, PState.skip, PState.peek, end_of_file_token]
    · simp [PState.skip, PState.peek, end_of_file_token] at hcolon hequal hcompound hkeyword
      cases allow_const_without_initializer <;>
      simp [parse_and_visit_let_bindings.variable_name, bind, P.bind, pure, P.pure, peek, skip,
        make_expression_variable, hv, report, token.span, hcolon, hequal, hcompound, hkeyword, expression.span, expression.fields,
        token.identifier_name, PState.skip, PState.peek, end_of_file_token]

/-- C14 at a concrete input: the binding `x` of `const x;`. -/
theorem const_without_initializer_witness :
    parse_and_visit_let_bindings.variable_name sample_externals (tok .kw_const 0 5) ._const
        true false false
        { input := [ident_tok "x" 6 7, tok .semicolon 7 8], last_token_end := 5 }
      = .ok true
          { input := [tok .semicolon 7 8], last_token_end := 7,
            diags := [{ type := .diag_missing_initializer_in_const_declaration,
                        spans := [⟨6, 7⟩] }],
            out := [.visit_variable_declaration ⟨⟨6, 7⟩, "x"⟩ ._const .normal] } :=
  const_without_initializer sample_externals (tok .kw_const 0 5) true false false
    { input := [ident_tok "x" 6 7, tok .semicolon 7 8], last_token_end := 5 }
    (ident_tok "x" 6 7) [tok .semicolon 7 8] rfl (by decide) (by decide) (by decide)
    (by decide) (by decide)

/-- C14 as stated fails: the head `(const x; ; )` of a C-style `for` loop declares `x`
without an initializer and no diagnostic is reported. -/
theorem const_in_c_style_for_not_reported :
    parse_and_visit_for.declaration sample_externals 3 4 ⟨0, 3⟩
        { input := [tok .kw_const 5 10, ident_tok "x" 11 12, tok .semicolon 12 13,
            tok .semicolon 14 15, tok .right_paren 16 17], last_token_end := 5 }
      = .ok (some .c_style, none)
          { input := [tok .right_paren 16 17], last_token_end := 15, diags := [],
            out := [.visit_variable_declaration ⟨⟨11, 12⟩, "x"⟩ ._const .normal] } := by
  rfl

/-- The declaration kind that `parse_and_visit_let_bindings` computes from the declaring
token. -/
theorem parse_and_visit_let_bindings_eq (X : Externals) (fuel : Nat) (declaring_token : token)
    (a b c : Bool) :
    parse_and_visit_let_bindings X fuel declaring_token a b c
      = parse_and_visit_let_bindings.loop X declaring_token
          (if declaring_token.type == .kw_const then ._const
           else if declaring_token.type == .kw_let then ._let
           else if declaring_token.type == .kw_var then ._var
           else ._let) a b c fuel true := rfl

/-- A binding that starts with an identifier continues at the label `variable_name`. -/
theorem binding_identifier (X : Externals) (declaring_token : token)
    (kind : variable_kind) (a b c first_binding : Bool)
    (comma_span : Option source_code_span) (s : PState)
    (h : s.peek.type = .identifier) :
    parse_and_visit_let_bindings.binding X declaring_token kind a b c first_binding comma_span s
      = parse_and_visit_let_bindings.variable_name X declaring_token kind a b c s := by
  simp [parse_and_visit_let_bindings.binding, bind, P.bind, get_state, peek, h,
    parse_and_visit_let_bindings.is_variable_name]

/-- The loop of `parse_and_visit_let_bindings` for one binding that is followed by `;`. -/
theorem let_bindings_loop_single (X : Externals) (declaring_token : token)
    (kind : variable_kind) (a b c : Bool) (fuel : Nat) (s s1 : PState)
    (hb : parse_and_visit_let_bindings.binding X declaring_token kind a b c true none s
      = .ok true s1)
    (hsemi : s1.peek.type = .semicolon) :
    parse_and_visit_let_bindings.loop X declaring_token kind a b c (fuel + 2) true s
      = .ok () s1 := by
  rw [parse_and_visit_let_bindings.loop]
  simp only [bind, P.bind, peek, if_true, hb]
  rw [parse_and_visit_let_bindings.loop]
  simp [bind, P.bind, peek, hsemi, pure, P.pure]

/-- The label `variable_name` for a name followed by `=` outside a `for` head. -/
theorem variable_name_initialized (X : Externals) (declaring_token : token)
    (kind : variable_kind) (a b : Bool) (s sB sC : PState) (x : token) (rest : List token)
    (f : expression_fields) (rhs : expression) (more : List expression)
    (es : List object_property_value_pair)
    (hin : s.input = x :: rest) (hx : x.type ≠ .kw_let)
    (heq : s.skip.peek.type = .equal)
    (hparse : X.parse_expression_remainder (make_expression_variable x.identifier_name x.type)
        { commas := false, in_operator := a } s.skip
      = .ok (.mk .assignment f
          (make_expression_variable x.identifier_name x.type :: rhs :: more) es) sB)
    (hvisit : X.visit_expression rhs .rhs sB = .ok () sC) :
    parse_and_visit_let_bindings.variable_name X declaring_token kind a b false s
      = .ok true { sC with out := sC.out ++
          [.visit_variable_declaration x.identifier_name kind
            (if kind.is_const_let_var then .initialized_with_equals else .normal)] } := by
  have hpk : s.peek = x := by simp [PState.peek, hin]
  have h1 : (s.skip.peek.type == token_type.colon) = false := by rw [heq]; rfl
  have h2 : (s.skip.peek.type == token_type.equal) = true := by rw [heq]; rfl
  have hv := visit_binding_element_variable X
    { span := x.identifier_name.span, variable_identifier := x.identifier_name,
      variable_identifier_token_type := x.type } [] [] kind (some declaring_token.span)
    (if kind.is_const_let_var then .initialized_with_equals else .normal) sC hx
  simp only [parse_and_visit_let_bindings.variable_name, bind, P.bind, peek, skip, hpk, h1, h2,
    Bool.false_eq_true, if_false, Bool.or_true, if_true, hparse, Bool.false_and,
    pure, P.pure, visit_binding_element_assignment_eq, hvisit]
  simp only [make_expression_variable] at hv ⊢
  rw [hv]

theorem dispatch_kw_const_or_kw_var (X : Externals) (stmt : parse_statement_type → P Bool)
    (fuel : Nat) (ty : parse_statement_type) (s : PState)
    (h : s.peek.type = .kw_const ∨ s.peek.type = .kw_var) :
    parse_and_visit_statement.dispatch X stmt fuel ty s
      = parse_and_visit_statement.case_kw_const_or_kw_var X fuel s := by
  rcases h with h | h <;>
  simp [parse_and_visit_statement.dispatch, bind, P.bind, peek, h]

theorem dispatch_kw_let (X : Externals) (stmt : parse_statement_type → P Bool)
    (fuel : Nat) (ty : parse_statement_type) (s : PState) (h : s.peek.type = .kw_let) :
    parse_and_visit_statement.dispatch X stmt fuel ty s
      = parse_and_visit_statement.case_kw_let X fuel ty s.peek s := by
  simp [parse_and_visit_statement.dispatch, bind, P.bind, peek, h]

/-- A statement that starts with `var`, `let` or `const` and is a declaration: the
bindings are parsed after the declaring token, then the semicolon is consumed. -/
theorem declaration_statement_dispatch (X : Externals) (stmt : parse_statement_type → P Bool)
    (fuel : Nat) (ty : parse_statement_type) (s : PState) (K : token) (rest : List token)
    (hin : s.input = K :: rest)
    (hK : K.type = .kw_var ∨ K.type = .kw_let ∨ K.type = .kw_const)
    (henum : s.skip.peek.type ≠ .kw_enum) (hcolon : s.skip.peek.type ≠ .colon)
    (hlet : K.type = .kw_let →
      X.is_let_token_a_variable_reference s.skip.peek (ty != .no_declarations)
          { s.skip with open_transactions := s.open_transactions + 1 }
        = .ok false { s.skip with open_transactions := s.open_transactions + 1 }) :
    parse_and_visit_statement.dispatch X stmt fuel ty s
      = (do
          parse_and_visit_let_bindings X fuel K true false false
          consume_semicolon_after_statement
          pure (some true)) s.skip := by
  have hpk : s.peek = K := by simp [PState.peek, hin]
  have h1 : (s.skip.peek.type == token_type.kw_enum) = false := by simpa using henum
  have h2 : (s.skip.peek.type == token_type.colon) = false := by simpa using hcolon
  rcases hK with hK | hK | hK
  · rw [dispatch_kw_const_or_kw_var X stmt fuel ty s (Or.inr (hpk ▸ hK))]
    simp only [parse_and_visit_statement.case_kw_const_or_kw_var,
      parse_and_visit_variable_declaration_statement, bind, P.bind, peek, skip, hpk, h1,
      Bool.false_and, Bool.false_eq_true, if_false]
    cases parse_and_visit_let_bindings X fuel K true false false s.skip <;> rfl
  · rw [dispatch_kw_let X stmt fuel ty s (hpk ▸ hK)]
    have hl := hlet hK
    obtain ⟨input, lte, diags, out, stack, f1, f2, f3, f4, depth, options, tx⟩ := s
    simp only at hin
    subst hin
    simp only [PState.skip, PState.peek, List.tail_cons, List.headD_cons, end_of_file_token] at hl h2 ⊢
    simp only [parse_and_visit_statement.case_kw_let, bind, P.bind, begin_transaction, skip,
      peek, PState.skip, PState.peek, List.tail_cons, List.headD_cons, end_of_file_token, h2,
      Bool.false_eq_true,
      if_false, hl, commit_transaction, Nat.add_sub_cancel]
  · rw [dispatch_kw_const_or_kw_var X stmt fuel ty s (Or.inl (hpk ▸ hK))]
    simp only [parse_and_visit_statement.case_kw_const_or_kw_var,
      parse_and_visit_variable_declaration_statement, bind, P.bind, peek, skip, hpk, h1,
      Bool.false_and, Bool.false_eq_true, if_false]
    cases parse_and_visit_let_bindings X fuel K true false false s.skip <;> rfl

/-- The label `variable_name` for a name followed by `;`. -/
theorem variable_name_then_semicolon (X : Externals) (declaring_token : token)
    (kind : variable_kind) (a b c : Bool) (s : PState) (x semi : token) (rest : List token)
    (hin : s.input = x :: semi :: rest) (hx : x.type ≠ .kw_let)
    (hsemi : semi.type = .semicolon) :
    parse_and_visit_let_bindings.variable_name X declaring_token kind a b c s
      = .ok true { s.skip with
          diags := s.diags ++
            (if kind = ._const ∧ b = false then
               [{ type := .diag_missing_initializer_in_const_declaration, spans := [x.span] }]
             else [])
          out := s.out ++ [.visit_variable_declaration x.identifier_name kind .normal] } := by
  obtain ⟨input, lte, diags, out, stack, f1, f2, f3, f4, depth, options, tx⟩ := s
  simp only at hin
  subst hin
  have hv := fun (σ : PState) =>
    visit_binding_element_variable X
      { span := x.identifier_name.span, variable_identifier := x.identifier_name,
        variable_identifier_token_type := x.type } [] [] kind
      (some declaring_token.span) .normal σ hx
  simp only [token.identifier_name, token.span] at hv
  by_cases hk : kind = ._const
  · subst hk
    cases b <;>
    simp [parse_and_visit_let_bindings.variable_name, bind, P.bind, pure, P.pure, peek, skip,
      make_expression_variable, hv, report, token.span, hsemi, is_compound_assignment_operator,
      parse_and_visit_let_bindings.is_expression_keyword_after_name, expression.span,
      token.identifier_name, PState.skip, PState.peek]
  · cases b <;>
    simp [parse_and_visit_let_bindings.variable_name, bind, P.bind, pure, P.pure, peek, skip,
      make_expression_variable, hv, report, token.span, hsemi, is_compound_assignment_operator,
      parse_and_visit_let_bindings.is_expression_keyword_after_name, expression.span,
      token.identifier_name, PState.skip, PState.peek, hk]

/-- The declaration kind of a declaring token, as `parse_and_visit_let_bindings` computes
it. -/
theorem declaration_kind_is_const_let_var (K : token) :
    (if K.type == .kw_const then variable_kind._const
     else if K.type == .kw_let then ._let
     else if K.type == .kw_var then ._var
     else ._let).is_const_let_var = true := by
  by_cases h1 : K.type = .kw_const <;> by_cases h2 : K.type = .kw_let <;>
    by_cases h3 : K.type = .kw_var <;> simp [h1, h2, h3, variable_kind.is_const_let_var]

/-- C12: for a statement `K x = e;` with `K` one of `var`, `let`, `const` and `x` an
identifier, where the expression parser returns the assignment node of `x` and `e`,
the visitor receives the events of `e` (those of parsing it, then `E`, those of visiting
it) followed by the declaration of `x` with the kind of `K` and `initialized_with_equals`,
and the statement parser reports no diagnostic of its own; for `K x;` with `K` one of
`var`, `let` the visitor receives exactly the declaration of `x` with init kind `normal`,
and no diagnostic is reported. -/
theorem variable_declaration_events (X : Externals) (fuel : Nat) (ty : parse_statement_type)
    (s : PState) (K x : token) (tail : List token)
    (hin : s.input = K :: x :: tail)
    (hK : K.type = .kw_var ∨ K.type = .kw_let ∨ K.type = .kw_const)
    (hx : x.type = .identifier)
    (hdepth : s.depth + 1 ≤ X.stack_limit)
    (hlet : K.type = .kw_let →
      X.is_let_token_a_variable_reference x (ty != .no_declarations)
          { s.skip with depth := s.depth + 1
                        open_transactions := s.open_transactions + 1 }
        = .ok false { s.skip with depth := s.depth + 1
                                  open_transactions := s.open_transactions + 1 }) :
    (∀ (sB : PState) (f : expression_fields) (rhs : expression) (more : List expression)
        (es : List object_property_value_pair) (E : List Event) (semi : token)
        (rest : List token),
      (tail.headD (end_of_file_token s.skip.skip)).type = .equal →
      X.parse_expression_remainder (make_expression_variable x.identifier_name x.type)
          { commas := false, in_operator := true } { s.skip.skip with depth := s.depth + 1 }
        = .ok (.mk .assignment f
            (make_expression_variable x.identifier_name x.type :: rhs :: more) es) sB →
      X.visit_expression rhs .rhs sB = .ok () { sB with out := sB.out ++ E } →
      sB.input = semi :: rest → semi.type = .semicolon →
      parse_and_visit_statement X (fuel + 4) ty s
        = .ok true { sB.skip with
            out := sB.out ++ E ++
              [.visit_variable_declaration x.identifier_name
                (if K.type = .kw_const then ._const
                 else if K.type = .kw_let then ._let else ._var)
                .initialized_with_equals]
            depth := sB.depth - 1 })
    ∧ (∀ (semi : token) (rest : List token),
        tail = semi :: rest → semi.type = .semicolon → K.type ≠ .kw_const →
        parse_and_visit_statement X (fuel + 4) ty s
          = .ok true { s.skip.skip.skip with
              out := s.out ++
                [.visit_variable_declaration x.identifier_name
                  (if K.type = .kw_let then ._let else ._var) .normal] }) := by
  have hpk : s.peek = K := by simp [PState.peek, hin]
  obtain ⟨input, lte, diags, out, stack, f1, f2, f3, f4, depth, options, tx⟩ := s
  simp only at hin
  subst hin
  have hd := declaration_statement_dispatch X (parse_and_visit_statement X (fuel + 3))
    (fuel + 2) ty
    ⟨K :: x :: tail, lte, diags, out, stack, f1, f2, f3, f4, depth + 1, options, tx⟩ K
    (x :: tail) rfl hK (by simp [PState.skip, PState.peek, hx])
    (by simp [PState.skip, PState.peek, hx]) hlet
  have hbi := binding_identifier X K
    (if K.type == .kw_const then ._const
     else if K.type == .kw_let then ._let
     else if K.type == .kw_var then ._var
     else ._let) true false false true none
    ⟨x :: tail, K.end_, diags, out, stack, f1, f2, f3, f4, depth + 1, options, tx⟩ hx
  have hxl : x.type ≠ .kw_let := by rw [hx]; decide
  constructor
  · intro sB f rhs more es E semi rest heq hparse hvisit hsB hsemi
    have hvn := variable_name_initialized X K
      (if K.type == .kw_const then ._const
       else if K.type == .kw_let then ._let
       else if K.type == .kw_var then ._var
       else ._let) true false
      ⟨x :: tail, K.end_, diags, out, stack, f1, f2, f3, f4, depth + 1, options, tx⟩ sB
      { sB with out := sB.out ++ E } x tail f rhs more es rfl hxl heq hparse hvisit
    rw [← hbi] at hvn
    have hloop := let_bindings_loop_single X K _ true false false fuel _ _ hvn
      (by simp [PState.peek, hsB, hsemi])
    rw [← parse_and_visit_let_bindings_eq] at hloop
    have hfin := parse_and_visit_statement_of_dispatch X (fuel + 2) ty
      ⟨K :: x :: tail, lte, diags, out, stack, f1, f2, f3, f4, depth, options, tx⟩
      ({ sB.skip with out := sB.out ++ E ++
              [.visit_variable_declaration x.identifier_name
                (if K.type = .kw_const then ._const
                 else if K.type = .kw_let then ._let else ._var)
                .initialized_with_equals] } : PState) true hdepth
      (by
        rw [hd]
        simp only [bind, P.bind, PState.skip, PState.peek, List.tail_cons, List.headD_cons]
        simp only [PState.skip, PState.peek, List.tail_cons, List.headD_cons] at hloop
        rw [hloop]
        rcases hK with hK | hK | hK <;>
        simp [consume_semicolon_after_statement, bind, P.bind, peek, skip, PState.peek,
          PState.skip, hsB, hsemi, pure, P.pure, hK, variable_kind.is_const_let_var])
    exact hfin
  · intro semi rest htail hsemi hnc
    subst htail
    have hvn := variable_name_then_semicolon X K
      (if K.type == .kw_const then ._const
       else if K.type == .kw_let then ._let
       else if K.type == .kw_var then ._var
       else ._let) true false false
      ⟨x :: semi :: rest, K.end_, diags, out, stack, f1, f2, f3, f4, depth + 1, options, tx⟩
      x semi rest rfl hxl hsemi
    rw [← hbi] at hvn
    have hloop := let_bindings_loop_single X K _ true false false fuel _ _ hvn
      (by simp [PState.peek, PState.skip, hsemi])
    rw [← parse_and_visit_let_bindings_eq] at hloop
    have hfin := parse_and_visit_statement_of_dispatch X (fuel + 2) ty
      ⟨K :: x :: semi :: rest, lte, diags, out, stack, f1, f2, f3, f4, depth, options, tx⟩
      ⟨rest, semi.end_, diags, out ++
          [.visit_variable_declaration x.identifier_name
            (if K.type = .kw_let then ._let else ._var) .normal],
        stack, f1, f2, f3, f4, depth + 1, options, tx⟩ true hdepth
      (by
        rw [hd]
        simp only [bind, P.bind, PState.skip, PState.peek, List.tail_cons, List.headD_cons]
        simp only [PState.skip, PState.peek, List.tail_cons, List.headD_cons] at hloop
        rw [hloop]
        rcases hK with hK | hK | hK
        · simp [consume_semicolon_after_statement, bind, P.bind, peek, skip, PState.peek,
            PState.skip, hsemi, pure, P.pure, hK]
        · simp [consume_semicolon_after_statement, bind, P.bind, peek, skip, PState.peek,
            PState.skip, hsemi, pure, P.pure, hK]
        · exact absurd hK hnc)
    simpa [PState.skip, PState.peek] using hfin

/-- C12 at concrete inputs: `let x = y;` and `var x;`. -/
theorem variable_declaration_events_witness :
    parse_and_visit_statement sample_externals 4 .any_statement
        (initial_state [tok .kw_let 0 3, ident_tok "x" 4 5, tok .equal 6 7,
          ident_tok "y" 8 9, tok .semicolon 9 10])
      = .ok true { input := [], last_token_end := 10,
                   out := [.visit_variable_use ⟨⟨8, 9⟩, "y"⟩,
                           .visit_variable_declaration ⟨⟨4, 5⟩, "x"⟩ ._let
                             .initialized_with_equals] }
    ∧ parse_and_visit_statement sample_externals 4 .any_statement
        (initial_state [tok .kw_var 0 3, ident_tok "x" 4 5, tok .semicolon 5 6])
      = .ok true { input := [], last_token_end := 6,
                   out := [.visit_variable_declaration ⟨⟨4, 5⟩, "x"⟩ ._var .normal] } :=
  ⟨(variable_declaration_events sample_externals 0 .any_statement
      (initial_state [tok .kw_let 0 3, ident_tok "x" 4 5, tok .equal 6 7,
        ident_tok "y" 8 9, tok .semicolon 9 10])
      (tok .kw_let 0 3) (ident_tok "x" 4 5)
      [tok .equal 6 7, ident_tok "y" 8 9, tok .semicolon 9 10] rfl (by decide) rfl
      (by decide) (fun _ => rfl)).1
      { input := [tok .semicolon 9 10], last_token_end := 9, depth := 1 }
      { span := ⟨4, 9⟩, operator_span := ⟨6, 7⟩ }
      (make_expression_variable ⟨⟨8, 9⟩, "y"⟩ .identifier) [] []
      [.visit_variable_use ⟨⟨8, 9⟩, "y"⟩] (tok .semicolon 9 10) [] rfl rfl rfl rfl rfl,
   (variable_declaration_events sample_externals 0 .any_statement
      (initial_state [tok .kw_var 0 3, ident_tok "x" 4 5, tok .semicolon 5 6])
      (tok .kw_var 0 3) (ident_tok "x" 4 5) [tok .semicolon 5 6] rfl (by decide) rfl
      (by decide) (fun h => absurd h (by decide))).2
      (tok .semicolon 5 6) [] rfl rfl (by decide)⟩

set_option maxHeartbeats 8000000 in
/-- A head token that is an identifier or a contextual keyword, followed by `:`, is a
label: the `switch` of `parse_and_visit_statement` consumes both tokens and jumps back to
the label `parse_statement`. -/
theorem dispatch_label (X : Externals) (stmt : parse_statement_type → P Bool)
    (fuel : Nat) (ty : parse_statement_type) (s : PState) (head colon : token)
    (rest : List token)
    (hin : s.input = head :: colon :: rest)
    (hhead : head.type = .identifier ∨ is_contextual_keyword head.type = true)
    (hcolon : colon.type = .colon) :
    parse_and_visit_statement.dispatch X stmt fuel ty s
      = .ok none { s with input := rest, last_token_end := colon.end_ } := by
  obtain ⟨input, lte, diags, out, stack, f1, f2, f3, f4, depth, options, tx⟩ := s
  simp only at hin
  subst hin
  have h : (head.type == .identifier || is_contextual_keyword head.type) = true := by
    rcases hhead with h | h <;> simp [h]
  clear hhead
  cases ht : head.type <;>
  first
  | (simp [ht, is_contextual_keyword,
      is_contextual_keyword_except_async_and_get_and_set_and_static_and_type,
      is_typescript_only_contextual_keyword_except_type] at h; done)
  | simp [parse_and_visit_statement.dispatch, bind, P.bind, pure, P.pure, peek, skip,
      get_state, PState.peek, PState.skip, ht, hcolon,
      parse_and_visit_statement.is_expression_start, is_binary_only_operator,
      parse_and_visit_statement.is_identifier_start,
      parse_and_visit_statement.label_or_expression_starting_with_identifier,
      parse_and_visit_statement.case_kw_let, parse_and_visit_statement.case_kw_abstract,
      parse_and_visit_statement.case_kw_declare, parse_and_visit_statement.case_kw_async,
      parse_and_visit_statement.case_kw_type,
      parse_and_visit_statement.is_async_expression_continuation,
      is_compound_assignment_operator, is_conditional_assignment_operator,
      is_contextual_keyword,
      is_contextual_keyword_except_async_and_get_and_set_and_static_and_type,
      is_typescript_only_contextual_keyword_except_type,
      begin_transaction, commit_transaction, roll_back_transaction]

/-- C11 (label transparency): when the head token is an identifier or a contextual
keyword (`let`, `async`, `type`, `abstract`, `declare`, `of`, `get`, ... included) and the
next token is `:`, in either language mode and for every statement mode, a call of
`parse_and_visit_statement` within the depth limit consumes both tokens and then does what
the body of `parse_and_visit_statement` does on the remaining tokens in the same statement
mode: same events, same diagnostics, same return value. -/
theorem label_transparency (X : Externals) (fuel : Nat) (ty : parse_statement_type)
    (s : PState) (head colon : token) (rest : List token)
    (hin : s.input = head :: colon :: rest)
    (hhead : head.type = .identifier ∨ is_contextual_keyword head.type = true)
    (hcolon : colon.type = .colon)
    (hdepth : s.depth + 1 ≤ X.stack_limit) :
    parse_and_visit_statement X (fuel + 2) ty s
      = (do
          depth_guard_enter X
          let r ← parse_and_visit_statement.parse_statement X
            (parse_and_visit_statement X (fuel + 1)) ty fuel
          depth_guard_exit
          pure r) { s with input := rest, last_token_end := colon.end_ } := by
  have hd := dispatch_label X (parse_and_visit_statement X (fuel + 1)) fuel ty
    { s with depth := s.depth + 1 } head colon rest hin hhead hcolon
  have he : depth_guard_enter X { s with input := rest, last_token_end := colon.end_ }
      = .ok () { s with input := rest, last_token_end := colon.end_, depth := s.depth + 1 } :=
    depth_guard_enter_ok X _ hdepth
  simp only [parse_and_visit_statement_succ, parse_statement_succ, bind, P.bind,
    depth_guard_enter_ok X s hdepth, hd, he]

/-- C11 at a concrete input: `a: x;` against `x;`. -/
theorem label_transparency_witness :
    parse_and_visit_statement sample_externals 4 .any_statement
        (initial_state [ident_tok "a" 0 1, tok .colon 1 2, ident_tok "x" 3 4,
          tok .semicolon 4 5])
      = .ok true { input := [], last_token_end := 5,
                   out := [.visit_variable_use ⟨⟨3, 4⟩, "x"⟩] } :=
  (label_transparency sample_externals 2 .any_statement
    (initial_state [ident_tok "a" 0 1, tok .colon 1 2, ident_tok "x" 3 4,
      tok .semicolon 4 5])
    (ident_tok "a" 0 1) (tok .colon 1 2) [ident_tok "x" 3 4, tok .semicolon 4 5]
    rfl (Or.inl rfl) rfl (by decide)).trans (by decide)

theorem dispatch_kw_type (X : Externals) (stmt : parse_statement_type → P Bool)
    (fuel : Nat) (ty : parse_statement_type) (s : PState) (h : s.peek.type = .kw_type) :
    parse_and_visit_statement.dispatch X stmt fuel ty s
      = parse_and_visit_statement.case_kw_type X fuel s.peek s := by
  simp [parse_and_visit_statement.dispatch, bind, P.bind, peek, h,
    parse_and_visit_statement.is_expression_start, is_binary_only_operator,
    parse_and_visit_statement.is_identifier_start]

/-- C17 fails on the type-alias path: for a statement `type T ...` (the name of the alias
on the line of `type`), the `switch` of `parse_and_visit_statement` begins a lexer
transaction, skips `type`, and hands over to `parse_and_visit_typescript_type_alias`
with the transaction still open; the transaction is neither committed nor rolled back
before the statement returns. -/
theorem type_alias_leaves_transaction_open (X : Externals)
    (stmt : parse_statement_type → P Bool) (fuel : Nat) (ty : parse_statement_type)
    (s : PState) (type_token name : token) (rest : List token)
    (hin : s.input = type_token :: name :: rest)
    (htype : type_token.type = .kw_type)
    (hname : parse_and_visit_statement.is_type_alias_name name.type = true)
    (hline : name.has_leading_newline = false) :
    parse_and_visit_statement.dispatch X stmt fuel ty s
      = (do
          parse_and_visit_typescript_type_alias X fuel type_token.span
          pure (some true))
          { s.skip with open_transactions := s.open_transactions + 1 } := by
  obtain ⟨input, lte, diags, out, stack, f1, f2, f3, f4, depth, options, tx⟩ := s
  simp only at hin
  subst hin
  rw [dispatch_kw_type X stmt fuel ty _ (by simpa [PState.peek] using htype)]
  have hc : name.type ≠ token_type.colon := by
    intro hn
    rw [hn] at hname
    exact absurd hname (by decide)
  simp [parse_and_visit_statement.case_kw_type, bind, P.bind, begin_transaction, skip, peek,
    PState.skip, PState.peek, hname, hline, hc]

/-- C17 at the failing input `type T = number;` in TypeScript mode: the statement returns
normally with one transaction still open. -/
theorem type_alias_leaves_transaction_open_witness :
    parse_and_visit_statement.dispatch sample_externals_with_types
        (parse_and_visit_statement sample_externals_with_types 3) 3 .any_statement
        { input := [tok .kw_type 0 4, ident_tok "T" 5 6, tok .equal 7 8, tok .kw_number 9 15,
            tok .semicolon 15 16],
          options := { typescript := true } }
      = .ok (some true)
          { input := [], last_token_end := 16,
            out := [.visit_variable_declaration ⟨⟨5, 6⟩, "T"⟩ ._type_alias .normal,
                    .visit_enter_scope .type_alias, .visit_exit_scope .type_alias],
            options := { typescript := true },
            open_transactions := 1 } :=
  (type_alias_leaves_transaction_open sample_externals_with_types
    (parse_and_visit_statement sample_externals_with_types 3) 3 .any_statement
    { input := [tok .kw_type 0 4, ident_tok "T" 5 6, tok .equal 7 8, tok .kw_number 9 15,
        tok .semicolon 15 16],
      options := { typescript := true } }
    (tok .kw_type 0 4) (ident_tok "T" 5 6)
    [tok .equal 7 8, tok .kw_number 9 15, tok .semicolon 15 16] rfl rfl rfl rfl).trans
    (by decide)

set_option maxHeartbeats 2000000 in
/-- The declaration of a C-style `for` head, from the declaring token to the `)`: the
declaration, `;`, a condition, `;`, an update expression. -/
theorem for_declaration_c_style (X : Externals) (fuel left_paren_token_begin : Nat)
    (for_token_span : source_code_span) (s sB s3 s3b s4 s5 : PState)
    (decl semi1 c semi2 u : token) (rest rest2 rest3 : List token) (cond upd : expression)
    (hin : s.input = decl :: rest)
    (hdecl : decl.type = .kw_var ∨ decl.type = .kw_let ∨ decl.type = .kw_const)
    (hlet : decl.type = .kw_let →
      X.is_let_token_a_variable_reference s.skip.peek true
        { s.skip with
          buffering_visitor_stack := [] :: s.buffering_visitor_stack
          open_transactions := s.open_transactions + 1 }
        = .ok false
          { s.skip with
            buffering_visitor_stack := [] :: s.buffering_visitor_stack
            open_transactions := s.open_transactions + 1 })
    (hnof : s.skip.peek.type ≠ .kw_of)
    (hbind : parse_and_visit_let_bindings X fuel decl false true true
        { s.skip with buffering_visitor_stack := [] :: s.buffering_visitor_stack, out := [] }
        = .ok () sB)
    (hstackB : sB.buffering_visitor_stack = [] :: s.buffering_visitor_stack)
    (hsemi1 : sB.input = semi1 :: c :: rest2) (hsemi1t : semi1.type = .semicolon)
    (hc : c.type ≠ .semicolon)
    (hcp : X.parse_expression {}
        { sB with input := c :: rest2, last_token_end := semi1.end_, out := s.out ++ sB.out,
                  buffering_visitor_stack := sB.out :: s.buffering_visitor_stack }
        = .ok cond s3)
    (hcv : X.visit_expression cond .rhs s3 = .ok () s3b)
    (hce : X.error_on_sketchy_condition cond s3b = .ok () s4)
    (hsemi2 : s4.input = semi2 :: u :: rest3) (hsemi2t : semi2.type = .semicolon)
    (hu : u.type ≠ .right_paren)
    (hupd : X.parse_expression {}
        { s4 with input := u :: rest3, last_token_end := semi2.end_ } = .ok upd s5) :
    parse_and_visit_for.declaration X fuel left_paren_token_begin for_token_span s
      = .ok (some .c_style, some upd)
          { s5 with buffering_visitor_stack := s5.buffering_visitor_stack.tail } := by
  obtain ⟨input, lte, diags, out, stack, f1, f2, f3, f4, depth, options, tx⟩ := s
  obtain ⟨inputB, lteB, diagsB, outB, stackB, g1, g2, g3, g4, depthB, optionsB, txB⟩ := sB
  obtain ⟨input4, lte4, diags4, out4, stack4, k1, k2, k3, k4, depth4, options4, tx4⟩ := s4
  simp only at hin hstackB hsemi1 hsemi2
  subst hin hstackB hsemi1 hsemi2
  simp only [PState.skip, PState.peek, List.headD_cons, List.tail_cons] at hlet hnof hbind hcp hupd
  rcases hdecl with hd | hd | hd
  · simp [parse_and_visit_for.declaration, parse_and_visit_for.parse_c_style_head_remainder,
      bind, P.bind, pure, P.pure, peek, skip,
      begin_transaction, commit_transaction, buffering_visitor_stack_emplace,
      with_top_buffering_visitor, capture, top_buffering_visitor_move_into_v,
      buffering_visitor_stack_pop, PState.peek, PState.skip, hd, hbind, hsemi1t, hc, hcp, hcv,
      hce, hsemi2t, hu, hupd]
  · have hlet1 := hlet hd
    simp [end_of_file_token] at hlet1 hnof
    simp [parse_and_visit_for.declaration, parse_and_visit_for.parse_c_style_head_remainder,
      bind, P.bind, pure, P.pure, peek, skip,
      begin_transaction, commit_transaction, roll_back_transaction,
      buffering_visitor_stack_emplace,
      with_top_buffering_visitor, capture, top_buffering_visitor_move_into_v,
      buffering_visitor_stack_pop, PState.peek, PState.skip, hd, hbind, hsemi1t, hc, hcp, hcv,
      hce, hsemi2t, hu, hupd, hlet1, hnof, end_of_file_token]
  · simp [parse_and_visit_for.declaration, parse_and_visit_for.parse_c_style_head_remainder,
      bind, P.bind, pure, P.pure, peek, skip,
      begin_transaction, commit_transaction, buffering_visitor_stack_emplace,
      with_top_buffering_visitor, capture, top_buffering_visitor_move_into_v,
      buffering_visitor_stack_pop, PState.peek, PState.skip, hd, hbind, hsemi1t, hc, hcp, hcv,
      hce, hsemi2t, hu, hupd]

set_option maxHeartbeats 2000000 in
/-- A C-style `for` loop whose head is a declaration, a condition and an update
expression, with a body: the events in order. -/
theorem for_c_style_order (X : Externals) (stmt : parse_statement_type → P Bool)
    (fuel : Nat) (s sB s3 s3b s4 s5 s8 s9 s10 : PState)
    (for_token lp decl semi1 c semi2 u rp : token)
    (rest rest2 rest3 rest4 : List token) (cond upd : expression) (C Q B U : List Event)
    (hin : s.input = for_token :: lp :: decl :: rest)
    (hlp : lp.type = .left_paren)
    (hdecl : decl.type = .kw_var ∨ decl.type = .kw_let ∨ decl.type = .kw_const)
    (hfuel : 1 ≤ fuel)
    (hlet : decl.type = .kw_let →
      X.is_let_token_a_variable_reference s.skip.skip.skip.peek true
        { s.skip.skip.skip with
          out := s.out ++ for_scope_enter decl
          buffering_visitor_stack := [] :: s.buffering_visitor_stack
          open_transactions := s.open_transactions + 1 }
        = .ok false
          { s.skip.skip.skip with
            out := s.out ++ for_scope_enter decl
            buffering_visitor_stack := [] :: s.buffering_visitor_stack
            open_transactions := s.open_transactions + 1 })
    (hnof : s.skip.skip.skip.peek.type ≠ .kw_of)
    (hbind : parse_and_visit_let_bindings X fuel decl false true true
        { s.skip.skip.skip with
          out := []
          buffering_visitor_stack := [] :: s.buffering_visitor_stack }
        = .ok () sB)
    (hstackB : sB.buffering_visitor_stack = [] :: s.buffering_visitor_stack)
    (hsemi1 : sB.input = semi1 :: c :: rest2) (hsemi1t : semi1.type = .semicolon)
    (hc : c.type ≠ .semicolon)
    (hcp : X.parse_expression {}
        { sB with
          input := c :: rest2
          last_token_end := semi1.end_
          out := s.out ++ for_scope_enter decl ++ sB.out
          buffering_visitor_stack := sB.out :: s.buffering_visitor_stack }
        = .ok cond s3)
    (hcv : X.visit_expression cond .rhs s3 = .ok () s3b)
    (hce : X.error_on_sketchy_condition cond s3b = .ok () s4)
    (hC : s4.out = s.out ++ for_scope_enter decl ++ sB.out ++ C)
    (hsemi2 : s4.input = semi2 :: u :: rest3) (hsemi2t : semi2.type = .semicolon)
    (hu : u.type ≠ .right_paren)
    (hupd : X.parse_expression {}
        { s4 with
          input := u :: rest3
          last_token_end := semi2.end_ } = .ok upd s5)
    (hQ : s5.out = s4.out ++ Q)
    (hrp : s5.input = rp :: rest4) (hrpt : rp.type = .right_paren)
    (herr : (do
        X.error_on_class_statement .for_loop
        X.error_on_function_statement .for_loop
        X.error_on_lexical_declaration .for_loop)
        { s5 with
          input := rest4
          last_token_end := rp.end_
          buffering_visitor_stack := s5.buffering_visitor_stack.tail }
        = .ok () s8)
    (hout8 : s8.out = s5.out)
    (hbody : stmt .no_declarations s8 = .ok true s9)
    (hB : s9.out = s8.out ++ B)
    (hvisit : X.visit_expression upd .rhs s9 = .ok () s10)
    (hU : s10.out = s9.out ++ U) :
    parse_and_visit_for X stmt fuel s
        = .ok () { s10 with out := s10.out ++ for_scope_exit decl }
      ∧ s10.out ++ for_scope_exit decl
        = s.out ++ for_scope_enter decl ++ sB.out ++ C ++ Q ++ B ++ U ++ for_scope_exit decl := by
  refine ⟨?_, by rw [hU, hB, hout8, hQ, hC]⟩
  obtain ⟨f, rfl⟩ : ∃ f, fuel = f + 1 := ⟨fuel - 1, by omega⟩
  obtain ⟨input, lte, diags, out, stack, f1, f2, f3, f4, depth, options, tx⟩ := s
  simp only at hin
  subst hin
  have hdeclaration := for_declaration_c_style X (f + 1) lp.begin_ for_token.span
    ⟨decl :: rest, lp.end_, diags, out ++ for_scope_enter decl, stack, f1, f2, f3, f4, depth,
      options, tx⟩ sB s3 s3b s4 s5 decl semi1 c semi2 u rest rest2 rest3 cond upd rfl hdecl
    hlet hnof hbind hstackB hsemi1 hsemi1t hc hcp hcv hce hsemi2 hsemi2t hu hupd
  have hawait : (lp.type == token_type.kw_await) = false := by simp [hlp]
  have hsemi : (lp.type == token_type.semicolon) = false := by simp [hlp]
  obtain ⟨input5, lte5, diags5, out5, stack5, k1, k2, k3, k4, depth5, options5, tx5⟩ := s5
  simp only at hrp
  subst hrp
  have hextra : ∀ (st : Option loop_style) (σ : PState), σ.input = rp :: rest4 →
      parse_and_visit_for.extra_semicolons X st (f + 1) σ = .ok () σ := by
    intro st σ hσ
    simp [parse_and_visit_for.extra_semicolons, bind, P.bind, pure, P.pure, peek, PState.peek,
      hσ, hrpt]
  have herr1 : P.bind (X.error_on_class_statement .for_loop) (fun _ =>
      P.bind (X.error_on_function_statement .for_loop) (fun _ =>
        X.error_on_lexical_declaration .for_loop)) _ = _ := herr
  clear herr hlet hnof hbind hcp hcv hce hupd hstackB hC hQ hout8 hB hU
  obtain ⟨a, b, h1, h2, h3⟩ := bind_three_ok _ _ _ _ _ herr1
  clear herr1
  rcases hdecl with hd | hd | hd
  · simp [for_scope_enter, for_scope_exit, hd] at hdeclaration h1 ⊢
    simp [parse_and_visit_for, bind, P.bind, pure, P.pure, peek, skip, PState.peek,
      PState.skip, hlp, hd, hdeclaration, hextra, QLJS_PARSER_UNIMPLEMENTED_IF_NOT_TOKEN, hrpt,
      h1, h2, h3, hbody, hvisit]
  · simp [for_scope_enter, for_scope_exit, hd] at hdeclaration h1 ⊢
    simp [parse_and_visit_for, bind, P.bind, pure, P.pure, peek, skip, PState.peek,
      PState.skip, hlp, hd, hdeclaration, hextra, QLJS_PARSER_UNIMPLEMENTED_IF_NOT_TOKEN, hrpt,
      h1, h2, h3, hbody, hvisit, visit_enter_for_scope, visit_exit_for_scope, visit]
  · simp [for_scope_enter, for_scope_exit, hd] at hdeclaration h1 ⊢
    simp [parse_and_visit_for, bind, P.bind, pure, P.pure, peek, skip, PState.peek,
      PState.skip, hlp, hd, hdeclaration, hextra, QLJS_PARSER_UNIMPLEMENTED_IF_NOT_TOKEN, hrpt,
      h1, h2, h3, hbody, hvisit, visit_enter_for_scope, visit_exit_for_scope, visit]

/-- C16, as amended: in a C-style `for` loop whose head is a declaration, a condition and
an update expression, the events come in this order: `visit_enter_for_scope` (for `let`
and `const`), the events of the declaration, the events of the condition, the events
emitted while the update expression is parsed, the events of the body, and only then the
events of visiting the update expression, followed by `visit_exit_for_scope`; the loop
itself reports no diagnostic.  So for `for (let i = 0; i < 10; ++i) body();` the events
of `++i` come after `use(body)`, not before it. -/
theorem c_style_for_events (X : Externals) (stmt : parse_statement_type → P Bool)
    (fuel : Nat) (s sB s3 s3b s4 s5 s8 s9 s10 : PState)
    (for_token lp decl semi1 c semi2 u rp : token)
    (rest rest2 rest3 rest4 : List token) (cond upd : expression) (C Q B U : List Event)
    (hin : s.input = for_token :: lp :: decl :: rest)
    (hlp : lp.type = .left_paren)
    (hdecl : decl.type = .kw_var ∨ decl.type = .kw_let ∨ decl.type = .kw_const)
    (hfuel : 1 ≤ fuel)
    (hlet : decl.type = .kw_let →
      X.is_let_token_a_variable_reference s.skip.skip.skip.peek true
        { s.skip.skip.skip with
          out := s.out ++ for_scope_enter decl
          buffering_visitor_stack := [] :: s.buffering_visitor_stack
          open_transactions := s.open_transactions + 1 }
        = .ok false
          { s.skip.skip.skip with
            out := s.out ++ for_scope_enter decl
            buffering_visitor_stack := [] :: s.buffering_visitor_stack
            open_transactions := s.open_transactions + 1 })
    (hnof : s.skip.skip.skip.peek.type ≠ .kw_of)
    (hbind : parse_and_visit_let_bindings X fuel decl false true true
        { s.skip.skip.skip with
          out := []
          buffering_visitor_stack := [] :: s.buffering_visitor_stack }
        = .ok () sB)
    (hstackB : sB.buffering_visitor_stack = [] :: s.buffering_visitor_stack)
    (hsemi1 : sB.input = semi1 :: c :: rest2) (hsemi1t : semi1.type = .semicolon)
    (hc : c.type ≠ .semicolon)
    (hcp : X.parse_expression {}
        { sB with
          input := c :: rest2
          last_token_end := semi1.end_
          out := s.out ++ for_scope_enter decl ++ sB.out
          buffering_visitor_stack := sB.out :: s.buffering_visitor_stack }
        = .ok cond s3)
    (hcv : X.visit_expression cond .rhs s3 = .ok () s3b)
    (hce : X.error_on_sketchy_condition cond s3b = .ok () s4)
    (hC : s4.out = s.out ++ for_scope_enter decl ++ sB.out ++ C)
    (hsemi2 : s4.input = semi2 :: u :: rest3) (hsemi2t : semi2.type = .semicolon)
    (hu : u.type ≠ .right_paren)
    (hupd : X.parse_expression {}
        { s4 with
          input := u :: rest3
          last_token_end := semi2.end_ } = .ok upd s5)
    (hQ : s5.out = s4.out ++ Q)
    (hrp : s5.input = rp :: rest4) (hrpt : rp.type = .right_paren)
    (herr : (do
        X.error_on_class_statement .for_loop
        X.error_on_function_statement .for_loop
        X.error_on_lexical_declaration .for_loop)
        { s5 with
          input := rest4
          last_token_end := rp.end_
          buffering_visitor_stack := s5.buffering_visitor_stack.tail }
        = .ok () s8)
    (hout8 : s8.out = s5.out)
    (hbody : stmt .no_declarations s8 = .ok true s9)
    (hB : s9.out = s8.out ++ B)
    (hvisit : X.visit_expression upd .rhs s9 = .ok () s10)
    (hU : s10.out = s9.out ++ U) :
    ∃ s1, parse_and_visit_for X stmt fuel s = .ok () s1
      ∧ s1.out = s.out ++ for_scope_enter decl ++ sB.out ++ C ++ Q ++ B ++ U
          ++ for_scope_exit decl
      ∧ s1.diags = s10.diags := by
  obtain ⟨h1, h2⟩ :=
    for_c_style_order X stmt fuel s sB s3 s3b s4 s5 s8 s9 s10 for_token lp decl semi1 c
      semi2 u rp rest rest2 rest3 rest4 cond upd C Q B U hin hlp hdecl hfuel hlet hnof hbind
      hstackB hsemi1 hsemi1t hc hcp hcv hce hC hsemi2 hsemi2t hu hupd hQ hrp hrpt herr hout8 hbody
      hB hvisit hU
  exact ⟨_, h1, h2, rfl⟩

/-- C16 at a concrete input: `for (var i = 0; i < 10; ++i) body();`. -/
theorem c_style_for_events_witness :
    ∃ s1, parse_and_visit_for operator_sample_externals (parse_and_visit_statement
        operator_sample_externals 4) 5
        (initial_state [tok .kw_for 0 3, tok .left_paren 4 5, tok .kw_var 5 8, ident_tok "i" 9 10,
            tok .equal 11 12, tok .number 13 14, tok .semicolon 14 15, ident_tok "i" 16 17,
            tok .less 18 19, tok .number 20 22, tok .semicolon 22 23, tok .plus_plus 24 26,
            ident_tok "i" 26 27, tok .right_paren 27 28, ident_tok "body" 29 33,
            tok .left_paren 33 34, tok .right_paren 34 35, tok .semicolon 35 36]) = .ok () s1
      ∧ s1.out = [.visit_variable_declaration ⟨⟨9, 10⟩, "i"⟩ ._var .initialized_with_equals,
          .visit_variable_use ⟨⟨16, 17⟩, "i"⟩, .visit_variable_use ⟨⟨29, 33⟩, "body"⟩,
          .visit_variable_use ⟨⟨26, 27⟩, "i"⟩, .visit_variable_assignment ⟨⟨26, 27⟩, "i"⟩]
      ∧ s1.diags = [] :=
  (c_style_for_events operator_sample_externals (parse_and_visit_statement
      operator_sample_externals 4) 5
      (initial_state [tok .kw_for 0 3, tok .left_paren 4 5, tok .kw_var 5 8, ident_tok "i" 9 10,
          tok .equal 11 12, tok .number 13 14, tok .semicolon 14 15, ident_tok "i" 16 17,
          tok .less 18 19, tok .number 20 22, tok .semicolon 22 23, tok .plus_plus 24 26,
          ident_tok "i" 26 27, tok .right_paren 27 28, ident_tok "body" 29 33,
          tok .left_paren 33 34, tok .right_paren 34 35, tok .semicolon 35 36])
      { input := [tok .semicolon 14 15, ident_tok "i" 16 17, tok .less 18 19, tok .number 20 22,
          tok .semicolon 22 23, tok .plus_plus 24 26, ident_tok "i" 26 27, tok .right_paren 27 28,
          ident_tok "body" 29 33, tok .left_paren 33 34, tok .right_paren 34 35,
          tok .semicolon 35 36], last_token_end := 14, out := [.visit_variable_declaration ⟨⟨9,
          10⟩, "i"⟩ ._var .initialized_with_equals], buffering_visitor_stack := [[]] }
      { input := [tok .semicolon 22 23, tok .plus_plus 24 26, ident_tok "i" 26 27,
          tok .right_paren 27 28, ident_tok "body" 29 33, tok .left_paren 33 34,
          tok .right_paren 34 35, tok .semicolon 35 36], last_token_end := 22,
          out := [.visit_variable_declaration ⟨⟨9, 10⟩, "i"⟩ ._var .initialized_with_equals],
          buffering_visitor_stack := [[.visit_variable_declaration ⟨⟨9, 10⟩,
          "i"⟩ ._var .initialized_with_equals]] }
      { input := [tok .semicolon 22 23, tok .plus_plus 24 26, ident_tok "i" 26 27,
          tok .right_paren 27 28, ident_tok "body" 29 33, tok .left_paren 33 34,
          tok .right_paren 34 35, tok .semicolon 35 36], last_token_end := 22,
          out := [.visit_variable_declaration ⟨⟨9, 10⟩, "i"⟩ ._var .initialized_with_equals,
          .visit_variable_use ⟨⟨16, 17⟩, "i"⟩],
          buffering_visitor_stack := [[.visit_variable_declaration ⟨⟨9, 10⟩,
          "i"⟩ ._var .initialized_with_equals]] }
      { input := [tok .semicolon 22 23, tok .plus_plus 24 26, ident_tok "i" 26 27,
          tok .right_paren 27 28, ident_tok "body" 29 33, tok .left_paren 33 34,
          tok .right_paren 34 35, tok .semicolon 35 36], last_token_end := 22,
          out := [.visit_variable_declaration ⟨⟨9, 10⟩, "i"⟩ ._var .initialized_with_equals,
          .visit_variable_use ⟨⟨16, 17⟩, "i"⟩],
          buffering_visitor_stack := [[.visit_variable_declaration ⟨⟨9, 10⟩,
          "i"⟩ ._var .initialized_with_equals]] }
      { input := [tok .right_paren 27 28, ident_tok "body" 29 33, tok .left_paren 33 34,
          tok .right_paren 34 35, tok .semicolon 35 36], last_token_end := 27,
          out := [.visit_variable_declaration ⟨⟨9, 10⟩, "i"⟩ ._var .initialized_with_equals,
          .visit_variable_use ⟨⟨16, 17⟩, "i"⟩],
          buffering_visitor_stack := [[.visit_variable_declaration ⟨⟨9, 10⟩,
          "i"⟩ ._var .initialized_with_equals]] }
      { input := [ident_tok "body" 29 33, tok .left_paren 33 34, tok .right_paren 34 35,
          tok .semicolon 35 36], last_token_end := 28, out := [.visit_variable_declaration ⟨⟨9,
          10⟩, "i"⟩ ._var .initialized_with_equals, .visit_variable_use ⟨⟨16, 17⟩, "i"⟩] }
      { input := [], last_token_end := 36, out := [.visit_variable_declaration ⟨⟨9, 10⟩,
          "i"⟩ ._var .initialized_with_equals, .visit_variable_use ⟨⟨16, 17⟩, "i"⟩,
          .visit_variable_use ⟨⟨29, 33⟩, "body"⟩] }
      { input := [], last_token_end := 36, out := [.visit_variable_declaration ⟨⟨9, 10⟩,
          "i"⟩ ._var .initialized_with_equals, .visit_variable_use ⟨⟨16, 17⟩, "i"⟩,
          .visit_variable_use ⟨⟨29, 33⟩, "body"⟩, .visit_variable_use ⟨⟨26, 27⟩, "i"⟩,
          .visit_variable_assignment ⟨⟨26, 27⟩, "i"⟩] }
      (tok .kw_for 0 3) (tok .left_paren 4 5) (tok .kw_var 5 8) (tok .semicolon 14 15) (ident_tok
          "i" 16 17) (tok .semicolon 22 23) (tok .plus_plus 24 26) (tok .right_paren 27 28)
      [ident_tok "i" 9 10, tok .equal 11 12, tok .number 13 14, tok .semicolon 14 15,
          ident_tok "i" 16 17, tok .less 18 19, tok .number 20 22, tok .semicolon 22 23,
          tok .plus_plus 24 26, ident_tok "i" 26 27, tok .right_paren 27 28,
          ident_tok "body" 29 33, tok .left_paren 33 34, tok .right_paren 34 35,
          tok .semicolon 35 36]
      [tok .less 18 19, tok .number 20 22, tok .semicolon 22 23, tok .plus_plus 24 26,
          ident_tok "i" 26 27, tok .right_paren 27 28, ident_tok "body" 29 33,
          tok .left_paren 33 34, tok .right_paren 34 35, tok .semicolon 35 36]
      [ident_tok "i" 26 27, tok .right_paren 27 28, ident_tok "body" 29 33, tok .left_paren 33 34,
          tok .right_paren 34 35, tok .semicolon 35 36]
      [ident_tok "body" 29 33, tok .left_paren 33 34, tok .right_paren 34 35, tok .semicolon 35 36]
      (.mk .binary_operator { span := ⟨16, 22⟩ } [make_expression_variable ⟨⟨16, 17⟩,
          "i"⟩ .identifier, .mk .literal { span := ⟨20, 22⟩ } [] []] [])
      (.mk .rw_unary_prefix_ { span := ⟨24, 27⟩, operator_span := ⟨24,
          26⟩ } [make_expression_variable ⟨⟨26, 27⟩, "i"⟩ .identifier] [])
      [.visit_variable_use ⟨⟨16, 17⟩, "i"⟩] [] [.visit_variable_use ⟨⟨29, 33⟩,
          "body"⟩] [.visit_variable_use ⟨⟨26, 27⟩, "i"⟩, .visit_variable_assignment ⟨⟨26, 27⟩, "i"⟩]
      rfl rfl (Or.inl rfl) (by decide) (fun h => absurd h (by decide)) (by decide) (by decide) rfl
          rfl rfl (by decide)
      rfl rfl rfl rfl rfl rfl (by decide) rfl rfl rfl rfl rfl rfl (by decide) rfl rfl rfl)

/-- C16 as stated fails: for `for (let i = 0; i < 10; ++i) body();` the events of the
update `++i` come after `use(body)`, so the sequence is not enter_for_scope, declare(i),
use(i), use(i), use(body), exit_for_scope. -/
theorem c_style_for_update_after_body :
    parse_and_visit_for operator_sample_externals (parse_and_visit_statement
        operator_sample_externals 4) 5
        (initial_state [tok .kw_for 0 3, tok .left_paren 4 5, tok .kw_let 5 8, ident_tok "i" 9 10,
            tok .equal 11 12, tok .number 13 14, tok .semicolon 14 15, ident_tok "i" 16 17,
            tok .less 18 19, tok .number 20 22, tok .semicolon 22 23, tok .plus_plus 24 26,
            ident_tok "i" 26 27, tok .right_paren 27 28, ident_tok "body" 29 33,
            tok .left_paren 33 34, tok .right_paren 34 35, tok .semicolon 35 36])
      = .ok ()
          { input := [], last_token_end := 36,
            out := [.visit_enter_scope .for_, .visit_variable_declaration ⟨⟨9, 10⟩,
                "i"⟩ ._let .initialized_with_equals, .visit_variable_use ⟨⟨16, 17⟩, "i"⟩,
                .visit_variable_use ⟨⟨29, 33⟩, "body"⟩, .visit_variable_use ⟨⟨26, 27⟩, "i"⟩,
                .visit_variable_assignment ⟨⟨26, 27⟩, "i"⟩, .visit_exit_scope .for_] } :=
  (for_c_style_order operator_sample_externals (parse_and_visit_statement
      operator_sample_externals 4) 5
      (initial_state [tok .kw_for 0 3, tok .left_paren 4 5, tok .kw_let 5 8, ident_tok "i" 9 10,
          tok .equal 11 12, tok .number 13 14, tok .semicolon 14 15, ident_tok "i" 16 17,
          tok .less 18 19, tok .number 20 22, tok .semicolon 22 23, tok .plus_plus 24 26,
          ident_tok "i" 26 27, tok .right_paren 27 28, ident_tok "body" 29 33,
          tok .left_paren 33 34, tok .right_paren 34 35, tok .semicolon 35 36])
      { input := [tok .semicolon 14 15, ident_tok "i" 16 17, tok .less 18 19, tok .number 20 22,
          tok .semicolon 22 23, tok .plus_plus 24 26, ident_tok "i" 26 27, tok .right_paren 27 28,
          ident_tok "body" 29 33, tok .left_paren 33 34, tok .right_paren 34 35,
          tok .semicolon 35 36], last_token_end := 14, out := [.visit_variable_declaration ⟨⟨9,
          10⟩, "i"⟩ ._let .initialized_with_equals], buffering_visitor_stack := [[]] }
      { input := [tok .semicolon 22 23, tok .plus_plus 24 26, ident_tok "i" 26 27,
          tok .right_paren 27 28, ident_tok "body" 29 33, tok .left_paren 33 34,
          tok .right_paren 34 35, tok .semicolon 35 36], last_token_end := 22,
          out := [.visit_enter_scope .for_, .visit_variable_declaration ⟨⟨9, 10⟩,
          "i"⟩ ._let .initialized_with_equals],
          buffering_visitor_stack := [[.visit_variable_declaration ⟨⟨9, 10⟩,
          "i"⟩ ._let .initialized_with_equals]] }
      { input := [tok .semicolon 22 23, tok .plus_plus 24 26, ident_tok "i" 26 27,
          tok .right_paren 27 28, ident_tok "body" 29 33, tok .left_paren 33 34,
          tok .right_paren 34 35, tok .semicolon 35 36], last_token_end := 22,
          out := [.visit_enter_scope .for_, .visit_variable_declaration ⟨⟨9, 10⟩,
          "i"⟩ ._let .initialized_with_equals, .visit_variable_use ⟨⟨16, 17⟩, "i"⟩],
          buffering_visitor_stack := [[.visit_variable_declaration ⟨⟨9, 10⟩,
          "i"⟩ ._let .initialized_with_equals]] }
      { input := [tok .semicolon 22 23, tok .plus_plus 24 26, ident_tok "i" 26 27,
          tok .right_paren 27 28, ident_tok "body" 29 33, tok .left_paren 33 34,
          tok .right_paren 34 35, tok .semicolon 35 36], last_token_end := 22,
          out := [.visit_enter_scope .for_, .visit_variable_declaration ⟨⟨9, 10⟩,
          "i"⟩ ._let .initialized_with_equals, .visit_variable_use ⟨⟨16, 17⟩, "i"⟩],
          buffering_visitor_stack := [[.visit_variable_declaration ⟨⟨9, 10⟩,
          "i"⟩ ._let .initialized_with_equals]] }
      { input := [tok .right_paren 27 28, ident_tok "body" 29 33, tok .left_paren 33 34,
          tok .right_paren 34 35, tok .semicolon 35 36], last_token_end := 27,
          out := [.visit_enter_scope .for_, .visit_variable_declaration ⟨⟨9, 10⟩,
          "i"⟩ ._let .initialized_with_equals, .visit_variable_use ⟨⟨16, 17⟩, "i"⟩],
          buffering_visitor_stack := [[.visit_variable_declaration ⟨⟨9, 10⟩,
          "i"⟩ ._let .initialized_with_equals]] }
      { input := [ident_tok "body" 29 33, tok .left_paren 33 34, tok .right_paren 34 35,
          tok .semicolon 35 36], last_token_end := 28, out := [.visit_enter_scope .for_,
          .visit_variable_declaration ⟨⟨9, 10⟩, "i"⟩ ._let .initialized_with_equals,
          .visit_variable_use ⟨⟨16, 17⟩, "i"⟩] }
      { input := [], last_token_end := 36, out := [.visit_enter_scope .for_,
          .visit_variable_declaration ⟨⟨9, 10⟩, "i"⟩ ._let .initialized_with_equals,
          .visit_variable_use ⟨⟨16, 17⟩, "i"⟩, .visit_variable_use ⟨⟨29, 33⟩, "body"⟩] }
      { input := [], last_token_end := 36, out := [.visit_enter_scope .for_,
          .visit_variable_declaration ⟨⟨9, 10⟩, "i"⟩ ._let .initialized_with_equals,
          .visit_variable_use ⟨⟨16, 17⟩, "i"⟩, .visit_variable_use ⟨⟨29, 33⟩, "body"⟩,
          .visit_variable_use ⟨⟨26, 27⟩, "i"⟩, .visit_variable_assignment ⟨⟨26, 27⟩, "i"⟩] }
      (tok .kw_for 0 3) (tok .left_paren 4 5) (tok .kw_let 5 8) (tok .semicolon 14 15) (ident_tok
          "i" 16 17) (tok .semicolon 22 23) (tok .plus_plus 24 26) (tok .right_paren 27 28)
      [ident_tok "i" 9 10, tok .equal 11 12, tok .number 13 14, tok .semicolon 14 15,
          ident_tok "i" 16 17, tok .less 18 19, tok .number 20 22, tok .semicolon 22 23,
          tok .plus_plus 24 26, ident_tok "i" 26 27, tok .right_paren 27 28,
          ident_tok "body" 29 33, tok .left_paren 33 34, tok .right_paren 34 35,
          tok .semicolon 35 36]
      [tok .less 18 19, tok .number 20 22, tok .semicolon 22 23, tok .plus_plus 24 26,
          ident_tok "i" 26 27, tok .right_paren 27 28, ident_tok "body" 29 33,
          tok .left_paren 33 34, tok .right_paren 34 35, tok .semicolon 35 36]
      [ident_tok "i" 26 27, tok .right_paren 27 28, ident_tok "body" 29 33, tok .left_paren 33 34,
          tok .right_paren 34 35, tok .semicolon 35 36]
      [ident_tok "body" 29 33, tok .left_paren 33 34, tok .right_paren 34 35, tok .semicolon 35 36]
      (.mk .binary_operator { span := ⟨16, 22⟩ } [make_expression_variable ⟨⟨16, 17⟩,
          "i"⟩ .identifier, .mk .literal { span := ⟨20, 22⟩ } [] []] [])
      (.mk .rw_unary_prefix_ { span := ⟨24, 27⟩, operator_span := ⟨24,
          26⟩ } [make_expression_variable ⟨⟨26, 27⟩, "i"⟩ .identifier] [])
      [.visit_variable_use ⟨⟨16, 17⟩, "i"⟩] [] [.visit_variable_use ⟨⟨29, 33⟩,
          "body"⟩] [.visit_variable_use ⟨⟨26, 27⟩, "i"⟩, .visit_variable_assignment ⟨⟨26, 27⟩, "i"⟩]
      rfl rfl (Or.inr (Or.inl rfl)) (by decide) (fun _ => rfl) (by decide) (by decide) rfl rfl rfl
          (by decide)
      rfl rfl rfl rfl rfl rfl (by decide) rfl rfl rfl rfl rfl rfl (by decide) rfl rfl rfl).1

/-- The function `consume_semicolon_after_statement` returns and delivers no event. -/
theorem consume_semicolon_after_statement_out (σ : PState) :
    ∃ σ1, consume_semicolon_after_statement σ = .ok () σ1 ∧ σ1.out = σ.out := by
  simp only [consume_semicolon_after_statement, bind, P.bind, peek]
  by_cases h1 : σ.peek.type = .semicolon
  · simp [h1, skip, PState.skip]
  · by_cases h2 : σ.peek.type = .end_of_file
    · simp [h1, h2, pure, P.pure]
    · by_cases h3 : σ.peek.type = .right_curly
      · simp [h1, h2, h3, pure, P.pure]
      · by_cases h4 : σ.peek.has_leading_newline = true
        · simp [h1, h2, h3, h4, insert_semicolon, skip, bind, P.bind, PState.skip,
            PState.insert_semicolon]
        · simp [h1, h2, h3, h4, insert_semicolon, skip, bind, P.bind, PState.skip,
            PState.insert_semicolon, peek, report]

/-- C21, as amended: in a type alias statement the declaration of the alias name (kind
`_type_alias`, init kind `normal`) is emitted first, in the enclosing scope, before
`visit_enter_type_alias_scope`; the events `M` of the generic parameters and of the type
expression come between `visit_enter_type_alias_scope` and
`visit_exit_type_alias_scope`. -/
theorem type_alias_events (X : Externals) (fuel : Nat) (type_token : source_code_span)
    (s sg s2 : PState) (name : token) (rest : List token) (M : List Event)
    (hin : s.input = name :: rest)
    (hgenerics :
      (if s.skip.peek.type = .less then parse_and_visit_typescript_generic_parameters X fuel
       else pure ())
        { s.skip with
          diags := s.diags ++
            (if s.options.typescript then []
             else [{ type := .diag_typescript_type_alias_not_allowed_in_javascript,
                     spans := [type_token] }])
          out := s.out ++ [.visit_variable_declaration name.identifier_name ._type_alias .normal,
                           .visit_enter_scope .type_alias] }
        = .ok () sg)
    (hequal : sg.peek.type = .equal)
    (htype : X.parse_and_visit_typescript_type_expression sg.skip = .ok () s2)
    (hM : s2.out = s.out ++ [.visit_variable_declaration name.identifier_name ._type_alias
            .normal, .visit_enter_scope .type_alias] ++ M) :
    ∃ s1, parse_and_visit_typescript_type_alias X fuel type_token s = .ok () s1
      ∧ s1.out = s.out ++ [.visit_variable_declaration name.identifier_name ._type_alias .normal]
          ++ [.visit_enter_scope .type_alias] ++ M ++ [.visit_exit_scope .type_alias] := by
  obtain ⟨input, lte, diags, out, stack, f1, f2, f3, f4, depth, options, tx⟩ := s
  simp only at hin
  subst hin
  obtain ⟨σ1, hσ1, hout⟩ :=
    consume_semicolon_after_statement_out
      { s2 with out := s2.out ++ [.visit_exit_scope .type_alias] }
  refine ⟨σ1, ?_, by rw [hout]; simp [hM]⟩
  rw [← hσ1]
  rcases rest with _ | ⟨n, rest⟩ <;>
  by_cases hts : options.typescript = true <;>
  simp [PState.skip, PState.peek, end_of_file_token, hts] at hgenerics <;>
  simp [parse_and_visit_typescript_type_alias, bind, P.bind, get_state, peek,
    hts, pure, P.pure, visit_variable_declaration, visit, skip, report,
    visit_enter_type_alias_scope, PState.skip, PState.peek, end_of_file_token] <;>
  (try split at hgenerics) <;>
  (try simp only [pure, P.pure, Res.ok.injEq, true_and] at hgenerics) <;>
  (try subst hgenerics) <;>
  simp_all [QLJS_PARSER_UNIMPLEMENTED_IF_NOT_TOKEN, bind, P.bind, peek,
    pure, P.pure, skip, visit_exit_type_alias_scope, visit, PState.skip, PState.peek,
    end_of_file_token]

/-- C21 (amended) on `T = number;` after the keyword `type`: the declaration of `T` comes
before `visit_enter_type_alias_scope`. -/
theorem type_alias_events_witness :
    ∃ s1, parse_and_visit_typescript_type_alias sample_externals_with_types 3 ⟨0, 4⟩
        { input := [ident_tok "T" 5 6, tok .equal 7 8, tok .kw_number 9 15,
            tok .semicolon 15 16],
          options := { typescript := true } } = .ok () s1
      ∧ s1.out = [] ++ [.visit_variable_declaration ⟨⟨5, 6⟩, "T"⟩ ._type_alias .normal]
          ++ [.visit_enter_scope .type_alias] ++ [] ++ [.visit_exit_scope .type_alias] :=
  type_alias_events sample_externals_with_types 3 ⟨0, 4⟩
    { input := [ident_tok "T" 5 6, tok .equal 7 8, tok .kw_number 9 15, tok .semicolon 15 16],
      options := { typescript := true } }
    { input := [tok .equal 7 8, tok .kw_number 9 15, tok .semicolon 15 16],
      last_token_end := 6,
      out := [.visit_variable_declaration ⟨⟨5, 6⟩, "T"⟩ ._type_alias .normal,
              .visit_enter_scope .type_alias],
      options := { typescript := true } }
    { input := [tok .semicolon 15 16],
      last_token_end := 15,
      out := [.visit_variable_declaration ⟨⟨5, 6⟩, "T"⟩ ._type_alias .normal,
              .visit_enter_scope .type_alias],
      options := { typescript := true } }
    (ident_tok "T" 5 6) [tok .equal 7 8, tok .kw_number 9 15, tok .semicolon 15 16] []
    rfl rfl rfl rfl rfl

/-- C21 as stated fails on `type T = number;`: the first event is the declaration of `T`
and `visit_enter_type_alias_scope` only follows it, so the declaration is not inside the
type-alias scope. -/
theorem type_alias_declared_before_scope :
    parse_and_visit_typescript_type_alias sample_externals_with_types 3 ⟨0, 4⟩
        { input := [ident_tok "T" 5 6, tok .equal 7 8, tok .kw_number 9 15,
            tok .semicolon 15 16],
          options := { typescript := true } }
      = .ok ()
          { input := [], last_token_end := 16,
            out := [.visit_variable_declaration ⟨⟨5, 6⟩, "T"⟩ ._type_alias .normal,
                    .visit_enter_scope .type_alias, .visit_exit_scope .type_alias],
            options := { typescript := true } } := by
  decide

/-- C22, as amended: a statement starting with `type` followed by a token that may name a
type alias is parsed as a type alias exactly when that token is on the line of `type`,
whatever `options.typescript` is; when the token has a leading newline the lexer is
rolled back and the statement is parsed as an expression statement. -/
theorem type_keyword_statement (X : Externals)
    (stmt : parse_statement_type → P Bool) (fuel : Nat) (ty : parse_statement_type)
    (s : PState) (type_token name : token) (rest : List token)
    (hin : s.input = type_token :: name :: rest)
    (htype : type_token.type = .kw_type)
    (hname : parse_and_visit_statement.is_type_alias_name name.type = true) :
    parse_and_visit_statement.dispatch X stmt fuel ty s
      = if name.has_leading_newline then
          (do
            parse_and_visit_expression X {}
            parse_and_visit_statement.parse_expression_end fuel
            pure (some true) : P (Option Bool)) s
        else
          (do
            parse_and_visit_typescript_type_alias X fuel type_token.span
            pure (some true) : P (Option Bool))
            { s.skip with open_transactions := s.open_transactions + 1 } := by
  obtain ⟨input, lte, diags, out, stack, f1, f2, f3, f4, depth, options, tx⟩ := s
  simp only at hin
  subst hin
  rw [dispatch_kw_type X stmt fuel ty _ (by simpa [PState.peek] using htype)]
  have hc : name.type ≠ token_type.colon := by
    intro hn
    rw [hn] at hname
    exact absurd hname (by decide)
  by_cases hline : name.has_leading_newline = true
  · simp [parse_and_visit_statement.case_kw_type, bind, P.bind, begin_transaction, skip, peek,
      PState.skip, PState.peek, hname, hline, hc, roll_back_transaction]
  · simp [parse_and_visit_statement.case_kw_type, bind, P.bind, begin_transaction, skip, peek,
      PState.skip, PState.peek, hname, hline, hc]

/-- C22 (amended) on `type T = number;` in JavaScript mode. -/
theorem type_keyword_statement_witness :
    parse_and_visit_statement.dispatch sample_externals_with_types
        (parse_and_visit_statement sample_externals_with_types 3) 3 .any_statement
        { input := [tok .kw_type 0 4, ident_tok "T" 5 6, tok .equal 7 8, tok .kw_number 9 15,
            tok .semicolon 15 16] }
      = if (ident_tok "T" 5 6).has_leading_newline then
          (do
            parse_and_visit_expression sample_externals_with_types {}
            parse_and_visit_statement.parse_expression_end 3
            pure (some true) : P (Option Bool))
            { input := [tok .kw_type 0 4, ident_tok "T" 5 6, tok .equal 7 8,
                tok .kw_number 9 15, tok .semicolon 15 16] }
        else
          (do
            parse_and_visit_typescript_type_alias sample_externals_with_types 3
              (tok .kw_type 0 4).span
            pure (some true) : P (Option Bool))
            { PState.skip
                { input := [tok .kw_type 0 4, ident_tok "T" 5 6, tok .equal 7 8,
                    tok .kw_number 9 15, tok .semicolon 15 16] } with
              open_transactions :=
                PState.open_transactions
                  { input := [tok .kw_type 0 4, ident_tok "T" 5 6, tok .equal 7 8,
                      tok .kw_number 9 15, tok .semicolon 15 16] } + 1 } :=
  type_keyword_statement sample_externals_with_types
    (parse_and_visit_statement sample_externals_with_types 3) 3 .any_statement
    { input := [tok .kw_type 0 4, ident_tok "T" 5 6, tok .equal 7 8, tok .kw_number 9 15,
        tok .semicolon 15 16] }
    (tok .kw_type 0 4) (ident_tok "T" 5 6)
    [tok .equal 7 8, tok .kw_number 9 15, tok .semicolon 15 16] rfl rfl rfl

/-- C22 as stated fails on `type T = number;` in JavaScript mode (`options.typescript`
false): the statement is parsed as a type alias; the `_type_alias` declaration and the
type-alias scope events are emitted and
`diag_typescript_type_alias_not_allowed_in_javascript` is reported. -/
theorem type_alias_parsed_in_javascript :
    parse_and_visit_statement.dispatch sample_externals_with_types
        (parse_and_visit_statement sample_externals_with_types 3) 3 .any_statement
        { input := [tok .kw_type 0 4, ident_tok "T" 5 6, tok .equal 7 8, tok .kw_number 9 15,
            tok .semicolon 15 16],
          options := { typescript := false } }
      = .ok (some true)
          { input := [], last_token_end := 16,
            diags := [{ type := .diag_typescript_type_alias_not_allowed_in_javascript,
                        spans := [⟨0, 4⟩] }],
            out := [.visit_variable_declaration ⟨⟨5, 6⟩, "T"⟩ ._type_alias .normal,
                    .visit_enter_scope .type_alias, .visit_exit_scope .type_alias],
            options := { typescript := false },
            open_transactions := 1 } := by
  decide

/-- The function `report_each` appends one diagnostic per span, in order. -/
theorem report_each_eq (type : diag_type) :
    ∀ (spans : List source_code_span) (s : PState),
      report_each type spans s
        = .ok () { s with diags := s.diags ++ spans.map fun sp =>
                    { type := type, spans := [sp] } } := by
  intro spans
  induction spans with
  | nil => intro s; simp [report_each, pure, P.pure]
  | cons sp rest ih =>
    intro s
    simp [report_each, bind, P.bind, report, ih]

/-- The first loop of `parse_and_visit_typescript_generic_parameters` consumes the run of
commas at the cursor and collects their spans. -/
theorem leading_commas_eq :
    ∀ (commas : List token) (fuel : Nat) (acc : List source_code_span) (s : PState)
      (t : token) (rest : List token),
      s.input = commas ++ t :: rest →
      (∀ c ∈ commas, c.type = .comma) →
      t.type ≠ .comma →
      commas.length < fuel →
      parse_and_visit_typescript_generic_parameters.leading_commas fuel acc s
        = .ok (acc ++ commas.map token.span)
            { s with input := t :: rest,
                     last_token_end := commas.foldl (fun _ c => c.end_) s.last_token_end } := by
  intro commas
  induction commas with
  | nil =>
    intro fuel acc s t rest hin _ ht hfuel
    obtain ⟨input, lte, diags, out, stack, f1, f2, f3, f4, depth, options, tx⟩ := s
    simp only [List.nil_append] at hin
    subst hin
    cases fuel with
    | zero => simp at hfuel
    | succ fuel =>
      simp [parse_and_visit_typescript_generic_parameters.leading_commas, bind, P.bind, peek,
        PState.peek, ht, pure, P.pure]
  | cons c commas ih =>
    intro fuel acc s t rest hin hc ht hfuel
    obtain ⟨input, lte, diags, out, stack, f1, f2, f3, f4, depth, options, tx⟩ := s
    simp only [List.cons_append] at hin
    subst hin
    cases fuel with
    | zero => simp at hfuel
    | succ fuel =>
      have hct : c.type = .comma := hc c (List.mem_cons_self _ _)
      rw [parse_and_visit_typescript_generic_parameters.leading_commas]
      simp only [bind, P.bind, peek, PState.peek, List.headD_cons, hct,
        beq_self_eq_true, if_true, skip, PState.skip, List.tail_cons]
      rw [ih fuel _ _ t rest rfl (fun x hx => hc x (List.mem_cons_of_mem _ hx)) ht
        (by simpa using hfuel)]
      simp

/-- C26, as amended: after `<` and a run of leading commas, when `>` follows the function
reports `diag_typescript_generic_parameter_list_is_empty` and then one
`diag_multiple_commas_in_generic_parameter_list` for each leading comma but the first;
when another token follows it reports one
`diag_comma_not_allowed_before_first_generic_parameter` for each leading comma and goes
on at `next_parameter`. -/
theorem generic_parameters_leading_commas (X : Externals) (fuel : Nat) (s : PState)
    (less : token) (commas : List token) (t : token) (rest : List token)
    (hin : s.input = less :: (commas ++ t :: rest))
    (hcommas : ∀ c ∈ commas, c.type = .comma)
    (ht : t.type ≠ .comma)
    (hfuel : commas.length < fuel) :
    parse_and_visit_typescript_generic_parameters X fuel s
      = if t.type = .greater then
          .ok ()
            { s with
              input := rest
              last_token_end := t.end_
              diags := s.diags
                ++ [{ type := .diag_typescript_generic_parameter_list_is_empty,
                      spans := [⟨less.end_, less.end_⟩] }]
                ++ commas.tail.map fun c =>
                    { type := .diag_multiple_commas_in_generic_parameter_list,
                      spans := [c.span] } }
        else
          parse_and_visit_typescript_generic_parameters.next_parameter X fuel
            { s with
              input := t :: rest
              last_token_end := commas.foldl (fun _ c => c.end_) less.end_
              diags := s.diags ++ commas.map fun c =>
                { type := .diag_comma_not_allowed_before_first_generic_parameter,
                  spans := [c.span] } } := by
  obtain ⟨input, lte, diags, out, stack, f1, f2, f3, f4, depth, options, tx⟩ := s
  simp only at hin
  subst hin
  simp only [parse_and_visit_typescript_generic_parameters, bind, P.bind, peek, PState.peek,
    List.headD_cons, skip, PState.skip, List.tail_cons]
  rw [leading_commas_eq commas fuel [] _ t rest rfl hcommas ht hfuel]
  by_cases hg : t.type = .greater
  · rcases commas with _ | ⟨c, commas⟩ <;>
      simp [hg, report, report_each_eq, PState.peek, PState.skip, bind, P.bind, skip]
  · simp [hg, report_each_eq, PState.peek, bind, P.bind]
    rfl

/-- C26 (amended) on `<,,>`: the empty-list diagnostic and one diagnostic for the second
comma. -/
theorem generic_parameters_leading_commas_witness :
    parse_and_visit_typescript_generic_parameters sample_externals 3
        { input := [tok .less 0 1, tok .comma 1 2, tok .comma 2 3, tok .greater 3 4] }
      = .ok ()
          { input := [], last_token_end := 4,
            diags := [{ type := .diag_typescript_generic_parameter_list_is_empty,
                        spans := [⟨1, 1⟩] },
                      { type := .diag_multiple_commas_in_generic_parameter_list,
                        spans := [⟨2, 3⟩] }] } :=
  (generic_parameters_leading_commas sample_externals 3
    { input := [tok .less 0 1, tok .comma 1 2, tok .comma 2 3, tok .greater 3 4] }
    (tok .less 0 1) [tok .comma 1 2, tok .comma 2 3] (tok .greater 3 4) []
    rfl (by decide) (by decide) (by decide)).trans (by decide)

/-- C26 as stated fails on `<,>`: one leading comma, followed by `>`; the only diagnostic
is `diag_typescript_generic_parameter_list_is_empty` at the end of `<`, and the comma has
no diagnostic of its own. -/
theorem single_leading_comma_not_reported :
    parse_and_visit_typescript_generic_parameters sample_externals 3
        { input := [tok .less 0 1, tok .comma 1 2, tok .greater 2 3] }
      = .ok ()
          { input := [], last_token_end := 3,
            diags := [{ type := .diag_typescript_generic_parameter_list_is_empty,
                        spans := [⟨1, 1⟩] }] } := by
  decide

/-- The case labels of the expression case are not labels of an earlier case of the
`switch` of `parse_and_visit_statement`. -/
theorem expression_start_not_earlier_case (t : token_type)
    (h : parse_and_visit_statement.is_expression_start t = true) :
    t ≠ .kw_export ∧ t ≠ .semicolon ∧ t ≠ .kw_function ∧ t ≠ .kw_const ∧ t ≠ .kw_var
      ∧ t ≠ .kw_let ∧ t ≠ .kw_abstract ∧ t ≠ .kw_declare ∧ t ≠ .kw_async
      ∧ t ≠ .kw_import := by
  cases t <;> first | exact absurd h (by decide) | decide

/-- A head token of the expression case, other than `*`, leads to
`parse_and_visit_expression` followed by `parse_expression_end`. -/
theorem dispatch_expression_start (X : Externals) (stmt : parse_statement_type → P Bool)
    (fuel : Nat) (ty : parse_statement_type) (s : PState)
    (h : parse_and_visit_statement.is_expression_start s.peek.type = true)
    (hstar : s.peek.type ≠ .star) :
    parse_and_visit_statement.dispatch X stmt fuel ty s
      = (do
          parse_and_visit_expression X {}
          parse_and_visit_statement.parse_expression_end fuel
          pure (some true) : P (Option Bool)) s := by
  obtain ⟨h1, h2, h3, h4, h5, h6, h7, h8, h9, h10⟩ :=
    expression_start_not_earlier_case _ h
  simp [parse_and_visit_statement.dispatch, parse_and_visit_statement.case_expression,
      bind, P.bind, pure, P.pure, peek, h, h1, h2, h3, h4, h5, h6, h7, h8, h9, h10, hstar]

/-- The case labels at `parse_loop_label_or_expression_starting_with_identifier` are not
labels of an earlier case of the `switch` of `parse_and_visit_statement`. -/
theorem identifier_start_not_earlier_case (t : token_type)
    (h : parse_and_visit_statement.is_identifier_start t = true) :
    t ≠ .kw_export ∧ t ≠ .semicolon ∧ t ≠ .kw_function ∧ t ≠ .kw_const ∧ t ≠ .kw_var
      ∧ t ≠ .kw_let ∧ t ≠ .kw_abstract ∧ t ≠ .kw_declare ∧ t ≠ .kw_async
      ∧ t ≠ .kw_import ∧ parse_and_visit_statement.is_expression_start t = false
      ∧ t ≠ .kw_await ∧ t ≠ .kw_yield := by
  cases t <;> first | exact absurd h (by decide) | decide

/-- A head token that is an identifier or an identifier-like keyword, not followed by `:`,
starts an expression statement that ends with `parse_expression_end`. -/
theorem dispatch_identifier_start (X : Externals) (stmt : parse_statement_type → P Bool)
    (fuel : Nat) (ty : parse_statement_type) (s : PState)
    (h : parse_and_visit_statement.is_identifier_start s.peek.type = true)
    (hcolon : s.skip.peek.type ≠ .colon) :
    parse_and_visit_statement.dispatch X stmt fuel ty s
      = (do
          let ast ← X.parse_expression_remainder
            (make_expression_variable s.peek.identifier_name s.peek.type) {}
          X.visit_expression ast .rhs
          parse_and_visit_statement.parse_expression_end fuel
          pure (some true) : P (Option Bool)) s.skip := by
  obtain ⟨h1, h2, h3, h4, h5, h6, h7, h8, h9, h10, h11, h12, h13⟩ :=
    identifier_start_not_earlier_case _ h
  simp [parse_and_visit_statement.dispatch,
    parse_and_visit_statement.label_or_expression_starting_with_identifier,
    bind, P.bind, pure, P.pure, peek, skip, h, h1, h2, h3, h4, h5, h6, h7, h8, h9, h10, h11,
    h12, h13, hcolon]

/-- The head token `await`, not followed by `:`, starts an expression statement that ends
with `parse_expression_end`. -/
theorem dispatch_kw_await (X : Externals) (stmt : parse_statement_type → P Bool)
    (fuel : Nat) (ty : parse_statement_type) (s : PState)
    (h : s.peek.type = .kw_await) (hcolon : s.skip.peek.type ≠ .colon) :
    parse_and_visit_statement.dispatch X stmt fuel ty s
      = (do
          let ast ← X.parse_await_expression s.peek {}
          let ast ← X.parse_expression_remainder ast {}
          X.visit_expression ast .rhs
          parse_and_visit_statement.parse_expression_end fuel
          pure (some true) : P (Option Bool)) s.skip := by
  simp [parse_and_visit_statement.dispatch, parse_and_visit_statement.case_kw_await,
    bind, P.bind, pure, P.pure, peek, skip, get_state, h, hcolon,
    parse_and_visit_statement.is_expression_start, is_binary_only_operator]

/-- The head token `async`, followed by a token that continues an expression: the
expression is parsed and visited, and the statement returns at once; no
`parse_expression_end` follows. -/
theorem dispatch_kw_async_expression (X : Externals) (stmt : parse_statement_type → P Bool)
    (fuel : Nat) (ty : parse_statement_type) (s : PState)
    (h : s.peek.type = .kw_async)
    (hnext : parse_and_visit_statement.is_async_expression_continuation s.skip.peek.type
      = true) :
    parse_and_visit_statement.dispatch X stmt fuel ty s
      = (do
          let ast ← X.parse_async_expression s.peek {}
          X.visit_expression ast .rhs
          pure (some true) : P (Option Bool)) s.skip := by
  have hf : s.skip.peek.type ≠ .kw_function := by
    intro hf
    rw [hf] at hnext
    exact absurd hnext (by decide)
  simp [parse_and_visit_statement.dispatch, parse_and_visit_statement.case_kw_async,
    bind, P.bind, pure, P.pure, peek, skip, h, hf, hnext]

/-- The loop of `parse_expression_end` consumes the run of `)` at the cursor and reports
one `diag_unmatched_parenthesis` for each. -/
theorem unmatched_parentheses_eq :
    ∀ (parens : List token) (fuel : Nat) (s : PState) (rest : List token),
      s.input = parens ++ rest →
      (∀ p ∈ parens, p.type = .right_paren) →
      (∀ t, rest.head? = some t → t.type ≠ .right_paren) →
      parens.length < fuel →
      parse_and_visit_statement.unmatched_parentheses fuel s
        = .ok ()
            { s with
              input := rest
              last_token_end := parens.foldl (fun _ p => p.end_) s.last_token_end
              diags := s.diags ++ parens.map fun p =>
                { type := .diag_unmatched_parenthesis, spans := [p.span] } } := by
  intro parens
  induction parens with
  | nil =>
    intro fuel s rest hin _ hrest hfuel
    obtain ⟨input, lte, diags, out, stack, f1, f2, f3, f4, depth, options, tx⟩ := s
    simp only [List.nil_append] at hin
    subst hin
    cases fuel with
    | zero => simp at hfuel
    | succ fuel =>
      rcases input with _ | ⟨t, rest⟩
      · simp [parse_and_visit_statement.unmatched_parentheses, bind, P.bind, peek,
          PState.peek, end_of_file_token, pure, P.pure]
      · have ht := hrest t rfl
        simp [parse_and_visit_statement.unmatched_parentheses, bind, P.bind, peek,
          PState.peek, ht, pure, P.pure]
  | cons p parens ih =>
    intro fuel s rest hin hp hrest hfuel
    obtain ⟨input, lte, diags, out, stack, f1, f2, f3, f4, depth, options, tx⟩ := s
    simp only [List.cons_append] at hin
    subst hin
    cases fuel with
    | zero => simp at hfuel
    | succ fuel =>
      have hpt : p.type = .right_paren := hp p (List.mem_cons_self _ _)
      rw [parse_and_visit_statement.unmatched_parentheses]
      simp only [bind, P.bind, peek, PState.peek, List.headD_cons, hpt,
        beq_self_eq_true, if_true, skip, PState.skip, List.tail_cons, report]
      rw [ih fuel _ rest rfl (fun x hx => hp x (List.mem_cons_of_mem _ hx)) hrest
        (by simpa using hfuel)]
      simp

/-- C28, the code as it stands: the expression statements that start with a token of the
expression case (operator, literal, `(`), with an identifier or an identifier-like keyword
of `parse_loop_label_or_expression_starting_with_identifier`, with `await`, with `let`
taken as a variable, or with `type` not followed by an alias name, end with
`parse_expression_end`, which consumes each `)` at the cursor, reports one
`diag_unmatched_parenthesis` with the span of each, and then performs
`consume_semicolon_after_statement`.  The code departs from the claim in the expression
statement that starts with `async`: the dispatcher returns right after the expression is
visited, and `parse_expression_end` is not run. -/
theorem expression_statement_end (X : Externals) (stmt : parse_statement_type → P Bool)
    (fuel : Nat) (ty : parse_statement_type) (s : PState) :
    (parse_and_visit_statement.is_expression_start s.peek.type = true →
      s.peek.type ≠ .star →
      parse_and_visit_statement.dispatch X stmt fuel ty s
        = (do
            parse_and_visit_expression X {}
            parse_and_visit_statement.parse_expression_end fuel
            pure (some true) : P (Option Bool)) s)
    ∧ (parse_and_visit_statement.is_identifier_start s.peek.type = true →
      s.skip.peek.type ≠ .colon →
      parse_and_visit_statement.dispatch X stmt fuel ty s
        = (do
            let ast ← X.parse_expression_remainder
              (make_expression_variable s.peek.identifier_name s.peek.type) {}
            X.visit_expression ast .rhs
            parse_and_visit_statement.parse_expression_end fuel
            pure (some true) : P (Option Bool)) s.skip)
    ∧ (s.peek.type = .kw_await →
      s.skip.peek.type ≠ .colon →
      parse_and_visit_statement.dispatch X stmt fuel ty s
        = (do
            let ast ← X.parse_await_expression s.peek {}
            let ast ← X.parse_expression_remainder ast {}
            X.visit_expression ast .rhs
            parse_and_visit_statement.parse_expression_end fuel
            pure (some true) : P (Option Bool)) s.skip)
    ∧ (∀ s2, s.peek.type = .kw_let →
      s.skip.peek.type ≠ .colon →
      X.is_let_token_a_variable_reference s.skip.peek (ty != .no_declarations)
          { s.skip with open_transactions := s.open_transactions + 1 } = .ok true s2 →
      parse_and_visit_statement.dispatch X stmt fuel ty s
        = (do
            let ast ← X.parse_expression { in_operator := true }
            X.visit_expression ast .rhs
            parse_and_visit_statement.parse_expression_end fuel
            pure (some true) : P (Option Bool))
            { s2 with input := s.input, last_token_end := s.last_token_end,
                      open_transactions := s2.open_transactions - 1 })
    ∧ (s.peek.type = .kw_type →
      s.skip.peek.type ≠ .colon →
      (parse_and_visit_statement.is_type_alias_name s.skip.peek.type
        && !s.skip.peek.has_leading_newline) = false →
      parse_and_visit_statement.dispatch X stmt fuel ty s
        = (do
            parse_and_visit_expression X {}
            parse_and_visit_statement.parse_expression_end fuel
            pure (some true) : P (Option Bool)) s)
    ∧ (s.peek.type = .kw_async →
      parse_and_visit_statement.is_async_expression_continuation s.skip.peek.type = true →
      parse_and_visit_statement.dispatch X stmt fuel ty s
        = (do
            let ast ← X.parse_async_expression s.peek {}
            X.visit_expression ast .rhs
            pure (some true) : P (Option Bool)) s.skip)
    ∧ (∀ (parens rest : List token),
      s.input = parens ++ rest →
      (∀ p ∈ parens, p.type = .right_paren) →
      (∀ t, rest.head? = some t → t.type ≠ .right_paren) →
      parens.length < fuel →
      parse_and_visit_statement.parse_expression_end fuel s
        = consume_semicolon_after_statement
            { s with
              input := rest
              last_token_end := parens.foldl (fun _ p => p.end_) s.last_token_end
              diags := s.diags ++ parens.map fun p =>
                { type := .diag_unmatched_parenthesis, spans := [p.span] } }) := by
  refine ⟨dispatch_expression_start X stmt fuel ty s,
    dispatch_identifier_start X stmt fuel ty s, dispatch_kw_await X stmt fuel ty s,
    ?_, ?_, dispatch_kw_async_expression X stmt fuel ty s, ?_⟩
  · intro s2 h hcolon hlet
    rw [dispatch_kw_let X stmt fuel ty s h]
    obtain ⟨input, lte, diags, out, stack, f1, f2, f3, f4, depth, options, tx⟩ := s
    simp [PState.skip, PState.peek, end_of_file_token] at hcolon hlet
    simp [parse_and_visit_statement.case_kw_let, bind, P.bind, pure, P.pure, peek, skip,
      begin_transaction, roll_back_transaction, hcolon, hlet, PState.skip, PState.peek,
      end_of_file_token]
  · intro h hcolon hname
    rw [dispatch_kw_type X stmt fuel ty s h]
    obtain ⟨input, lte, diags, out, stack, f1, f2, f3, f4, depth, options, tx⟩ := s
    simp only [Bool.and_eq_false_iff] at hname
    rcases hname with hname | hname <;>
    simp [PState.skip, PState.peek, end_of_file_token] at hcolon hname <;>
    simp [parse_and_visit_statement.case_kw_type, bind, P.bind, pure, P.pure, peek, skip,
      begin_transaction, roll_back_transaction, hcolon, hname, PState.skip, PState.peek,
      end_of_file_token]
  · intro parens rest hin hp hrest hfuel
    simp [parse_and_visit_statement.parse_expression_end, bind, P.bind,
      unmatched_parentheses_eq parens fuel s rest hin hp hrest hfuel]

/-- C28 at a concrete input: `parse_expression_end` on `) ) ;`. -/
theorem expression_statement_end_witness :
    parse_and_visit_statement.parse_expression_end 3
        { input := [tok .right_paren 1 2, tok .right_paren 2 3, tok .semicolon 3 4],
          last_token_end := 1 }
      = .ok ()
          { input := [], last_token_end := 4,
            diags := [{ type := .diag_unmatched_parenthesis, spans := [⟨1, 2⟩] },
                      { type := .diag_unmatched_parenthesis, spans := [⟨2, 3⟩] }] } :=
  ((expression_statement_end sample_externals
      (parse_and_visit_statement sample_externals 3) 3 .any_statement
      { input := [tok .right_paren 1 2, tok .right_paren 2 3, tok .semicolon 3 4],
        last_token_end := 1 }).2.2.2.2.2.2
    [tok .right_paren 1 2, tok .right_paren 2 3] [tok .semicolon 3 4]
    rfl (by decide) (by simp [tok]) (by decide)).trans (by decide)

/-- C28, the failing input `async = x);`: the statement returns with `)` and `;` still at
the cursor and without `diag_unmatched_parenthesis`, whereas `y = x);` consumes both and
reports the diagnostic. -/
theorem async_statement_without_expression_end :
    parse_and_visit_statement.dispatch async_sample_externals
        (parse_and_visit_statement async_sample_externals 3) 3 .any_statement
        { input := [tok .kw_async 0 5, tok .equal 6 7, ident_tok "x" 8 9,
            tok .right_paren 9 10, tok .semicolon 10 11] }
      = .ok (some true)
          { input := [tok .right_paren 9 10, tok .semicolon 10 11], last_token_end := 9,
            out := [.visit_variable_use ⟨⟨8, 9⟩, "x"⟩,
                    .visit_variable_assignment ⟨⟨0, 5⟩, ""⟩] }
    ∧ parse_and_visit_statement.dispatch async_sample_externals
        (parse_and_visit_statement async_sample_externals 3) 3 .any_statement
        { input := [ident_tok "y" 0 1, tok .equal 6 7, ident_tok "x" 8 9,
            tok .right_paren 9 10, tok .semicolon 10 11] }
      = .ok (some true)
          { input := [], last_token_end := 11,
            diags := [{ type := .diag_unmatched_parenthesis, spans := [⟨9, 10⟩] }],
            out := [.visit_variable_use ⟨⟨8, 9⟩, "x"⟩,
                    .visit_variable_assignment ⟨⟨0, 1⟩, "y"⟩] } := by
  decide

/-- The lambda `auto_member`: one diagnostic exactly when the enum is a normal enum and the
last initializer seen is remembered as computed; the remembered classification is cleared. -/
theorem auto_member_eq (kind : enum_kind) (l : enum_members_locals)
    (member_name : source_code_span) (s : PState) :
    parse_and_visit_typescript_enum_members.auto_member kind l member_name s
      = .ok { l with last_enum_value_kind := none }
          { s with diags := s.diags ++
              if kind = .normal ∧ l.last_enum_value_kind = some .computed then
                [{ type := .diag_typescript_enum_auto_member_needs_initializer_after_computed,
                   spans := [member_name, l.last_enum_value.getD ⟨0, 0⟩] }]
              else [] } := by
  by_cases h : kind = .normal ∧ l.last_enum_value_kind = some .computed
  · simp [parse_and_visit_typescript_enum_members.auto_member, bind, P.bind, pure, P.pure,
      report, h]
  · have h1 : (kind == .normal && l.last_enum_value_kind == some .computed) = false := by
      simpa using h
    simp [parse_and_visit_typescript_enum_members.auto_member, bind, P.bind, pure, P.pure,
      h1, h]

/-- A member without initializer (the name is followed by `,` or by the closing curly). -/
theorem parse_after_member_name_auto (X : Externals) (kind : enum_kind)
    (l : enum_members_locals) (name : source_code_span) (s : PState)
    (h : s.peek.type = .comma ∨ s.peek.type = .right_curly) :
    parse_and_visit_typescript_enum_members.parse_after_member_name X kind l name s
      = .ok { l with last_enum_value_kind := none }
          { (if s.peek.type = .comma then s.skip else s) with diags := s.diags ++
              if kind = .normal ∧ l.last_enum_value_kind = some .computed then
                [{ type := .diag_typescript_enum_auto_member_needs_initializer_after_computed,
                   spans := [name, l.last_enum_value.getD ⟨0, 0⟩] }]
              else [] } := by
  rcases h with h | h
  · simp [parse_and_visit_typescript_enum_members.parse_after_member_name, bind, P.bind,
      pure, P.pure, peek, h, auto_member_eq, skip]
    simp [PState.skip, PState.peek, end_of_file_token]
  · simp [parse_and_visit_typescript_enum_members.parse_after_member_name, bind, P.bind,
      pure, P.pure, peek, h, auto_member_eq, skip]

/-- A member with an initializer: the value is classified and remembered, and in a declared
or constant enum a computed value is reported. -/
theorem parse_after_member_name_initializer (X : Externals) (kind : enum_kind)
    (l : enum_members_locals) (name : source_code_span) (s s1 s2 : PState) (ast : expression)
    (heq : s.peek.type = .equal)
    (hparse : X.parse_expression { commas := false } s.skip = .ok ast s1)
    (hvisit : X.visit_expression ast .rhs s1 = .ok () s2) :
    parse_and_visit_typescript_enum_members.parse_after_member_name X kind l name s
      = .ok { last_enum_value_kind := some (classify_enum_value_expression ast),
              last_enum_value := some ast.span }
          { (if s2.peek.type = .comma then s2.skip else s2) with diags := s2.diags ++
              if kind ≠ enum_kind.normal ∧ classify_enum_value_expression ast = .computed then
                [{ type := .diag_typescript_enum_value_must_be_constant,
                   spans := [ast.span], declared_enum_kind := some kind }]
              else [] } := by
  obtain ⟨input2, lte2, diags2, out2, stack2, g1, g2, g3, g4, depth2, options2, tx2⟩ := s2
  rcases input2 with _ | ⟨t2, rest2⟩
  · by_cases hv : classify_enum_value_expression ast = .computed <;>
    cases kind <;>
    simp [parse_and_visit_typescript_enum_members.parse_after_member_name, bind, P.bind,
      pure, P.pure, peek, heq, hparse, hvisit, report_with_enum_kind, skip, hv] <;>
    simp [PState.peek, PState.skip, end_of_file_token, P.bind, P.pure, skip]
  · by_cases hc : t2.type = .comma <;>
    by_cases hv : classify_enum_value_expression ast = .computed <;>
    cases kind <;>
    simp [parse_and_visit_typescript_enum_members.parse_after_member_name, bind, P.bind,
      pure, P.pure, peek, heq, hparse, hvisit, report_with_enum_kind, skip, hv] <;>
    simp [PState.peek, PState.skip, end_of_file_token, hc, P.bind, P.pure, skip]

/-- At a member name that is a keyword, an identifier or a string, the member loop
consumes the name and hands the remembered values to `parse_after_member_name`. -/
theorem next_member_named (X : Externals) (kind : enum_kind) (fuel : Nat)
    (l : enum_members_locals) (s : PState)
    (h : (is_keyword s.peek.type || s.peek.type == .identifier || s.peek.type == .string)
      = true) :
    parse_and_visit_typescript_enum_members.next_member X kind (fuel + 1) l s
      = (do
          let l1 ← parse_and_visit_typescript_enum_members.parse_after_member_name X kind l
            s.peek.span
          parse_and_visit_typescript_enum_members.next_member X kind fuel l1 : P Unit)
          s.skip := by
  rw [parse_and_visit_typescript_enum_members.next_member]
  simp only [bind, P.bind, peek, h, if_true, skip]

/-- At the closing curly the member loop returns. -/
theorem next_member_right_curly (X : Externals) (kind : enum_kind) (fuel : Nat)
    (l : enum_members_locals) (s : PState) (h : s.peek.type = .right_curly) :
    parse_and_visit_typescript_enum_members.next_member X kind (fuel + 1) l s = .ok () s := by
  have hk : is_keyword token_type.right_curly = false := by decide
  rw [parse_and_visit_typescript_enum_members.next_member]
  simp [bind, P.bind, peek, h, pure, P.pure, hk]

/-- C24: in `parse_and_visit_typescript_enum_members`, a member without initializer reports
`diag_typescript_enum_auto_member_needs_initializer_after_computed` exactly when the enum
kind is normal and the classification remembered from the member just before it is
`computed`, with the span of the name and the span of that initializer, and it clears the
remembered classification; so in `A = <value>, B, C }` the member `B` is reported exactly
when the kind is normal and `<value>` is classified computed, and `C` is not reported. -/
theorem enum_auto_member_after_computed (X : Externals) (kind : enum_kind) (fuel : Nat)
    (l : enum_members_locals) (name : source_code_span) (s : PState) :
    ((s.peek.type = .comma ∨ s.peek.type = .right_curly) →
      parse_and_visit_typescript_enum_members.parse_after_member_name X kind l name s
        = .ok { l with last_enum_value_kind := none }
            { (if s.peek.type = .comma then s.skip else s) with diags := s.diags ++
                if kind = .normal ∧ l.last_enum_value_kind = some .computed then
                  [{ type :=
                       .diag_typescript_enum_auto_member_needs_initializer_after_computed,
                     spans := [name, l.last_enum_value.getD ⟨0, 0⟩] }]
                else [] })
    ∧ (∀ (s1 s2 : PState) (ast : expression) (A eq c1 B c2 C rc : token)
        (rest rest2 : List token),
      s.input = A :: eq :: rest →
      (is_keyword A.type || A.type == .identifier || A.type == .string) = true →
      eq.type = .equal →
      X.parse_expression { commas := false } s.skip.skip = .ok ast s1 →
      X.visit_expression ast .rhs s1 = .ok () s2 →
      s2.input = c1 :: B :: c2 :: C :: rc :: rest2 →
      c1.type = .comma →
      (is_keyword B.type || B.type == .identifier || B.type == .string) = true →
      c2.type = .comma →
      (is_keyword C.type || C.type == .identifier || C.type == .string) = true →
      rc.type = .right_curly →
      parse_and_visit_typescript_enum_members.next_member X kind (fuel + 4) l s
        = .ok ()
            { s2 with
              input := rc :: rest2
              last_token_end := C.end_
              diags := s2.diags
                ++ (if kind ≠ enum_kind.normal
                      ∧ classify_enum_value_expression ast = .computed then
                    [{ type := .diag_typescript_enum_value_must_be_constant,
                       spans := [ast.span], declared_enum_kind := some kind }]
                  else [])
                ++ (if kind = .normal ∧ classify_enum_value_expression ast = .computed then
                    [{ type :=
                         .diag_typescript_enum_auto_member_needs_initializer_after_computed,
                       spans := [B.span, ast.span] }]
                  else []) }) := by
  refine ⟨parse_after_member_name_auto X kind l name s, ?_⟩
  intro s1 s2 ast A eq c1 B c2 C rc rest rest2 hin hA heq hparse hvisit hin2 hc1 hB hc2 hC hrc
  obtain ⟨input, lte, diags, out, stack, f1, f2, f3, f4, depth, options, tx⟩ := s
  obtain ⟨input2, lte2, diags2, out2, stack2, g1, g2, g3, g4, depth2, options2, tx2⟩ := s2
  simp only at hin hin2
  subst hin hin2
  rw [next_member_named X kind (fuel + 3) l _ (by simpa [PState.peek] using hA)]
  simp only [bind, P.bind]
  simp only [PState.skip, PState.peek, List.headD_cons, List.tail_cons] at hparse ⊢
  rw [parse_after_member_name_initializer X kind l _ _ s1 _ ast
    (by simpa [PState.peek] using heq)
    (by simpa [PState.skip, PState.peek] using hparse) hvisit]
  simp only [PState.peek, List.headD_cons, hc1, if_true, PState.skip, List.tail_cons]
  rw [next_member_named X kind (fuel + 2) _ _ (by simpa [PState.peek] using hB)]
  simp only [bind, P.bind]
  rw [parse_after_member_name_auto X kind _ _ _
    (Or.inl (by simpa [PState.peek, PState.skip] using hc2))]
  simp only [PState.peek, List.headD_cons, hc2, if_true, PState.skip, List.tail_cons]
  rw [next_member_named X kind (fuel + 1) _ _ (by simpa [PState.peek] using hC)]
  simp only [bind, P.bind]
  rw [parse_after_member_name_auto X kind _ _ _
    (Or.inr (by simpa [PState.peek, PState.skip] using hrc))]
  have hrc1 : rc.type ≠ .comma := by simp [hrc]
  simp only [PState.peek, List.headD_cons, hrc1, if_false, PState.skip, List.tail_cons]
  rw [next_member_right_curly X kind fuel _ _ (by simpa [PState.peek] using hrc)]
  simp

/-- C24 at a concrete input: in the normal enum body `A = f(), B, C }` the member `B` is
reported, with the span of `B` and the span of `f()`, and `C` is not. -/
theorem enum_auto_member_after_computed_witness :
    parse_and_visit_typescript_enum_members.next_member operator_sample_externals .normal 4 {}
        { input := [ident_tok "A" 0 1, tok .equal 2 3, ident_tok "f" 4 5,
            tok .left_paren 5 6, tok .right_paren 6 7, tok .comma 7 8, ident_tok "B" 9 10,
            tok .comma 10 11, ident_tok "C" 12 13, tok .right_curly 14 15] }
      = .ok ()
          { input := [tok .right_curly 14 15], last_token_end := 13,
            diags := [{ type :=
                          .diag_typescript_enum_auto_member_needs_initializer_after_computed,
                        spans := [⟨9, 10⟩, ⟨4, 7⟩] }],
            out := [.visit_variable_use ⟨⟨4, 5⟩, "f"⟩] } :=
  ((enum_auto_member_after_computed operator_sample_externals .normal 0 {} ⟨0, 0⟩
      { input := [ident_tok "A" 0 1, tok .equal 2 3, ident_tok "f" 4 5,
          tok .left_paren 5 6, tok .right_paren 6 7, tok .comma 7 8, ident_tok "B" 9 10,
          tok .comma 10 11, ident_tok "C" 12 13, tok .right_curly 14 15] }).2
    { input := [tok .comma 7 8, ident_tok "B" 9 10, tok .comma 10 11, ident_tok "C" 12 13,
        tok .right_curly 14 15],
      last_token_end := 7 }
    { input := [tok .comma 7 8, ident_tok "B" 9 10, tok .comma 10 11, ident_tok "C" 12 13,
        tok .right_curly 14 15],
      last_token_end := 7,
      out := [.visit_variable_use ⟨⟨4, 5⟩, "f"⟩] }
    (.mk .call { span := ⟨4, 7⟩ } [make_expression_variable ⟨⟨4, 5⟩, "f"⟩ .identifier] [])
    (ident_tok "A" 0 1) (tok .equal 2 3) (tok .comma 7 8) (ident_tok "B" 9 10)
    (tok .comma 10 11) (ident_tok "C" 12 13) (tok .right_curly 14 15)
    [ident_tok "f" 4 5, tok .left_paren 5 6, tok .right_paren 6 7, tok .comma 7 8,
      ident_tok "B" 9 10, tok .comma 10 11, ident_tok "C" 12 13, tok .right_curly 14 15]
    [] rfl (by decide) rfl rfl rfl rfl rfl (by decide) rfl (by decide) rfl).trans
    (by simp [classify_enum_value_expression, ident_tok, token.span, expression.span,
      expression.fields])

/-- C25, as amended: in a `declare const enum`, a member initializer reports
`diag_typescript_enum_value_must_be_constant` (with the span of the initializer and the
enum kind) exactly when `classify_enum_value_expression` classifies it as `computed`; an
initializer classified `unknown` is not reported. -/
theorem enum_value_must_be_constant (X : Externals) (l : enum_members_locals)
    (name : source_code_span) (s s1 s2 : PState) (ast : expression)
    (heq : s.peek.type = .equal)
    (hparse : X.parse_expression { commas := false } s.skip = .ok ast s1)
    (hvisit : X.visit_expression ast .rhs s1 = .ok () s2) :
    parse_and_visit_typescript_enum_members.parse_after_member_name X .declare_const_enum l
        name s
      = .ok { last_enum_value_kind := some (classify_enum_value_expression ast),
              last_enum_value := some ast.span }
          { (if s2.peek.type = .comma then s2.skip else s2) with diags := s2.diags ++
              if (classify_enum_value_expression ast = .computed) then
                [{ type := .diag_typescript_enum_value_must_be_constant,
                   spans := [ast.span], declared_enum_kind := some .declare_const_enum }]
              else [] } := by
  rw [parse_after_member_name_initializer X .declare_const_enum l name s s1 s2 ast heq hparse
    hvisit]
  simp

/-- C25 (amended) at a concrete input: the initializer `f()` of a member of a
`declare const enum` is classified computed and reported. -/
theorem enum_value_must_be_constant_witness :
    parse_and_visit_typescript_enum_members.parse_after_member_name operator_sample_externals
        .declare_const_enum {} ⟨0, 1⟩
        { input := [tok .equal 2 3, ident_tok "f" 4 5, tok .left_paren 5 6,
            tok .right_paren 6 7, tok .right_curly 8 9],
          last_token_end := 1 }
      = .ok { last_enum_value_kind := some .computed, last_enum_value := some ⟨4, 7⟩ }
          { input := [tok .right_curly 8 9], last_token_end := 7,
            diags := [{ type := .diag_typescript_enum_value_must_be_constant,
                        spans := [⟨4, 7⟩],
                        declared_enum_kind := some .declare_const_enum }],
            out := [.visit_variable_use ⟨⟨4, 5⟩, "f"⟩] } :=
  (enum_value_must_be_constant operator_sample_externals {} ⟨0, 1⟩
    { input := [tok .equal 2 3, ident_tok "f" 4 5, tok .left_paren 5 6,
        tok .right_paren 6 7, tok .right_curly 8 9],
      last_token_end := 1 }
    { input := [tok .right_curly 8 9], last_token_end := 7 }
    { input := [tok .right_curly 8 9], last_token_end := 7,
      out := [.visit_variable_use ⟨⟨4, 5⟩, "f"⟩] }
    (.mk .call { span := ⟨4, 7⟩ } [make_expression_variable ⟨⟨4, 5⟩, "f"⟩ .identifier] [])
    rfl rfl rfl).trans
    (by simp [classify_enum_value_expression, expression.span, expression.fields, tok,
      PState.peek])

/-- C25 as stated fails on the member `A = x` of a `declare const enum`: the initializer
`x` is classified `unknown`, which is not `constant`, and no diagnostic is reported. -/
theorem unknown_enum_value_not_reported :
    classify_enum_value_expression (make_expression_variable ⟨⟨4, 5⟩, "x"⟩ .identifier)
      = .unknown
    ∧ parse_and_visit_typescript_enum_members.parse_after_member_name sample_externals
        .declare_const_enum {} ⟨0, 1⟩
        { input := [tok .equal 2 3, ident_tok "x" 4 5, tok .right_curly 6 7],
          last_token_end := 1 }
      = .ok { last_enum_value_kind := some .unknown, last_enum_value := some ⟨4, 5⟩ }
          { input := [tok .right_curly 6 7], last_token_end := 5,
            diags := [],
            out := [.visit_variable_use ⟨⟨4, 5⟩, "x"⟩] } := by
  constructor
  · simp [classify_enum_value_expression, make_expression_variable]
  · rfl

/-- A function declaration whose name is an identifier: the declaration of the name, and
then the parameters and the body in a function scope. -/
theorem function_declaration_named (X : Externals) (stmt : parse_statement_type → P Bool)
    (fuel : Nat) (attributes attrs : function_attributes) (begin_ : Nat)
    (require_name : name_requirement) (s sg : PState)
    (hgen : X.parse_generator_star attributes s.skip = .ok attrs sg)
    (hname : sg.peek.type = .identifier) :
    parse_and_visit_function_declaration X stmt fuel attributes begin_ require_name s
      = (do
          parse_and_visit_function_parameters_and_body_no_scope X stmt fuel
            (some sg.peek.identifier_name.span) attrs
          visit_exit_function_scope : P Unit)
          { sg.skip with out := sg.out ++
              [.visit_variable_declaration sg.peek.identifier_name ._function .normal,
               .visit_enter_scope .function] } := by
  simp [parse_and_visit_function_declaration,
    parse_and_visit_function_declaration.named_function,
    parse_and_visit_function_parameters_and_body, bind, P.bind, pure, P.pure, peek, skip,
    get_state, hgen, hname, visit_variable_declaration, visit, visit_enter_function_scope]
  simp [PState.skip, PState.peek, end_of_file_token]

/-- C23: for a function declaration whose name is an identifier, the events are, in
order: the declaration of the name (kind `_function`, init kind `normal`),
`visit_enter_function_scope`, the events `Pev` of the parameters, and then, when the
parameter list is followed by a body, `visit_enter_function_scope_body`, the events `B`
of the body and `visit_exit_function_scope`; when the body is missing,
`visit_exit_function_scope` follows the parameter events at once. -/
theorem function_declaration_events (X : Externals) (stmt : parse_statement_type → P Bool)
    (fuel : Nat) (attributes attrs : function_attributes) (begin_ : Nat)
    (require_name : name_requirement) (s sg se sp : PState)
    (result : function_parameter_parse_result) (Pev : List Event)
    (hgen : X.parse_generator_star attributes s.skip = .ok attrs sg)
    (hname : sg.peek.type = .identifier)
    (henter : X.enter_function attrs
        { sg.skip with out := sg.out ++
            [.visit_variable_declaration sg.peek.identifier_name ._function .normal,
             .visit_enter_scope .function] } = .ok () se)
    (hse : se.out = sg.out ++
        [.visit_variable_declaration sg.peek.identifier_name ._function .normal,
         .visit_enter_scope .function])
    (hparams : parse_and_visit_function_parameters X fuel
        (some sg.peek.identifier_name.span) se = .ok result sp)
    (hP : sp.out = se.out ++ Pev) :
    (∀ (sb : PState) (B : List Event),
      (result = .parsed_parameters ∨ result = .missing_parameters) →
      parse_and_visit_statement_block_no_scope stmt fuel
          { sp with out := sp.out ++ [.visit_enter_function_scope_body] } = .ok () sb →
      sb.out = sp.out ++ [.visit_enter_function_scope_body] ++ B →
      ∃ s1, parse_and_visit_function_declaration X stmt fuel attributes begin_ require_name s
          = .ok () s1
        ∧ s1.out = sg.out
            ++ [.visit_variable_declaration sg.peek.identifier_name ._function .normal]
            ++ [.visit_enter_scope .function] ++ Pev ++ [.visit_enter_function_scope_body]
            ++ B ++ [.visit_exit_scope .function])
    ∧ (result = .parsed_parameters_missing_body →
      ∃ s1, parse_and_visit_function_declaration X stmt fuel attributes begin_ require_name s
          = .ok () s1
        ∧ s1.out = sg.out
            ++ [.visit_variable_declaration sg.peek.identifier_name ._function .normal]
            ++ [.visit_enter_scope .function] ++ Pev ++ [.visit_exit_scope .function]) := by
  rw [function_declaration_named X stmt fuel attributes attrs begin_ require_name s sg hgen
    hname]
  constructor
  · intro sb B hres hbody hB
    rcases hres with hres | hres <;>
    · subst hres
      simp [parse_and_visit_function_parameters_and_body_no_scope, with_function_guard, bind,
        P.bind, pure, P.pure, get_state, henter, hparams, visit_enter_function_scope_body,
        visit, hbody, restore_flags, visit_exit_function_scope]
      simp [hB, hP, hse]
  · intro hres
    subst hres
    simp [parse_and_visit_function_parameters_and_body_no_scope, with_function_guard, bind,
      P.bind, pure, P.pure, get_state, henter, hparams, end_of_previous_token, report,
      restore_flags, visit_exit_function_scope, visit]
    simp [hP, hse]

/-- C23 at a concrete input: `function f(a) { }`. -/
theorem function_declaration_events_witness :
    ∃ s1, parse_and_visit_function_declaration sample_externals
        (parse_and_visit_statement sample_externals 3) 3 .normal 0 .required_for_statement
        { input := [tok .kw_function 0 8, ident_tok "f" 9 10, tok .left_paren 10 11,
            ident_tok "a" 11 12, tok .right_paren 12 13, tok .left_curly 14 15,
            tok .right_curly 15 16] } = .ok () s1
      ∧ s1.out = [] ++ [.visit_variable_declaration ⟨⟨9, 10⟩, "f"⟩ ._function .normal]
          ++ [.visit_enter_scope .function]
          ++ [.visit_variable_declaration ⟨⟨11, 12⟩, "a"⟩ ._parameter .normal]
          ++ [.visit_enter_function_scope_body] ++ [] ++ [.visit_exit_scope .function] :=
  (function_declaration_events sample_externals
    (parse_and_visit_statement sample_externals 3) 3 .normal .normal 0
    .required_for_statement
    { input := [tok .kw_function 0 8, ident_tok "f" 9 10, tok .left_paren 10 11,
        ident_tok "a" 11 12, tok .right_paren 12 13, tok .left_curly 14 15,
        tok .right_curly 15 16] }
    { input := [ident_tok "f" 9 10, tok .left_paren 10 11,
        ident_tok "a" 11 12, tok .right_paren 12 13, tok .left_curly 14 15,
        tok .right_curly 15 16],
      last_token_end := 8 }
    { input := [tok .left_paren 10 11, ident_tok "a" 11 12, tok .right_paren 12 13,
        tok .left_curly 14 15, tok .right_curly 15 16],
      last_token_end := 10,
      out := [.visit_variable_declaration ⟨⟨9, 10⟩, "f"⟩ ._function .normal,
              .visit_enter_scope .function] }
    { input := [tok .left_curly 14 15, tok .right_curly 15 16],
      last_token_end := 13,
      out := [.visit_variable_declaration ⟨⟨9, 10⟩, "f"⟩ ._function .normal,
              .visit_enter_scope .function,
              .visit_variable_declaration ⟨⟨11, 12⟩, "a"⟩ ._parameter .normal] }
    .parsed_parameters
    [.visit_variable_declaration ⟨⟨11, 12⟩, "a"⟩ ._parameter .normal]
    rfl rfl rfl rfl (by decide) rfl).1
    { input := [], last_token_end := 16,
      out := [.visit_variable_declaration ⟨⟨9, 10⟩, "f"⟩ ._function .normal,
              .visit_enter_scope .function,
              .visit_variable_declaration ⟨⟨11, 12⟩, "a"⟩ ._parameter .normal,
              .visit_enter_function_scope_body] }
    [] (Or.inl rfl) (by decide) rfl

set_option linter.unusedTactic false
set_option linter.unreachableTactic false
set_option linter.unnecessarySeqFocus false
set_option linter.unusedVariables false

/-! ## Rules for following a relation through the parser -/

theorem sat_pure {G : List Event → Prop} {R : StateRel} (L : R.laws G) {α : Type}
    (i : parse_point) (Q : α → Prop) (x : α) (h : Q x) : Sat R i i Q (pure x : P α) := by
  constructor
  intro s y s1 hm
  cases hm
  exact ⟨L.frame i s s rfl rfl rfl, h⟩

theorem sat_bind {G : List Event → Prop} {R : StateRel} (L : R.laws G) {α β : Type}
    {i j k : parse_point} {Q : α → Prop} {Q1 : β → Prop} {m : P α} {f : α → P β}
    (hm : Sat R i j Q m) (hf : ∀ x, Q x → Sat R j k Q1 (f x)) :
    Sat R i k Q1 (m >>= f) := by
  constructor
  intro s y s2 h
  have h1 : P.bind m f s = .ok y s2 := h
  unfold P.bind at h1
  cases hms : m s with
  | out_of_fuel => rw [hms] at h1; cases h1
  | stop r s1 => rw [hms] at h1; cases h1
  | ok x s1 =>
    rw [hms] at h1
    obtain ⟨hr1, hq⟩ := hm.run s x s1 hms
    obtain ⟨hr2, hq2⟩ := (hf x hq).run s1 y s2 h1
    exact ⟨L.trans _ _ _ _ _ _ hr1 hr2, hq2⟩

theorem sat_pure_any {G : List Event → Prop} {R : StateRel} (L : R.laws G) {α : Type}
    (i : parse_point) (x : α) : Sat R i i (fun _ => True) (pure x : P α) :=
  sat_pure L i _ x trivial

theorem sat_ite {R : StateRel} {α : Type} {i j : parse_point} {Q : α → Prop} {c : Prop}
    [Decidable c] {m1 m2 : P α} (h1 : Sat R i j Q m1) (h2 : Sat R i j Q m2) :
    Sat R i j Q (if c then m1 else m2) := by
  split
  · exact h1
  · exact h2

/-- A continuation shared by the branches of a conditional is followed once. -/
theorem sat_cut {R : StateRel} {α β : Type} {k j : parse_point} {Q : α → Prop}
    {f : β → P α} {goal : Prop}
    (hm : (∀ y, Sat R k j Q (f y)) → goal)
    (hf : ∀ y, Sat R k j Q (f y)) : goal := hm hf

/-- A continuation shared by the branches of a conditional is followed once, for the
values that satisfy `Q1`. -/
theorem sat_cut_pre {R : StateRel} {α β : Type} {k j : parse_point} {Q : α → Prop}
    (Q1 : β → Prop) {f : β → P α} {goal : Prop}
    (hm : (∀ y, Q1 y → Sat R k j Q (f y)) → goal)
    (hf : ∀ y, Q1 y → Sat R k j Q (f y)) : goal := hm hf

/-- A piece that is to be followed as one that returns to the point at which it
started. -/
theorem sat_unit {R : StateRel} {α : Type} {i : parse_point} {m : P α}
    (h : Sat R i i (fun _ => True) m) : Sat R i i (fun _ => True) m := h

theorem sat_imp {R : StateRel} {α : Type} {i j : parse_point} {Q Q1 : α → Prop} {m : P α}
    (h : ∀ x, Q x → Q1 x) (hm : Sat R i j Q m) : Sat R i j Q1 m := by
  constructor
  intro s x s1 hs
  obtain ⟨hr, hq⟩ := hm.run s x s1 hs
  exact ⟨hr, h x hq⟩

theorem sat_any {R : StateRel} {α : Type} {i j : parse_point} {Q : α → Prop} {m : P α}
    (hm : Sat R i j Q m) : Sat R i j (fun _ => True) m :=
  sat_imp (fun _ _ => trivial) hm

theorem sat_unimplemented {R : StateRel} {α : Type} (i j : parse_point) (Q : α → Prop) :
    Sat R i j Q (QLJS_PARSER_UNIMPLEMENTED : P α) := by
  constructor
  intro s x s1 h
  cases h

theorem sat_qljs_unimplemented {R : StateRel} {α : Type} (i j : parse_point) (Q : α → Prop) :
    Sat R i j Q (QLJS_UNIMPLEMENTED : P α) := by
  constructor
  intro s x s1 h
  cases h

theorem sat_unimplemented_unit {R : StateRel} {α : Type} (i : parse_point) :
    Sat R i i (fun _ => True) (QLJS_PARSER_UNIMPLEMENTED : P α) :=
  sat_unimplemented _ _ _

theorem sat_qljs_unimplemented_unit {R : StateRel} {α : Type} (i : parse_point) :
    Sat R i i (fun _ => True) (QLJS_UNIMPLEMENTED : P α) :=
  sat_qljs_unimplemented _ _ _

theorem sat_unimplemented_bind {R : StateRel} {α β : Type} (i j : parse_point)
    (Q : β → Prop) (f : α → P β) :
    Sat R i j Q ((QLJS_PARSER_UNIMPLEMENTED : P α) >>= f) := by
  constructor
  intro s x s1 h
  cases h

theorem sat_qljs_unimplemented_bind {R : StateRel} {α β : Type} (i j : parse_point)
    (Q : β → Prop) (f : α → P β) :
    Sat R i j Q ((QLJS_UNIMPLEMENTED : P α) >>= f) := by
  constructor
  intro s x s1 h
  cases h

theorem sat_out_of_fuel {R : StateRel} {α : Type} (i j : parse_point) (Q : α → Prop) :
    Sat R i j Q (out_of_fuel : P α) := by
  constructor
  intro s x s1 h
  cases h

/-- A step that touches neither the delivered events nor the buffering visitors nor the
context flags. -/
theorem sat_frame {G : List Event → Prop} {R : StateRel} (L : R.laws G) {α : Type}
    (i : parse_point) (m : P α)
    (h : ∀ s x s1, m s = .ok x s1 →
      s1.out = s.out ∧ s1.buffering_visitor_stack = s.buffering_visitor_stack
        ∧ s1.flags = s.flags) :
    Sat R i i (fun _ => True) m := by
  constructor
  intro s x s1 hm
  obtain ⟨ho, hs, hf⟩ := h s x s1 hm
  exact ⟨L.frame i s s1 ho hs hf, trivial⟩

theorem sat_peek {G : List Event → Prop} {R : StateRel} (L : R.laws G) (i : parse_point) :
    Sat R i i (fun _ => True) peek :=
  sat_frame L i _ (by intro s x s1 h; cases h; exact ⟨rfl, rfl, rfl⟩)

theorem sat_skip {G : List Event → Prop} {R : StateRel} (L : R.laws G) (i : parse_point) :
    Sat R i i (fun _ => True) skip :=
  sat_frame L i _ (by intro s x s1 h; cases h; exact ⟨rfl, rfl, rfl⟩)

theorem sat_get_state {G : List Event → Prop} {R : StateRel} (L : R.laws G)
    (i : parse_point) : Sat R i i (fun _ => True) get_state :=
  sat_frame L i _ (by intro s x s1 h; cases h; exact ⟨rfl, rfl, rfl⟩)

theorem sat_insert_semicolon {G : List Event → Prop} {R : StateRel} (L : R.laws G)
    (i : parse_point) : Sat R i i (fun _ => True) insert_semicolon :=
  sat_frame L i _ (by intro s x s1 h; cases h; exact ⟨rfl, rfl, rfl⟩)

theorem sat_end_of_previous_token {G : List Event → Prop} {R : StateRel} (L : R.laws G)
    (i : parse_point) : Sat R i i (fun _ => True) end_of_previous_token :=
  sat_frame L i _ (by intro s x s1 h; cases h; exact ⟨rfl, rfl, rfl⟩)

theorem sat_begin_transaction {G : List Event → Prop} {R : StateRel} (L : R.laws G)
    (i : parse_point) : Sat R i i (fun _ => True) begin_transaction :=
  sat_frame L i _ (by intro s x s1 h; cases h; exact ⟨rfl, rfl, rfl⟩)

theorem sat_commit_transaction {G : List Event → Prop} {R : StateRel} (L : R.laws G)
    (i : parse_point) (t : lexer_transaction) :
    Sat R i i (fun _ => True) (commit_transaction t) :=
  sat_frame L i _ (by intro s x s1 h; cases h; exact ⟨rfl, rfl, rfl⟩)

theorem sat_roll_back_transaction {G : List Event → Prop} {R : StateRel} (L : R.laws G)
    (i : parse_point) (t : lexer_transaction) :
    Sat R i i (fun _ => True) (roll_back_transaction t) :=
  sat_frame L i _ (by intro s x s1 h; cases h; exact ⟨rfl, rfl, rfl⟩)

theorem sat_report {G : List Event → Prop} {R : StateRel} (L : R.laws G) (i : parse_point)
    (type : diag_type) (spans : List source_code_span) :
    Sat R i i (fun _ => True) (report type spans) :=
  sat_frame L i _ (by intro s x s1 h; cases h; exact ⟨rfl, rfl, rfl⟩)

theorem sat_report_with_enum_kind {G : List Event → Prop} {R : StateRel} (L : R.laws G)
    (i : parse_point) (type : diag_type) (spans : List source_code_span) (kind : enum_kind) :
    Sat R i i (fun _ => True) (report_with_enum_kind type spans kind) :=
  sat_frame L i _ (by intro s x s1 h; cases h; exact ⟨rfl, rfl, rfl⟩)

theorem sat_depth_guard_exit {G : List Event → Prop} {R : StateRel} (L : R.laws G)
    (i : parse_point) : Sat R i i (fun _ => True) depth_guard_exit :=
  sat_frame L i _ (by intro s x s1 h; cases h; exact ⟨rfl, rfl, rfl⟩)

theorem sat_depth_guard_enter {G : List Event → Prop} {R : StateRel} (L : R.laws G)
    (i : parse_point) (X : Externals) : Sat R i i (fun _ => True) (depth_guard_enter X) :=
  sat_frame L i _ (by
    intro s x s1 h
    unfold depth_guard_enter at h
    split at h
    · cases h
    · cases h; exact ⟨rfl, rfl, rfl⟩)

theorem sat_set_in_generator_function {G : List Event → Prop} {R : StateRel} (L : R.laws G)
    (a : List scope_kind) (n : Nat) :
    Sat R ⟨a, n, true⟩ ⟨a, n, true⟩ (fun _ => True) set_in_generator_function := by
  constructor
  intro s x s1 h
  cases h
  exact ⟨L.guarded_frame a n _ _ rfl rfl, trivial⟩

theorem sat_visit_plain {G : List Event → Prop} {R : StateRel} (L : R.laws G)
    (i : parse_point) (e : Event) (he : e.is_plain = true) :
    Sat R i i (fun _ => True) (visit e) := by
  constructor
  intro s x s1 h
  cases h
  exact ⟨L.plain i s e he, trivial⟩

theorem sat_visit_enter {G : List Event → Prop} {R : StateRel} (L : R.laws G)
    (a : List scope_kind) (n : Nat) (g : Bool) (k : scope_kind) :
    Sat R ⟨a, n, g⟩ ⟨k :: a, n, g⟩ (fun _ => True) (visit (.visit_enter_scope k)) := by
  constructor
  intro s x s1 h
  cases h
  exact ⟨L.enter_scope a n g s k, trivial⟩

theorem sat_visit_exit {G : List Event → Prop} {R : StateRel} (L : R.laws G)
    (a : List scope_kind) (n : Nat) (g : Bool) (k : scope_kind) :
    Sat R ⟨k :: a, n, g⟩ ⟨a, n, g⟩ (fun _ => True) (visit (.visit_exit_scope k)) := by
  constructor
  intro s x s1 h
  cases h
  exact ⟨L.exit_scope a n g s k, trivial⟩

theorem sat_visit_all {G : List Event → Prop} {R : StateRel} (L : R.laws G)
    (i : parse_point) (es : List Event) (h : G es) :
    Sat R i i (fun _ => True) (visit_all es) := by
  constructor
  intro s x s1 hm
  cases hm
  exact ⟨L.replay i s es h, trivial⟩

theorem sat_visit_variable_declaration {G : List Event → Prop} {R : StateRel} (L : R.laws G)
    (i : parse_point) (name : identifier) (kind : variable_kind)
    (init_kind : variable_init_kind) :
    Sat R i i (fun _ => True) (visit_variable_declaration name kind init_kind) :=
  sat_visit_plain L i _ rfl

theorem sat_visit_variable_use {G : List Event → Prop} {R : StateRel} (L : R.laws G)
    (i : parse_point) (name : identifier) :
    Sat R i i (fun _ => True) (visit_variable_use name) :=
  sat_visit_plain L i _ rfl

theorem sat_visit_variable_export_use {G : List Event → Prop} {R : StateRel} (L : R.laws G)
    (i : parse_point) (name : identifier) :
    Sat R i i (fun _ => True) (visit_variable_export_use name) :=
  sat_visit_plain L i _ rfl

theorem sat_visit_enter_function_scope_body {G : List Event → Prop} {R : StateRel}
    (L : R.laws G) (i : parse_point) :
    Sat R i i (fun _ => True) visit_enter_function_scope_body :=
  sat_visit_plain L i _ rfl

theorem sat_visit_enter_block_scope {G : List Event → Prop} {R : StateRel} (L : R.laws G)
    (a : List scope_kind) (n : Nat) (g : Bool) :
    Sat R ⟨a, n, g⟩ ⟨.block :: a, n, g⟩ (fun _ => True) visit_enter_block_scope :=
  sat_visit_enter L a n g _

theorem sat_visit_exit_block_scope {G : List Event → Prop} {R : StateRel} (L : R.laws G)
    (a : List scope_kind) (n : Nat) (g : Bool) :
    Sat R ⟨.block :: a, n, g⟩ ⟨a, n, g⟩ (fun _ => True) visit_exit_block_scope :=
  sat_visit_exit L a n g _

theorem sat_visit_enter_function_scope {G : List Event → Prop} {R : StateRel} (L : R.laws G)
    (a : List scope_kind) (n : Nat) (g : Bool) :
    Sat R ⟨a, n, g⟩ ⟨.function :: a, n, g⟩ (fun _ => True) visit_enter_function_scope :=
  sat_visit_enter L a n g _

theorem sat_visit_exit_function_scope {G : List Event → Prop} {R : StateRel} (L : R.laws G)
    (a : List scope_kind) (n : Nat) (g : Bool) :
    Sat R ⟨.function :: a, n, g⟩ ⟨a, n, g⟩ (fun _ => True) visit_exit_function_scope :=
  sat_visit_exit L a n g _

theorem sat_visit_enter_for_scope {G : List Event → Prop} {R : StateRel} (L : R.laws G)
    (a : List scope_kind) (n : Nat) (g : Bool) :
    Sat R ⟨a, n, g⟩ ⟨.for_ :: a, n, g⟩ (fun _ => True) visit_enter_for_scope :=
  sat_visit_enter L a n g _

theorem sat_visit_exit_for_scope {G : List Event → Prop} {R : StateRel} (L : R.laws G)
    (a : List scope_kind) (n : Nat) (g : Bool) :
    Sat R ⟨.for_ :: a, n, g⟩ ⟨a, n, g⟩ (fun _ => True) visit_exit_for_scope :=
  sat_visit_exit L a n g _

theorem sat_visit_enter_enum_scope {G : List Event → Prop} {R : StateRel} (L : R.laws G)
    (a : List scope_kind) (n : Nat) (g : Bool) :
    Sat R ⟨a, n, g⟩ ⟨.enum :: a, n, g⟩ (fun _ => True) visit_enter_enum_scope :=
  sat_visit_enter L a n g _

theorem sat_visit_exit_enum_scope {G : List Event → Prop} {R : StateRel} (L : R.laws G)
    (a : List scope_kind) (n : Nat) (g : Bool) :
    Sat R ⟨.enum :: a, n, g⟩ ⟨a, n, g⟩ (fun _ => True) visit_exit_enum_scope :=
  sat_visit_exit L a n g _

theorem sat_visit_enter_type_alias_scope {G : List Event → Prop} {R : StateRel}
    (L : R.laws G) (a : List scope_kind) (n : Nat) (g : Bool) :
    Sat R ⟨a, n, g⟩ ⟨.type_alias :: a, n, g⟩ (fun _ => True) visit_enter_type_alias_scope :=
  sat_visit_enter L a n g _

theorem sat_visit_exit_type_alias_scope {G : List Event → Prop} {R : StateRel}
    (L : R.laws G) (a : List scope_kind) (n : Nat) (g : Bool) :
    Sat R ⟨.type_alias :: a, n, g⟩ ⟨a, n, g⟩ (fun _ => True) visit_exit_type_alias_scope :=
  sat_visit_exit L a n g _

theorem sat_visit_enter_with_scope {G : List Event → Prop} {R : StateRel} (L : R.laws G)
    (a : List scope_kind) (n : Nat) (g : Bool) :
    Sat R ⟨a, n, g⟩ ⟨.with_ :: a, n, g⟩ (fun _ => True) visit_enter_with_scope :=
  sat_visit_enter L a n g _

theorem sat_visit_exit_with_scope {G : List Event → Prop} {R : StateRel} (L : R.laws G)
    (a : List scope_kind) (n : Nat) (g : Bool) :
    Sat R ⟨.with_ :: a, n, g⟩ ⟨a, n, g⟩ (fun _ => True) visit_exit_with_scope :=
  sat_visit_exit L a n g _

theorem sat_buffering_visitor_stack_emplace {G : List Event → Prop} {R : StateRel}
    (L : R.laws G) (a : List scope_kind) (n : Nat) (g : Bool) :
    Sat R ⟨a, n, g⟩ ⟨a, n + 1, g⟩ (fun _ => True) buffering_visitor_stack_emplace := by
  constructor
  intro s x s1 h
  cases h
  exact ⟨L.emplace a n g s, trivial⟩

theorem sat_buffering_visitor_stack_pop {G : List Event → Prop} {R : StateRel}
    (L : R.laws G) (a : List scope_kind) (n : Nat) (g : Bool) :
    Sat R ⟨a, n + 1, g⟩ ⟨a, n, g⟩ (fun _ => True) buffering_visitor_stack_pop := by
  constructor
  intro s x s1 h
  cases h
  exact ⟨L.pop a n g s, trivial⟩

theorem sat_top_buffering_visitor_move_into_v {G : List Event → Prop} {R : StateRel}
    (L : R.laws G) (a : List scope_kind) (n : Nat) (g : Bool) :
    Sat R ⟨a, n + 1, g⟩ ⟨a, n + 1, g⟩ (fun _ => True) top_buffering_visitor_move_into_v := by
  constructor
  intro s x s1 h
  cases h
  exact ⟨L.move_into a n g s, trivial⟩

theorem sat_with_null_visitor {G : List Event → Prop} {R : StateRel} (L : R.laws G)
    {α : Type} (i : parse_point) (Q : α → Prop) (m : P α) (hm : Sat R i i Q m) :
    Sat R i i Q (with_null_visitor m) := by
  constructor
  intro s x s1 h
  have h1 : P.bind (capture m) (fun r => P.pure r.1) s = .ok x s1 := h
  unfold P.bind capture at h1
  cases hms : m { s with out := [] } with
  | out_of_fuel => rw [hms] at h1; cases h1
  | stop r s2 => rw [hms] at h1; cases h1
  | ok y s2 =>
    rw [hms] at h1
    cases h1
    obtain ⟨hr, hq⟩ := hm.run _ _ _ hms
    exact ⟨L.discard i s s2 hr, hq⟩

theorem sat_with_top_buffering_visitor {G : List Event → Prop} {R : StateRel}
    (L : R.laws G) {α : Type} (a : List scope_kind) (n : Nat) (g : Bool) (Q : α → Prop)
    (m : P α) (hm : ∀ b, Sat R ⟨b, n + 1, g⟩ ⟨b, n + 1, g⟩ Q m) :
    Sat R ⟨a, n + 1, g⟩ ⟨a, n + 1, g⟩ Q (with_top_buffering_visitor m) := by
  constructor
  intro s x s1 h
  have h1 : P.bind (capture m) (fun r => fun s => .ok r.1 { s with buffering_visitor_stack :=
    (s.buffering_visitor_stack.headD [] ++ r.2) :: s.buffering_visitor_stack.tail }) s
      = .ok x s1 := h
  unfold P.bind capture at h1
  cases hms : m { s with out := [] } with
  | out_of_fuel => rw [hms] at h1; cases h1
  | stop r s2 => rw [hms] at h1; cases h1
  | ok y s2 =>
    rw [hms] at h1
    cases h1
    exact ⟨L.buffer a n g s s2 (fun b => ((hm b).run _ _ _ hms).1), ((hm a).run _ _ _ hms).2⟩

theorem sat_unimplemented_if_not_token {G : List Event → Prop} {R : StateRel}
    (L : R.laws G) (i : parse_point) (t : token_type) :
    Sat R i i (fun _ => True) (QLJS_PARSER_UNIMPLEMENTED_IF_NOT_TOKEN t) := by
  unfold QLJS_PARSER_UNIMPLEMENTED_IF_NOT_TOKEN
  refine sat_bind L (sat_peek L i) (fun tok _ => ?_)
  split
  · exact sat_unimplemented _ _ _
  · exact sat_pure L _ _ _ trivial

theorem sat_with_function_guard {G : List Event → Prop} {R : StateRel} (L : R.laws G)
    {α : Type} (X : Externals) (hX : X.respects G R) (attributes : function_attributes)
    (a : List scope_kind) (n : Nat) (g : Bool) (Q : α → Prop) (body : P α)
    (hb : Sat R ⟨a, n, true⟩ ⟨a, n, true⟩ Q body) :
    Sat R ⟨a, n, g⟩ ⟨a, n, g⟩ Q (with_function_guard X attributes body) := by
  constructor
  intro s x s1 h
  have h1 : P.bind get_state (fun s0 => P.bind (X.enter_function attributes) (fun _ =>
      P.bind body (fun r => P.bind (restore_flags s0) (fun _ => P.pure r)))) s
        = .ok x s1 := h
  simp only [P.bind, get_state] at h1
  cases he : X.enter_function attributes s with
  | out_of_fuel => rw [he] at h1; cases h1
  | stop r s2 => rw [he] at h1; cases h1
  | ok u s2 =>
    rw [he] at h1
    simp only at h1
    cases hbs : body s2 with
    | out_of_fuel => rw [hbs] at h1; cases h1
    | stop r s3 => rw [hbs] at h1; cases h1
    | ok y s3 =>
      rw [hbs] at h1
      cases h1
      obtain ⟨hr1, _⟩ := (hX.enter_function attributes a n).run _ _ _ he
      obtain ⟨hr2, hq⟩ := hb.run _ _ _ hbs
      exact ⟨L.function_guard a n g s s3 (L.trans _ _ _ _ _ _ hr1 hr2), hq⟩

theorem sat_with_loop_guard {G : List Event → Prop} {R : StateRel} (L : R.laws G)
    {α : Type} (i j : parse_point) (Q : α → Prop) (body : P α) (hb : Sat R i j Q body) :
    Sat R i j Q (with_loop_guard body) := by
  constructor
  intro s x s1 h
  have h1 : P.bind get_state (fun s0 =>
      P.bind (fun s => Res.ok () { s with in_loop_statement := true }) (fun _ =>
        P.bind body (fun r => P.bind
          (fun s => Res.ok () { s with in_loop_statement := s0.in_loop_statement })
          (fun _ => P.pure r)))) s = .ok x s1 := h
  simp only [P.bind, get_state] at h1
  cases hbs : body { s with in_loop_statement := true } with
  | out_of_fuel => rw [hbs] at h1; cases h1
  | stop r s3 => rw [hbs] at h1; cases h1
  | ok y s3 =>
    rw [hbs] at h1
    cases h1
    obtain ⟨hr, hq⟩ := hb.run _ _ _ hbs
    exact ⟨L.loop_guard i j s s3 hr, hq⟩

theorem sat_with_switch_guard {G : List Event → Prop} {R : StateRel} (L : R.laws G)
    {α : Type} (i j : parse_point) (Q : α → Prop) (body : P α) (hb : Sat R i j Q body) :
    Sat R i j Q (with_switch_guard body) := by
  constructor
  intro s x s1 h
  have h1 : P.bind get_state (fun s0 =>
      P.bind (fun s => Res.ok () { s with in_switch_statement := true }) (fun _ =>
        P.bind body (fun r => P.bind
          (fun s => Res.ok () { s with in_switch_statement := s0.in_switch_statement })
          (fun _ => P.pure r)))) s = .ok x s1 := h
  simp only [P.bind, get_state] at h1
  cases hbs : body { s with in_switch_statement := true } with
  | out_of_fuel => rw [hbs] at h1; cases h1
  | stop r s3 => rw [hbs] at h1; cases h1
  | ok y s3 =>
    rw [hbs] at h1
    cases h1
    obtain ⟨hr, hq⟩ := hb.run _ _ _ hbs
    exact ⟨L.switch_guard i j s s3 hr, hq⟩

theorem well_formed_variable {G : List Event → Prop} {R : StateRel} (L : R.laws G)
    (ident : identifier) (type : token_type) :
    (make_expression_variable ident type).well_formed G := by
  intro b hb
  simp [make_expression_variable, expression.type_annotations,
    expression.type_annotations_of_list, expression.type_annotations_of_entries] at hb
  rw [hb]
  exact L.good_nil

/-! ## Expression trees whose buffered visits may be replayed -/

theorem type_annotations_of_list_mem {c : expression} {cs : List expression} (h : c ∈ cs)
    {b : List Event} (hb : b ∈ c.type_annotations) :
    b ∈ expression.type_annotations_of_list cs := by
  induction cs with
  | nil => cases h
  | cons x rest ih =>
    rw [expression.type_annotations_of_list]
    rcases List.mem_cons.mp h with h1 | h1
    · subst h1
      exact List.mem_append_left _ hb
    · exact List.mem_append_right _ (ih h1)

theorem well_formed_fields {G : List Event → Prop} {k : expression_kind}
    {f : expression_fields} {cs : List expression} {es : List object_property_value_pair}
    (h : (expression.mk k f cs es).well_formed G) : G f.type_annotation :=
  h _ (by rw [expression.type_annotations]; exact List.mem_cons_self _ _)

theorem well_formed_children {G : List Event → Prop} {k : expression_kind}
    {f : expression_fields} {cs : List expression} {es : List object_property_value_pair}
    (h : (expression.mk k f cs es).well_formed G) : ∀ c ∈ cs, c.well_formed G := by
  intro c hc b hb
  apply h
  rw [expression.type_annotations]
  exact List.mem_cons_of_mem _ (List.mem_append_left _ (type_annotations_of_list_mem hc hb))

theorem well_formed_entries {G : List Event → Prop} {k : expression_kind}
    {f : expression_fields} {cs : List expression} {es : List object_property_value_pair}
    (h : (expression.mk k f cs es).well_formed G) :
    ∀ b ∈ expression.type_annotations_of_entries es, G b := by
  intro b hb
  apply h
  rw [expression.type_annotations]
  exact List.mem_cons_of_mem _ (List.mem_append_right _ hb)

theorem well_formed_mk {G : List Event → Prop} {k : expression_kind}
    {f : expression_fields} {cs : List expression} {es : List object_property_value_pair}
    (hf : G f.type_annotation) (hcs : ∀ c ∈ cs, c.well_formed G)
    (hes : ∀ b ∈ expression.type_annotations_of_entries es, G b) :
    (expression.mk k f cs es).well_formed G := by
  intro b hb
  rw [expression.type_annotations] at hb
  rcases List.mem_cons.mp hb with h | h
  · rw [h]; exact hf
  · rcases List.mem_append.mp h with h1 | h1
    · clear hb h
      induction cs with
      | nil => simp [expression.type_annotations_of_list] at h1
      | cons c rest ih =>
        rw [expression.type_annotations_of_list] at h1
        rcases List.mem_append.mp h1 with h2 | h2
        · exact hcs c (List.mem_cons_self _ _) b h2
        · exact ih (fun x hx => hcs x (List.mem_cons_of_mem _ hx)) h2
    · exact hes b h1

theorem well_formed_missing {G : List Event → Prop} {R : StateRel} (L : R.laws G) :
    expression.missing.well_formed G := by
  intro b hb
  simp [expression.missing, expression.type_annotations,
    expression.type_annotations_of_list, expression.type_annotations_of_entries] at hb
  rw [hb]
  exact L.good_nil

theorem well_formed_headD {G : List Event → Prop} {R : StateRel} (L : R.laws G)
    {cs : List expression} (h : ∀ c ∈ cs, c.well_formed G) :
    (cs.headD expression.missing).well_formed G := by
  cases cs with
  | nil => exact well_formed_missing L
  | cons c rest => exact h c (List.mem_cons_self _ _)

theorem well_formed_tail_headD {G : List Event → Prop} {R : StateRel} (L : R.laws G)
    {cs : List expression} (h : ∀ c ∈ cs, c.well_formed G) :
    (cs.tail.headD expression.missing).well_formed G :=
  well_formed_headD L (fun c hc => h c (List.mem_of_mem_tail hc))

theorem well_formed_child_0 {G : List Event → Prop} {R : StateRel} (L : R.laws G)
    {e : expression} (h : e.well_formed G) : e.child_0.well_formed G := by
  obtain ⟨k, f, cs, es⟩ := e
  exact well_formed_headD L (well_formed_children h)

theorem well_formed_child_1 {G : List Event → Prop} {R : StateRel} (L : R.laws G)
    {e : expression} (h : e.well_formed G) : e.child_1.well_formed G := by
  obtain ⟨k, f, cs, es⟩ := e
  exact well_formed_tail_headD L (well_formed_children h)

theorem well_formed_set_child_1 {G : List Event → Prop} {e c1 : expression}
    (h : e.well_formed G) (h1 : c1.well_formed G) : (e.set_child_1 c1).well_formed G := by
  obtain ⟨k, f, cs, es⟩ := e
  match cs with
  | [] => exact h
  | [_] => exact h
  | c0 :: c :: rest =>
    rw [expression.set_child_1]
    refine well_formed_mk (well_formed_fields h) ?_ (well_formed_entries h)
    intro x hx
    rcases List.mem_cons.mp hx with hx1 | hx1
    · rw [hx1]; exact well_formed_children h c0 (List.mem_cons_self _ _)
    · rcases List.mem_cons.mp hx1 with hx2 | hx2
      · rw [hx2]; exact h1
      · exact well_formed_children h x (List.mem_cons_of_mem _ (List.mem_cons_of_mem _ hx2))

theorem type_annotations_of_entries_cons (property : Option expression)
    (value : expression) (init : Option expression) (rest : List object_property_value_pair) :
    expression.type_annotations_of_entries (.mk property value init :: rest)
      = (match property with
         | some p => p.type_annotations
         | none => [])
        ++ value.type_annotations
        ++ (match init with
            | some i => i.type_annotations
            | none => [])
        ++ expression.type_annotations_of_entries rest := by
  rw [expression.type_annotations_of_entries.eq_def]
  first
    | done
    | rfl

theorem well_formed_import {G : List Event → Prop} {R : StateRel} (L : R.laws G)
    (span : source_code_span) : (make_expression_import span).well_formed G := by
  intro b hb
  simp [make_expression_import, expression.type_annotations,
    expression.type_annotations_of_list, expression.type_annotations_of_entries] at hb
  rw [hb]
  exact L.good_nil

theorem well_formed_function {G : List Event → Prop} {R : StateRel} (L : R.laws G)
    (attributes : function_attributes) (span : source_code_span) :
    (make_expression_function attributes span).well_formed G := by
  intro b hb
  simp [make_expression_function, expression.type_annotations,
    expression.type_annotations_of_list, expression.type_annotations_of_entries] at hb
  rw [hb]
  exact L.good_nil

theorem sat_report_missing_expression_error {G : List Event → Prop} {R : StateRel}
    (L : R.laws G) {span : source_code_span} {i : parse_point} :
    Sat R i i (fun _ => True) (report_missing_expression_error span) :=
  sat_report L _ _ _

theorem sat_report_each {G : List Event → Prop} {R : StateRel} (L : R.laws G)
    {type : diag_type} {spans : List source_code_span} {i : parse_point} :
    Sat R i i (fun _ => True) (report_each type spans) := by
  induction spans with
  | nil => exact sat_pure L _ _ _ trivial
  | cons sp rest ih =>
    rw [report_each]
    exact sat_bind L (sat_report L _ _ _) (fun _ _ => ih)

set_option maxHeartbeats 4000000 in
mutual
theorem sat_visit_binding_element_aux {G : List Event → Prop} {R : StateRel} (L : R.laws G)
    {X : Externals} (hX : X.respects G R) :
    ∀ (e : expression) (kind : variable_kind) (declaring_token : Option source_code_span)
      (init_kind : variable_init_kind) (i : parse_point), e.well_formed G →
      Sat R i i (fun _ => True) (visit_binding_element X e kind declaring_token init_kind)
  | .mk k f children entries, kind, declaring_token, init_kind, i, hwf => by
    have hB := sat_visit_binding_element_list L hX children
    have hC := sat_visit_binding_element_entries_aux L hX entries
    have hcw := well_formed_children hwf
    have hew := well_formed_entries hwf
    have hfw := well_formed_fields hwf
    have hchildren : ∀ kind declaring_token init_kind i,
        Sat R i i (fun _ => True)
          (visit_binding_element_children X children kind declaring_token init_kind) := by
      intro kind declaring_token init_kind i
      clear hwf hC hew
      induction children generalizing i with
      | nil => rw [visit_binding_element_children]; exact sat_pure L _ _ _ trivial
      | cons c rest ih =>
        rw [visit_binding_element_children]
        refine sat_bind L (hB c (List.mem_cons_self _ _) _ _ _ _
          (hcw c (List.mem_cons_self _ _))) (fun _ _ => ?_)
        exact ih (fun x hx => hB x (List.mem_cons_of_mem _ hx))
          (fun x hx => hcw x (List.mem_cons_of_mem _ hx)) _
    rw [visit_binding_element.eq_def]
    cases k <;> dsimp only <;>
    repeat (first
      | with_reducible apply sat_bind L
      | intro _ _
      | with_reducible apply sat_ite
      | with_reducible exact sat_pure_any L _ _
      | with_reducible exact hchildren _ _ _ _
      | with_reducible exact hC _ _ _ _ hew
      | with_reducible exact hB _ (List.mem_cons_self _ _) _ _ _ _ (hcw _ (List.mem_cons_self _ _))
      | with_reducible exact hX.visit_expression _ _ _ (well_formed_tail_headD L hcw)
      | with_reducible exact sat_visit_all L _ _ hfw
      | with_reducible exact sat_report_missing_expression_error L
      | with_reducible exact sat_report L _ _ _
      | with_reducible exact sat_visit_variable_declaration L _ _ _ _
      | (with_reducible apply sat_unit <;> split)
      | dsimp only)
theorem sat_visit_binding_element_list {G : List Event → Prop} {R : StateRel}
    (L : R.laws G) {X : Externals} (hX : X.respects G R) :
    ∀ (cs : List expression), ∀ c ∈ cs, ∀ (kind : variable_kind)
      (declaring_token : Option source_code_span) (init_kind : variable_init_kind)
      (i : parse_point), c.well_formed G →
      Sat R i i (fun _ => True) (visit_binding_element X c kind declaring_token init_kind)
  | [] => by simp
  | c :: rest => by
    intro x hx
    rcases List.mem_cons.mp hx with h | h
    · subst h
      exact sat_visit_binding_element_aux L hX x
    · exact sat_visit_binding_element_list L hX rest x h
theorem sat_visit_binding_element_entries_aux {G : List Event → Prop} {R : StateRel}
    (L : R.laws G) {X : Externals} (hX : X.respects G R) :
    ∀ (es : List object_property_value_pair) (kind : variable_kind)
      (declaring_token : Option source_code_span) (init_kind : variable_init_kind)
      (i : parse_point), (∀ b ∈ expression.type_annotations_of_entries es, G b) →
      Sat R i i (fun _ => True)
        (visit_binding_element_entries X es kind declaring_token init_kind)
  | [], _, _, _, _, _ => by
    rw [visit_binding_element_entries]
    exact sat_pure L _ _ _ trivial
  | .mk property value init :: rest, kind, declaring_token, init_kind, i, hwf => by
    simp only [visit_binding_element_entries]
    have hv : value.well_formed G := by
      intro b hb
      apply hwf
      rw [type_annotations_of_entries_cons]
      exact List.mem_append_left _ (List.mem_append_left _ (List.mem_append_right _ hb))
    have hr : ∀ b ∈ expression.type_annotations_of_entries rest, G b := by
      intro b hb
      apply hwf
      rw [type_annotations_of_entries_cons]
      exact List.mem_append_right _ hb
    have hi : ∀ ie, init = some ie → ie.well_formed G := by
      intro ie hie b hb
      apply hwf
      rw [type_annotations_of_entries_cons, hie]
      exact List.mem_append_left _ (List.mem_append_right _ hb)
    cases init with
    | none =>
      exact sat_bind L (sat_pure_any L _ _) (fun _ _ => sat_bind L
        (sat_visit_binding_element_aux L hX value _ _ _ _ hv) (fun _ _ =>
          sat_visit_binding_element_entries_aux L hX rest _ _ _ _ hr))
    | some ie =>
      exact sat_bind L (hX.visit_expression _ _ _ (hi ie rfl)) (fun _ _ => sat_bind L
        (sat_visit_binding_element_aux L hX value _ _ _ _ hv) (fun _ _ =>
          sat_visit_binding_element_entries_aux L hX rest _ _ _ _ hr))
end

theorem sat_visit_binding_element {G : List Event → Prop} {R : StateRel} (L : R.laws G)
    {X : Externals} (hX : X.respects G R) {e : expression} {kind : variable_kind}
    {declaring_token : Option source_code_span} {init_kind : variable_init_kind}
    {i : parse_point} (h : e.well_formed G) :
    Sat R i i (fun _ => True) (visit_binding_element X e kind declaring_token init_kind) :=
  sat_visit_binding_element_aux L hX e kind declaring_token init_kind i h

set_option maxHeartbeats 2000000 in
theorem sat_consume_semicolon_after_statement {G : List Event → Prop} {R : StateRel} (L : R.laws G)
    {i : parse_point} :
    Sat R i i (fun _ => True) (consume_semicolon_after_statement) := by
  rw [consume_semicolon_after_statement]
  repeat' (first
    | with_reducible exact hjp _
    | with_reducible exact sat_unimplemented_bind _ _ _ _
    | with_reducible exact sat_qljs_unimplemented_bind _ _ _ _
    | with_reducible apply sat_bind L
    | intro _ _
    | intro _
    | with_reducible apply sat_ite
    | with_reducible exact sat_peek L _
    | with_reducible exact sat_skip L _
    | with_reducible exact sat_report L _ _ _
    | with_reducible exact sat_pure_any L _ _
    | with_reducible exact sat_insert_semicolon L _
    | (lift_lets; intro jp; with_reducible apply sat_cut (f := jp); intro hjp; clear_value jp)
    | (lift_lets; intro _)
    | (with_reducible apply sat_unit <;> split)
    | dsimp -zeta only)

set_option maxHeartbeats 2000000 in
theorem sat_parse_and_visit_expression {G : List Event → Prop} {R : StateRel} (L : R.laws G)
    {X : Externals} {prec : precedence}
    (hX : X.respects G R)
    {i : parse_point} :
    Sat R i i (fun _ => True) (parse_and_visit_expression X prec) := by
  rw [parse_and_visit_expression]
  repeat' (first
    | with_reducible exact hjp _
    | with_reducible exact sat_unimplemented_bind _ _ _ _
    | with_reducible exact sat_qljs_unimplemented_bind _ _ _ _
    | with_reducible apply sat_bind L
    | intro _ _
    | intro _
    | with_reducible apply sat_ite
    | with_reducible exact sat_pure_any L _ _
    | with_reducible exact hX.parse_expression _ _
    | with_reducible exact sat_any (hX.parse_expression _ _)
    | with_reducible exact hX.visit_expression _ _ _ (by first | assumption | (apply_assumption; assumption) | exact well_formed_variable L _ _ | exact well_formed_import L _ | exact well_formed_function L _ _ | exact well_formed_child_1 L (by assumption) | exact well_formed_set_child_1 (by assumption) (by assumption))
    | (lift_lets; intro jp; with_reducible apply sat_cut (f := jp); intro hjp; clear_value jp)
    | (lift_lets; intro _)
    | (with_reducible apply sat_unit <;> split)
    | dsimp -zeta only)

set_option maxHeartbeats 2000000 in
theorem sat_skip_commas {G : List Event → Prop} {R : StateRel} (L : R.laws G)
    {f : source_code_span → P Unit} {fuel : Nat}
   
    (hf : ∀ sp i, Sat R i i (fun _ => True) (f sp))
    {i : parse_point} :
    Sat R i i (fun _ => True) (skip_commas f fuel) := by
  induction fuel generalizing f i with
  | zero => exact sat_out_of_fuel _ _ _
  | succ fuel ih =>
    rw [skip_commas]
    repeat' (first
      | with_reducible exact hjp _
      | with_reducible exact sat_unimplemented_bind _ _ _ _
      | with_reducible exact sat_qljs_unimplemented_bind _ _ _ _
      | with_reducible apply sat_bind L
      | intro _ _
      | intro _
      | with_reducible apply sat_ite
      | with_reducible exact sat_peek L _
      | with_reducible exact sat_skip L _
      | with_reducible exact hf _ _
      | with_reducible exact ih hf
      | with_reducible exact sat_pure_any L _ _
      | with_reducible exact ih
      | (lift_lets; intro jp; with_reducible apply sat_cut (f := jp); intro hjp; clear_value jp)
      | (lift_lets; intro _)
      | (with_reducible apply sat_unit <;> split)
      | dsimp -zeta only)

set_option maxHeartbeats 2000000 in
theorem sat_parse_and_visit_typescript_generic_parameters_leading_commas {G : List Event → Prop} {R : StateRel} (L : R.laws G)
    {fuel : Nat} {spans : List source_code_span}
    {i : parse_point} :
    Sat R i i (fun _ => True) (parse_and_visit_typescript_generic_parameters.leading_commas fuel spans) := by
  induction fuel generalizing spans i with
  | zero => exact sat_out_of_fuel _ _ _
  | succ fuel ih =>
    rw [parse_and_visit_typescript_generic_parameters.leading_commas]
    repeat' (first
      | with_reducible exact hjp _
      | with_reducible exact sat_unimplemented_bind _ _ _ _
      | with_reducible exact sat_qljs_unimplemented_bind _ _ _ _
      | with_reducible apply sat_bind L
      | intro _ _
      | intro _
      | with_reducible apply sat_ite
      | with_reducible exact sat_peek L _
      | with_reducible exact sat_skip L _
      | with_reducible exact sat_pure_any L _ _
      | with_reducible exact ih
      | (lift_lets; intro jp; with_reducible apply sat_cut (f := jp); intro hjp; clear_value jp)
      | (lift_lets; intro _)
      | (with_reducible apply sat_unit <;> split)
      | dsimp -zeta only)

set_option maxHeartbeats 2000000 in
theorem sat_parse_and_visit_typescript_generic_parameters_next_parameter {G : List Event → Prop} {R : StateRel} (L : R.laws G)
    {X : Externals} {fuel : Nat}
    (hX : X.respects G R)
    {i : parse_point} :
    Sat R i i (fun _ => True) (parse_and_visit_typescript_generic_parameters.next_parameter X fuel) := by
  induction fuel generalizing i with
  | zero => exact sat_out_of_fuel _ _ _
  | succ fuel ih =>
    rw [parse_and_visit_typescript_generic_parameters.next_parameter]
    repeat' (first
      | with_reducible exact hjp _
      | with_reducible exact sat_unimplemented_bind _ _ _ _
      | with_reducible exact sat_qljs_unimplemented_bind _ _ _ _
      | with_reducible apply sat_bind L
      | intro _ _
      | intro _
      | with_reducible apply sat_ite
      | with_reducible exact sat_peek L _
      | with_reducible exact sat_skip L _
      | with_reducible exact sat_report L _ _ _
      | with_reducible exact sat_pure_any L _ _
      | with_reducible exact ih
      | with_reducible exact sat_unimplemented _ _ _
      | with_reducible exact sat_unimplemented_unit _
      | with_reducible exact hX.parse_and_visit_typescript_type_expression _
      | with_reducible exact sat_skip_commas L (by intro _ _; exact sat_report L _ _ _)
      | with_reducible exact sat_end_of_previous_token L _
      | with_reducible exact sat_visit_variable_declaration L _ _ _ _
      | (lift_lets; intro jp; with_reducible apply sat_cut (f := jp); intro hjp; clear_value jp)
      | (lift_lets; intro _)
      | (with_reducible apply sat_unit <;> split)
      | dsimp -zeta only)

set_option maxHeartbeats 2000000 in
theorem sat_parse_and_visit_typescript_generic_parameters {G : List Event → Prop} {R : StateRel} (L : R.laws G)
    {X : Externals} {fuel : Nat}
    (hX : X.respects G R)
    {i : parse_point} :
    Sat R i i (fun _ => True) (parse_and_visit_typescript_generic_parameters X fuel) := by
  rw [parse_and_visit_typescript_generic_parameters]
  repeat' (first
    | with_reducible exact hjp _
    | with_reducible exact sat_unimplemented_bind _ _ _ _
    | with_reducible exact sat_qljs_unimplemented_bind _ _ _ _
    | with_reducible apply sat_bind L
    | intro _ _
    | intro _
    | with_reducible apply sat_ite
    | with_reducible exact sat_peek L _
    | with_reducible exact sat_skip L _
    | with_reducible exact sat_report L _ _ _
    | with_reducible exact sat_pure_any L _ _
    | with_reducible exact sat_report_each L
    | with_reducible exact sat_parse_and_visit_typescript_generic_parameters_leading_commas L
    | with_reducible exact sat_parse_and_visit_typescript_generic_parameters_next_parameter L hX
    | (lift_lets; intro jp; with_reducible apply sat_cut (f := jp); intro hjp; clear_value jp)
    | (lift_lets; intro _)
    | (with_reducible apply sat_unit <;> split)
    | dsimp -zeta only)

set_option maxHeartbeats 2000000 in
theorem sat_parse_and_visit_typescript_type_alias {G : List Event → Prop} {R : StateRel} (L : R.laws G)
    {X : Externals} {fuel : Nat} {type_token : source_code_span}
    (hX : X.respects G R)
    {i : parse_point} :
    Sat R i i (fun _ => True) (parse_and_visit_typescript_type_alias X fuel type_token) := by
  rw [parse_and_visit_typescript_type_alias]
  repeat' (first
    | with_reducible exact hjp _
    | with_reducible exact sat_unimplemented_bind _ _ _ _
    | with_reducible exact sat_qljs_unimplemented_bind _ _ _ _
    | with_reducible apply sat_bind L
    | intro _ _
    | intro _
    | with_reducible apply sat_ite
    | with_reducible exact sat_peek L _
    | with_reducible exact sat_skip L _
    | with_reducible exact sat_report L _ _ _
    | with_reducible exact sat_pure_any L _ _
    | with_reducible exact hX.parse_and_visit_typescript_type_expression _
    | with_reducible exact sat_consume_semicolon_after_statement L
    | with_reducible exact sat_parse_and_visit_typescript_generic_parameters L hX
    | with_reducible exact sat_get_state L _
    | with_reducible exact sat_unimplemented_if_not_token L _ _
    | with_reducible exact sat_visit_enter_type_alias_scope L _ _ _
    | with_reducible exact sat_visit_exit_type_alias_scope L _ _ _
    | with_reducible exact sat_visit_variable_declaration L _ _ _ _
    | (lift_lets; intro jp; with_reducible apply sat_cut (f := jp); intro hjp; clear_value jp)
    | (lift_lets; intro _)
    | (with_reducible apply sat_unit <;> split)
    | dsimp -zeta only)

set_option maxHeartbeats 2000000 in
theorem sat_parse_and_visit_typescript_enum_members_auto_member {G : List Event → Prop} {R : StateRel} (L : R.laws G)
    {kind : enum_kind} {l : enum_members_locals} {member_name : source_code_span}
    {i : parse_point} :
    Sat R i i (fun _ => True) (parse_and_visit_typescript_enum_members.auto_member kind l member_name) := by
  rw [parse_and_visit_typescript_enum_members.auto_member]
  repeat' (first
    | with_reducible exact hjp _
    | with_reducible exact sat_unimplemented_bind _ _ _ _
    | with_reducible exact sat_qljs_unimplemented_bind _ _ _ _
    | with_reducible apply sat_bind L
    | intro _ _
    | intro _
    | with_reducible apply sat_ite
    | with_reducible exact sat_report L _ _ _
    | with_reducible exact sat_pure_any L _ _
    | (lift_lets; intro jp; with_reducible apply sat_cut (f := jp); intro hjp; clear_value jp)
    | (lift_lets; intro _)
    | (with_reducible apply sat_unit <;> split)
    | dsimp -zeta only)

set_option maxHeartbeats 2000000 in
theorem sat_parse_and_visit_typescript_enum_members_parse_after_member_name {G : List Event → Prop} {R : StateRel} (L : R.laws G)
    {X : Externals} {kind : enum_kind} {l : enum_members_locals} {name : source_code_span}
    (hX : X.respects G R)
    {i : parse_point} :
    Sat R i i (fun _ => True) (parse_and_visit_typescript_enum_members.parse_after_member_name X kind l name) := by
  rw [parse_and_visit_typescript_enum_members.parse_after_member_name]
  repeat' (first
    | with_reducible exact hjp _
    | with_reducible exact sat_unimplemented_bind _ _ _ _
    | with_reducible exact sat_qljs_unimplemented_bind _ _ _ _
    | with_reducible apply sat_bind L
    | intro _ _
    | intro _
    | with_reducible apply sat_ite
    | with_reducible exact sat_peek L _
    | with_reducible exact sat_skip L _
    | with_reducible exact sat_pure_any L _ _
    | with_reducible exact sat_unimplemented _ _ _
    | with_reducible exact sat_unimplemented_unit _
    | with_reducible exact hX.parse_expression _ _
    | with_reducible exact sat_any (hX.parse_expression _ _)
    | with_reducible exact hX.visit_expression _ _ _ (by first | assumption | (apply_assumption; assumption) | exact well_formed_variable L _ _ | exact well_formed_import L _ | exact well_formed_function L _ _ | exact well_formed_child_1 L (by assumption) | exact well_formed_set_child_1 (by assumption) (by assumption))
    | with_reducible exact sat_parse_and_visit_typescript_enum_members_auto_member L
    | with_reducible exact sat_report_with_enum_kind L _ _ _ _
    | (lift_lets; intro jp; with_reducible apply sat_cut (f := jp); intro hjp; clear_value jp)
    | (lift_lets; intro _)
    | (with_reducible apply sat_unit <;> split)
    | dsimp -zeta only)

set_option maxHeartbeats 2000000 in
theorem sat_parse_and_visit_typescript_enum_members_next_member {G : List Event → Prop} {R : StateRel} (L : R.laws G)
    {X : Externals} {kind : enum_kind} {fuel : Nat} {locals : enum_members_locals}
    (hX : X.respects G R)
    {i : parse_point} :
    Sat R i i (fun _ => True) (parse_and_visit_typescript_enum_members.next_member X kind fuel locals) := by
  induction fuel generalizing kind locals i with
  | zero => exact sat_out_of_fuel _ _ _
  | succ fuel ih =>
    rw [parse_and_visit_typescript_enum_members.next_member]
    repeat' (first
      | with_reducible exact hjp _
      | with_reducible exact sat_unimplemented_bind _ _ _ _
      | with_reducible exact sat_qljs_unimplemented_bind _ _ _ _
      | with_reducible apply sat_bind L
      | intro _ _
      | intro _
      | with_reducible apply sat_ite
      | with_reducible exact sat_peek L _
      | with_reducible exact sat_skip L _
      | with_reducible exact sat_report L _ _ _
      | with_reducible exact sat_pure_any L _ _
      | with_reducible exact ih
      | with_reducible exact sat_unimplemented _ _ _
      | with_reducible exact sat_unimplemented_unit _
      | with_reducible exact hX.parse_expression _ _
      | with_reducible exact sat_any (hX.parse_expression _ _)
      | with_reducible exact hX.visit_expression _ _ _ (by first | assumption | (apply_assumption; assumption) | exact well_formed_variable L _ _ | exact well_formed_import L _ | exact well_formed_function L _ _ | exact well_formed_child_1 L (by assumption) | exact well_formed_set_child_1 (by assumption) (by assumption))
      | with_reducible exact sat_parse_and_visit_typescript_enum_members_parse_after_member_name L hX
      | with_reducible exact sat_unimplemented_if_not_token L _ _
      | (lift_lets; intro jp; with_reducible apply sat_cut (f := jp); intro hjp; clear_value jp)
      | (lift_lets; intro _)
      | (with_reducible apply sat_unit <;> split)
      | dsimp -zeta only)

set_option maxHeartbeats 2000000 in
theorem sat_parse_and_visit_typescript_enum_members {G : List Event → Prop} {R : StateRel} (L : R.laws G)
    {X : Externals} {fuel : Nat} {kind : enum_kind}
    (hX : X.respects G R)
    {i : parse_point} :
    Sat R i i (fun _ => True) (parse_and_visit_typescript_enum_members X fuel kind) := by
  rw [parse_and_visit_typescript_enum_members]
  repeat' (first
    | with_reducible exact hjp _
    | with_reducible exact sat_unimplemented_bind _ _ _ _
    | with_reducible exact sat_qljs_unimplemented_bind _ _ _ _
    | with_reducible apply sat_bind L
    | intro _ _
    | intro _
    | with_reducible apply sat_ite
    | with_reducible exact sat_pure_any L _ _
    | with_reducible exact sat_parse_and_visit_typescript_enum_members_next_member L hX
    | (lift_lets; intro jp; with_reducible apply sat_cut (f := jp); intro hjp; clear_value jp)
    | (lift_lets; intro _)
    | (with_reducible apply sat_unit <;> split)
    | dsimp -zeta only)

set_option maxHeartbeats 2000000 in
theorem sat_parse_and_visit_typescript_enum {G : List Event → Prop} {R : StateRel} (L : R.laws G)
    {X : Externals} {fuel : Nat} {kind : enum_kind}
    (hX : X.respects G R)
    {i : parse_point} :
    Sat R i i (fun _ => True) (parse_and_visit_typescript_enum X fuel kind) := by
  rw [parse_and_visit_typescript_enum]
  repeat' (first
    | with_reducible exact hjp _
    | with_reducible exact sat_unimplemented_bind _ _ _ _
    | with_reducible exact sat_qljs_unimplemented_bind _ _ _ _
    | with_reducible apply sat_bind L
    | intro _ _
    | intro _
    | with_reducible apply sat_ite
    | with_reducible exact sat_peek L _
    | with_reducible exact sat_skip L _
    | with_reducible exact sat_report L _ _ _
    | with_reducible exact sat_pure_any L _ _
    | with_reducible exact sat_unimplemented _ _ _
    | with_reducible exact sat_unimplemented_unit _
    | with_reducible exact sat_parse_and_visit_typescript_enum_members L hX
    | with_reducible exact sat_get_state L _
    | with_reducible exact sat_unimplemented_if_not_token L _ _
    | with_reducible exact sat_visit_enter_enum_scope L _ _ _
    | with_reducible exact sat_visit_exit_enum_scope L _ _ _
    | with_reducible exact sat_visit_variable_declaration L _ _ _ _
    | (lift_lets; intro jp; with_reducible apply sat_cut (f := jp); intro hjp; clear_value jp)
    | (lift_lets; intro _)
    | (with_reducible apply sat_unit <;> split)
    | dsimp -zeta only)

set_option maxHeartbeats 2000000 in
theorem sat_parse_and_visit_let_bindings_variable_name {G : List Event → Prop} {R : StateRel} (L : R.laws G)
    {X : Externals} {declaring_token : token} {declaration_kind : variable_kind}
    {allow_in_operator : Bool} {allow_const_without_initializer : Bool}
    {is_in_for_initializer : Bool}
    (hX : X.respects G R)
    {i : parse_point} :
    Sat R i i (fun _ => True) (parse_and_visit_let_bindings.variable_name X declaring_token declaration_kind allow_in_operator allow_const_without_initializer is_in_for_initializer) := by
  rw [parse_and_visit_let_bindings.variable_name]
  repeat' (first
    | with_reducible exact hjp _
    | with_reducible exact sat_unimplemented_bind _ _ _ _
    | with_reducible exact sat_qljs_unimplemented_bind _ _ _ _
    | with_reducible apply sat_bind L
    | intro _ _
    | intro _
    | with_reducible apply sat_ite
    | with_reducible exact sat_peek L _
    | with_reducible exact sat_skip L _
    | with_reducible exact sat_report L _ _ _
    | with_reducible exact sat_pure_any L _ _
    | with_reducible exact hX.parse_expression_remainder _ _ _ (by first | assumption | (apply_assumption; assumption) | exact well_formed_variable L _ _ | exact well_formed_import L _ | exact well_formed_function L _ _ | exact well_formed_child_1 L (by assumption) | exact well_formed_set_child_1 (by assumption) (by assumption))
    | with_reducible exact sat_any (hX.parse_expression_remainder _ _ _ (by first | assumption | (apply_assumption; assumption) | exact well_formed_variable L _ _ | exact well_formed_import L _ | exact well_formed_function L _ _ | exact well_formed_child_1 L (by assumption) | exact well_formed_set_child_1 (by assumption) (by assumption)))
    | with_reducible exact hX.parse_and_visit_typescript_colon_type_expression _
    | with_reducible exact sat_visit_binding_element L hX (by first | assumption | exact well_formed_variable L _ _ | exact well_formed_import L _ | exact well_formed_function L _ _ | exact well_formed_child_1 L (by assumption) | exact well_formed_set_child_1 (by assumption) (by assumption))
    | with_reducible exact sat_parse_and_visit_expression L hX
    | with_reducible exact sat_get_state L _
    | with_reducible exact sat_insert_semicolon L _
    | with_reducible exact sat_end_of_previous_token L _
    | with_reducible exact sat_frame L _ _ (by intro s x s1 h; cases h; exact ⟨rfl, rfl, rfl⟩)
    | (lift_lets; intro jp; with_reducible apply sat_cut (f := jp); intro hjp; clear_value jp)
    | (lift_lets; intro _)
    | (with_reducible apply sat_unit <;> split)
    | dsimp -zeta only)

set_option maxHeartbeats 2000000 in
theorem sat_parse_and_visit_let_bindings_binding {G : List Event → Prop} {R : StateRel} (L : R.laws G)
    {X : Externals} {declaring_token : token} {declaration_kind : variable_kind}
    {allow_in_operator : Bool} {allow_const_without_initializer : Bool}
    {is_in_for_initializer : Bool} {first_binding : Bool} {comma_span : Option source_code_span}
    (hX : X.respects G R)
    {i : parse_point} :
    Sat R i i (fun _ => True) (parse_and_visit_let_bindings.binding X declaring_token declaration_kind allow_in_operator allow_const_without_initializer is_in_for_initializer first_binding comma_span) := by
  rw [parse_and_visit_let_bindings.binding]
  repeat' (first
    | with_reducible exact hjp _
    | with_reducible exact sat_unimplemented_bind _ _ _ _
    | with_reducible exact sat_qljs_unimplemented_bind _ _ _ _
    | with_reducible apply sat_bind L
    | intro _ _
    | intro _
    | with_reducible apply sat_ite
    | with_reducible exact sat_peek L _
    | with_reducible exact sat_skip L _
    | with_reducible exact sat_report L _ _ _
    | with_reducible exact sat_pure_any L _ _
    | with_reducible exact sat_unimplemented _ _ _
    | with_reducible exact sat_unimplemented_unit _
    | with_reducible exact hX.parse_expression _ _
    | with_reducible exact sat_any (hX.parse_expression _ _)
    | with_reducible exact hX.report_errors_for_escape_sequences_in_keyword _ _
    | with_reducible exact sat_visit_binding_element L hX (by first | assumption | exact well_formed_variable L _ _ | exact well_formed_import L _ | exact well_formed_function L _ _ | exact well_formed_child_1 L (by assumption) | exact well_formed_set_child_1 (by assumption) (by assumption))
    | with_reducible exact sat_parse_and_visit_expression L hX
    | with_reducible exact sat_parse_and_visit_let_bindings_variable_name L hX
    | with_reducible exact sat_get_state L _
    | with_reducible exact sat_insert_semicolon L _
    | with_reducible exact sat_begin_transaction L _
    | with_reducible exact sat_commit_transaction L _ _
    | with_reducible exact sat_roll_back_transaction L _ _
    | (lift_lets; intro jp; with_reducible apply sat_cut (f := jp); intro hjp; clear_value jp)
    | (lift_lets; intro _)
    | (with_reducible apply sat_unit <;> split)
    | dsimp -zeta only)

set_option maxHeartbeats 2000000 in
theorem sat_parse_and_visit_let_bindings_loop {G : List Event → Prop} {R : StateRel} (L : R.laws G)
    {X : Externals} {declaring_token : token} {declaration_kind : variable_kind}
    {allow_in_operator : Bool} {allow_const_without_initializer : Bool}
    {is_in_for_initializer : Bool} {fuel : Nat} {flag : Bool}
    (hX : X.respects G R)
    {i : parse_point} :
    Sat R i i (fun _ => True) (parse_and_visit_let_bindings.loop X declaring_token declaration_kind allow_in_operator allow_const_without_initializer is_in_for_initializer fuel flag) := by
  induction fuel generalizing declaring_token declaration_kind allow_in_operator allow_const_without_initializer is_in_for_initializer flag i with
  | zero => exact sat_out_of_fuel _ _ _
  | succ fuel ih =>
    rw [parse_and_visit_let_bindings.loop]
    repeat' (first
      | with_reducible exact hjp _
      | with_reducible exact sat_unimplemented_bind _ _ _ _
      | with_reducible exact sat_qljs_unimplemented_bind _ _ _ _
      | with_reducible apply sat_bind L
      | intro _ _
      | intro _
      | with_reducible apply sat_ite
      | with_reducible exact sat_peek L _
      | with_reducible exact sat_skip L _
      | with_reducible exact sat_report L _ _ _
      | with_reducible exact sat_pure_any L _ _
      | with_reducible exact ih
      | with_reducible exact sat_parse_and_visit_let_bindings_binding L hX
      | with_reducible exact sat_end_of_previous_token L _
      | (lift_lets; intro jp; with_reducible apply sat_cut (f := jp); intro hjp; clear_value jp)
      | (lift_lets; intro _)
      | (with_reducible apply sat_unit <;> split)
      | dsimp -zeta only)

set_option maxHeartbeats 2000000 in
theorem sat_parse_and_visit_let_bindings {G : List Event → Prop} {R : StateRel} (L : R.laws G)
    {X : Externals} {fuel : Nat} {declaring_token : token} {allow_in_operator : Bool}
    {allow_const_without_initializer : Bool} {is_in_for_initializer : Bool}
    (hX : X.respects G R)
    {i : parse_point} :
    Sat R i i (fun _ => True) (parse_and_visit_let_bindings X fuel declaring_token allow_in_operator allow_const_without_initializer is_in_for_initializer) := by
  rw [parse_and_visit_let_bindings]
  repeat' (first
    | with_reducible exact hjp _
    | with_reducible exact sat_unimplemented_bind _ _ _ _
    | with_reducible exact sat_qljs_unimplemented_bind _ _ _ _
    | with_reducible apply sat_bind L
    | intro _ _
    | intro _
    | with_reducible apply sat_ite
    | with_reducible exact sat_pure_any L _ _
    | with_reducible exact sat_parse_and_visit_let_bindings_loop L hX
    | (lift_lets; intro jp; with_reducible apply sat_cut (f := jp); intro hjp; clear_value jp)
    | (lift_lets; intro _)
    | (with_reducible apply sat_unit <;> split)
    | dsimp -zeta only)

set_option maxHeartbeats 2000000 in
theorem sat_parse_and_visit_variable_declaration_statement {G : List Event → Prop} {R : StateRel} (L : R.laws G)
    {X : Externals} {fuel : Nat}
    (hX : X.respects G R)
    {i : parse_point} :
    Sat R i i (fun _ => True) (parse_and_visit_variable_declaration_statement X fuel) := by
  rw [parse_and_visit_variable_declaration_statement]
  repeat' (first
    | with_reducible exact hjp _
    | with_reducible exact sat_unimplemented_bind _ _ _ _
    | with_reducible exact sat_qljs_unimplemented_bind _ _ _ _
    | with_reducible apply sat_bind L
    | intro _ _
    | intro _
    | with_reducible apply sat_ite
    | with_reducible exact sat_peek L _
    | with_reducible exact sat_skip L _
    | with_reducible exact sat_pure_any L _ _
    | with_reducible exact sat_consume_semicolon_after_statement L
    | with_reducible exact sat_parse_and_visit_typescript_enum L hX
    | with_reducible exact sat_parse_and_visit_let_bindings L hX
    | (lift_lets; intro jp; with_reducible apply sat_cut (f := jp); intro hjp; clear_value jp)
    | (lift_lets; intro _)
    | (with_reducible apply sat_unit <;> split)
    | dsimp -zeta only)

set_option maxHeartbeats 2000000 in
theorem sat_parse_and_visit_named_exports_named_export {G : List Event → Prop} {R : StateRel} (L : R.laws G)
    {X : Externals} {typescript_type_only_import_keyword : Option source_code_span}
    {is_export : Bool} {is_local_type_import : Bool} {left_is_keyword : Bool}
    (hX : X.respects G R)
    {i : parse_point} :
    Sat R i i (fun _ => True) (parse_and_visit_named_exports.named_export X typescript_type_only_import_keyword is_export is_local_type_import left_is_keyword) := by
  rw [parse_and_visit_named_exports.named_export]
  repeat' (first
    | with_reducible exact hjp _
    | with_reducible exact sat_unimplemented_bind _ _ _ _
    | with_reducible exact sat_qljs_unimplemented_bind _ _ _ _
    | with_reducible apply sat_bind L
    | intro _ _
    | intro _
    | with_reducible apply sat_ite
    | with_reducible exact sat_peek L _
    | with_reducible exact sat_skip L _
    | with_reducible exact sat_report L _ _ _
    | with_reducible exact sat_pure_any L _ _
    | with_reducible exact sat_unimplemented _ _ _
    | with_reducible exact sat_unimplemented_unit _
    | with_reducible exact sat_qljs_unimplemented _ _ _
    | with_reducible exact sat_qljs_unimplemented_unit _
    | with_reducible exact hX.report_errors_for_escape_sequences_in_keyword _ _
    | with_reducible exact sat_visit_variable_declaration L _ _ _ _
    | with_reducible exact sat_visit_variable_export_use L _ _
    | (lift_lets; intro jp; with_reducible apply sat_cut (f := jp); intro hjp; clear_value jp)
    | (lift_lets; intro _)
    | (with_reducible apply sat_unit <;> split)
    | dsimp -zeta only)

set_option maxHeartbeats 2000000 in
theorem sat_parse_and_visit_named_exports_report_diag_for_inline_type_import_if_needed {G : List Event → Prop} {R : StateRel} (L : R.laws G)
    {typescript_type_only_import_keyword : Option source_code_span} {type_span : source_code_span}
    {i : parse_point} :
    Sat R i i (fun _ => True) (parse_and_visit_named_exports.report_diag_for_inline_type_import_if_needed typescript_type_only_import_keyword type_span) := by
  unfold parse_and_visit_named_exports.report_diag_for_inline_type_import_if_needed
  repeat' (first
    | with_reducible exact hjp _
    | with_reducible exact sat_unimplemented_bind _ _ _ _
    | with_reducible exact sat_qljs_unimplemented_bind _ _ _ _
    | with_reducible apply sat_bind L
    | intro _ _
    | intro _
    | with_reducible apply sat_ite
    | with_reducible exact sat_report L _ _ _
    | with_reducible exact sat_pure_any L _ _
    | with_reducible exact sat_get_state L _
    | (lift_lets; intro jp; with_reducible apply sat_cut (f := jp); intro hjp; clear_value jp)
    | (lift_lets; intro _)
    | (with_reducible apply sat_unit <;> split)
    | dsimp -zeta only)

set_option maxHeartbeats 2000000 in
theorem sat_parse_and_visit_named_exports_string_import {G : List Event → Prop} {R : StateRel} (L : R.laws G)
    {X : Externals}
    (hX : X.respects G R)
    {i : parse_point} :
    Sat R i i (fun _ => True) (parse_and_visit_named_exports.string_import X) := by
  rw [parse_and_visit_named_exports.string_import]
  repeat' (first
    | with_reducible exact hjp _
    | with_reducible exact sat_unimplemented_bind _ _ _ _
    | with_reducible exact sat_qljs_unimplemented_bind _ _ _ _
    | with_reducible apply sat_bind L
    | intro _ _
    | intro _
    | with_reducible apply sat_ite
    | with_reducible exact sat_peek L _
    | with_reducible exact sat_skip L _
    | with_reducible exact sat_report L _ _ _
    | with_reducible exact sat_pure_any L _ _
    | with_reducible exact sat_unimplemented _ _ _
    | with_reducible exact sat_unimplemented_unit _
    | with_reducible exact hX.report_errors_for_escape_sequences_in_keyword _ _
    | with_reducible exact sat_unimplemented_if_not_token L _ _
    | with_reducible exact sat_visit_variable_declaration L _ _ _ _
    | (lift_lets; intro jp; with_reducible apply sat_cut (f := jp); intro hjp; clear_value jp)
    | (lift_lets; intro _)
    | (with_reducible apply sat_unit <;> split)
    | dsimp -zeta only)

set_option maxHeartbeats 2000000 in
theorem sat_parse_and_visit_named_exports_loop {G : List Event → Prop} {R : StateRel} (L : R.laws G)
    {X : Externals} {typescript_type_only_import_keyword : Option source_code_span}
    {is_export : Bool} {fuel : Nat} {tokens : List token}
    (hX : X.respects G R)
    {i : parse_point} :
    Sat R i i (fun _ => True) (parse_and_visit_named_exports.loop X typescript_type_only_import_keyword is_export fuel tokens) := by
  induction fuel generalizing typescript_type_only_import_keyword is_export tokens i with
  | zero => exact sat_out_of_fuel _ _ _
  | succ fuel ih =>
    rw [parse_and_visit_named_exports.loop]
    repeat' (first
      | with_reducible exact hjp _
      | with_reducible exact sat_unimplemented_bind _ _ _ _
      | with_reducible exact sat_qljs_unimplemented_bind _ _ _ _
      | with_reducible apply sat_bind L
      | intro _ _
      | intro _
      | with_reducible apply sat_ite
      | with_reducible exact sat_peek L _
      | with_reducible exact sat_skip L _
      | with_reducible exact sat_pure_any L _ _
      | with_reducible exact ih
      | with_reducible exact sat_unimplemented _ _ _
      | with_reducible exact sat_unimplemented_unit _
      | with_reducible exact sat_parse_and_visit_named_exports_named_export L hX
      | with_reducible exact sat_parse_and_visit_named_exports_report_diag_for_inline_type_import_if_needed L
      | with_reducible exact sat_parse_and_visit_named_exports_string_import L hX
      | with_reducible exact sat_begin_transaction L _
      | with_reducible exact sat_commit_transaction L _ _
      | with_reducible exact sat_roll_back_transaction L _ _
      | with_reducible exact sat_unimplemented_if_not_token L _ _
      | (lift_lets; intro jp; with_reducible apply sat_cut (f := jp); intro hjp; clear_value jp)
      | (lift_lets; intro _)
      | (with_reducible apply sat_unit <;> split)
      | dsimp -zeta only)

set_option maxHeartbeats 2000000 in
theorem sat_parse_and_visit_named_exports {G : List Event → Prop} {R : StateRel} (L : R.laws G)
    {X : Externals} {fuel : Nat} {typescript_type_only_import_keyword : Option source_code_span}
    {is_export : Bool}
    (hX : X.respects G R)
    {i : parse_point} :
    Sat R i i (fun _ => True) (parse_and_visit_named_exports X fuel typescript_type_only_import_keyword is_export) := by
  rw [parse_and_visit_named_exports]
  repeat' (first
    | with_reducible exact hjp _
    | with_reducible exact sat_unimplemented_bind _ _ _ _
    | with_reducible exact sat_qljs_unimplemented_bind _ _ _ _
    | with_reducible apply sat_bind L
    | intro _ _
    | intro _
    | with_reducible apply sat_ite
    | with_reducible exact sat_skip L _
    | with_reducible exact sat_pure_any L _ _
    | with_reducible exact sat_parse_and_visit_named_exports_loop L hX
    | (lift_lets; intro jp; with_reducible apply sat_cut (f := jp); intro hjp; clear_value jp)
    | (lift_lets; intro _)
    | (with_reducible apply sat_unit <;> split)
    | dsimp -zeta only)

set_option maxHeartbeats 2000000 in
theorem sat_parse_and_visit_named_exports_for_export {G : List Event → Prop} {R : StateRel} (L : R.laws G)
    {X : Externals} {fuel : Nat}
    (hX : X.respects G R)
    {i : parse_point} :
    Sat R i i (fun _ => True) (parse_and_visit_named_exports_for_export X fuel) := by
  rw [parse_and_visit_named_exports_for_export]
  repeat' (first
    | with_reducible exact hjp _
    | with_reducible exact sat_unimplemented_bind _ _ _ _
    | with_reducible exact sat_qljs_unimplemented_bind _ _ _ _
    | with_reducible apply sat_bind L
    | intro _ _
    | intro _
    | with_reducible apply sat_ite
    | with_reducible exact sat_pure_any L _ _
    | with_reducible exact sat_parse_and_visit_named_exports L hX
    | (lift_lets; intro jp; with_reducible apply sat_cut (f := jp); intro hjp; clear_value jp)
    | (lift_lets; intro _)
    | (with_reducible apply sat_unit <;> split)
    | dsimp -zeta only)

set_option maxHeartbeats 2000000 in
theorem sat_parse_and_visit_named_exports_for_import {G : List Event → Prop} {R : StateRel} (L : R.laws G)
    {X : Externals} {fuel : Nat}
    (hX : X.respects G R)
    {i : parse_point} :
    Sat R i i (fun _ => True) (parse_and_visit_named_exports_for_import X fuel) := by
  rw [parse_and_visit_named_exports_for_import]
  repeat' (first
    | with_reducible exact hjp _
    | with_reducible exact sat_unimplemented_bind _ _ _ _
    | with_reducible exact sat_qljs_unimplemented_bind _ _ _ _
    | with_reducible apply sat_bind L
    | intro _ _
    | intro _
    | with_reducible apply sat_ite
    | with_reducible exact sat_pure_any L _ _
    | with_reducible exact sat_parse_and_visit_named_exports L hX
    | (lift_lets; intro jp; with_reducible apply sat_cut (f := jp); intro hjp; clear_value jp)
    | (lift_lets; intro _)
    | (with_reducible apply sat_unit <;> split)
    | dsimp -zeta only)

set_option maxHeartbeats 2000000 in
theorem sat_parse_and_visit_named_exports_for_typescript_type_only_import {G : List Event → Prop} {R : StateRel} (L : R.laws G)
    {X : Externals} {fuel : Nat} {type_keyword : source_code_span}
    (hX : X.respects G R)
    {i : parse_point} :
    Sat R i i (fun _ => True) (parse_and_visit_named_exports_for_typescript_type_only_import X fuel type_keyword) := by
  rw [parse_and_visit_named_exports_for_typescript_type_only_import]
  repeat' (first
    | with_reducible exact hjp _
    | with_reducible exact sat_unimplemented_bind _ _ _ _
    | with_reducible exact sat_qljs_unimplemented_bind _ _ _ _
    | with_reducible apply sat_bind L
    | intro _ _
    | intro _
    | with_reducible apply sat_ite
    | with_reducible exact sat_pure_any L _ _
    | with_reducible exact sat_parse_and_visit_named_exports L hX
    | (lift_lets; intro jp; with_reducible apply sat_cut (f := jp); intro hjp; clear_value jp)
    | (lift_lets; intro _)
    | (with_reducible apply sat_unit <;> split)
    | dsimp -zeta only)

set_option maxHeartbeats 2000000 in
theorem sat_parse_and_visit_name_space_import {G : List Event → Prop} {R : StateRel} (L : R.laws G)
    {X : Externals}
    (hX : X.respects G R)
    {i : parse_point} :
    Sat R i i (fun _ => True) (parse_and_visit_name_space_import X) := by
  rw [parse_and_visit_name_space_import]
  repeat' (first
    | with_reducible exact hjp _
    | with_reducible exact sat_unimplemented_bind _ _ _ _
    | with_reducible exact sat_qljs_unimplemented_bind _ _ _ _
    | with_reducible apply sat_bind L
    | intro _ _
    | intro _
    | with_reducible apply sat_ite
    | with_reducible exact sat_peek L _
    | with_reducible exact sat_skip L _
    | with_reducible exact sat_report L _ _ _
    | with_reducible exact sat_pure_any L _ _
    | with_reducible exact sat_unimplemented _ _ _
    | with_reducible exact sat_unimplemented_unit _
    | with_reducible exact hX.report_errors_for_escape_sequences_in_keyword _ _
    | with_reducible exact sat_visit_variable_declaration L _ _ _ _
    | (lift_lets; intro jp; with_reducible apply sat_cut (f := jp); intro hjp; clear_value jp)
    | (lift_lets; intro _)
    | (with_reducible apply sat_unit <;> split)
    | dsimp -zeta only)

set_option maxHeartbeats 2000000 in
theorem sat_parse_and_visit_import_identifier {G : List Event → Prop} {R : StateRel} (L : R.laws G)
    {X : Externals} {fuel : Nat}
    (hX : X.respects G R)
    {i : parse_point} :
    Sat R i i (fun _ => True) (parse_and_visit_import.identifier X fuel) := by
  rw [parse_and_visit_import.identifier]
  repeat' (first
    | with_reducible exact hjp _
    | with_reducible exact sat_unimplemented_bind _ _ _ _
    | with_reducible exact sat_qljs_unimplemented_bind _ _ _ _
    | with_reducible apply sat_bind L
    | intro _ _
    | intro _
    | with_reducible apply sat_ite
    | with_reducible exact sat_peek L _
    | with_reducible exact sat_skip L _
    | with_reducible exact sat_report L _ _ _
    | with_reducible exact sat_pure_any L _ _
    | with_reducible exact sat_unimplemented _ _ _
    | with_reducible exact sat_unimplemented_unit _
    | with_reducible exact sat_parse_and_visit_named_exports_for_import L hX
    | with_reducible exact sat_parse_and_visit_name_space_import L hX
    | with_reducible exact sat_visit_variable_declaration L _ _ _ _
    | (lift_lets; intro jp; with_reducible apply sat_cut (f := jp); intro hjp; clear_value jp)
    | (lift_lets; intro _)
    | (with_reducible apply sat_unit <;> split)
    | dsimp -zeta only)

set_option maxHeartbeats 2000000 in
theorem sat_parse_and_visit_import_from_module {G : List Event → Prop} {R : StateRel} (L : R.laws G)
    {i : parse_point} :
    Sat R i i (fun _ => True) (parse_and_visit_import.from_module) := by
  rw [parse_and_visit_import.from_module]
  repeat' (first
    | with_reducible exact hjp _
    | with_reducible exact sat_unimplemented_bind _ _ _ _
    | with_reducible exact sat_qljs_unimplemented_bind _ _ _ _
    | with_reducible apply sat_bind L
    | intro _ _
    | intro _
    | with_reducible apply sat_ite
    | with_reducible exact sat_peek L _
    | with_reducible exact sat_skip L _
    | with_reducible exact sat_report L _ _ _
    | with_reducible exact sat_pure_any L _ _
    | with_reducible exact sat_unimplemented _ _ _
    | with_reducible exact sat_unimplemented_unit _
    | with_reducible exact sat_end_of_previous_token L _
    | (lift_lets; intro jp; with_reducible apply sat_cut (f := jp); intro hjp; clear_value jp)
    | (lift_lets; intro _)
    | (with_reducible apply sat_unit <;> split)
    | dsimp -zeta only)

set_option maxHeartbeats 2000000 in
theorem sat_parse_and_visit_import {G : List Event → Prop} {R : StateRel} (L : R.laws G)
    {X : Externals} {fuel : Nat}
    (hX : X.respects G R)
    {i : parse_point} :
    Sat R i i (fun _ => True) (parse_and_visit_import X fuel) := by
  rw [parse_and_visit_import]
  repeat' (first
    | with_reducible exact hjp _
    | with_reducible exact sat_unimplemented_bind _ _ _ _
    | with_reducible exact sat_qljs_unimplemented_bind _ _ _ _
    | with_reducible apply sat_bind L
    | intro _ _
    | intro _
    | with_reducible apply sat_ite
    | with_reducible exact sat_peek L _
    | with_reducible exact sat_skip L _
    | with_reducible exact sat_report L _ _ _
    | with_reducible exact sat_pure_any L _ _
    | with_reducible exact sat_unimplemented _ _ _
    | with_reducible exact sat_unimplemented_unit _
    | with_reducible exact hX.parse_expression_remainder _ _ _ (by first | assumption | (apply_assumption; assumption) | exact well_formed_variable L _ _ | exact well_formed_import L _ | exact well_formed_function L _ _ | exact well_formed_child_1 L (by assumption) | exact well_formed_set_child_1 (by assumption) (by assumption))
    | with_reducible exact sat_any (hX.parse_expression_remainder _ _ _ (by first | assumption | (apply_assumption; assumption) | exact well_formed_variable L _ _ | exact well_formed_import L _ | exact well_formed_function L _ _ | exact well_formed_child_1 L (by assumption) | exact well_formed_set_child_1 (by assumption) (by assumption)))
    | with_reducible exact hX.visit_expression _ _ _ (by first | assumption | (apply_assumption; assumption) | exact well_formed_variable L _ _ | exact well_formed_import L _ | exact well_formed_function L _ _ | exact well_formed_child_1 L (by assumption) | exact well_formed_set_child_1 (by assumption) (by assumption))
    | with_reducible exact hX.report_errors_for_escape_sequences_in_keyword _ _
    | with_reducible exact sat_consume_semicolon_after_statement L
    | with_reducible exact sat_parse_and_visit_named_exports_for_import L hX
    | with_reducible exact sat_parse_and_visit_named_exports_for_typescript_type_only_import L hX
    | with_reducible exact sat_parse_and_visit_name_space_import L hX
    | with_reducible exact sat_parse_and_visit_import_identifier L hX
    | with_reducible exact sat_parse_and_visit_import_from_module L
    | with_reducible exact sat_get_state L _
    | with_reducible exact sat_begin_transaction L _
    | with_reducible exact sat_commit_transaction L _ _
    | with_reducible exact sat_roll_back_transaction L _ _
    | with_reducible exact sat_visit_variable_declaration L _ _ _ _
    | (lift_lets; intro jp; with_reducible apply sat_cut (f := jp); intro hjp; clear_value jp)
    | (lift_lets; intro _)
    | (with_reducible apply sat_unit <;> split)
    | dsimp -zeta only)

set_option maxHeartbeats 2000000 in
theorem sat_parse_and_visit_function_parameters_loop {G : List Event → Prop} {R : StateRel} (L : R.laws G)
    {X : Externals} {fuel : Nat} {arg : Option source_code_span} {flag : Bool}
    (hX : X.respects G R)
    {i : parse_point} :
    Sat R i i (fun _ => True) (parse_and_visit_function_parameters.loop X fuel arg flag) := by
  induction fuel generalizing arg flag i with
  | zero => exact sat_out_of_fuel _ _ _
  | succ fuel ih =>
    rw [parse_and_visit_function_parameters.loop]
    repeat' (first
      | with_reducible exact hjp _
      | with_reducible exact sat_unimplemented_bind _ _ _ _
      | with_reducible exact sat_qljs_unimplemented_bind _ _ _ _
      | with_reducible apply sat_bind L
      | intro _ _
      | intro _
      | with_reducible apply sat_ite
      | with_reducible exact sat_peek L _
      | with_reducible exact sat_skip L _
      | with_reducible exact sat_report L _ _ _
      | with_reducible exact sat_pure_any L _ _
      | with_reducible exact ih
      | with_reducible exact sat_unimplemented _ _ _
      | with_reducible exact sat_unimplemented_unit _
      | with_reducible exact hX.parse_expression _ _
      | with_reducible exact sat_any (hX.parse_expression _ _)
      | with_reducible exact sat_visit_binding_element L hX (by first | assumption | exact well_formed_variable L _ _ | exact well_formed_import L _ | exact well_formed_function L _ _ | exact well_formed_child_1 L (by assumption) | exact well_formed_set_child_1 (by assumption) (by assumption))
      | (lift_lets; intro jp; with_reducible apply sat_cut (f := jp); intro hjp; clear_value jp)
      | (lift_lets; intro _)
      | (with_reducible apply sat_unit <;> split)
      | dsimp -zeta only)

set_option maxHeartbeats 2000000 in
theorem sat_parse_and_visit_function_parameters {G : List Event → Prop} {R : StateRel} (L : R.laws G)
    {X : Externals} {fuel : Nat} {name : Option source_code_span}
    (hX : X.respects G R)
    {a : List scope_kind} {n : Nat} :
    Sat R ⟨a, n, true⟩ ⟨a, n, true⟩ (fun _ => True) (parse_and_visit_function_parameters X fuel name) := by
  rw [parse_and_visit_function_parameters]
  repeat' (first
    | with_reducible exact hjp _
    | with_reducible exact sat_unimplemented_bind _ _ _ _
    | with_reducible exact sat_qljs_unimplemented_bind _ _ _ _
    | with_reducible apply sat_bind L
    | intro _ _
    | intro _
    | with_reducible apply sat_ite
    | with_reducible exact sat_peek L _
    | with_reducible exact sat_skip L _
    | with_reducible exact sat_report L _ _ _
    | with_reducible exact sat_pure_any L _ _
    | with_reducible exact sat_unimplemented _ _ _
    | with_reducible exact sat_unimplemented_unit _
    | with_reducible exact hX.parse_and_visit_typescript_colon_type_expression _
    | with_reducible exact sat_parse_and_visit_typescript_generic_parameters L hX
    | with_reducible exact sat_parse_and_visit_function_parameters_loop L hX
    | with_reducible exact sat_get_state L _
    | with_reducible exact sat_end_of_previous_token L _
    | with_reducible exact sat_set_in_generator_function L _ _
    | (lift_lets; intro jp; with_reducible apply sat_cut (f := jp); intro hjp; clear_value jp)
    | (lift_lets; intro _)
    | (with_reducible apply sat_unit <;> split)
    | dsimp -zeta only)

set_option maxHeartbeats 2000000 in
theorem sat_parse_and_visit_statement_block_no_scope_loop {G : List Event → Prop} {R : StateRel} (L : R.laws G)
    {stmt : parse_statement_type → P Bool} {left_curly_span : source_code_span} {fuel : Nat}
   
    (hstmt : ∀ ty i, Sat R i i (fun _ => True) (stmt ty))
    {i : parse_point} :
    Sat R i i (fun _ => True) (parse_and_visit_statement_block_no_scope.loop stmt left_curly_span fuel) := by
  induction fuel generalizing left_curly_span i with
  | zero => exact sat_out_of_fuel _ _ _
  | succ fuel ih =>
    rw [parse_and_visit_statement_block_no_scope.loop]
    repeat' (first
      | with_reducible exact hjp _
      | with_reducible exact sat_unimplemented_bind _ _ _ _
      | with_reducible exact sat_qljs_unimplemented_bind _ _ _ _
      | with_reducible apply sat_bind L
      | intro _ _
      | intro _
      | with_reducible apply sat_ite
      | with_reducible exact sat_peek L _
      | with_reducible exact sat_skip L _
      | with_reducible exact sat_report L _ _ _
      | with_reducible exact sat_pure_any L _ _
      | with_reducible exact ih
      | with_reducible exact hstmt _ _
      | with_reducible exact sat_unimplemented _ _ _
      | with_reducible exact sat_unimplemented_unit _
      | (lift_lets; intro jp; with_reducible apply sat_cut (f := jp); intro hjp; clear_value jp)
      | (lift_lets; intro _)
      | (with_reducible apply sat_unit <;> split)
      | dsimp -zeta only)

set_option maxHeartbeats 2000000 in
theorem sat_parse_and_visit_statement_block_no_scope {G : List Event → Prop} {R : StateRel} (L : R.laws G)
    {stmt : parse_statement_type → P Bool} {fuel : Nat}
   
    (hstmt : ∀ ty i, Sat R i i (fun _ => True) (stmt ty))
    {i : parse_point} :
    Sat R i i (fun _ => True) (parse_and_visit_statement_block_no_scope stmt fuel) := by
  rw [parse_and_visit_statement_block_no_scope]
  repeat' (first
    | with_reducible exact hjp _
    | with_reducible exact sat_unimplemented_bind _ _ _ _
    | with_reducible exact sat_qljs_unimplemented_bind _ _ _ _
    | with_reducible apply sat_bind L
    | intro _ _
    | intro _
    | with_reducible apply sat_ite
    | with_reducible exact sat_peek L _
    | with_reducible exact sat_skip L _
    | with_reducible exact sat_pure_any L _ _
    | with_reducible exact hstmt _ _
    | with_reducible exact sat_parse_and_visit_statement_block_no_scope_loop L hstmt
    | (lift_lets; intro jp; with_reducible apply sat_cut (f := jp); intro hjp; clear_value jp)
    | (lift_lets; intro _)
    | (with_reducible apply sat_unit <;> split)
    | dsimp -zeta only)

set_option maxHeartbeats 2000000 in
theorem sat_parse_and_visit_function_parameters_and_body_no_scope {G : List Event → Prop} {R : StateRel} (L : R.laws G)
    {X : Externals} {stmt : parse_statement_type → P Bool} {fuel : Nat}
    {name : Option source_code_span} {attributes : function_attributes}
    (hX : X.respects G R)
    (hstmt : ∀ ty i, Sat R i i (fun _ => True) (stmt ty))
    {i : parse_point} :
    Sat R i i (fun _ => True) (parse_and_visit_function_parameters_and_body_no_scope X stmt fuel name attributes) := by
  rw [parse_and_visit_function_parameters_and_body_no_scope]
  repeat' (first
    | with_reducible exact hjp _
    | with_reducible exact sat_unimplemented_bind _ _ _ _
    | with_reducible exact sat_qljs_unimplemented_bind _ _ _ _
    | with_reducible apply sat_bind L
    | intro _ _
    | intro _
    | with_reducible apply sat_ite
    | with_reducible exact sat_report L _ _ _
    | with_reducible exact sat_pure_any L _ _
    | with_reducible exact hstmt _ _
    | with_reducible exact sat_parse_and_visit_function_parameters L hX
    | with_reducible exact sat_parse_and_visit_statement_block_no_scope L hstmt
    | with_reducible exact sat_end_of_previous_token L _
    | with_reducible exact sat_visit_enter_function_scope_body L _
    | with_reducible apply sat_with_function_guard L _ hX _ _ _ _ _ _
    | (lift_lets; intro jp; with_reducible apply sat_cut (f := jp); intro hjp; clear_value jp)
    | (lift_lets; intro _)
    | (with_reducible apply sat_unit <;> split)
    | dsimp -zeta only)

set_option maxHeartbeats 2000000 in
theorem sat_parse_and_visit_function_parameters_and_body {G : List Event → Prop} {R : StateRel} (L : R.laws G)
    {X : Externals} {stmt : parse_statement_type → P Bool} {fuel : Nat}
    {name : Option source_code_span} {attributes : function_attributes}
    (hX : X.respects G R)
    (hstmt : ∀ ty i, Sat R i i (fun _ => True) (stmt ty))
    {i : parse_point} :
    Sat R i i (fun _ => True) (parse_and_visit_function_parameters_and_body X stmt fuel name attributes) := by
  rw [parse_and_visit_function_parameters_and_body]
  repeat' (first
    | with_reducible exact hjp _
    | with_reducible exact sat_unimplemented_bind _ _ _ _
    | with_reducible exact sat_qljs_unimplemented_bind _ _ _ _
    | with_reducible apply sat_bind L
    | intro _ _
    | intro _
    | with_reducible apply sat_ite
    | with_reducible exact sat_pure_any L _ _
    | with_reducible exact hstmt _ _
    | with_reducible exact sat_parse_and_visit_function_parameters_and_body_no_scope L hX hstmt
    | with_reducible exact sat_visit_enter_function_scope L _ _ _
    | with_reducible exact sat_visit_exit_function_scope L _ _ _
    | (lift_lets; intro jp; with_reducible apply sat_cut (f := jp); intro hjp; clear_value jp)
    | (lift_lets; intro _)
    | (with_reducible apply sat_unit <;> split)
    | dsimp -zeta only)

set_option maxHeartbeats 2000000 in
theorem sat_parse_and_visit_interface_function_parameters_and_body_no_scope {G : List Event → Prop} {R : StateRel} (L : R.laws G)
    {X : Externals} {stmt : parse_statement_type → P Bool} {fuel : Nat}
    {name : Option source_code_span} {attributes : function_attributes}
    (hX : X.respects G R)
    (hstmt : ∀ ty i, Sat R i i (fun _ => True) (stmt ty))
    {i : parse_point} :
    Sat R i i (fun _ => True) (parse_and_visit_interface_function_parameters_and_body_no_scope X stmt fuel name attributes) := by
  rw [parse_and_visit_interface_function_parameters_and_body_no_scope]
  repeat' (first
    | with_reducible exact hjp _
    | with_reducible exact sat_unimplemented_bind _ _ _ _
    | with_reducible exact sat_qljs_unimplemented_bind _ _ _ _
    | with_reducible apply sat_bind L
    | intro _ _
    | intro _
    | with_reducible apply sat_ite
    | with_reducible exact sat_peek L _
    | with_reducible exact sat_report L _ _ _
    | with_reducible exact sat_pure_any L _ _
    | with_reducible exact hstmt _ _
    | with_reducible exact sat_parse_and_visit_function_parameters L hX
    | with_reducible exact sat_parse_and_visit_statement_block_no_scope L hstmt
    | with_reducible exact sat_visit_enter_function_scope_body L _
    | with_reducible apply sat_with_function_guard L _ hX _ _ _ _ _ _
    | (lift_lets; intro jp; with_reducible apply sat_cut (f := jp); intro hjp; clear_value jp)
    | (lift_lets; intro _)
    | (with_reducible apply sat_unit <;> split)
    | dsimp -zeta only)

set_option maxHeartbeats 2000000 in
theorem sat_parse_and_visit_function_declaration_named_function {G : List Event → Prop} {R : StateRel} (L : R.laws G)
    {X : Externals} {stmt : parse_statement_type → P Bool} {fuel : Nat}
    {attributes : function_attributes} {require_name : name_requirement}
    (hX : X.respects G R)
    (hstmt : ∀ ty i, Sat R i i (fun _ => True) (stmt ty))
    {i : parse_point} :
    Sat R i i (fun _ => True) (parse_and_visit_function_declaration.named_function X stmt fuel attributes require_name) := by
  rw [parse_and_visit_function_declaration.named_function]
  repeat' (first
    | with_reducible exact hjp _
    | with_reducible exact sat_unimplemented_bind _ _ _ _
    | with_reducible exact sat_qljs_unimplemented_bind _ _ _ _
    | with_reducible apply sat_bind L
    | intro _ _
    | intro _
    | with_reducible apply sat_ite
    | with_reducible exact sat_peek L _
    | with_reducible exact sat_skip L _
    | with_reducible exact sat_report L _ _ _
    | with_reducible exact sat_pure_any L _ _
    | with_reducible exact hstmt _ _
    | with_reducible exact sat_parse_and_visit_function_parameters_and_body L hX hstmt
    | with_reducible exact sat_visit_variable_declaration L _ _ _ _
    | (lift_lets; intro jp; with_reducible apply sat_cut (f := jp); intro hjp; clear_value jp)
    | (lift_lets; intro _)
    | (with_reducible apply sat_unit <;> split)
    | dsimp -zeta only)

set_option maxHeartbeats 2000000 in
theorem sat_parse_and_visit_function_declaration {G : List Event → Prop} {R : StateRel} (L : R.laws G)
    {X : Externals} {stmt : parse_statement_type → P Bool} {fuel : Nat}
    {attributes : function_attributes} {begin_ : Nat} {require_name : name_requirement}
    (hX : X.respects G R)
    (hstmt : ∀ ty i, Sat R i i (fun _ => True) (stmt ty))
    {i : parse_point} :
    Sat R i i (fun _ => True) (parse_and_visit_function_declaration X stmt fuel attributes begin_ require_name) := by
  rw [parse_and_visit_function_declaration]
  repeat' (first
    | with_reducible exact hjp _
    | with_reducible exact sat_unimplemented_bind _ _ _ _
    | with_reducible exact sat_qljs_unimplemented_bind _ _ _ _
    | with_reducible apply sat_bind L
    | intro _ _
    | intro _
    | with_reducible apply sat_ite
    | with_reducible exact sat_peek L _
    | with_reducible exact sat_skip L _
    | with_reducible exact sat_report L _ _ _
    | with_reducible exact sat_pure_any L _ _
    | with_reducible exact hstmt _ _
    | with_reducible exact hX.parse_expression_remainder _ _ _ (by first | assumption | (apply_assumption; assumption) | exact well_formed_variable L _ _ | exact well_formed_import L _ | exact well_formed_function L _ _ | exact well_formed_child_1 L (by assumption) | exact well_formed_set_child_1 (by assumption) (by assumption))
    | with_reducible exact sat_any (hX.parse_expression_remainder _ _ _ (by first | assumption | (apply_assumption; assumption) | exact well_formed_variable L _ _ | exact well_formed_import L _ | exact well_formed_function L _ _ | exact well_formed_child_1 L (by assumption) | exact well_formed_set_child_1 (by assumption) (by assumption)))
    | with_reducible exact hX.visit_expression _ _ _ (by first | assumption | (apply_assumption; assumption) | exact well_formed_variable L _ _ | exact well_formed_import L _ | exact well_formed_function L _ _ | exact well_formed_child_1 L (by assumption) | exact well_formed_set_child_1 (by assumption) (by assumption))
    | with_reducible exact hX.parse_generator_star _ _
    | with_reducible exact sat_parse_and_visit_function_parameters_and_body L hX hstmt
    | with_reducible exact sat_parse_and_visit_function_declaration_named_function L hX hstmt
    | with_reducible exact sat_get_state L _
    | with_reducible exact sat_end_of_previous_token L _
    | (lift_lets; intro jp; with_reducible apply sat_cut (f := jp); intro hjp; clear_value jp)
    | (lift_lets; intro _)
    | (with_reducible apply sat_unit <;> split)
    | dsimp -zeta only)

set_option maxHeartbeats 2000000 in
theorem sat_parse_and_visit_switch_loop {G : List Event → Prop} {R : StateRel} (L : R.laws G)
    {X : Externals} {stmt : parse_statement_type → P Bool} {fuel : Nat} {flag : Bool}
    (hX : X.respects G R)
    (hstmt : ∀ ty i, Sat R i i (fun _ => True) (stmt ty))
    {i : parse_point} :
    Sat R i i (fun _ => True) (parse_and_visit_switch.loop X stmt fuel flag) := by
  induction fuel generalizing flag i with
  | zero => exact sat_out_of_fuel _ _ _
  | succ fuel ih =>
    rw [parse_and_visit_switch.loop]
    repeat' (first
      | with_reducible exact hjp _
      | with_reducible exact sat_unimplemented_bind _ _ _ _
      | with_reducible exact sat_qljs_unimplemented_bind _ _ _ _
      | with_reducible apply sat_bind L
      | intro _ _
      | intro _
      | with_reducible apply sat_ite
      | with_reducible exact sat_peek L _
      | with_reducible exact sat_skip L _
      | with_reducible exact sat_report L _ _ _
      | with_reducible exact sat_pure_any L _ _
      | with_reducible exact ih
      | with_reducible exact hstmt _ _
      | with_reducible exact sat_unimplemented _ _ _
      | with_reducible exact sat_unimplemented_unit _
      | with_reducible exact sat_parse_and_visit_expression L hX
      | with_reducible exact sat_unimplemented_if_not_token L _ _
      | (lift_lets; intro jp; with_reducible apply sat_cut (f := jp); intro hjp; clear_value jp)
      | (lift_lets; intro _)
      | (with_reducible apply sat_unit <;> split)
      | dsimp -zeta only)

set_option maxHeartbeats 2000000 in
theorem sat_parse_and_visit_switch {G : List Event → Prop} {R : StateRel} (L : R.laws G)
    {X : Externals} {stmt : parse_statement_type → P Bool} {fuel : Nat}
    (hX : X.respects G R)
    (hstmt : ∀ ty i, Sat R i i (fun _ => True) (stmt ty))
    {i : parse_point} :
    Sat R i i (fun _ => True) (parse_and_visit_switch X stmt fuel) := by
  rw [parse_and_visit_switch]
  repeat' (first
    | with_reducible exact hjp _
    | with_reducible exact sat_unimplemented_bind _ _ _ _
    | with_reducible exact sat_qljs_unimplemented_bind _ _ _ _
    | with_reducible apply sat_bind L
    | intro _ _
    | intro _
    | with_reducible apply sat_ite
    | with_reducible exact sat_peek L _
    | with_reducible exact sat_skip L _
    | with_reducible exact sat_report L _ _ _
    | with_reducible exact sat_pure_any L _ _
    | with_reducible exact hstmt _ _
    | with_reducible exact hX.parse_and_visit_parenthesized_expression _ _ _ _
    | with_reducible exact sat_parse_and_visit_switch_loop L hX hstmt
    | with_reducible exact sat_end_of_previous_token L _
    | with_reducible exact sat_visit_enter_block_scope L _ _ _
    | with_reducible exact sat_visit_exit_block_scope L _ _ _
    | (lift_lets; intro jp; with_reducible apply sat_cut (f := jp); intro hjp; clear_value jp)
    | (lift_lets; intro _)
    | (with_reducible apply sat_unit <;> split)
    | dsimp -zeta only)

set_option maxHeartbeats 2000000 in
theorem sat_parse_and_visit_catch_or_finally_or_both {G : List Event → Prop} {R : StateRel} (L : R.laws G)
    {X : Externals} {stmt : parse_statement_type → P Bool} {fuel : Nat}
    (hX : X.respects G R)
    (hstmt : ∀ ty i, Sat R i i (fun _ => True) (stmt ty))
    {i : parse_point} :
    Sat R i i (fun _ => True) (parse_and_visit_catch_or_finally_or_both X stmt fuel) := by
  delta parse_and_visit_catch_or_finally_or_both
  repeat' (first
    | (lift_lets; intro jp; with_reducible apply sat_cut (f := jp); intro hjp; clear_value jp)
    | (lift_lets; intro _)
    | with_reducible exact hjp _
    | with_reducible exact sat_unimplemented_bind _ _ _ _
    | with_reducible exact sat_qljs_unimplemented_bind _ _ _ _
    | with_reducible apply sat_bind L
    | intro _ _
    | intro _
    | with_reducible apply sat_ite
    | with_reducible exact sat_peek L _
    | with_reducible exact sat_skip L _
    | with_reducible exact sat_report L _ _ _
    | with_reducible apply_assumption
    | with_reducible exact sat_pure_any L _ _
    | with_reducible exact hstmt _ _
    | with_reducible exact sat_unimplemented _ _ _
    | with_reducible exact sat_unimplemented_unit _
    | with_reducible exact hX.parse_expression _ _
    | with_reducible exact sat_any (hX.parse_expression _ _)
    | with_reducible exact hX.parse_and_visit_typescript_type_expression _
    | with_reducible exact sat_visit_binding_element L hX (by first | assumption | exact well_formed_variable L _ _ | exact well_formed_import L _ | exact well_formed_function L _ _ | exact well_formed_child_1 L (by assumption) | exact well_formed_set_child_1 (by assumption) (by assumption))
    | with_reducible exact sat_parse_and_visit_statement_block_no_scope L hstmt
    | with_reducible exact sat_get_state L _
    | with_reducible exact sat_end_of_previous_token L _
    | with_reducible exact sat_unimplemented_if_not_token L _ _
    | with_reducible exact sat_visit_enter_block_scope L _ _ _
    | with_reducible exact sat_visit_exit_block_scope L _ _ _
    | with_reducible exact sat_visit_variable_declaration L _ _ _ _
    | with_reducible apply sat_with_null_visitor L _ _ _
    | (lift_lets; intro jp; with_reducible apply sat_cut (f := jp); intro hjp; clear_value jp)
    | (lift_lets; intro _)
    | (with_reducible apply sat_unit <;> split)
    | dsimp -zeta only)

set_option maxHeartbeats 2000000 in
theorem sat_parse_and_visit_try_maybe_catch_maybe_finally {G : List Event → Prop} {R : StateRel} (L : R.laws G)
    {X : Externals} {stmt : parse_statement_type → P Bool} {fuel : Nat}
    (hX : X.respects G R)
    (hstmt : ∀ ty i, Sat R i i (fun _ => True) (stmt ty))
    {i : parse_point} :
    Sat R i i (fun _ => True) (parse_and_visit_try_maybe_catch_maybe_finally X stmt fuel) := by
  rw [parse_and_visit_try_maybe_catch_maybe_finally]
  repeat' (first
    | with_reducible exact hjp _
    | with_reducible exact sat_unimplemented_bind _ _ _ _
    | with_reducible exact sat_qljs_unimplemented_bind _ _ _ _
    | with_reducible apply sat_bind L
    | intro _ _
    | intro _
    | with_reducible apply sat_ite
    | with_reducible exact sat_peek L _
    | with_reducible exact sat_skip L _
    | with_reducible exact sat_report L _ _ _
    | with_reducible exact sat_pure_any L _ _
    | with_reducible exact hstmt _ _
    | with_reducible exact sat_parse_and_visit_statement_block_no_scope L hstmt
    | with_reducible exact sat_parse_and_visit_catch_or_finally_or_both L hX hstmt
    | with_reducible exact sat_end_of_previous_token L _
    | with_reducible exact sat_visit_enter_block_scope L _ _ _
    | with_reducible exact sat_visit_exit_block_scope L _ _ _
    | (lift_lets; intro jp; with_reducible apply sat_cut (f := jp); intro hjp; clear_value jp)
    | (lift_lets; intro _)
    | (with_reducible apply sat_unit <;> split)
    | dsimp -zeta only)

set_option maxHeartbeats 2000000 in
theorem sat_parse_and_visit_do_while {G : List Event → Prop} {R : StateRel} (L : R.laws G)
    {X : Externals} {stmt : parse_statement_type → P Bool}
    (hX : X.respects G R)
    (hstmt : ∀ ty i, Sat R i i (fun _ => True) (stmt ty))
    {i : parse_point} :
    Sat R i i (fun _ => True) (parse_and_visit_do_while X stmt) := by
  rw [parse_and_visit_do_while]
  repeat' (first
    | with_reducible exact hjp _
    | with_reducible exact sat_unimplemented_bind _ _ _ _
    | with_reducible exact sat_qljs_unimplemented_bind _ _ _ _
    | with_reducible apply sat_bind L
    | intro _ _
    | intro _
    | with_reducible apply sat_ite
    | with_reducible exact sat_peek L _
    | with_reducible exact sat_skip L _
    | with_reducible exact sat_report L _ _ _
    | with_reducible exact sat_pure_any L _ _
    | with_reducible exact hstmt _ _
    | with_reducible exact sat_unimplemented _ _ _
    | with_reducible exact sat_unimplemented_unit _
    | with_reducible exact hX.parse_and_visit_parenthesized_expression _ _ _ _
    | with_reducible exact hX.error_on_class_statement _ _
    | with_reducible exact hX.error_on_function_statement _ _
    | with_reducible exact hX.error_on_lexical_declaration _ _
    | with_reducible exact sat_end_of_previous_token L _
    | (lift_lets; intro jp; with_reducible apply sat_cut (f := jp); intro hjp; clear_value jp)
    | (lift_lets; intro _)
    | (with_reducible apply sat_unit <;> split)
    | dsimp -zeta only)

set_option maxHeartbeats 2000000 in
theorem sat_parse_and_visit_while {G : List Event → Prop} {R : StateRel} (L : R.laws G)
    {X : Externals} {stmt : parse_statement_type → P Bool}
    (hX : X.respects G R)
    (hstmt : ∀ ty i, Sat R i i (fun _ => True) (stmt ty))
    {i : parse_point} :
    Sat R i i (fun _ => True) (parse_and_visit_while X stmt) := by
  rw [parse_and_visit_while]
  repeat' (first
    | with_reducible exact hjp _
    | with_reducible exact sat_unimplemented_bind _ _ _ _
    | with_reducible exact sat_qljs_unimplemented_bind _ _ _ _
    | with_reducible apply sat_bind L
    | intro _ _
    | intro _
    | with_reducible apply sat_ite
    | with_reducible exact sat_peek L _
    | with_reducible exact sat_skip L _
    | with_reducible exact sat_report L _ _ _
    | with_reducible exact sat_pure_any L _ _
    | with_reducible exact hstmt _ _
    | with_reducible exact hX.parse_and_visit_parenthesized_expression _ _ _ _
    | with_reducible exact hX.error_on_class_statement _ _
    | with_reducible exact hX.error_on_function_statement _ _
    | with_reducible exact hX.error_on_lexical_declaration _ _
    | with_reducible exact sat_end_of_previous_token L _
    | (lift_lets; intro jp; with_reducible apply sat_cut (f := jp); intro hjp; clear_value jp)
    | (lift_lets; intro _)
    | (with_reducible apply sat_unit <;> split)
    | dsimp -zeta only)

set_option maxHeartbeats 2000000 in
theorem sat_parse_and_visit_with {G : List Event → Prop} {R : StateRel} (L : R.laws G)
    {X : Externals} {stmt : parse_statement_type → P Bool}
    (hX : X.respects G R)
    (hstmt : ∀ ty i, Sat R i i (fun _ => True) (stmt ty))
    {i : parse_point} :
    Sat R i i (fun _ => True) (parse_and_visit_with X stmt) := by
  rw [parse_and_visit_with]
  repeat' (first
    | with_reducible exact hjp _
    | with_reducible exact sat_unimplemented_bind _ _ _ _
    | with_reducible exact sat_qljs_unimplemented_bind _ _ _ _
    | with_reducible apply sat_bind L
    | intro _ _
    | intro _
    | with_reducible apply sat_ite
    | with_reducible exact sat_skip L _
    | with_reducible exact sat_pure_any L _ _
    | with_reducible exact hstmt _ _
    | with_reducible exact sat_unimplemented _ _ _
    | with_reducible exact sat_unimplemented_unit _
    | with_reducible exact hX.parse_and_visit_parenthesized_expression _ _ _ _
    | with_reducible exact hX.error_on_class_statement _ _
    | with_reducible exact hX.error_on_function_statement _ _
    | with_reducible exact hX.error_on_lexical_declaration _ _
    | with_reducible exact sat_visit_enter_with_scope L _ _ _
    | with_reducible exact sat_visit_exit_with_scope L _ _ _
    | (lift_lets; intro jp; with_reducible apply sat_cut (f := jp); intro hjp; clear_value jp)
    | (lift_lets; intro _)
    | (with_reducible apply sat_unit <;> split)
    | dsimp -zeta only)

set_option maxHeartbeats 2000000 in
theorem sat_parse_and_visit_if_parse_and_visit_body {G : List Event → Prop} {R : StateRel} (L : R.laws G)
    {X : Externals} {stmt : parse_statement_type → P Bool}
    (hX : X.respects G R)
    (hstmt : ∀ ty i, Sat R i i (fun _ => True) (stmt ty))
    {i : parse_point} :
    Sat R i i (fun _ => True) (parse_and_visit_if.parse_and_visit_body X stmt) := by
  rw [parse_and_visit_if.parse_and_visit_body]
  refine sat_bind L (hX.error_on_class_statement _ _) (fun _ _ => ?_)
  refine sat_bind L (hX.error_on_lexical_declaration _ _) (fun _ _ => ?_)
  refine sat_bind L (hX.is_maybe_function_statement _) (fun entered _ => ?_)
  cases entered <;> simp -zeta only [↓reduceIte, Bool.false_eq_true]
  repeat' (first
    | with_reducible exact hjp _
    | with_reducible exact sat_unimplemented_bind _ _ _ _
    | with_reducible exact sat_qljs_unimplemented_bind _ _ _ _
    | with_reducible apply sat_bind L
    | intro _ _
    | intro _
    | with_reducible apply sat_ite
    | with_reducible exact sat_pure_any L _ _
    | with_reducible exact hstmt _ _
    | with_reducible exact sat_unimplemented _ _ _
    | with_reducible exact sat_unimplemented_unit _
    | with_reducible exact hX.error_on_class_statement _ _
    | with_reducible exact hX.error_on_lexical_declaration _ _
    | with_reducible exact hX.is_maybe_function_statement _
    | with_reducible exact sat_visit_enter_block_scope L _ _ _
    | with_reducible exact sat_visit_exit_block_scope L _ _ _
    | (lift_lets; intro jp; with_reducible apply sat_cut (f := jp); intro hjp; clear_value jp)
    | (lift_lets; intro _)
    | (with_reducible apply sat_unit <;> split)
    | dsimp -zeta only)

set_option maxHeartbeats 2000000 in
theorem sat_parse_and_visit_if_parse_maybe_else {G : List Event → Prop} {R : StateRel} (L : R.laws G)
    {X : Externals} {stmt : parse_statement_type → P Bool} {fuel : Nat}
    (hX : X.respects G R)
    (hstmt : ∀ ty i, Sat R i i (fun _ => True) (stmt ty))
    {i : parse_point} :
    Sat R i i (fun _ => True) (parse_and_visit_if.parse_maybe_else X stmt fuel) := by
  induction fuel generalizing i with
  | zero => exact sat_out_of_fuel _ _ _
  | succ fuel ih =>
    rw [parse_and_visit_if.parse_maybe_else]
    repeat' (first
      | with_reducible exact hjp _
      | with_reducible exact sat_unimplemented_bind _ _ _ _
      | with_reducible exact sat_qljs_unimplemented_bind _ _ _ _
      | with_reducible apply sat_bind L
      | intro _ _
      | intro _
      | with_reducible apply sat_ite
      | with_reducible exact sat_peek L _
      | with_reducible exact sat_skip L _
      | with_reducible exact sat_report L _ _ _
      | with_reducible exact sat_pure_any L _ _
      | with_reducible exact ih
      | with_reducible exact hstmt _ _
      | with_reducible exact sat_parse_and_visit_expression L hX
      | with_reducible exact sat_parse_and_visit_if_parse_and_visit_body L hX hstmt
      | with_reducible exact sat_end_of_previous_token L _
      | (lift_lets; intro jp; with_reducible apply sat_cut (f := jp); intro hjp; clear_value jp)
      | (lift_lets; intro _)
      | (with_reducible apply sat_unit <;> split)
      | dsimp -zeta only)

set_option maxHeartbeats 2000000 in
theorem sat_parse_and_visit_if {G : List Event → Prop} {R : StateRel} (L : R.laws G)
    {X : Externals} {stmt : parse_statement_type → P Bool} {fuel : Nat}
    (hX : X.respects G R)
    (hstmt : ∀ ty i, Sat R i i (fun _ => True) (stmt ty))
    {i : parse_point} :
    Sat R i i (fun _ => True) (parse_and_visit_if X stmt fuel) := by
  rw [parse_and_visit_if]
  repeat' (first
    | with_reducible exact hjp _
    | with_reducible exact sat_unimplemented_bind _ _ _ _
    | with_reducible exact sat_qljs_unimplemented_bind _ _ _ _
    | with_reducible apply sat_bind L
    | intro _ _
    | intro _
    | with_reducible apply sat_ite
    | with_reducible exact sat_peek L _
    | with_reducible exact sat_skip L _
    | with_reducible exact sat_report L _ _ _
    | with_reducible exact sat_pure_any L _ _
    | with_reducible exact hstmt _ _
    | with_reducible exact hX.parse_and_visit_parenthesized_expression _ _ _ _
    | with_reducible exact sat_parse_and_visit_if_parse_and_visit_body L hX hstmt
    | with_reducible exact sat_parse_and_visit_if_parse_maybe_else L hX hstmt
    | with_reducible exact sat_end_of_previous_token L _
    | (lift_lets; intro jp; with_reducible apply sat_cut (f := jp); intro hjp; clear_value jp)
    | (lift_lets; intro _)
    | (with_reducible apply sat_unit <;> split)
    | dsimp -zeta only)

set_option maxHeartbeats 2000000 in
theorem sat_parse_and_visit_for_parse_c_style_head_remainder {G : List Event → Prop} {R : StateRel} (L : R.laws G)
    {X : Externals} {first_semicolon_span : source_code_span}
    (hX : X.respects G R)
    {i : parse_point} :
    Sat R i i (fun (r : Option expression) => ∀ e : expression, r = some e → e.well_formed G) (parse_and_visit_for.parse_c_style_head_remainder X first_semicolon_span) := by
  rw [parse_and_visit_for.parse_c_style_head_remainder]
  repeat' (first
    | with_reducible exact hjp _
    | with_reducible exact sat_unimplemented_bind _ _ _ _
    | with_reducible exact sat_qljs_unimplemented_bind _ _ _ _
    | with_reducible apply sat_bind L
    | intro _ _
    | intro _
    | with_reducible apply sat_ite
    | with_reducible exact sat_peek L _
    | with_reducible exact sat_skip L _
    | with_reducible exact sat_report L _ _ _
    | (with_reducible refine sat_pure L _ (fun (r : Option expression) => ∀ e : expression, r = some e → e.well_formed G) _ ?_; intro e h; first | (cases h; done) | (cases h; assumption) | exact (by assumption : ∀ e, _ = some e → expression.well_formed G e) e h)
    | with_reducible exact sat_pure_any L _ _
    | with_reducible exact hX.parse_expression _ _
    | with_reducible exact sat_any (hX.parse_expression _ _)
    | with_reducible exact hX.visit_expression _ _ _ (by first | assumption | (apply_assumption; assumption) | exact well_formed_variable L _ _ | exact well_formed_import L _ | exact well_formed_function L _ _ | exact well_formed_child_1 L (by assumption) | exact well_formed_set_child_1 (by assumption) (by assumption))
    | with_reducible exact hX.error_on_sketchy_condition _ _
    | with_reducible exact sat_insert_semicolon L _
    | (lift_lets; intro jp; with_reducible apply sat_cut (f := jp); intro hjp; clear_value jp)
    | (lift_lets; intro _)
    | (with_reducible apply sat_unit <;> split)
    | dsimp -zeta only)

set_option maxHeartbeats 2000000 in
theorem sat_parse_and_visit_for_parse_in_or_of_or_condition_update {G : List Event → Prop} {R : StateRel} (L : R.laws G)
    {X : Externals} {left_paren_token_begin : Nat} {for_token_span : source_code_span}
    {init_expression : expression}
    (hX : X.respects G R)
    (hinit : init_expression.well_formed G)
    {i : parse_point} :
    Sat R i i (fun (r : Option loop_style × Option expression) => ∀ e : expression, r.2 = some e → e.well_formed G) (parse_and_visit_for.parse_in_or_of_or_condition_update X left_paren_token_begin for_token_span init_expression) := by
  rw [parse_and_visit_for.parse_in_or_of_or_condition_update]
  repeat' (first
    | with_reducible exact hjp _
    | with_reducible exact sat_unimplemented_bind _ _ _ _
    | with_reducible exact sat_qljs_unimplemented_bind _ _ _ _
    | with_reducible apply sat_bind L
    | intro _ _
    | intro _
    | with_reducible apply sat_ite
    | with_reducible exact sat_peek L _
    | with_reducible exact sat_skip L _
    | with_reducible exact sat_report L _ _ _
    | (with_reducible refine sat_pure L _ (fun (r : Option loop_style × Option expression) => ∀ e : expression, r.2 = some e → e.well_formed G) _ ?_; intro e h; first | (cases h; done) | (cases h; assumption) | exact (by assumption : ∀ e, _ = some e → expression.well_formed G e) e h)
    | with_reducible exact sat_pure_any L _ _
    | with_reducible exact hX.parse_expression _ _
    | with_reducible exact sat_any (hX.parse_expression _ _)
    | with_reducible exact hX.visit_expression _ _ _ (by first | assumption | (apply_assumption; assumption) | exact well_formed_variable L _ _ | exact well_formed_import L _ | exact well_formed_function L _ _ | exact well_formed_child_1 L (by assumption) | exact well_formed_set_child_1 (by assumption) (by assumption))
    | with_reducible exact hX.visit_assignment_expression _ _ _ (by first | assumption | (apply_assumption; assumption) | exact well_formed_variable L _ _ | exact well_formed_import L _ | exact well_formed_function L _ _ | exact well_formed_child_1 L (by assumption) | exact well_formed_set_child_1 (by assumption) (by assumption)) (by first | assumption | (apply_assumption; assumption) | exact well_formed_variable L _ _ | exact well_formed_import L _ | exact well_formed_function L _ _ | exact well_formed_child_1 L (by assumption) | exact well_formed_set_child_1 (by assumption) (by assumption))
    | with_reducible exact sat_parse_and_visit_for_parse_c_style_head_remainder L hX
    | with_reducible exact sat_insert_semicolon L _
    | (lift_lets; intro jp; with_reducible apply sat_cut (f := jp); intro hjp; clear_value jp)
    | (lift_lets; intro _)
    | (with_reducible apply sat_unit <;> split)
    | dsimp -zeta only)

set_option maxHeartbeats 2000000 in
theorem sat_parse_and_visit_for_declaration {G : List Event → Prop} {R : StateRel} (L : R.laws G)
    {X : Externals} {fuel : Nat} {left_paren_token_begin : Nat}
    {for_token_span : source_code_span}
    (hX : X.respects G R)
    {i : parse_point} :
    Sat R i i (fun (r : Option loop_style × Option expression) => ∀ e : expression, r.2 = some e → e.well_formed G) (parse_and_visit_for.declaration X fuel left_paren_token_begin for_token_span) := by
  delta parse_and_visit_for.declaration
  repeat' (first
    | (with_reducible refine hjp _ ?_; intro e h; first | (cases h; done) | (cases h; assumption) | exact (by assumption : ∀ e, _ = some e → expression.well_formed G e) e h)
    | with_reducible exact hjp _
    | with_reducible exact sat_unimplemented_bind _ _ _ _
    | with_reducible exact sat_qljs_unimplemented_bind _ _ _ _
    | with_reducible apply sat_bind L
    | intro _ _
    | intro _
    | with_reducible apply sat_ite
    | with_reducible exact sat_peek L _
    | with_reducible exact sat_skip L _
    | with_reducible exact sat_report L _ _ _
    | (with_reducible refine sat_pure L _ (fun (r : Option loop_style × Option expression) => ∀ e : expression, r.2 = some e → e.well_formed G) _ ?_; intro e h; first | (cases h; done) | (cases h; assumption) | exact (by assumption : ∀ e, _ = some e → expression.well_formed G e) e h)
    | with_reducible exact sat_pure_any L _ _
    | with_reducible exact sat_unimplemented _ _ _
    | with_reducible exact sat_unimplemented_unit _
    | with_reducible exact hX.parse_expression _ _
    | with_reducible exact sat_any (hX.parse_expression _ _)
    | with_reducible exact hX.visit_expression _ _ _ (by first | assumption | (apply_assumption; assumption) | exact well_formed_variable L _ _ | exact well_formed_import L _ | exact well_formed_function L _ _ | exact well_formed_child_1 L (by assumption) | exact well_formed_set_child_1 (by assumption) (by assumption))
    | with_reducible exact hX.maybe_visit_assignment _ _ (by first | assumption | (apply_assumption; assumption) | exact well_formed_variable L _ _ | exact well_formed_import L _ | exact well_formed_function L _ _ | exact well_formed_child_1 L (by assumption) | exact well_formed_set_child_1 (by assumption) (by assumption))
    | with_reducible exact hX.is_let_token_a_variable_reference _ _ _
    | with_reducible exact sat_parse_and_visit_let_bindings L hX
    | with_reducible exact sat_parse_and_visit_for_parse_c_style_head_remainder L hX
    | with_reducible exact sat_begin_transaction L _
    | with_reducible exact sat_commit_transaction L _ _
    | with_reducible exact sat_roll_back_transaction L _ _
    | with_reducible exact sat_top_buffering_visitor_move_into_v L _ _ _
    | with_reducible exact sat_buffering_visitor_stack_emplace L _ _ _
    | with_reducible exact sat_buffering_visitor_stack_pop L _ _ _
    | with_reducible apply sat_with_top_buffering_visitor L _ _ _ _ _
    | (lift_lets; intro jp; with_reducible apply sat_cut_pre (fun (r : Option loop_style × Option expression) => ∀ e : expression, r.2 = some e → e.well_formed G) (f := jp); intro hjp; clear_value jp)
    | (lift_lets; intro jp; with_reducible apply sat_cut (f := jp); intro hjp; clear_value jp)
    | (lift_lets; intro _)
    | (with_reducible apply sat_unit <;> split)
    | dsimp -zeta only)

set_option maxHeartbeats 2000000 in
theorem sat_parse_and_visit_for_async {G : List Event → Prop} {R : StateRel} (L : R.laws G)
    {X : Externals} {left_paren_token_begin : Nat} {for_token_span : source_code_span}
    (hX : X.respects G R)
    {i : parse_point} :
    Sat R i i (fun (r : Option loop_style × Option expression) => ∀ e : expression, r.2 = some e → e.well_formed G) (parse_and_visit_for.async X left_paren_token_begin for_token_span) := by
  rw [parse_and_visit_for.async]
  repeat' (first
    | with_reducible exact hjp _
    | with_reducible exact sat_unimplemented_bind _ _ _ _
    | with_reducible exact sat_qljs_unimplemented_bind _ _ _ _
    | with_reducible apply sat_bind L
    | intro _ _
    | intro _
    | with_reducible apply sat_ite
    | with_reducible exact sat_peek L _
    | with_reducible exact sat_skip L _
    | with_reducible exact sat_report L _ _ _
    | with_reducible exact sat_pure L _ (expression.well_formed G) _ (well_formed_variable L _ _)
    | (with_reducible refine sat_pure L _ (fun (r : Option loop_style × Option expression) => ∀ e : expression, r.2 = some e → e.well_formed G) _ ?_; intro e h; first | (cases h; done) | (cases h; assumption) | exact (by assumption : ∀ e, _ = some e → expression.well_formed G e) e h)
    | with_reducible exact sat_pure_any L _ _
    | with_reducible exact hX.parse_expression _ _
    | with_reducible exact sat_any (hX.parse_expression _ _)
    | with_reducible exact sat_parse_and_visit_for_parse_in_or_of_or_condition_update L hX (by first | assumption | exact well_formed_variable L _ _)
    | with_reducible exact sat_begin_transaction L _
    | with_reducible exact sat_roll_back_transaction L _ _
    | (lift_lets; intro jp; with_reducible apply sat_cut (f := jp); intro hjp; clear_value jp)
    | (lift_lets; intro _)
    | (with_reducible apply sat_unit <;> split)
    | dsimp -zeta only)

set_option maxHeartbeats 2000000 in
theorem sat_parse_and_visit_for_extra_semicolons {G : List Event → Prop} {R : StateRel} (L : R.laws G)
    {X : Externals} {for_loop_style : Option loop_style} {fuel : Nat}
    (hX : X.respects G R)
    {i : parse_point} :
    Sat R i i (fun _ => True) (parse_and_visit_for.extra_semicolons X for_loop_style fuel) := by
  induction fuel generalizing for_loop_style i with
  | zero => exact sat_out_of_fuel _ _ _
  | succ fuel ih =>
    rw [parse_and_visit_for.extra_semicolons]
    repeat' (first
      | with_reducible exact hjp _
      | with_reducible exact sat_unimplemented_bind _ _ _ _
      | with_reducible exact sat_qljs_unimplemented_bind _ _ _ _
      | with_reducible apply sat_bind L
      | intro _ _
      | intro _
      | with_reducible apply sat_ite
      | with_reducible exact sat_peek L _
      | with_reducible exact sat_skip L _
      | with_reducible exact sat_report L _ _ _
      | with_reducible exact sat_pure_any L _ _
      | with_reducible exact ih
      | with_reducible exact sat_parse_and_visit_expression L hX
      | (lift_lets; intro jp; with_reducible apply sat_cut (f := jp); intro hjp; clear_value jp)
      | (lift_lets; intro _)
      | (with_reducible apply sat_unit <;> split)
      | dsimp -zeta only)

set_option maxHeartbeats 2000000 in
theorem sat_parse_and_visit_for {G : List Event → Prop} {R : StateRel} (L : R.laws G)
    {X : Externals} {stmt : parse_statement_type → P Bool} {fuel : Nat}
    (hX : X.respects G R)
    (hstmt : ∀ ty i, Sat R i i (fun _ => True) (stmt ty))
    {i : parse_point} :
    Sat R i i (fun _ => True) (parse_and_visit_for X stmt fuel) := by
  delta parse_and_visit_for
  obtain ⟨a, n, g⟩ := i
  refine sat_bind L (sat_peek L _) (fun for_token _ => ?_)
  lift_lets
  intro for_token_span jp1
  apply sat_cut (f := jp1) (k := ⟨a, n, g⟩) (j := ⟨a, n, g⟩) (Q := fun _ => True)
  · intro hjp
    clear_value jp1
    repeat' (first
        | with_reducible exact hjp _
        | with_reducible exact sat_unimplemented_bind _ _ _ _
        | with_reducible exact sat_qljs_unimplemented_bind _ _ _ _
        | with_reducible apply sat_bind L
        | intro _ _
        | intro _
        | with_reducible apply sat_ite
        | with_reducible exact sat_peek L _
        | with_reducible exact sat_skip L _
        | with_reducible exact sat_report L _ _ _
        | with_reducible exact sat_pure_any L _ _
        | with_reducible exact hstmt _ _
        | with_reducible exact hX.parse_expression _ _
        | with_reducible exact sat_any (hX.parse_expression _ _)
        | with_reducible exact hX.visit_expression _ _ _ (by first | assumption | (apply_assumption; assumption) | exact well_formed_variable L _ _ | exact well_formed_import L _ | exact well_formed_function L _ _ | exact well_formed_child_1 L (by assumption) | exact well_formed_set_child_1 (by assumption) (by assumption))
        | with_reducible exact hX.error_on_class_statement _ _
        | with_reducible exact hX.error_on_function_statement _ _
        | with_reducible exact hX.error_on_lexical_declaration _ _
        | with_reducible exact sat_parse_and_visit_for_parse_c_style_head_remainder L hX
        | with_reducible exact sat_parse_and_visit_for_parse_in_or_of_or_condition_update L hX (by first | assumption | exact well_formed_variable L _ _)
        | with_reducible exact sat_parse_and_visit_for_declaration L hX
        | with_reducible exact sat_parse_and_visit_for_async L hX
        | with_reducible exact sat_parse_and_visit_for_extra_semicolons L hX
        | with_reducible exact sat_end_of_previous_token L _
        | with_reducible exact sat_unimplemented_if_not_token L _ _
        | with_reducible exact sat_visit_enter_for_scope L _ _ _
        | with_reducible exact sat_visit_exit_for_scope L _ _ _
        | (lift_lets; intro jp; with_reducible apply sat_cut (f := jp); intro hjp; clear_value jp)
        | (lift_lets; intro _)
        | (with_reducible apply sat_unit <;> split)
        | dsimp -zeta only)
  · intro y
    dsimp -zeta only [jp1]
    refine sat_bind L (sat_peek L _) (fun t _ => ?_)
    lift_lets
    intro left_paren_token_begin
    refine sat_ite (sat_report L _ _ _) ?_
    refine sat_bind L (sat_skip L _) (fun _ _ => ?_)
    refine sat_bind L (sat_peek L _) (fun t2 _ => ?_)
    by_cases hc : t2.type = .kw_const
    · lift_lets
      intro entered
      have he : entered = true := by simp [entered, hc]
      clear_value entered
      subst he
      have hb1 : (token_type.kw_const == token_type.kw_const || token_type.kw_const == token_type.kw_let || token_type.kw_const == token_type.kw_var) = true := by decide
      simp -zeta only [hc, beq_iff_eq, reduceCtorEq, ↓reduceIte, hb1]
      repeat' (first
          | ((first | lift_lets | skip); intro jp; with_reducible apply sat_cut_pre (fun (r : Option loop_style × Option expression) => ∀ e : expression, r.2 = some e → e.well_formed G) (f := jp); intro hjp; clear_value jp)
          | ((first | lift_lets | skip); intro jp; with_reducible apply sat_cut (f := jp); intro hjp; clear_value jp)
          | (with_reducible refine hjp _ ?_; intro e h; first | (cases h; done) | (cases h; assumption) | exact (by assumption : ∀ e, _ = some e → expression.well_formed G e) e h)
          | with_reducible exact hjp _
          | with_reducible exact sat_unimplemented_bind _ _ _ _
          | with_reducible exact sat_qljs_unimplemented_bind _ _ _ _
          | with_reducible apply sat_bind L
          | intro _ _
          | intro _
          | with_reducible apply sat_ite
          | with_reducible exact sat_peek L _
          | with_reducible exact sat_skip L _
          | with_reducible exact sat_report L _ _ _
          | (with_reducible refine sat_pure L _ (fun (r : Option loop_style × Option expression) => ∀ e : expression, r.2 = some e → e.well_formed G) _ ?_; intro e h; first | (cases h; done) | (cases h; assumption) | exact (by assumption : ∀ e, _ = some e → expression.well_formed G e) e h)
          | with_reducible exact sat_pure_any L _ _
          | with_reducible exact hstmt _ _
          | with_reducible exact hX.parse_expression _ _
          | with_reducible exact sat_any (hX.parse_expression _ _)
          | with_reducible exact hX.visit_expression _ _ _ (by first | assumption | (apply_assumption; assumption) | exact well_formed_variable L _ _ | exact well_formed_import L _ | exact well_formed_function L _ _ | exact well_formed_child_1 L (by assumption) | exact well_formed_set_child_1 (by assumption) (by assumption))
          | with_reducible exact hX.error_on_class_statement _ _
          | with_reducible exact hX.error_on_function_statement _ _
          | with_reducible exact hX.error_on_lexical_declaration _ _
          | with_reducible exact sat_parse_and_visit_for_parse_c_style_head_remainder L hX
          | with_reducible exact sat_parse_and_visit_for_parse_in_or_of_or_condition_update L hX (by first | assumption | exact well_formed_variable L _ _)
          | with_reducible exact sat_parse_and_visit_for_declaration L hX
          | with_reducible exact sat_parse_and_visit_for_async L hX
          | with_reducible exact sat_parse_and_visit_for_extra_semicolons L hX
          | with_reducible exact sat_end_of_previous_token L _
          | with_reducible exact sat_unimplemented_if_not_token L _ _
          | with_reducible exact sat_visit_enter_for_scope L _ _ _
          | with_reducible exact sat_visit_exit_for_scope L _ _ _
                  | (lift_lets; intro _)
          | (with_reducible apply sat_unit <;> split)
          | split
          | dsimp -zeta only)
    · by_cases hl : t2.type = .kw_let
      · lift_lets
        intro entered
        have he : entered = true := by simp [entered, hl]
        clear_value entered
        subst he
        have hb1 : (token_type.kw_let == token_type.kw_const || token_type.kw_let == token_type.kw_let || token_type.kw_let == token_type.kw_var) = true := by decide
        simp -zeta only [hl, beq_iff_eq, reduceCtorEq, ↓reduceIte, hb1]
        repeat' (first
            | ((first | lift_lets | skip); intro jp; with_reducible apply sat_cut_pre (fun (r : Option loop_style × Option expression) => ∀ e : expression, r.2 = some e → e.well_formed G) (f := jp); intro hjp; clear_value jp)
            | ((first | lift_lets | skip); intro jp; with_reducible apply sat_cut (f := jp); intro hjp; clear_value jp)
            | (with_reducible refine hjp _ ?_; intro e h; first | (cases h; done) | (cases h; assumption) | exact (by assumption : ∀ e, _ = some e → expression.well_formed G e) e h)
            | with_reducible exact hjp _
            | with_reducible exact sat_unimplemented_bind _ _ _ _
            | with_reducible exact sat_qljs_unimplemented_bind _ _ _ _
            | with_reducible apply sat_bind L
            | intro _ _
            | intro _
            | with_reducible apply sat_ite
            | with_reducible exact sat_peek L _
            | with_reducible exact sat_skip L _
            | with_reducible exact sat_report L _ _ _
            | (with_reducible refine sat_pure L _ (fun (r : Option loop_style × Option expression) => ∀ e : expression, r.2 = some e → e.well_formed G) _ ?_; intro e h; first | (cases h; done) | (cases h; assumption) | exact (by assumption : ∀ e, _ = some e → expression.well_formed G e) e h)
            | with_reducible exact sat_pure_any L _ _
            | with_reducible exact hstmt _ _
            | with_reducible exact hX.parse_expression _ _
            | with_reducible exact sat_any (hX.parse_expression _ _)
            | with_reducible exact hX.visit_expression _ _ _ (by first | assumption | (apply_assumption; assumption) | exact well_formed_variable L _ _ | exact well_formed_import L _ | exact well_formed_function L _ _ | exact well_formed_child_1 L (by assumption) | exact well_formed_set_child_1 (by assumption) (by assumption))
            | with_reducible exact hX.error_on_class_statement _ _
            | with_reducible exact hX.error_on_function_statement _ _
            | with_reducible exact hX.error_on_lexical_declaration _ _
            | with_reducible exact sat_parse_and_visit_for_parse_c_style_head_remainder L hX
            | with_reducible exact sat_parse_and_visit_for_parse_in_or_of_or_condition_update L hX (by first | assumption | exact well_formed_variable L _ _)
            | with_reducible exact sat_parse_and_visit_for_declaration L hX
            | with_reducible exact sat_parse_and_visit_for_async L hX
            | with_reducible exact sat_parse_and_visit_for_extra_semicolons L hX
            | with_reducible exact sat_end_of_previous_token L _
            | with_reducible exact sat_unimplemented_if_not_token L _ _
            | with_reducible exact sat_visit_enter_for_scope L _ _ _
            | with_reducible exact sat_visit_exit_for_scope L _ _ _
                    | (lift_lets; intro _)
            | (with_reducible apply sat_unit <;> split)
            | split
            | dsimp -zeta only)
      · lift_lets
        intro entered
        have he : entered = false := by simp [entered, hc, hl]
        clear_value entered
        subst he
        simp -zeta only [Bool.false_eq_true, ↓reduceIte]
        repeat' (first
            | ((first | lift_lets | skip); intro jp; with_reducible apply sat_cut_pre (fun (r : Option loop_style × Option expression) => ∀ e : expression, r.2 = some e → e.well_formed G) (f := jp); intro hjp; clear_value jp)
            | ((first | lift_lets | skip); intro jp; with_reducible apply sat_cut (f := jp); intro hjp; clear_value jp)
            | (with_reducible refine hjp _ ?_; intro e h; first | (cases h; done) | (cases h; assumption) | exact (by assumption : ∀ e, _ = some e → expression.well_formed G e) e h)
            | with_reducible exact hjp _
            | with_reducible exact sat_unimplemented_bind _ _ _ _
            | with_reducible exact sat_qljs_unimplemented_bind _ _ _ _
            | with_reducible apply sat_bind L
            | intro _ _
            | intro _
            | with_reducible apply sat_ite
            | with_reducible exact sat_peek L _
            | with_reducible exact sat_skip L _
            | with_reducible exact sat_report L _ _ _
            | (with_reducible refine sat_pure L _ (fun (r : Option loop_style × Option expression) => ∀ e : expression, r.2 = some e → e.well_formed G) _ ?_; intro e h; first | (cases h; done) | (cases h; assumption) | exact (by assumption : ∀ e, _ = some e → expression.well_formed G e) e h)
            | with_reducible exact sat_pure_any L _ _
            | with_reducible exact hstmt _ _
            | with_reducible exact hX.parse_expression _ _
            | with_reducible exact sat_any (hX.parse_expression _ _)
            | with_reducible exact hX.visit_expression _ _ _ (by first | assumption | (apply_assumption; assumption) | exact well_formed_variable L _ _ | exact well_formed_import L _ | exact well_formed_function L _ _ | exact well_formed_child_1 L (by assumption) | exact well_formed_set_child_1 (by assumption) (by assumption))
            | with_reducible exact hX.error_on_class_statement _ _
            | with_reducible exact hX.error_on_function_statement _ _
            | with_reducible exact hX.error_on_lexical_declaration _ _
            | with_reducible exact sat_parse_and_visit_for_parse_c_style_head_remainder L hX
            | with_reducible exact sat_parse_and_visit_for_parse_in_or_of_or_condition_update L hX (by first | assumption | exact well_formed_variable L _ _)
            | with_reducible exact sat_parse_and_visit_for_declaration L hX
            | with_reducible exact sat_parse_and_visit_for_async L hX
            | with_reducible exact sat_parse_and_visit_for_extra_semicolons L hX
            | with_reducible exact sat_end_of_previous_token L _
            | with_reducible exact sat_unimplemented_if_not_token L _ _
            | with_reducible exact sat_visit_enter_for_scope L _ _ _
            | with_reducible exact sat_visit_exit_for_scope L _ _ _
                    | (lift_lets; intro _)
            | (with_reducible apply sat_unit <;> split)
            | split
            | dsimp -zeta only)

set_option maxHeartbeats 2000000 in
theorem sat_parse_and_visit_export_report_bad_tokens {G : List Event → Prop} {R : StateRel}
    (L : R.laws G) {X : Externals} {tokens : List token} (hX : X.respects G R)
    {i : parse_point} :
    Sat R i i (fun _ => True) (parse_and_visit_export.report_bad_tokens X tokens) := by
  induction tokens with
  | nil => exact sat_pure_any L _ _
  | cons t rest ih =>
    rw [parse_and_visit_export.report_bad_tokens]
    exact sat_ite
      (sat_bind L (hX.report_errors_for_escape_sequences_in_keyword _ _) (fun _ _ => ih))
      (sat_ite (sat_bind L (sat_report L _ _ _) (fun _ _ => ih))
        (sat_bind L (sat_report L _ _ _) (fun _ _ => ih)))

set_option maxHeartbeats 2000000 in
theorem sat_parse_and_visit_export {G : List Event → Prop} {R : StateRel} (L : R.laws G)
    {X : Externals} {stmt : parse_statement_type → P Bool} {fuel : Nat}
    (hX : X.respects G R)
    (hstmt : ∀ ty i, Sat R i i (fun _ => True) (stmt ty))
    {i : parse_point} :
    Sat R i i (fun _ => True) (parse_and_visit_export X stmt fuel) := by
  rw [parse_and_visit_export]
  repeat' (first
    | with_reducible exact hjp _
    | with_reducible exact sat_unimplemented_bind _ _ _ _
    | with_reducible exact sat_qljs_unimplemented_bind _ _ _ _
    | with_reducible apply sat_bind L
    | intro _ _
    | intro _
    | with_reducible apply sat_ite
    | with_reducible exact sat_peek L _
    | with_reducible exact sat_skip L _
    | with_reducible exact sat_report L _ _ _
    | with_reducible exact sat_pure_any L _ _
    | with_reducible exact hstmt _ _
    | with_reducible exact sat_unimplemented _ _ _
    | with_reducible exact sat_unimplemented_unit _
    | with_reducible exact hX.parse_expression _ _
    | with_reducible exact sat_any (hX.parse_expression _ _)
    | with_reducible exact hX.parse_async_expression _ _ _
    | with_reducible exact sat_any (hX.parse_async_expression _ _ _)
    | with_reducible exact hX.visit_expression _ _ _ (by first | assumption | (apply_assumption; assumption) | exact well_formed_variable L _ _ | exact well_formed_import L _ | exact well_formed_function L _ _ | exact well_formed_child_1 L (by assumption) | exact well_formed_set_child_1 (by assumption) (by assumption))
    | with_reducible exact hX.parse_and_visit_class _ _
    | with_reducible exact sat_consume_semicolon_after_statement L
    | with_reducible exact sat_parse_and_visit_expression L hX
    | with_reducible exact sat_parse_and_visit_let_bindings L hX
    | with_reducible exact sat_parse_and_visit_variable_declaration_statement L hX
    | with_reducible exact sat_parse_and_visit_named_exports_for_export L hX
    | with_reducible exact sat_parse_and_visit_function_declaration L hX hstmt
    | with_reducible exact sat_parse_and_visit_export_report_bad_tokens L hX
    | with_reducible exact sat_top_buffering_visitor_move_into_v L _ _ _
    | with_reducible exact sat_buffering_visitor_stack_emplace L _ _ _
    | with_reducible exact sat_buffering_visitor_stack_pop L _ _ _
    | with_reducible exact sat_unimplemented_if_not_token L _ _
    | with_reducible apply sat_with_top_buffering_visitor L _ _ _ _ _
    | (lift_lets; intro jp; with_reducible apply sat_cut (f := jp); intro hjp; clear_value jp)
    | (lift_lets; intro _)
    | (with_reducible apply sat_unit <;> split)
    | dsimp -zeta only)

set_option maxHeartbeats 2000000 in
theorem sat_parse_and_visit_statement_unmatched_parentheses {G : List Event → Prop} {R : StateRel} (L : R.laws G)
    {fuel : Nat}
    {i : parse_point} :
    Sat R i i (fun _ => True) (parse_and_visit_statement.unmatched_parentheses fuel) := by
  induction fuel generalizing i with
  | zero => exact sat_out_of_fuel _ _ _
  | succ fuel ih =>
    rw [parse_and_visit_statement.unmatched_parentheses]
    repeat' (first
      | with_reducible exact hjp _
      | with_reducible exact sat_unimplemented_bind _ _ _ _
      | with_reducible exact sat_qljs_unimplemented_bind _ _ _ _
      | with_reducible apply sat_bind L
      | intro _ _
      | intro _
      | with_reducible apply sat_ite
      | with_reducible exact sat_peek L _
      | with_reducible exact sat_skip L _
      | with_reducible exact sat_report L _ _ _
      | with_reducible exact sat_pure_any L _ _
      | with_reducible exact ih
      | (lift_lets; intro jp; with_reducible apply sat_cut (f := jp); intro hjp; clear_value jp)
      | (lift_lets; intro _)
      | (with_reducible apply sat_unit <;> split)
      | dsimp -zeta only)

set_option maxHeartbeats 2000000 in
theorem sat_parse_and_visit_statement_parse_expression_end {G : List Event → Prop} {R : StateRel} (L : R.laws G)
    {fuel : Nat}
    {i : parse_point} :
    Sat R i i (fun _ => True) (parse_and_visit_statement.parse_expression_end fuel) := by
  rw [parse_and_visit_statement.parse_expression_end]
  repeat' (first
    | with_reducible exact hjp _
    | with_reducible exact sat_unimplemented_bind _ _ _ _
    | with_reducible exact sat_qljs_unimplemented_bind _ _ _ _
    | with_reducible apply sat_bind L
    | intro _ _
    | intro _
    | with_reducible apply sat_ite
    | with_reducible exact sat_pure_any L _ _
    | with_reducible exact sat_consume_semicolon_after_statement L
    | with_reducible exact sat_parse_and_visit_statement_unmatched_parentheses L
    | (lift_lets; intro jp; with_reducible apply sat_cut (f := jp); intro hjp; clear_value jp)
    | (lift_lets; intro _)
    | (with_reducible apply sat_unit <;> split)
    | dsimp -zeta only)

set_option maxHeartbeats 2000000 in
theorem sat_parse_and_visit_statement_label_or_expression_starting_with_identifier {G : List Event → Prop} {R : StateRel} (L : R.laws G)
    {X : Externals} {fuel : Nat}
    (hX : X.respects G R)
    {i : parse_point} :
    Sat R i i (fun _ => True) (parse_and_visit_statement.label_or_expression_starting_with_identifier X fuel) := by
  rw [parse_and_visit_statement.label_or_expression_starting_with_identifier]
  repeat' (first
    | with_reducible exact hjp _
    | with_reducible exact sat_unimplemented_bind _ _ _ _
    | with_reducible exact sat_qljs_unimplemented_bind _ _ _ _
    | with_reducible apply sat_bind L
    | intro _ _
    | intro _
    | with_reducible apply sat_ite
    | with_reducible exact sat_peek L _
    | with_reducible exact sat_skip L _
    | with_reducible exact sat_pure_any L _ _
    | with_reducible exact hX.parse_expression_remainder _ _ _ (by first | assumption | (apply_assumption; assumption) | exact well_formed_variable L _ _ | exact well_formed_import L _ | exact well_formed_function L _ _ | exact well_formed_child_1 L (by assumption) | exact well_formed_set_child_1 (by assumption) (by assumption))
    | with_reducible exact sat_any (hX.parse_expression_remainder _ _ _ (by first | assumption | (apply_assumption; assumption) | exact well_formed_variable L _ _ | exact well_formed_import L _ | exact well_formed_function L _ _ | exact well_formed_child_1 L (by assumption) | exact well_formed_set_child_1 (by assumption) (by assumption)))
    | with_reducible exact hX.visit_expression _ _ _ (by first | assumption | (apply_assumption; assumption) | exact well_formed_variable L _ _ | exact well_formed_import L _ | exact well_formed_function L _ _ | exact well_formed_child_1 L (by assumption) | exact well_formed_set_child_1 (by assumption) (by assumption))
    | with_reducible exact sat_parse_and_visit_statement_parse_expression_end L
    | (lift_lets; intro jp; with_reducible apply sat_cut (f := jp); intro hjp; clear_value jp)
    | (lift_lets; intro _)
    | (with_reducible apply sat_unit <;> split)
    | dsimp -zeta only)

set_option maxHeartbeats 2000000 in
theorem sat_parse_and_visit_statement_case_kw_export {G : List Event → Prop} {R : StateRel} (L : R.laws G)
    {X : Externals} {stmt : parse_statement_type → P Bool} {fuel : Nat}
    (hX : X.respects G R)
    (hstmt : ∀ ty i, Sat R i i (fun _ => True) (stmt ty))
    {i : parse_point} :
    Sat R i i (fun _ => True) (parse_and_visit_statement.case_kw_export X stmt fuel) := by
  rw [parse_and_visit_statement.case_kw_export]
  repeat' (first
    | with_reducible exact hjp _
    | with_reducible exact sat_unimplemented_bind _ _ _ _
    | with_reducible exact sat_qljs_unimplemented_bind _ _ _ _
    | with_reducible apply sat_bind L
    | intro _ _
    | intro _
    | with_reducible apply sat_ite
    | with_reducible exact sat_pure_any L _ _
    | with_reducible exact hstmt _ _
    | with_reducible exact sat_parse_and_visit_export L hX hstmt
    | (lift_lets; intro jp; with_reducible apply sat_cut (f := jp); intro hjp; clear_value jp)
    | (lift_lets; intro _)
    | (with_reducible apply sat_unit <;> split)
    | dsimp -zeta only)

set_option maxHeartbeats 2000000 in
theorem sat_parse_and_visit_statement_case_semicolon {G : List Event → Prop} {R : StateRel} (L : R.laws G)
    {i : parse_point} :
    Sat R i i (fun _ => True) (parse_and_visit_statement.case_semicolon) := by
  rw [parse_and_visit_statement.case_semicolon]
  repeat' (first
    | with_reducible exact hjp _
    | with_reducible exact sat_unimplemented_bind _ _ _ _
    | with_reducible exact sat_qljs_unimplemented_bind _ _ _ _
    | with_reducible apply sat_bind L
    | intro _ _
    | intro _
    | with_reducible apply sat_ite
    | with_reducible exact sat_skip L _
    | with_reducible exact sat_pure_any L _ _
    | (lift_lets; intro jp; with_reducible apply sat_cut (f := jp); intro hjp; clear_value jp)
    | (lift_lets; intro _)
    | (with_reducible apply sat_unit <;> split)
    | dsimp -zeta only)

set_option maxHeartbeats 2000000 in
theorem sat_parse_and_visit_statement_case_kw_function {G : List Event → Prop} {R : StateRel} (L : R.laws G)
    {X : Externals} {stmt : parse_statement_type → P Bool} {fuel : Nat} {t : token}
    (hX : X.respects G R)
    (hstmt : ∀ ty i, Sat R i i (fun _ => True) (stmt ty))
    {i : parse_point} :
    Sat R i i (fun _ => True) (parse_and_visit_statement.case_kw_function X stmt fuel t) := by
  rw [parse_and_visit_statement.case_kw_function]
  repeat' (first
    | with_reducible exact hjp _
    | with_reducible exact sat_unimplemented_bind _ _ _ _
    | with_reducible exact sat_qljs_unimplemented_bind _ _ _ _
    | with_reducible apply sat_bind L
    | intro _ _
    | intro _
    | with_reducible apply sat_ite
    | with_reducible exact sat_pure_any L _ _
    | with_reducible exact hstmt _ _
    | with_reducible exact sat_parse_and_visit_function_declaration L hX hstmt
    | (lift_lets; intro jp; with_reducible apply sat_cut (f := jp); intro hjp; clear_value jp)
    | (lift_lets; intro _)
    | (with_reducible apply sat_unit <;> split)
    | dsimp -zeta only)

set_option maxHeartbeats 2000000 in
theorem sat_parse_and_visit_statement_case_kw_const_or_kw_var {G : List Event → Prop} {R : StateRel} (L : R.laws G)
    {X : Externals} {fuel : Nat}
    (hX : X.respects G R)
    {i : parse_point} :
    Sat R i i (fun _ => True) (parse_and_visit_statement.case_kw_const_or_kw_var X fuel) := by
  rw [parse_and_visit_statement.case_kw_const_or_kw_var]
  repeat' (first
    | with_reducible exact hjp _
    | with_reducible exact sat_unimplemented_bind _ _ _ _
    | with_reducible exact sat_qljs_unimplemented_bind _ _ _ _
    | with_reducible apply sat_bind L
    | intro _ _
    | intro _
    | with_reducible apply sat_ite
    | with_reducible exact sat_pure_any L _ _
    | with_reducible exact sat_parse_and_visit_variable_declaration_statement L hX
    | (lift_lets; intro jp; with_reducible apply sat_cut (f := jp); intro hjp; clear_value jp)
    | (lift_lets; intro _)
    | (with_reducible apply sat_unit <;> split)
    | dsimp -zeta only)

set_option maxHeartbeats 2000000 in
theorem sat_parse_and_visit_statement_case_kw_let {G : List Event → Prop} {R : StateRel} (L : R.laws G)
    {X : Externals} {fuel : Nat} {statement_type : parse_statement_type} {t : token}
    (hX : X.respects G R)
    {i : parse_point} :
    Sat R i i (fun _ => True) (parse_and_visit_statement.case_kw_let X fuel statement_type t) := by
  rw [parse_and_visit_statement.case_kw_let]
  repeat' (first
    | with_reducible exact hjp _
    | with_reducible exact sat_unimplemented_bind _ _ _ _
    | with_reducible exact sat_qljs_unimplemented_bind _ _ _ _
    | with_reducible apply sat_bind L
    | intro _ _
    | intro _
    | with_reducible apply sat_ite
    | with_reducible exact sat_peek L _
    | with_reducible exact sat_skip L _
    | with_reducible exact sat_pure_any L _ _
    | with_reducible exact hX.parse_expression _ _
    | with_reducible exact sat_any (hX.parse_expression _ _)
    | with_reducible exact hX.visit_expression _ _ _ (by first | assumption | (apply_assumption; assumption) | exact well_formed_variable L _ _ | exact well_formed_import L _ | exact well_formed_function L _ _ | exact well_formed_child_1 L (by assumption) | exact well_formed_set_child_1 (by assumption) (by assumption))
    | with_reducible exact hX.is_let_token_a_variable_reference _ _ _
    | with_reducible exact sat_consume_semicolon_after_statement L
    | with_reducible exact sat_parse_and_visit_let_bindings L hX
    | with_reducible exact sat_parse_and_visit_statement_parse_expression_end L
    | with_reducible exact sat_begin_transaction L _
    | with_reducible exact sat_commit_transaction L _ _
    | with_reducible exact sat_roll_back_transaction L _ _
    | (lift_lets; intro jp; with_reducible apply sat_cut (f := jp); intro hjp; clear_value jp)
    | (lift_lets; intro _)
    | (with_reducible apply sat_unit <;> split)
    | dsimp -zeta only)

set_option maxHeartbeats 2000000 in
theorem sat_parse_and_visit_statement_case_kw_abstract {G : List Event → Prop} {R : StateRel} (L : R.laws G)
    {X : Externals} {fuel : Nat} {t : token}
    (hX : X.respects G R)
    {i : parse_point} :
    Sat R i i (fun _ => True) (parse_and_visit_statement.case_kw_abstract X fuel t) := by
  rw [parse_and_visit_statement.case_kw_abstract]
  repeat' (first
    | with_reducible exact hjp _
    | with_reducible exact sat_unimplemented_bind _ _ _ _
    | with_reducible exact sat_qljs_unimplemented_bind _ _ _ _
    | with_reducible apply sat_bind L
    | intro _ _
    | intro _
    | with_reducible apply sat_ite
    | with_reducible exact sat_peek L _
    | with_reducible exact sat_skip L _
    | with_reducible exact sat_report L _ _ _
    | with_reducible exact sat_pure_any L _ _
    | with_reducible exact hX.parse_and_visit_class _ _
    | with_reducible exact sat_parse_and_visit_statement_label_or_expression_starting_with_identifier L hX
    | with_reducible exact sat_get_state L _
    | with_reducible exact sat_begin_transaction L _
    | with_reducible exact sat_commit_transaction L _ _
    | with_reducible exact sat_roll_back_transaction L _ _
    | (lift_lets; intro jp; with_reducible apply sat_cut (f := jp); intro hjp; clear_value jp)
    | (lift_lets; intro _)
    | (with_reducible apply sat_unit <;> split)
    | dsimp -zeta only)

set_option maxHeartbeats 2000000 in
theorem sat_parse_and_visit_statement_case_kw_declare {G : List Event → Prop} {R : StateRel} (L : R.laws G)
    {X : Externals} {fuel : Nat}
    (hX : X.respects G R)
    {i : parse_point} :
    Sat R i i (fun _ => True) (parse_and_visit_statement.case_kw_declare X fuel) := by
  rw [parse_and_visit_statement.case_kw_declare]
  repeat' (first
    | with_reducible exact hjp _
    | with_reducible exact sat_unimplemented_bind _ _ _ _
    | with_reducible exact sat_qljs_unimplemented_bind _ _ _ _
    | with_reducible apply sat_bind L
    | intro _ _
    | intro _
    | with_reducible apply sat_ite
    | with_reducible exact sat_peek L _
    | with_reducible exact sat_skip L _
    | with_reducible exact sat_pure_any L _ _
    | with_reducible exact sat_parse_and_visit_typescript_enum L hX
    | with_reducible exact sat_parse_and_visit_statement_label_or_expression_starting_with_identifier L hX
    | with_reducible exact sat_begin_transaction L _
    | with_reducible exact sat_commit_transaction L _ _
    | with_reducible exact sat_roll_back_transaction L _ _
    | with_reducible exact sat_unimplemented_if_not_token L _ _
    | (lift_lets; intro jp; with_reducible apply sat_cut (f := jp); intro hjp; clear_value jp)
    | (lift_lets; intro _)
    | (with_reducible apply sat_unit <;> split)
    | dsimp -zeta only)

set_option maxHeartbeats 2000000 in
theorem sat_parse_and_visit_statement_case_kw_async {G : List Event → Prop} {R : StateRel} (L : R.laws G)
    {X : Externals} {stmt : parse_statement_type → P Bool} {fuel : Nat} {t : token}
    (hX : X.respects G R)
    (hstmt : ∀ ty i, Sat R i i (fun _ => True) (stmt ty))
    {i : parse_point} :
    Sat R i i (fun _ => True) (parse_and_visit_statement.case_kw_async X stmt fuel t) := by
  rw [parse_and_visit_statement.case_kw_async]
  repeat' (first
    | with_reducible exact hjp _
    | with_reducible exact sat_unimplemented_bind _ _ _ _
    | with_reducible exact sat_qljs_unimplemented_bind _ _ _ _
    | with_reducible apply sat_bind L
    | intro _ _
    | intro _
    | with_reducible apply sat_ite
    | with_reducible exact sat_peek L _
    | with_reducible exact sat_skip L _
    | with_reducible exact sat_pure_any L _ _
    | with_reducible exact hstmt _ _
    | with_reducible exact sat_unimplemented _ _ _
    | with_reducible exact sat_unimplemented_unit _
    | with_reducible exact hX.parse_async_expression _ _ _
    | with_reducible exact sat_any (hX.parse_async_expression _ _ _)
    | with_reducible exact hX.visit_expression _ _ _ (by first | assumption | (apply_assumption; assumption) | exact well_formed_variable L _ _ | exact well_formed_import L _ | exact well_formed_function L _ _ | exact well_formed_child_1 L (by assumption) | exact well_formed_set_child_1 (by assumption) (by assumption))
    | with_reducible exact sat_parse_and_visit_function_declaration L hX hstmt
    | with_reducible exact sat_visit_variable_use L _ _
    | (lift_lets; intro jp; with_reducible apply sat_cut (f := jp); intro hjp; clear_value jp)
    | (lift_lets; intro _)
    | (with_reducible apply sat_unit <;> split)
    | dsimp -zeta only)

set_option maxHeartbeats 2000000 in
theorem sat_parse_and_visit_statement_case_kw_import {G : List Event → Prop} {R : StateRel} (L : R.laws G)
    {X : Externals} {fuel : Nat}
    (hX : X.respects G R)
    {i : parse_point} :
    Sat R i i (fun _ => True) (parse_and_visit_statement.case_kw_import X fuel) := by
  rw [parse_and_visit_statement.case_kw_import]
  repeat' (first
    | with_reducible exact hjp _
    | with_reducible exact sat_unimplemented_bind _ _ _ _
    | with_reducible exact sat_qljs_unimplemented_bind _ _ _ _
    | with_reducible apply sat_bind L
    | intro _ _
    | intro _
    | with_reducible apply sat_ite
    | with_reducible exact sat_pure_any L _ _
    | with_reducible exact sat_parse_and_visit_import L hX
    | (lift_lets; intro jp; with_reducible apply sat_cut (f := jp); intro hjp; clear_value jp)
    | (lift_lets; intro _)
    | (with_reducible apply sat_unit <;> split)
    | dsimp -zeta only)

set_option maxHeartbeats 2000000 in
theorem sat_parse_and_visit_statement_case_expression {G : List Event → Prop} {R : StateRel} (L : R.laws G)
    {X : Externals} {stmt : parse_statement_type → P Bool} {fuel : Nat} {t : token}
    (hX : X.respects G R)
    (hstmt : ∀ ty i, Sat R i i (fun _ => True) (stmt ty))
    {i : parse_point} :
    Sat R i i (fun _ => True) (parse_and_visit_statement.case_expression X stmt fuel t) := by
  rw [parse_and_visit_statement.case_expression]
  repeat' (first
    | with_reducible exact hjp _
    | with_reducible exact sat_unimplemented_bind _ _ _ _
    | with_reducible exact sat_qljs_unimplemented_bind _ _ _ _
    | with_reducible apply sat_bind L
    | intro _ _
    | intro _
    | with_reducible apply sat_ite
    | with_reducible exact sat_pure_any L _ _
    | with_reducible exact hstmt _ _
    | with_reducible exact hX.try_parse_function_with_leading_star _
    | with_reducible exact sat_parse_and_visit_expression L hX
    | with_reducible exact sat_parse_and_visit_function_declaration L hX hstmt
    | with_reducible exact sat_parse_and_visit_statement_parse_expression_end L
    | (lift_lets; intro jp; with_reducible apply sat_cut (f := jp); intro hjp; clear_value jp)
    | (lift_lets; intro _)
    | (with_reducible apply sat_unit <;> split)
    | dsimp -zeta only)

set_option maxHeartbeats 2000000 in
theorem sat_parse_and_visit_statement_case_kw_await {G : List Event → Prop} {R : StateRel} (L : R.laws G)
    {X : Externals} {fuel : Nat} {t : token}
    (hX : X.respects G R)
    {i : parse_point} :
    Sat R i i (fun _ => True) (parse_and_visit_statement.case_kw_await X fuel t) := by
  rw [parse_and_visit_statement.case_kw_await]
  repeat' (first
    | with_reducible exact hjp _
    | with_reducible exact sat_unimplemented_bind _ _ _ _
    | with_reducible exact sat_qljs_unimplemented_bind _ _ _ _
    | with_reducible apply sat_bind L
    | intro _ _
    | intro _
    | with_reducible apply sat_ite
    | with_reducible exact sat_peek L _
    | with_reducible exact sat_skip L _
    | with_reducible exact sat_report L _ _ _
    | with_reducible exact sat_pure_any L _ _
    | with_reducible exact hX.parse_expression_remainder _ _ _ (by first | assumption | (apply_assumption; assumption) | exact well_formed_variable L _ _ | exact well_formed_import L _ | exact well_formed_function L _ _ | exact well_formed_child_1 L (by assumption) | exact well_formed_set_child_1 (by assumption) (by assumption))
    | with_reducible exact sat_any (hX.parse_expression_remainder _ _ _ (by first | assumption | (apply_assumption; assumption) | exact well_formed_variable L _ _ | exact well_formed_import L _ | exact well_formed_function L _ _ | exact well_formed_child_1 L (by assumption) | exact well_formed_set_child_1 (by assumption) (by assumption)))
    | with_reducible exact hX.parse_await_expression _ _ _
    | with_reducible exact sat_any (hX.parse_await_expression _ _ _)
    | with_reducible exact hX.visit_expression _ _ _ (by first | assumption | (apply_assumption; assumption) | exact well_formed_variable L _ _ | exact well_formed_import L _ | exact well_formed_function L _ _ | exact well_formed_child_1 L (by assumption) | exact well_formed_set_child_1 (by assumption) (by assumption))
    | with_reducible exact sat_parse_and_visit_statement_parse_expression_end L
    | with_reducible exact sat_get_state L _
    | (lift_lets; intro jp; with_reducible apply sat_cut (f := jp); intro hjp; clear_value jp)
    | (lift_lets; intro _)
    | (with_reducible apply sat_unit <;> split)
    | dsimp -zeta only)

set_option maxHeartbeats 2000000 in
theorem sat_parse_and_visit_statement_case_kw_yield {G : List Event → Prop} {R : StateRel} (L : R.laws G)
    {X : Externals} {fuel : Nat}
    (hX : X.respects G R)
    {i : parse_point} :
    Sat R i i (fun _ => True) (parse_and_visit_statement.case_kw_yield X fuel) := by
  rw [parse_and_visit_statement.case_kw_yield]
  repeat' (first
    | with_reducible exact hjp _
    | with_reducible exact sat_unimplemented_bind _ _ _ _
    | with_reducible exact sat_qljs_unimplemented_bind _ _ _ _
    | with_reducible apply sat_bind L
    | intro _ _
    | intro _
    | with_reducible apply sat_ite
    | with_reducible exact sat_pure_any L _ _
    | with_reducible exact sat_parse_and_visit_expression L hX
    | with_reducible exact sat_parse_and_visit_statement_parse_expression_end L
    | with_reducible exact sat_parse_and_visit_statement_label_or_expression_starting_with_identifier L hX
    | with_reducible exact sat_get_state L _
    | (lift_lets; intro jp; with_reducible apply sat_cut (f := jp); intro hjp; clear_value jp)
    | (lift_lets; intro _)
    | (with_reducible apply sat_unit <;> split)
    | dsimp -zeta only)

set_option maxHeartbeats 2000000 in
theorem sat_parse_and_visit_statement_case_reserved_keyword_with_escape_sequence {G : List Event → Prop} {R : StateRel} (L : R.laws G)
    {X : Externals} {fuel : Nat} {t : token}
    (hX : X.respects G R)
    {i : parse_point} :
    Sat R i i (fun _ => True) (parse_and_visit_statement.case_reserved_keyword_with_escape_sequence X fuel t) := by
  rw [parse_and_visit_statement.case_reserved_keyword_with_escape_sequence]
  repeat' (first
    | with_reducible exact hjp _
    | with_reducible exact sat_unimplemented_bind _ _ _ _
    | with_reducible exact sat_qljs_unimplemented_bind _ _ _ _
    | with_reducible apply sat_bind L
    | intro _ _
    | intro _
    | with_reducible apply sat_ite
    | with_reducible exact sat_pure_any L _ _
    | with_reducible exact hX.report_errors_for_escape_sequences_in_keyword _ _
    | with_reducible exact sat_parse_and_visit_statement_label_or_expression_starting_with_identifier L hX
    | (lift_lets; intro jp; with_reducible apply sat_cut (f := jp); intro hjp; clear_value jp)
    | (lift_lets; intro _)
    | (with_reducible apply sat_unit <;> split)
    | dsimp -zeta only)

set_option maxHeartbeats 2000000 in
theorem sat_parse_and_visit_statement_case_kw_interface {G : List Event → Prop} {R : StateRel} (L : R.laws G)
    {X : Externals} {fuel : Nat} {t : token}
    (hX : X.respects G R)
    {i : parse_point} :
    Sat R i i (fun _ => True) (parse_and_visit_statement.case_kw_interface X fuel t) := by
  rw [parse_and_visit_statement.case_kw_interface]
  repeat' (first
    | with_reducible exact hjp _
    | with_reducible exact sat_unimplemented_bind _ _ _ _
    | with_reducible exact sat_qljs_unimplemented_bind _ _ _ _
    | with_reducible apply sat_bind L
    | intro _ _
    | intro _
    | with_reducible apply sat_ite
    | with_reducible exact sat_peek L _
    | with_reducible exact sat_skip L _
    | with_reducible exact sat_report L _ _ _
    | with_reducible exact sat_pure_any L _ _
    | with_reducible exact hX.parse_and_visit_typescript_interface _
    | with_reducible exact sat_parse_and_visit_statement_label_or_expression_starting_with_identifier L hX
    | with_reducible exact sat_get_state L _
    | with_reducible exact sat_begin_transaction L _
    | with_reducible exact sat_roll_back_transaction L _ _
    | (lift_lets; intro jp; with_reducible apply sat_cut (f := jp); intro hjp; clear_value jp)
    | (lift_lets; intro _)
    | (with_reducible apply sat_unit <;> split)
    | dsimp -zeta only)

set_option maxHeartbeats 2000000 in
theorem sat_parse_and_visit_statement_case_kw_type {G : List Event → Prop} {R : StateRel} (L : R.laws G)
    {X : Externals} {fuel : Nat} {t : token}
    (hX : X.respects G R)
    {i : parse_point} :
    Sat R i i (fun _ => True) (parse_and_visit_statement.case_kw_type X fuel t) := by
  rw [parse_and_visit_statement.case_kw_type]
  repeat' (first
    | with_reducible exact hjp _
    | with_reducible exact sat_unimplemented_bind _ _ _ _
    | with_reducible exact sat_qljs_unimplemented_bind _ _ _ _
    | with_reducible apply sat_bind L
    | intro _ _
    | intro _
    | with_reducible apply sat_ite
    | with_reducible exact sat_peek L _
    | with_reducible exact sat_skip L _
    | with_reducible exact sat_pure_any L _ _
    | with_reducible exact sat_parse_and_visit_expression L hX
    | with_reducible exact sat_parse_and_visit_typescript_type_alias L hX
    | with_reducible exact sat_parse_and_visit_statement_parse_expression_end L
    | with_reducible exact sat_begin_transaction L _
    | with_reducible exact sat_commit_transaction L _ _
    | with_reducible exact sat_roll_back_transaction L _ _
    | (lift_lets; intro jp; with_reducible apply sat_cut (f := jp); intro hjp; clear_value jp)
    | (lift_lets; intro _)
    | (with_reducible apply sat_unit <;> split)
    | dsimp -zeta only)

set_option maxHeartbeats 2000000 in
theorem sat_parse_and_visit_statement_case_kw_class {G : List Event → Prop} {R : StateRel} (L : R.laws G)
    {X : Externals}
    (hX : X.respects G R)
    {i : parse_point} :
    Sat R i i (fun _ => True) (parse_and_visit_statement.case_kw_class X) := by
  rw [parse_and_visit_statement.case_kw_class]
  repeat' (first
    | with_reducible exact hjp _
    | with_reducible exact sat_unimplemented_bind _ _ _ _
    | with_reducible exact sat_qljs_unimplemented_bind _ _ _ _
    | with_reducible apply sat_bind L
    | intro _ _
    | intro _
    | with_reducible apply sat_ite
    | with_reducible exact sat_pure_any L _ _
    | with_reducible exact hX.parse_and_visit_class _ _
    | (lift_lets; intro jp; with_reducible apply sat_cut (f := jp); intro hjp; clear_value jp)
    | (lift_lets; intro _)
    | (with_reducible apply sat_unit <;> split)
    | dsimp -zeta only)

set_option maxHeartbeats 2000000 in
theorem sat_parse_and_visit_statement_case_kw_switch {G : List Event → Prop} {R : StateRel} (L : R.laws G)
    {X : Externals} {stmt : parse_statement_type → P Bool} {fuel : Nat}
    (hX : X.respects G R)
    (hstmt : ∀ ty i, Sat R i i (fun _ => True) (stmt ty))
    {i : parse_point} :
    Sat R i i (fun _ => True) (parse_and_visit_statement.case_kw_switch X stmt fuel) := by
  rw [parse_and_visit_statement.case_kw_switch]
  repeat' (first
    | with_reducible exact hjp _
    | with_reducible exact sat_unimplemented_bind _ _ _ _
    | with_reducible exact sat_qljs_unimplemented_bind _ _ _ _
    | with_reducible apply sat_bind L
    | intro _ _
    | intro _
    | with_reducible apply sat_ite
    | with_reducible exact sat_pure_any L _ _
    | with_reducible exact hstmt _ _
    | with_reducible exact sat_parse_and_visit_switch L hX hstmt
    | with_reducible apply sat_with_switch_guard L _ _ _ _
    | (lift_lets; intro jp; with_reducible apply sat_cut (f := jp); intro hjp; clear_value jp)
    | (lift_lets; intro _)
    | (with_reducible apply sat_unit <;> split)
    | dsimp -zeta only)

set_option maxHeartbeats 2000000 in
theorem sat_parse_and_visit_statement_case_kw_return {G : List Event → Prop} {R : StateRel} (L : R.laws G)
    {X : Externals} {fuel : Nat} {statement_type : parse_statement_type} {t : token}
    (hX : X.respects G R)
    {i : parse_point} :
    Sat R i i (fun _ => True) (parse_and_visit_statement.case_kw_return X fuel statement_type t) := by
  rw [parse_and_visit_statement.case_kw_return]
  repeat' (first
    | with_reducible exact hjp _
    | with_reducible exact sat_unimplemented_bind _ _ _ _
    | with_reducible exact sat_qljs_unimplemented_bind _ _ _ _
    | with_reducible apply sat_bind L
    | intro _ _
    | intro _
    | with_reducible apply sat_ite
    | with_reducible exact sat_peek L _
    | with_reducible exact sat_skip L _
    | with_reducible exact sat_report L _ _ _
    | with_reducible exact sat_pure_any L _ _
    | with_reducible exact sat_parse_and_visit_expression L hX
    | with_reducible exact sat_parse_and_visit_statement_parse_expression_end L
    | (lift_lets; intro jp; with_reducible apply sat_cut (f := jp); intro hjp; clear_value jp)
    | (lift_lets; intro _)
    | (with_reducible apply sat_unit <;> split)
    | dsimp -zeta only)

set_option maxHeartbeats 2000000 in
theorem sat_parse_and_visit_statement_case_kw_throw {G : List Event → Prop} {R : StateRel} (L : R.laws G)
    {X : Externals} {fuel : Nat}
    (hX : X.respects G R)
    {i : parse_point} :
    Sat R i i (fun _ => True) (parse_and_visit_statement.case_kw_throw X fuel) := by
  rw [parse_and_visit_statement.case_kw_throw]
  repeat' (first
    | with_reducible exact hjp _
    | with_reducible exact sat_unimplemented_bind _ _ _ _
    | with_reducible exact sat_qljs_unimplemented_bind _ _ _ _
    | with_reducible apply sat_bind L
    | intro _ _
    | intro _
    | with_reducible apply sat_ite
    | with_reducible exact sat_peek L _
    | with_reducible exact sat_skip L _
    | with_reducible exact sat_report L _ _ _
    | with_reducible exact sat_pure_any L _ _
    | with_reducible exact sat_parse_and_visit_expression L hX
    | with_reducible exact sat_parse_and_visit_statement_parse_expression_end L
    | with_reducible exact sat_insert_semicolon L _
    | (lift_lets; intro jp; with_reducible apply sat_cut (f := jp); intro hjp; clear_value jp)
    | (lift_lets; intro _)
    | (with_reducible apply sat_unit <;> split)
    | dsimp -zeta only)

set_option maxHeartbeats 2000000 in
theorem sat_parse_and_visit_statement_case_kw_try {G : List Event → Prop} {R : StateRel} (L : R.laws G)
    {X : Externals} {stmt : parse_statement_type → P Bool} {fuel : Nat}
    (hX : X.respects G R)
    (hstmt : ∀ ty i, Sat R i i (fun _ => True) (stmt ty))
    {i : parse_point} :
    Sat R i i (fun _ => True) (parse_and_visit_statement.case_kw_try X stmt fuel) := by
  rw [parse_and_visit_statement.case_kw_try]
  repeat' (first
    | with_reducible exact hjp _
    | with_reducible exact sat_unimplemented_bind _ _ _ _
    | with_reducible exact sat_qljs_unimplemented_bind _ _ _ _
    | with_reducible apply sat_bind L
    | intro _ _
    | intro _
    | with_reducible apply sat_ite
    | with_reducible exact sat_pure_any L _ _
    | with_reducible exact hstmt _ _
    | with_reducible exact sat_parse_and_visit_try_maybe_catch_maybe_finally L hX hstmt
    | (lift_lets; intro jp; with_reducible apply sat_cut (f := jp); intro hjp; clear_value jp)
    | (lift_lets; intro _)
    | (with_reducible apply sat_unit <;> split)
    | dsimp -zeta only)

set_option maxHeartbeats 2000000 in
theorem sat_parse_and_visit_statement_case_kw_catch {G : List Event → Prop} {R : StateRel} (L : R.laws G)
    {X : Externals} {stmt : parse_statement_type → P Bool} {fuel : Nat} {t : token}
    (hX : X.respects G R)
    (hstmt : ∀ ty i, Sat R i i (fun _ => True) (stmt ty))
    {i : parse_point} :
    Sat R i i (fun _ => True) (parse_and_visit_statement.case_kw_catch X stmt fuel t) := by
  rw [parse_and_visit_statement.case_kw_catch]
  repeat' (first
    | with_reducible exact hjp _
    | with_reducible exact sat_unimplemented_bind _ _ _ _
    | with_reducible exact sat_qljs_unimplemented_bind _ _ _ _
    | with_reducible apply sat_bind L
    | intro _ _
    | intro _
    | with_reducible apply sat_ite
    | with_reducible exact sat_report L _ _ _
    | with_reducible exact sat_pure_any L _ _
    | with_reducible exact hstmt _ _
    | with_reducible exact sat_parse_and_visit_catch_or_finally_or_both L hX hstmt
    | (lift_lets; intro jp; with_reducible apply sat_cut (f := jp); intro hjp; clear_value jp)
    | (lift_lets; intro _)
    | (with_reducible apply sat_unit <;> split)
    | dsimp -zeta only)

set_option maxHeartbeats 2000000 in
theorem sat_parse_and_visit_statement_case_kw_finally {G : List Event → Prop} {R : StateRel} (L : R.laws G)
    {X : Externals} {stmt : parse_statement_type → P Bool} {fuel : Nat} {t : token}
    (hX : X.respects G R)
    (hstmt : ∀ ty i, Sat R i i (fun _ => True) (stmt ty))
    {i : parse_point} :
    Sat R i i (fun _ => True) (parse_and_visit_statement.case_kw_finally X stmt fuel t) := by
  rw [parse_and_visit_statement.case_kw_finally]
  repeat' (first
    | with_reducible exact hjp _
    | with_reducible exact sat_unimplemented_bind _ _ _ _
    | with_reducible exact sat_qljs_unimplemented_bind _ _ _ _
    | with_reducible apply sat_bind L
    | intro _ _
    | intro _
    | with_reducible apply sat_ite
    | with_reducible exact sat_report L _ _ _
    | with_reducible exact sat_pure_any L _ _
    | with_reducible exact hstmt _ _
    | with_reducible exact sat_parse_and_visit_catch_or_finally_or_both L hX hstmt
    | (lift_lets; intro jp; with_reducible apply sat_cut (f := jp); intro hjp; clear_value jp)
    | (lift_lets; intro _)
    | (with_reducible apply sat_unit <;> split)
    | dsimp -zeta only)

set_option maxHeartbeats 2000000 in
theorem sat_parse_and_visit_statement_case_kw_do {G : List Event → Prop} {R : StateRel} (L : R.laws G)
    {X : Externals} {stmt : parse_statement_type → P Bool}
    (hX : X.respects G R)
    (hstmt : ∀ ty i, Sat R i i (fun _ => True) (stmt ty))
    {i : parse_point} :
    Sat R i i (fun _ => True) (parse_and_visit_statement.case_kw_do X stmt) := by
  rw [parse_and_visit_statement.case_kw_do]
  repeat' (first
    | with_reducible exact hjp _
    | with_reducible exact sat_unimplemented_bind _ _ _ _
    | with_reducible exact sat_qljs_unimplemented_bind _ _ _ _
    | with_reducible apply sat_bind L
    | intro _ _
    | intro _
    | with_reducible apply sat_ite
    | with_reducible exact sat_pure_any L _ _
    | with_reducible exact hstmt _ _
    | with_reducible exact sat_parse_and_visit_do_while L hX hstmt
    | with_reducible apply sat_with_loop_guard L _ _ _ _
    | (lift_lets; intro jp; with_reducible apply sat_cut (f := jp); intro hjp; clear_value jp)
    | (lift_lets; intro _)
    | (with_reducible apply sat_unit <;> split)
    | dsimp -zeta only)

set_option maxHeartbeats 2000000 in
theorem sat_parse_and_visit_statement_case_kw_for {G : List Event → Prop} {R : StateRel} (L : R.laws G)
    {X : Externals} {stmt : parse_statement_type → P Bool} {fuel : Nat}
    (hX : X.respects G R)
    (hstmt : ∀ ty i, Sat R i i (fun _ => True) (stmt ty))
    {i : parse_point} :
    Sat R i i (fun _ => True) (parse_and_visit_statement.case_kw_for X stmt fuel) := by
  rw [parse_and_visit_statement.case_kw_for]
  repeat' (first
    | with_reducible exact hjp _
    | with_reducible exact sat_unimplemented_bind _ _ _ _
    | with_reducible exact sat_qljs_unimplemented_bind _ _ _ _
    | with_reducible apply sat_bind L
    | intro _ _
    | intro _
    | with_reducible apply sat_ite
    | with_reducible exact sat_pure_any L _ _
    | with_reducible exact hstmt _ _
    | with_reducible exact sat_parse_and_visit_for L hX hstmt
    | with_reducible apply sat_with_loop_guard L _ _ _ _
    | (lift_lets; intro jp; with_reducible apply sat_cut (f := jp); intro hjp; clear_value jp)
    | (lift_lets; intro _)
    | (with_reducible apply sat_unit <;> split)
    | dsimp -zeta only)

set_option maxHeartbeats 2000000 in
theorem sat_parse_and_visit_statement_case_kw_while {G : List Event → Prop} {R : StateRel} (L : R.laws G)
    {X : Externals} {stmt : parse_statement_type → P Bool}
    (hX : X.respects G R)
    (hstmt : ∀ ty i, Sat R i i (fun _ => True) (stmt ty))
    {i : parse_point} :
    Sat R i i (fun _ => True) (parse_and_visit_statement.case_kw_while X stmt) := by
  rw [parse_and_visit_statement.case_kw_while]
  repeat' (first
    | with_reducible exact hjp _
    | with_reducible exact sat_unimplemented_bind _ _ _ _
    | with_reducible exact sat_qljs_unimplemented_bind _ _ _ _
    | with_reducible apply sat_bind L
    | intro _ _
    | intro _
    | with_reducible apply sat_ite
    | with_reducible exact sat_pure_any L _ _
    | with_reducible exact hstmt _ _
    | with_reducible exact sat_parse_and_visit_while L hX hstmt
    | with_reducible apply sat_with_loop_guard L _ _ _ _
    | (lift_lets; intro jp; with_reducible apply sat_cut (f := jp); intro hjp; clear_value jp)
    | (lift_lets; intro _)
    | (with_reducible apply sat_unit <;> split)
    | dsimp -zeta only)

set_option maxHeartbeats 2000000 in
theorem sat_parse_and_visit_statement_case_kw_with {G : List Event → Prop} {R : StateRel} (L : R.laws G)
    {X : Externals} {stmt : parse_statement_type → P Bool}
    (hX : X.respects G R)
    (hstmt : ∀ ty i, Sat R i i (fun _ => True) (stmt ty))
    {i : parse_point} :
    Sat R i i (fun _ => True) (parse_and_visit_statement.case_kw_with X stmt) := by
  rw [parse_and_visit_statement.case_kw_with]
  repeat' (first
    | with_reducible exact hjp _
    | with_reducible exact sat_unimplemented_bind _ _ _ _
    | with_reducible exact sat_qljs_unimplemented_bind _ _ _ _
    | with_reducible apply sat_bind L
    | intro _ _
    | intro _
    | with_reducible apply sat_ite
    | with_reducible exact sat_pure_any L _ _
    | with_reducible exact hstmt _ _
    | with_reducible exact sat_parse_and_visit_with L hX hstmt
    | (lift_lets; intro jp; with_reducible apply sat_cut (f := jp); intro hjp; clear_value jp)
    | (lift_lets; intro _)
    | (with_reducible apply sat_unit <;> split)
    | dsimp -zeta only)

set_option maxHeartbeats 2000000 in
theorem sat_parse_and_visit_statement_case_kw_if {G : List Event → Prop} {R : StateRel} (L : R.laws G)
    {X : Externals} {stmt : parse_statement_type → P Bool} {fuel : Nat}
    (hX : X.respects G R)
    (hstmt : ∀ ty i, Sat R i i (fun _ => True) (stmt ty))
    {i : parse_point} :
    Sat R i i (fun _ => True) (parse_and_visit_statement.case_kw_if X stmt fuel) := by
  rw [parse_and_visit_statement.case_kw_if]
  repeat' (first
    | with_reducible exact hjp _
    | with_reducible exact sat_unimplemented_bind _ _ _ _
    | with_reducible exact sat_qljs_unimplemented_bind _ _ _ _
    | with_reducible apply sat_bind L
    | intro _ _
    | intro _
    | with_reducible apply sat_ite
    | with_reducible exact sat_pure_any L _ _
    | with_reducible exact hstmt _ _
    | with_reducible exact sat_parse_and_visit_if L hX hstmt
    | (lift_lets; intro jp; with_reducible apply sat_cut (f := jp); intro hjp; clear_value jp)
    | (lift_lets; intro _)
    | (with_reducible apply sat_unit <;> split)
    | dsimp -zeta only)

set_option maxHeartbeats 2000000 in
theorem sat_parse_and_visit_statement_case_kw_else {G : List Event → Prop} {R : StateRel} (L : R.laws G)
    {X : Externals} {stmt : parse_statement_type → P Bool} {t : token}
    (hX : X.respects G R)
    (hstmt : ∀ ty i, Sat R i i (fun _ => True) (stmt ty))
    {i : parse_point} :
    Sat R i i (fun _ => True) (parse_and_visit_statement.case_kw_else X stmt t) := by
  rw [parse_and_visit_statement.case_kw_else]
  repeat' (first
    | with_reducible exact hjp _
    | with_reducible exact sat_unimplemented_bind _ _ _ _
    | with_reducible exact sat_qljs_unimplemented_bind _ _ _ _
    | with_reducible apply sat_bind L
    | intro _ _
    | intro _
    | with_reducible apply sat_ite
    | with_reducible exact sat_skip L _
    | with_reducible exact sat_report L _ _ _
    | with_reducible exact sat_pure_any L _ _
    | with_reducible exact hstmt _ _
    | with_reducible exact sat_unimplemented _ _ _
    | with_reducible exact sat_unimplemented_unit _
    | (lift_lets; intro jp; with_reducible apply sat_cut (f := jp); intro hjp; clear_value jp)
    | (lift_lets; intro _)
    | (with_reducible apply sat_unit <;> split)
    | dsimp -zeta only)

set_option maxHeartbeats 2000000 in
theorem sat_parse_and_visit_statement_case_kw_break_or_kw_continue {G : List Event → Prop} {R : StateRel} (L : R.laws G)
    {t : token}
    {i : parse_point} :
    Sat R i i (fun _ => True) (parse_and_visit_statement.case_kw_break_or_kw_continue t) := by
  rw [parse_and_visit_statement.case_kw_break_or_kw_continue]
  repeat' (first
    | with_reducible exact hjp _
    | with_reducible exact sat_unimplemented_bind _ _ _ _
    | with_reducible exact sat_qljs_unimplemented_bind _ _ _ _
    | with_reducible apply sat_bind L
    | intro _ _
    | intro _
    | with_reducible apply sat_ite
    | with_reducible exact sat_peek L _
    | with_reducible exact sat_skip L _
    | with_reducible exact sat_report L _ _ _
    | with_reducible exact sat_pure_any L _ _
    | with_reducible exact sat_consume_semicolon_after_statement L
    | with_reducible exact sat_get_state L _
    | with_reducible exact sat_insert_semicolon L _
    | (lift_lets; intro jp; with_reducible apply sat_cut (f := jp); intro hjp; clear_value jp)
    | (lift_lets; intro _)
    | (with_reducible apply sat_unit <;> split)
    | dsimp -zeta only)

set_option maxHeartbeats 2000000 in
theorem sat_parse_and_visit_statement_case_kw_debugger {G : List Event → Prop} {R : StateRel} (L : R.laws G)
    {i : parse_point} :
    Sat R i i (fun _ => True) (parse_and_visit_statement.case_kw_debugger) := by
  rw [parse_and_visit_statement.case_kw_debugger]
  repeat' (first
    | with_reducible exact hjp _
    | with_reducible exact sat_unimplemented_bind _ _ _ _
    | with_reducible exact sat_qljs_unimplemented_bind _ _ _ _
    | with_reducible apply sat_bind L
    | intro _ _
    | intro _
    | with_reducible apply sat_ite
    | with_reducible exact sat_skip L _
    | with_reducible exact sat_pure_any L _ _
    | with_reducible exact sat_consume_semicolon_after_statement L
    | (lift_lets; intro jp; with_reducible apply sat_cut (f := jp); intro hjp; clear_value jp)
    | (lift_lets; intro _)
    | (with_reducible apply sat_unit <;> split)
    | dsimp -zeta only)

set_option maxHeartbeats 2000000 in
theorem sat_parse_and_visit_statement_case_kw_enum {G : List Event → Prop} {R : StateRel} (L : R.laws G)
    {X : Externals} {fuel : Nat}
    (hX : X.respects G R)
    {i : parse_point} :
    Sat R i i (fun _ => True) (parse_and_visit_statement.case_kw_enum X fuel) := by
  rw [parse_and_visit_statement.case_kw_enum]
  repeat' (first
    | with_reducible exact hjp _
    | with_reducible exact sat_unimplemented_bind _ _ _ _
    | with_reducible exact sat_qljs_unimplemented_bind _ _ _ _
    | with_reducible apply sat_bind L
    | intro _ _
    | intro _
    | with_reducible apply sat_ite
    | with_reducible exact sat_pure_any L _ _
    | with_reducible exact sat_parse_and_visit_typescript_enum L hX
    | (lift_lets; intro jp; with_reducible apply sat_cut (f := jp); intro hjp; clear_value jp)
    | (lift_lets; intro _)
    | (with_reducible apply sat_unit <;> split)
    | dsimp -zeta only)

set_option maxHeartbeats 2000000 in
theorem sat_parse_and_visit_statement_case_left_curly {G : List Event → Prop} {R : StateRel} (L : R.laws G)
    {stmt : parse_statement_type → P Bool} {fuel : Nat}
   
    (hstmt : ∀ ty i, Sat R i i (fun _ => True) (stmt ty))
    {i : parse_point} :
    Sat R i i (fun _ => True) (parse_and_visit_statement.case_left_curly stmt fuel) := by
  rw [parse_and_visit_statement.case_left_curly]
  repeat' (first
    | with_reducible exact hjp _
    | with_reducible exact sat_unimplemented_bind _ _ _ _
    | with_reducible exact sat_qljs_unimplemented_bind _ _ _ _
    | with_reducible apply sat_bind L
    | intro _ _
    | intro _
    | with_reducible apply sat_ite
    | with_reducible exact sat_pure_any L _ _
    | with_reducible exact hstmt _ _
    | with_reducible exact sat_parse_and_visit_statement_block_no_scope L hstmt
    | with_reducible exact sat_visit_enter_block_scope L _ _ _
    | with_reducible exact sat_visit_exit_block_scope L _ _ _
    | (lift_lets; intro jp; with_reducible apply sat_cut (f := jp); intro hjp; clear_value jp)
    | (lift_lets; intro _)
    | (with_reducible apply sat_unit <;> split)
    | dsimp -zeta only)

set_option maxHeartbeats 2000000 in
theorem sat_parse_and_visit_statement_case_kw_case {G : List Event → Prop} {R : StateRel} (L : R.laws G)
    {X : Externals} {t : token}
    (hX : X.respects G R)
    {i : parse_point} :
    Sat R i i (fun _ => True) (parse_and_visit_statement.case_kw_case X t) := by
  rw [parse_and_visit_statement.case_kw_case]
  repeat' (first
    | with_reducible exact hjp _
    | with_reducible exact sat_unimplemented_bind _ _ _ _
    | with_reducible exact sat_qljs_unimplemented_bind _ _ _ _
    | with_reducible apply sat_bind L
    | intro _ _
    | intro _
    | with_reducible apply sat_ite
    | with_reducible exact sat_peek L _
    | with_reducible exact sat_skip L _
    | with_reducible exact sat_report L _ _ _
    | with_reducible exact sat_pure_any L _ _
    | with_reducible exact sat_parse_and_visit_expression L hX
    | (lift_lets; intro jp; with_reducible apply sat_cut (f := jp); intro hjp; clear_value jp)
    | (lift_lets; intro _)
    | (with_reducible apply sat_unit <;> split)
    | dsimp -zeta only)

set_option maxHeartbeats 2000000 in
theorem sat_parse_and_visit_statement_case_kw_default {G : List Event → Prop} {R : StateRel} (L : R.laws G)
    {t : token}
    {i : parse_point} :
    Sat R i i (fun _ => True) (parse_and_visit_statement.case_kw_default t) := by
  rw [parse_and_visit_statement.case_kw_default]
  repeat' (first
    | with_reducible exact hjp _
    | with_reducible exact sat_unimplemented_bind _ _ _ _
    | with_reducible exact sat_qljs_unimplemented_bind _ _ _ _
    | with_reducible apply sat_bind L
    | intro _ _
    | intro _
    | with_reducible apply sat_ite
    | with_reducible exact sat_peek L _
    | with_reducible exact sat_skip L _
    | with_reducible exact sat_report L _ _ _
    | with_reducible exact sat_pure_any L _ _
    | (lift_lets; intro jp; with_reducible apply sat_cut (f := jp); intro hjp; clear_value jp)
    | (lift_lets; intro _)
    | (with_reducible apply sat_unit <;> split)
    | dsimp -zeta only)

set_option maxHeartbeats 2000000 in
theorem sat_parse_and_visit_statement_case_unexpected_token {G : List Event → Prop} {R : StateRel} (L : R.laws G)
    {t : token}
    {i : parse_point} :
    Sat R i i (fun _ => True) (parse_and_visit_statement.case_unexpected_token t) := by
  rw [parse_and_visit_statement.case_unexpected_token]
  repeat' (first
    | with_reducible exact hjp _
    | with_reducible exact sat_unimplemented_bind _ _ _ _
    | with_reducible exact sat_qljs_unimplemented_bind _ _ _ _
    | with_reducible apply sat_bind L
    | intro _ _
    | intro _
    | with_reducible apply sat_ite
    | with_reducible exact sat_skip L _
    | with_reducible exact sat_report L _ _ _
    | with_reducible exact sat_pure_any L _ _
    | (lift_lets; intro jp; with_reducible apply sat_cut (f := jp); intro hjp; clear_value jp)
    | (lift_lets; intro _)
    | (with_reducible apply sat_unit <;> split)
    | dsimp -zeta only)

set_option maxHeartbeats 2000000 in
theorem sat_parse_and_visit_statement_dispatch {G : List Event → Prop} {R : StateRel} (L : R.laws G)
    {X : Externals} {stmt : parse_statement_type → P Bool} {fuel : Nat}
    {statement_type : parse_statement_type}
    (hX : X.respects G R)
    (hstmt : ∀ ty i, Sat R i i (fun _ => True) (stmt ty))
    {i : parse_point} :
    Sat R i i (fun _ => True) (parse_and_visit_statement.dispatch X stmt fuel statement_type) := by
  rw [parse_and_visit_statement.dispatch]
  repeat' (first
    | with_reducible exact hjp _
    | with_reducible exact sat_unimplemented_bind _ _ _ _
    | with_reducible exact sat_qljs_unimplemented_bind _ _ _ _
    | with_reducible apply sat_bind L
    | intro _ _
    | intro _
    | with_reducible apply sat_ite
    | with_reducible exact sat_peek L _
    | with_reducible exact sat_pure_any L _ _
    | with_reducible exact hstmt _ _
    | with_reducible exact sat_unimplemented _ _ _
    | with_reducible exact sat_unimplemented_unit _
    | with_reducible exact sat_parse_and_visit_statement_label_or_expression_starting_with_identifier L hX
    | with_reducible exact sat_parse_and_visit_statement_case_kw_export L hX hstmt
    | with_reducible exact sat_parse_and_visit_statement_case_semicolon L
    | with_reducible exact sat_parse_and_visit_statement_case_kw_function L hX hstmt
    | with_reducible exact sat_parse_and_visit_statement_case_kw_const_or_kw_var L hX
    | with_reducible exact sat_parse_and_visit_statement_case_kw_let L hX
    | with_reducible exact sat_parse_and_visit_statement_case_kw_abstract L hX
    | with_reducible exact sat_parse_and_visit_statement_case_kw_declare L hX
    | with_reducible exact sat_parse_and_visit_statement_case_kw_async L hX hstmt
    | with_reducible exact sat_parse_and_visit_statement_case_kw_import L hX
    | with_reducible exact sat_parse_and_visit_statement_case_expression L hX hstmt
    | with_reducible exact sat_parse_and_visit_statement_case_kw_await L hX
    | with_reducible exact sat_parse_and_visit_statement_case_kw_yield L hX
    | with_reducible exact sat_parse_and_visit_statement_case_reserved_keyword_with_escape_sequence L hX
    | with_reducible exact sat_parse_and_visit_statement_case_kw_interface L hX
    | with_reducible exact sat_parse_and_visit_statement_case_kw_type L hX
    | with_reducible exact sat_parse_and_visit_statement_case_kw_class L hX
    | with_reducible exact sat_parse_and_visit_statement_case_kw_switch L hX hstmt
    | with_reducible exact sat_parse_and_visit_statement_case_kw_return L hX
    | with_reducible exact sat_parse_and_visit_statement_case_kw_throw L hX
    | with_reducible exact sat_parse_and_visit_statement_case_kw_try L hX hstmt
    | with_reducible exact sat_parse_and_visit_statement_case_kw_catch L hX hstmt
    | with_reducible exact sat_parse_and_visit_statement_case_kw_finally L hX hstmt
    | with_reducible exact sat_parse_and_visit_statement_case_kw_do L hX hstmt
    | with_reducible exact sat_parse_and_visit_statement_case_kw_for L hX hstmt
    | with_reducible exact sat_parse_and_visit_statement_case_kw_while L hX hstmt
    | with_reducible exact sat_parse_and_visit_statement_case_kw_with L hX hstmt
    | with_reducible exact sat_parse_and_visit_statement_case_kw_if L hX hstmt
    | with_reducible exact sat_parse_and_visit_statement_case_kw_else L hX hstmt
    | with_reducible exact sat_parse_and_visit_statement_case_kw_break_or_kw_continue L
    | with_reducible exact sat_parse_and_visit_statement_case_kw_debugger L
    | with_reducible exact sat_parse_and_visit_statement_case_kw_enum L hX
    | with_reducible exact sat_parse_and_visit_statement_case_left_curly L hstmt
    | with_reducible exact sat_parse_and_visit_statement_case_kw_case L hX
    | with_reducible exact sat_parse_and_visit_statement_case_kw_default L
    | with_reducible exact sat_parse_and_visit_statement_case_unexpected_token L
    | (lift_lets; intro jp; with_reducible apply sat_cut (f := jp); intro hjp; clear_value jp)
    | (lift_lets; intro _)
    | (with_reducible apply sat_unit <;> split)
    | dsimp -zeta only)

/-! ## The statement parser and the module loop -/

theorem sat_parse_and_visit_statement_parse_statement {G : List Event → Prop} {R : StateRel}
    (L : R.laws G) {X : Externals} {stmt : parse_statement_type → P Bool}
    {statement_type : parse_statement_type} (hX : X.respects G R)
    (hstmt : ∀ ty i, Sat R i i (fun _ => True) (stmt ty)) (fuel : Nat) {i : parse_point} :
    Sat R i i (fun _ => True)
      (parse_and_visit_statement.parse_statement X stmt statement_type fuel) := by
  induction fuel with
  | zero => exact sat_out_of_fuel _ _ _
  | succ fuel ih =>
    rw [parse_and_visit_statement.parse_statement]
    refine sat_bind L (sat_parse_and_visit_statement_dispatch L hX hstmt) (fun r _ => ?_)
    cases r with
    | none => exact ih
    | some returned => exact sat_pure_any L _ _

theorem sat_parse_and_visit_statement {G : List Event → Prop} {R : StateRel}
    (L : R.laws G) {X : Externals} (hX : X.respects G R) (fuel : Nat) :
    ∀ (statement_type : parse_statement_type) (i : parse_point),
      Sat R i i (fun _ => True) (parse_and_visit_statement X fuel statement_type) := by
  induction fuel with
  | zero =>
    intro statement_type i
    exact sat_out_of_fuel _ _ _
  | succ fuel ih =>
    intro statement_type i
    rw [parse_and_visit_statement]
    refine sat_bind L (sat_depth_guard_enter L i X) (fun _ _ => ?_)
    refine sat_bind L (sat_parse_and_visit_statement_parse_statement L hX ih fuel)
      (fun r _ => ?_)
    refine sat_bind L (sat_depth_guard_exit L i) (fun _ _ => ?_)
    exact sat_pure_any L _ _

theorem sat_parse_and_visit_module_loop {G : List Event → Prop} {R : StateRel}
    (L : R.laws G) {X : Externals} (hX : X.respects G R) (fuel : Nat) {i : parse_point} :
    Sat R i i (fun _ => True) (parse_and_visit_module.loop X fuel) := by
  induction fuel with
  | zero => exact sat_out_of_fuel _ _ _
  | succ fuel ih =>
    rw [parse_and_visit_module.loop]
    refine sat_bind L (sat_parse_and_visit_statement L hX fuel _ i) (fun parsed _ => ?_)
    refine sat_ite ?_ ih
    refine sat_bind L (sat_peek L i) (fun t _ => ?_)
    refine sat_ite (sat_pure_any L _ _) (sat_ite ?_ (sat_unimplemented _ _ _))
    refine sat_bind L (sat_report L i _ _) (fun _ _ => ?_)
    exact sat_bind L (sat_skip L i) (fun _ _ => ih)

/-! ## The four relations that are followed through the parser -/

theorem scope_stack_after_nil (st : List scope_kind) : scope_stack_after st [] = some st := by
  cases st <;> simp [scope_stack_after]

theorem scope_stack_after_append (es1 es2 : List Event) :
    ∀ st, scope_stack_after st (es1 ++ es2)
      = (scope_stack_after st es1).bind (fun st1 => scope_stack_after st1 es2) := by
  induction es1 with
  | nil => intro st; simp [scope_stack_after]
  | cons e es ih =>
    intro st
    cases e with
    | visit_exit_scope k =>
      cases st with
      | nil => simp [scope_stack_after]
      | cons k1 st =>
        by_cases hk : k = k1
        · simp [scope_stack_after, hk, ih]
        · simp [scope_stack_after, hk]
    | _ => simp [scope_stack_after, ih]

theorem scope_stack_after_plain (e : Event) (h : e.is_plain = true) (st : List scope_kind) :
    scope_stack_after st [e] = some st := by
  cases e <;> simp [Event.is_plain] at h <;> simp [scope_stack_after]

theorem events_neutral_append {es1 es2 : List Event} (h1 : events_neutral es1)
    (h2 : events_neutral es2) : events_neutral (es1 ++ es2) := by
  intro st
  rw [scope_stack_after_append, h1 st]
  exact h2 st

theorem balance_rel_laws : StateRel.laws events_neutral balance_rel where
  good_nil := scope_stack_after_nil
  trans := by
    intro i j k s t u h1 h2 hs
    obtain ⟨⟨es1, ho1, hb1⟩, hg1⟩ := h1 hs
    obtain ⟨⟨es2, ho2, hb2⟩, hg2⟩ := h2 hg1
    refine ⟨⟨es1 ++ es2, ?_, ?_⟩, hg2⟩
    · rw [ho2, ho1, List.append_assoc]
    · rw [scope_stack_after_append, hb1]
      exact hb2
  frame := by
    intro i s s1 ho hb _ hs
    exact ⟨⟨[], by simp [ho], scope_stack_after_nil _⟩, by rw [hb]; exact hs⟩
  guarded_frame := by
    intro a n s s1 ho hb hs
    exact ⟨⟨[], by simp [ho], scope_stack_after_nil _⟩, by rw [hb]; exact hs⟩
  function_guard := by
    intro a n g s s1 h hs
    exact h hs
  loop_guard := by
    intro i j s s1 h hs
    exact h hs
  switch_guard := by
    intro i j s s1 h hs
    exact h hs
  plain := by
    intro i s e he hs
    exact ⟨⟨[e], rfl, scope_stack_after_plain e he _⟩, hs⟩
  enter_scope := by
    intro a n g s k hs
    exact ⟨⟨[.visit_enter_scope k], rfl, by simp [scope_stack_after]⟩, hs⟩
  exit_scope := by
    intro a n g s k hs
    exact ⟨⟨[.visit_exit_scope k], rfl, by simp [scope_stack_after]⟩, hs⟩
  replay := by
    intro i s es hes hs
    exact ⟨⟨es, rfl, hes _⟩, hs⟩
  discard := by
    intro i s s1 h hs
    obtain ⟨_, hg⟩ := h hs
    exact ⟨⟨[], by simp, scope_stack_after_nil _⟩, hg⟩
  buffer := by
    intro a n g s s1 h hs
    have hn : events_neutral s1.out := by
      intro st
      obtain ⟨⟨es, ho, hb⟩, _⟩ := h st hs
      have : s1.out = es := by simpa using ho
      rw [this]
      exact hb
    obtain ⟨_, hg⟩ := h a hs
    refine ⟨⟨[], by simp, scope_stack_after_nil _⟩, ?_⟩
    intro b hb
    simp only [List.mem_cons] at hb
    rcases hb with hb | hb
    · rw [hb]
      refine events_neutral_append ?_ hn
      cases hst : s1.buffering_visitor_stack with
      | nil => exact scope_stack_after_nil
      | cons x rest => exact hg x (by simp [hst])
    · exact hg b (List.mem_of_mem_tail hb)
  move_into := by
    intro a n g s hs
    refine ⟨⟨s.buffering_visitor_stack.headD [], rfl, ?_⟩, hs⟩
    cases hst : s.buffering_visitor_stack with
    | nil => exact scope_stack_after_nil _
    | cons x rest => exact hs x (by simp [hst]) _
  emplace := by
    intro a n g s hs
    refine ⟨⟨[], by simp, scope_stack_after_nil _⟩, ?_⟩
    intro b hb
    simp only [List.mem_cons] at hb
    rcases hb with hb | hb
    · rw [hb]; exact scope_stack_after_nil
    · exact hs b hb
  pop := by
    intro a n g s hs
    exact ⟨⟨[], by simp, scope_stack_after_nil _⟩, fun b hb => hs b (List.mem_of_mem_tail hb)⟩

theorem stack_rel_laws : StateRel.laws (fun _ => True) stack_rel where
  good_nil := trivial
  trans := by
    intro i j k s t u h1 h2 hs
    obtain ⟨hl1, hd1⟩ := h1 hs
    obtain ⟨hl2, hd2⟩ := h2 hl1
    exact ⟨hl2, hd2.trans hd1⟩
  frame := by
    intro i s s1 _ hb _ hs
    rw [hb]
    exact ⟨hs, rfl⟩
  guarded_frame := by
    intro a n s s1 _ hb hs
    rw [hb]
    exact ⟨hs, rfl⟩
  function_guard := by
    intro a n g s s1 h hs
    exact h hs
  loop_guard := by
    intro i j s s1 h hs
    exact h hs
  switch_guard := by
    intro i j s s1 h hs
    exact h hs
  plain := by
    intro i s e _ hs
    exact ⟨hs, rfl⟩
  enter_scope := by
    intro a n g s k hs
    exact ⟨hs, rfl⟩
  exit_scope := by
    intro a n g s k hs
    exact ⟨hs, rfl⟩
  replay := by
    intro i s es _ hs
    exact ⟨hs, rfl⟩
  discard := by
    intro i s s1 h hs
    exact h hs
  buffer := by
    intro a n g s s1 h hs
    obtain ⟨hl, hd⟩ := h a hs
    cases hst : s1.buffering_visitor_stack with
    | nil => rw [hst] at hl; simp at hl
    | cons x rest =>
      rw [hst] at hl hd
      simp only [List.length_cons, List.drop_succ_cons, List.tail_cons] at *
      exact ⟨hl, hd⟩
  move_into := by
    intro a n g s hs
    exact ⟨hs, rfl⟩
  emplace := by
    intro a n g s hs
    simp only [List.length_cons, List.drop_succ_cons]
    exact ⟨Nat.succ_le_succ hs, trivial⟩
  pop := by
    intro a n g s hs
    cases hst : s.buffering_visitor_stack with
    | nil => rw [hst] at hs; simp at hs
    | cons x rest =>
      rw [hst] at hs
      simp only [List.length_cons, List.drop_succ_cons, List.tail_cons] at *
      exact ⟨Nat.le_of_succ_le_succ hs, trivial⟩

theorem flags_rel_laws : StateRel.laws (fun _ => True) flags_rel where
  good_nil := trivial
  trans := by
    intro i j k s t u h1 h2
    refine ⟨h1.1.trans h2.1, fun hi => ?_⟩
    rw [h2.2 (h1.1 ▸ hi), h1.2 hi]
  frame := by
    intro i s s1 _ _ hf
    exact ⟨rfl, fun _ => hf⟩
  guarded_frame := by
    intro a n s s1 _ _
    exact ⟨rfl, fun h => by simp at h⟩
  function_guard := by
    intro a n g s s1 _
    exact ⟨rfl, fun _ => rfl⟩
  loop_guard := by
    intro i j s s1 h
    refine ⟨h.1, fun hi => ?_⟩
    have := h.2 hi
    simp only [PState.flags, Prod.mk.injEq] at this ⊢
    exact ⟨this.1, this.2.1, trivial, this.2.2.2⟩
  switch_guard := by
    intro i j s s1 h
    refine ⟨h.1, fun hi => ?_⟩
    have := h.2 hi
    simp only [PState.flags, Prod.mk.injEq] at this ⊢
    exact ⟨this.1, this.2.1, this.2.2.1, trivial⟩
  plain := by
    intro i s e _
    exact ⟨rfl, fun _ => rfl⟩
  enter_scope := by
    intro a n g s k
    exact ⟨rfl, fun _ => rfl⟩
  exit_scope := by
    intro a n g s k
    exact ⟨rfl, fun _ => rfl⟩
  replay := by
    intro i s es _
    exact ⟨rfl, fun _ => rfl⟩
  discard := by
    intro i s s1 h
    exact ⟨rfl, fun hi => h.2 hi⟩
  buffer := by
    intro a n g s s1 h
    exact ⟨rfl, fun hi => (h a).2 hi⟩
  move_into := by
    intro a n g s
    exact ⟨rfl, fun _ => rfl⟩
  emplace := by
    intro a n g s
    exact ⟨rfl, fun _ => rfl⟩
  pop := by
    intro a n g s
    exact ⟨rfl, fun _ => rfl⟩

/-! ## The sample external parts respect every relation that can be followed -/

theorem sat_sample_visit_expression {G : List Event → Prop} {R : StateRel} (L : R.laws G)
    (e : expression) (context : variable_context) (i : parse_point) :
    Sat R i i (fun _ => True) (sample_visit_expression e context) := by
  obtain ⟨kind, f, children, es⟩ := e
  cases kind <;> simp only [sample_visit_expression] <;> repeat' split
  all_goals
    first
    | exact sat_pure_any L _ _
    | exact sat_visit_plain L _ _ rfl
    | exact sat_bind L (sat_visit_plain L _ _ rfl) (fun _ _ => sat_visit_plain L _ _ rfl)

theorem sat_sample_parse_primary {G : List Event → Prop} {R : StateRel} (L : R.laws G)
    (i : parse_point) : Sat R i i (expression.well_formed G) sample_parse_primary := by
  unfold sample_parse_primary
  refine sat_bind L (sat_peek L i) (fun t _ => ?_)
  refine sat_ite ?_ (sat_ite ?_ (sat_unimplemented _ _ _))
  · exact sat_bind L (sat_skip L i) (fun _ _ => sat_pure L _ _ _ (well_formed_variable L _ _))
  · refine sat_bind L (sat_skip L i) (fun _ _ => sat_pure L _ _ _ ?_)
    exact well_formed_mk L.good_nil (by simp)
      (by simp [expression.type_annotations_of_entries])

theorem sat_sample_parse_expression_remainder {G : List Event → Prop} {R : StateRel}
    (L : R.laws G) (lhs : expression) (prec : precedence) (i : parse_point)
    (hl : lhs.well_formed G) :
    Sat R i i (expression.well_formed G) (sample_parse_expression_remainder lhs prec) := by
  unfold sample_parse_expression_remainder
  refine sat_bind L (sat_peek L i) (fun t _ => ?_)
  lift_lets
  intro jp
  apply sat_cut_pre (expression.well_formed G) (f := jp) (k := i) (j := i)
    (Q := expression.well_formed G)
  · intro hjp
    clear_value jp
    refine sat_ite ?_ (sat_bind L (sat_pure L _ _ _ hl) (fun y hy => hjp y hy))
    refine sat_bind L (sat_skip L i) (fun _ _ => ?_)
    refine sat_bind L (sat_sample_parse_primary L i) (fun rhs hr => ?_)
    refine sat_bind L (sat_pure L _ (expression.well_formed G) _ ?_) (fun y hy => hjp y hy)
    refine well_formed_mk L.good_nil ?_ (by simp [expression.type_annotations_of_entries])
    intro c hc
    simp only [List.mem_cons, List.mem_singleton, List.not_mem_nil, or_false] at hc
    rcases hc with hc | hc <;> rw [hc] <;> assumption
  · intro e1 he1
    dsimp only [jp]
    refine sat_bind L (sat_peek L i) (fun t2 _ => ?_)
    refine sat_ite ?_ (sat_pure L _ _ _ he1)
    refine sat_bind L (sat_skip L i) (fun _ _ => ?_)
    refine sat_bind L (sat_sample_parse_primary L i) (fun rhs hr => ?_)
    split
    · rename_i f l r es
      refine sat_pure L _ _ _ (well_formed_mk (well_formed_fields he1) ?_
        (well_formed_entries he1))
      intro c hc
      simp only [List.mem_cons, List.mem_singleton, List.not_mem_nil, or_false] at hc
      rcases hc with hc | hc
      · rw [hc]
        exact well_formed_children he1 l (by simp)
      · rw [hc]
        refine well_formed_mk L.good_nil ?_ (by simp [expression.type_annotations_of_entries])
        intro c hc
        simp only [List.mem_cons, List.mem_singleton, List.not_mem_nil, or_false] at hc
        rcases hc with hc | hc
        · rw [hc]
          exact well_formed_children he1 r (by simp)
        · rw [hc]
          exact hr
    · refine sat_pure L _ _ _ (well_formed_mk L.good_nil ?_
        (by simp [expression.type_annotations_of_entries]))
      intro c hc
      simp only [List.mem_cons, List.mem_singleton, List.not_mem_nil, or_false] at hc
      rcases hc with hc | hc <;> rw [hc] <;> assumption

theorem sat_sample_enter_function {G : List Event → Prop} {R : StateRel} (L : R.laws G)
    (attributes : function_attributes) (a : List scope_kind) (n : Nat) :
    Sat R ⟨a, n, true⟩ ⟨a, n, true⟩ (fun _ => True) (sample_enter_function attributes) := by
  constructor
  intro s x s1 h
  cases h
  exact ⟨L.guarded_frame a n _ _ rfl rfl, trivial⟩

theorem sample_externals_respects {G : List Event → Prop} {R : StateRel} (L : R.laws G) :
    sample_externals.respects G R where
  parse_expression := fun prec i =>
    sat_bind L (sat_sample_parse_primary L i)
      (fun lhs hl => sat_sample_parse_expression_remainder L lhs prec i hl)
  parse_expression_remainder := fun e prec i he =>
    sat_sample_parse_expression_remainder L e prec i he
  parse_async_expression := fun _ _ _ => sat_unimplemented _ _ _
  parse_await_expression := fun _ _ _ => sat_unimplemented _ _ _
  visit_expression := fun e context i _ => sat_sample_visit_expression L e context i
  visit_assignment_expression := fun lhs rhs i _ _ =>
    sat_bind L (sat_sample_visit_expression L rhs _ i)
      (fun _ _ => sat_sample_visit_expression L lhs _ i)
  maybe_visit_assignment := fun _ i _ => sat_pure_any L _ _
  parse_and_visit_class := fun _ _ => sat_unimplemented _ _ _
  parse_and_visit_typescript_interface := fun _ => sat_unimplemented _ _ _
  parse_and_visit_typescript_type_expression := fun _ => sat_unimplemented _ _ _
  parse_and_visit_typescript_colon_type_expression := fun _ => sat_unimplemented _ _ _
  parse_and_visit_parenthesized_expression := fun _ _ _ _ => sat_unimplemented _ _ _
  is_let_token_a_variable_reference := fun _ _ _ => sat_pure_any L _ _
  try_parse_function_with_leading_star := fun _ => sat_pure_any L _ _
  parse_generator_star := fun _ _ => sat_pure_any L _ _
  enter_function := fun attributes a n => sat_sample_enter_function L attributes a n
  error_on_class_statement := fun _ _ => sat_pure_any L _ _
  error_on_function_statement := fun _ _ => sat_pure_any L _ _
  error_on_lexical_declaration := fun _ _ => sat_pure_any L _ _
  error_on_sketchy_condition := fun _ _ => sat_pure_any L _ _
  is_maybe_function_statement := fun _ => sat_pure_any L _ _
  report_errors_for_escape_sequences_in_keyword := fun _ _ => sat_pure_any L _ _

/-! ## Properties of whole runs -/

/-- A run of `parse_and_visit_module` that returns is a run of its loop that returns,
followed by `visit_end_of_module`. -/
theorem module_run_eq (X : Externals) (fuel : Nat) (s s1 : PState)
    (h : parse_and_visit_module X fuel s = .ok () s1) :
    ∃ s0, parse_and_visit_module.loop X fuel s = .ok () s0
      ∧ s1 = { s0 with out := s0.out ++ [.visit_end_of_module] } := by
  simp only [parse_and_visit_module, bind, P.bind] at h
  cases hl : parse_and_visit_module.loop X fuel s with
  | ok u s0 =>
    rw [hl] at h
    simp only [visit_end_of_module, visit, Res.ok.injEq, true_and] at h
    exact ⟨s0, rfl, h.symm⟩
  | stop r s0 => rw [hl] at h; simp at h
  | out_of_fuel => rw [hl] at h; simp at h

/-- A run of the loop of `parse_and_visit_module` that returns gives a run of
`parse_and_visit_module` that returns. -/
theorem module_of_loop (X : Externals) (fuel : Nat) (s s0 : PState)
    (h : parse_and_visit_module.loop X fuel s = .ok () s0) :
    parse_and_visit_module X fuel s
      = .ok () { s0 with out := s0.out ++ [.visit_end_of_module] } := by
  simp [parse_and_visit_module, bind, P.bind, h, visit_end_of_module, visit]

/-- The loop of `parse_and_visit_module` after a statement was parsed. -/
theorem module_loop_parsed (X : Externals) (fuel : Nat) (s s2 : PState)
    (h : parse_and_visit_statement X fuel .any_statement_in_block s = .ok true s2) :
    parse_and_visit_module.loop X (fuel + 1) s = parse_and_visit_module.loop X fuel s2 := by
  rw [parse_and_visit_module.loop]
  simp [bind, P.bind, h]

/-- The loop of `parse_and_visit_module` when the statement parser declines at
`end_of_file`. -/
theorem module_loop_end_of_file (X : Externals) (fuel : Nat) (s s2 : PState)
    (h : parse_and_visit_statement X fuel .any_statement_in_block s = .ok false s2)
    (he : s2.peek.type = .end_of_file) :
    parse_and_visit_module.loop X (fuel + 1) s = .ok () s2 := by
  rw [parse_and_visit_module.loop]
  simp [bind, P.bind, h, peek, he, pure, P.pure]

/-- C30: whenever `parse_and_visit_module` returns, and the external sub-parsers append
balanced events whenever they return, the events appended by the run are balanced: every
`visit_enter_X_scope` has its `visit_exit_X_scope` of the same kind, properly nested. -/
theorem module_scopes_balanced (X : Externals) (fuel : Nat) (s s1 : PState)
    (hX : X.respects events_neutral balance_rel)
    (hs : ∀ b ∈ s.buffering_visitor_stack, events_neutral b)
    (h : parse_and_visit_module X fuel s = .ok () s1) :
    ∃ es, s1.out = s.out ++ es ∧ scopes_balanced es := by
  obtain ⟨s0, hl, h1⟩ := module_run_eq X fuel s s1 h
  obtain ⟨⟨es, ho, hb⟩, _⟩ :=
    ((sat_parse_and_visit_module_loop balance_rel_laws hX fuel
      (i := ⟨[], 0, false⟩)).run s () s0 hl).1 hs
  refine ⟨es ++ [.visit_end_of_module], ?_, ?_⟩
  · rw [h1]
    simp [ho]
  · unfold scopes_balanced
    rw [scope_stack_after_append, hb]
    rfl

/-- The run of `parse_and_visit_module` on the module `{ }`. -/
theorem empty_block_module_run :
    parse_and_visit_module sample_externals 5
        (initial_state [tok .left_curly 0 1, tok .right_curly 1 2])
      = .ok () { input := [], last_token_end := 2,
                 out := [.visit_enter_scope .block, .visit_exit_scope .block,
                   .visit_end_of_module] } :=
  module_of_loop sample_externals 5 _
    { input := [], last_token_end := 2,
      out := [.visit_enter_scope .block, .visit_exit_scope .block] }
    ((module_loop_parsed sample_externals 4 _
      { input := [], last_token_end := 2,
        out := [.visit_enter_scope .block, .visit_exit_scope .block] } (by decide)).trans
      (module_loop_end_of_file sample_externals 3 _ _ (by decide) (by decide)))

/-- C30 at a concrete input: the module `{ }`. -/
theorem module_scopes_balanced_witness :
    ∃ es, [Event.visit_enter_scope .block, .visit_exit_scope .block, .visit_end_of_module]
        = [] ++ es ∧ scopes_balanced es :=
  module_scopes_balanced sample_externals 5
    (initial_state [tok .left_curly 0 1, tok .right_curly 1 2])
    { input := [], last_token_end := 2,
      out := [.visit_enter_scope .block, .visit_exit_scope .block, .visit_end_of_module] }
    (sample_externals_respects balance_rel_laws)
    (by simp [initial_state]) empty_block_module_run

/-- C1, as amended: whenever `parse_and_visit_statement` returns, on well-formed and on
malformed input, and the external sub-parsers append balanced events whenever they
return, the events appended by the call are balanced: every `visit_enter_X_scope` has its
`visit_exit_X_scope` of the same kind, properly nested. -/
theorem statement_scopes_balanced (X : Externals) (fuel : Nat)
    (statement_type : parse_statement_type) (s s1 : PState) (r : Bool)
    (hX : X.respects events_neutral balance_rel)
    (hs : ∀ b ∈ s.buffering_visitor_stack, events_neutral b)
    (h : parse_and_visit_statement X fuel statement_type s = .ok r s1) :
    ∃ es, s1.out = s.out ++ es ∧ scopes_balanced es := by
  obtain ⟨⟨es, ho, hb⟩, _⟩ :=
    ((sat_parse_and_visit_statement balance_rel_laws hX fuel statement_type
      ⟨[], 0, false⟩).run s r s1 h).1 hs
  exact ⟨es, ho, hb⟩

/-- C1, as amended, at a concrete malformed input: the statement `{` with no `}`. -/
theorem statement_scopes_balanced_witness :
    ∃ es, [Event.visit_enter_scope .block, .visit_exit_scope .block] = [] ++ es
      ∧ scopes_balanced es :=
  statement_scopes_balanced sample_externals 3 .any_statement
    (initial_state [tok .left_curly 0 1])
    { input := [], last_token_end := 1,
      diags := [{ type := .diag_unclosed_code_block, spans := [⟨0, 1⟩] }],
      out := [.visit_enter_scope .block, .visit_exit_scope .block] }
    true
    (sample_externals_respects balance_rel_laws)
    (by simp [initial_state]) (by decide)

/-- C1 as stated fails: on `enum E ;` parsing stops at the parser-unimplemented signal
after `visit_enter_enum_scope`, and the events emitted up to that point hold no
`visit_exit_enum_scope`. -/
theorem enum_without_body_scope_left_open :
    parse_and_visit_module sample_externals 6
        (initial_state [tok .kw_enum 0 4, ident_tok "E" 5 6, tok .semicolon 6 7])
      = .stop .parser_unimplemented
          { input := [tok .semicolon 6 7], last_token_end := 6,
            diags := [{ type := .diag_typescript_enum_is_not_allowed_in_javascript,
                        spans := [⟨0, 4⟩] }],
            out := [.visit_variable_declaration ⟨⟨5, 6⟩, "E"⟩ ._enum .normal,
              .visit_enter_scope .enum],
            depth := 1 }
    ∧ ¬ scopes_balanced [.visit_variable_declaration ⟨⟨5, 6⟩, "E"⟩ ._enum .normal,
          .visit_enter_scope .enum] := by
  constructor
  · decide
  · unfold scopes_balanced
    decide

/-- C18: whenever the external sub-parsers leave the buffering-visitor stack as they found
it, a call of `parse_and_visit_export` or of `parse_and_visit_for` that returns leaves the
stack exactly as it was on entry, so every entry it popped is one it pushed; and a run of
`parse_and_visit_module` that starts with the empty stack has the empty stack when its
loop returns, which is when `visit_end_of_module` is emitted, and when it returns. -/
theorem buffering_visitor_stack_balanced (X : Externals) (fuel fuel1 : Nat) (s s1 : PState)
    (hX : X.respects (fun _ => True) stack_rel) :
    (parse_and_visit_export X (parse_and_visit_statement X fuel1) fuel s = .ok () s1 →
        s1.buffering_visitor_stack = s.buffering_visitor_stack)
    ∧ (parse_and_visit_for X (parse_and_visit_statement X fuel1) fuel s = .ok () s1 →
        s1.buffering_visitor_stack = s.buffering_visitor_stack)
    ∧ (s.buffering_visitor_stack = [] → parse_and_visit_module X fuel s = .ok () s1 →
        ∃ s0, parse_and_visit_module.loop X fuel s = .ok () s0
          ∧ s0.buffering_visitor_stack = []
          ∧ s1 = { s0 with out := s0.out ++ [.visit_end_of_module] }
          ∧ s1.buffering_visitor_stack = []) := by
  have hstmt := sat_parse_and_visit_statement stack_rel_laws hX fuel1
  refine ⟨fun h => ?_, fun h => ?_, fun hs h => ?_⟩
  · have := ((sat_parse_and_visit_export stack_rel_laws hX hstmt
      (i := ⟨[], 0, false⟩)).run s () s1 h).1 (Nat.zero_le _)
    simpa using this.2
  · have := ((sat_parse_and_visit_for stack_rel_laws hX hstmt
      (i := ⟨[], 0, false⟩)).run s () s1 h).1 (Nat.zero_le _)
    simpa using this.2
  · obtain ⟨s0, hl, h1⟩ := module_run_eq X fuel s s1 h
    have := ((sat_parse_and_visit_module_loop stack_rel_laws hX fuel
      (i := ⟨[], 0, false⟩)).run s () s0 hl).1 (Nat.zero_le _)
    have h0 : s0.buffering_visitor_stack = [] := by simpa [hs] using this.2
    exact ⟨s0, hl, h0, h1, by rw [h1]; exact h0⟩

/-- C18 at a concrete input: the module `{ }`, parsed from the empty stack. -/
theorem buffering_visitor_stack_balanced_witness :
    ∃ s0, parse_and_visit_module.loop sample_externals 5
          (initial_state [tok .left_curly 0 1, tok .right_curly 1 2]) = .ok () s0
      ∧ s0.buffering_visitor_stack = []
      ∧ ({ input := [], last_token_end := 2,
           out := [.visit_enter_scope .block, .visit_exit_scope .block,
             .visit_end_of_module] } : PState)
          = { s0 with out := s0.out ++ [.visit_end_of_module] }
      ∧ ({ input := [], last_token_end := 2,
           out := [.visit_enter_scope .block, .visit_exit_scope .block,
             .visit_end_of_module] } : PState).buffering_visitor_stack = [] :=
  (buffering_visitor_stack_balanced sample_externals 5 0
    (initial_state [tok .left_curly 0 1, tok .right_curly 1 2])
    { input := [], last_token_end := 2,
      out := [.visit_enter_scope .block, .visit_exit_scope .block, .visit_end_of_module] }
    (sample_externals_respects stack_rel_laws)).2.2 rfl empty_block_module_run

/-- The guard `with_loop_guard`: the body runs with `in_loop_statement` set, and the flag
is put back when the body returns. -/
theorem with_loop_guard_eq {α : Type} (body : P α) (s : PState) :
    with_loop_guard body s
      = match body { s with in_loop_statement := true } with
        | .ok r s1 => .ok r { s1 with in_loop_statement := s.in_loop_statement }
        | .stop r s1 => .stop r s1
        | .out_of_fuel => .out_of_fuel := by
  simp only [with_loop_guard, bind, P.bind, get_state, pure, P.pure]
  first
    | done
    | (cases body { s with in_loop_statement := true } <;> rfl)

/-- The guard `with_switch_guard`: the body runs with `in_switch_statement` set, and the
flag is put back when the body returns. -/
theorem with_switch_guard_eq {α : Type} (body : P α) (s : PState) :
    with_switch_guard body s
      = match body { s with in_switch_statement := true } with
        | .ok r s1 => .ok r { s1 with in_switch_statement := s.in_switch_statement }
        | .stop r s1 => .stop r s1
        | .out_of_fuel => .out_of_fuel := by
  simp only [with_switch_guard, bind, P.bind, get_state, pure, P.pure]
  first
    | done
    | (cases body { s with in_switch_statement := true } <;> rfl)

/-- The statement `break;`: `diag_invalid_break` is reported exactly when neither
`in_switch_statement` nor `in_loop_statement` is set. -/
theorem break_statement_eq (t semi : token) (rest : List token) (s : PState)
    (hin : s.input = t :: semi :: rest) (ht : t.type = .kw_break)
    (hsemi : semi.type = .semicolon) :
    parse_and_visit_statement.case_kw_break_or_kw_continue t s
      = .ok (some true)
          { s with
            input := rest
            last_token_end := semi.end_
            diags := s.diags ++
              if s.in_switch_statement || s.in_loop_statement then []
              else [{ type := .diag_invalid_break, spans := [t.span] }] } := by
  obtain ⟨input, lte, diags, out, stack, f1, f2, f3, f4, depth, options, tx⟩ := s
  simp only at hin
  subst hin
  have hl : parse_and_visit_statement.is_label_after_break token_type.semicolon = false := by
    decide
  cases f3 <;> cases f4 <;>
    simp [parse_and_visit_statement.case_kw_break_or_kw_continue, bind, P.bind, get_state,
      skip, peek, PState.skip, PState.peek, ht, hsemi, hl, pure, P.pure, report,
      consume_semicolon_after_statement]

/-- The run of `parse_and_visit_statement` on `for (;;) break;`, followed by a second
`break;`. -/
theorem for_break_statement_run :
    parse_and_visit_statement sample_externals 5 .any_statement_in_block
        (initial_state [tok .kw_for 0 3, tok .left_paren 4 5, tok .semicolon 5 6,
          tok .semicolon 6 7, tok .right_paren 7 8, tok .kw_break 9 14,
          tok .semicolon 14 15, tok .kw_break 16 21, tok .semicolon 21 22])
      = .ok true { input := [tok .kw_break 16 21, tok .semicolon 21 22],
                   last_token_end := 15 } := by
  decide

/-- C29: whenever `parse_and_visit_statement` returns (the external sub-parsers other than
`enter_function` leaving the context flags as they found them), the four context flags
have the values they had on entry; the body of a `switch` is parsed with
`in_switch_statement` set and a `do`, `for` or `while` statement with `in_loop_statement`
set, the flag being put back afterwards; and `break;` reports `diag_invalid_break`
exactly when neither flag is set. -/
theorem context_flags_scoped (X : Externals) (stmt : parse_statement_type → P Bool)
    (fuel : Nat) (statement_type : parse_statement_type) (s s1 : PState) (r : Bool)
    (t semi : token) (rest : List token)
    (hX : X.respects (fun _ => True) flags_rel) :
    (parse_and_visit_statement X fuel statement_type s = .ok r s1 →
      s1.in_loop_statement = s.in_loop_statement
        ∧ s1.in_switch_statement = s.in_switch_statement
        ∧ s1.in_async_function = s.in_async_function
        ∧ s1.in_generator_function = s.in_generator_function)
    ∧ parse_and_visit_statement.case_kw_switch X stmt fuel s
        = (match parse_and_visit_switch X stmt fuel { s with in_switch_statement := true } with
          | .ok _ s2 => .ok (some true) { s2 with in_switch_statement := s.in_switch_statement }
          | .stop r2 s2 => .stop r2 s2
          | .out_of_fuel => .out_of_fuel)
    ∧ parse_and_visit_statement.case_kw_do X stmt s
        = (match parse_and_visit_do_while X stmt { s with in_loop_statement := true } with
          | .ok _ s2 => .ok (some true) { s2 with in_loop_statement := s.in_loop_statement }
          | .stop r2 s2 => .stop r2 s2
          | .out_of_fuel => .out_of_fuel)
    ∧ parse_and_visit_statement.case_kw_for X stmt fuel s
        = (match parse_and_visit_for X stmt fuel { s with in_loop_statement := true } with
          | .ok _ s2 => .ok (some true) { s2 with in_loop_statement := s.in_loop_statement }
          | .stop r2 s2 => .stop r2 s2
          | .out_of_fuel => .out_of_fuel)
    ∧ parse_and_visit_statement.case_kw_while X stmt s
        = (match parse_and_visit_while X stmt { s with in_loop_statement := true } with
          | .ok _ s2 => .ok (some true) { s2 with in_loop_statement := s.in_loop_statement }
          | .stop r2 s2 => .stop r2 s2
          | .out_of_fuel => .out_of_fuel)
    ∧ (s.input = t :: semi :: rest → t.type = .kw_break → semi.type = .semicolon →
        parse_and_visit_statement.case_kw_break_or_kw_continue t s
          = .ok (some true)
              { s with
                input := rest
                last_token_end := semi.end_
                diags := s.diags ++
                  if s.in_switch_statement || s.in_loop_statement then []
                  else [{ type := .diag_invalid_break, spans := [t.span] }] }) := by
  refine ⟨fun h => ?_, ?_, ?_, ?_, ?_, break_statement_eq t semi rest s⟩
  · have := ((sat_parse_and_visit_statement flags_rel_laws hX fuel statement_type
      ⟨[], 0, false⟩).run s r s1 h).1.2 rfl
    simp only [PState.flags, Prod.mk.injEq] at this
    exact ⟨this.2.2.1, this.2.2.2, this.1, this.2.1⟩
  · simp only [parse_and_visit_statement.case_kw_switch, bind, P.bind, with_switch_guard_eq]
    cases parse_and_visit_switch X stmt fuel { s with in_switch_statement := true } <;> rfl
  · simp only [parse_and_visit_statement.case_kw_do, bind, P.bind, with_loop_guard_eq]
    cases parse_and_visit_do_while X stmt { s with in_loop_statement := true } <;> rfl
  · simp only [parse_and_visit_statement.case_kw_for, bind, P.bind, with_loop_guard_eq]
    cases parse_and_visit_for X stmt fuel { s with in_loop_statement := true } <;> rfl
  · simp only [parse_and_visit_statement.case_kw_while, bind, P.bind, with_loop_guard_eq]
    cases parse_and_visit_while X stmt { s with in_loop_statement := true } <;> rfl

/-- C29 at a concrete input: `for (;;) break; break;`: the first `break;`, in the body of
the loop, reports nothing and the flags are back when the `for` statement returns; the
second `break;` reports `diag_invalid_break`. -/
theorem context_flags_scoped_witness :
    parse_and_visit_statement sample_externals 5 .any_statement_in_block
        (initial_state [tok .kw_for 0 3, tok .left_paren 4 5, tok .semicolon 5 6,
          tok .semicolon 6 7, tok .right_paren 7 8, tok .kw_break 9 14,
          tok .semicolon 14 15, tok .kw_break 16 21, tok .semicolon 21 22])
      = .ok true { input := [tok .kw_break 16 21, tok .semicolon 21 22],
                   last_token_end := 15 }
    ∧ parse_and_visit_statement sample_externals 5 .any_statement_in_block
        { input := [tok .kw_break 16 21, tok .semicolon 21 22], last_token_end := 15 }
      = .ok true { input := [], last_token_end := 22,
                   diags := [{ type := .diag_invalid_break, spans := [⟨16, 21⟩] }] }
    ∧ (false = false ∧ false = false ∧ false = false ∧ false = false) :=
  ⟨for_break_statement_run, by decide,
   (context_flags_scoped sample_externals (parse_and_visit_statement sample_externals 4) 5
      .any_statement_in_block _
      { input := [tok .kw_break 16 21, tok .semicolon 21 22], last_token_end := 15 }
      true (tok .kw_break 16 21) (tok .semicolon 21 22) []
      (sample_externals_respects flags_rel_laws)).1 for_break_statement_run⟩

theorem distinct_below_nodup : ∀ (l : List Nat) (seen : Nat), distinct_below l seen = true →
    l.Nodup ∧ ∀ x ∈ l, seen.testBit x = false := by
  intro l
  induction l with
  | nil => intro seen _; exact ⟨List.nodup_nil, fun x hx => absurd hx (List.not_mem_nil x)⟩
  | cons x xs ih =>
    intro seen h
    simp only [distinct_below, Bool.and_eq_true, Bool.not_eq_true'] at h
    obtain ⟨hnod, hbits⟩ := ih _ h.2
    have hx : x ∉ xs := by
      intro hmem
      have := hbits x hmem
      simp [Nat.testBit_or, Nat.testBit_shiftLeft] at this
    refine ⟨List.nodup_cons.mpr ⟨hx, hnod⟩, ?_⟩
    intro y hy
    rcases List.mem_cons.mp hy with hy | hy
    · rw [hy]; exact h.1
    · have := hbits y hy
      simp only [Nat.testBit_or, Bool.or_eq_false_iff] at this
      exact this.1

set_option maxRecDepth 1000000 in
set_option maxHeartbeats 4000000 in
/-- C40: the array `const_hash_table` has exactly `table_size = 383` entries, so the index
of every probe is within it; the entries in use have pairwise distinct untranslated
strings and pairwise distinct `mapping_table_index` values, and each of these values is
between 1 and 255, below `translation_table_mapping_table_size = 256`. -/
theorem const_hash_table_well_formed :
    translation_table_const_hash_table_look_up.const_hash_table.length = translation_table_const_hash_table_look_up.table_size
    ∧ translation_table_const_hash_table_look_up.table_size = 383
    ∧ (∀ hash attempt : Nat,
        translation_table_const_hash_table_look_up.probe_index hash attempt < translation_table_const_hash_table_look_up.const_hash_table.length)
    ∧ (translation_table_const_hash_table_look_up.used_entries.map (fun e => e.2)).Nodup
    ∧ (translation_table_const_hash_table_look_up.used_entries.map (fun e => e.1)).Nodup
    ∧ (∀ e ∈ translation_table_const_hash_table_look_up.used_entries,
        1 ≤ e.1 ∧ e.1 ≤ 255 ∧ e.1 < translation_table_mapping_table_size)
    ∧ translation_table_mapping_table_size = 256 := by
  have hlen : translation_table_const_hash_table_look_up.const_hash_table.length = 383 := by
    decide
  have hkeys : distinct_below
      ((translation_table_const_hash_table_look_up.used_entries.map (fun e => e.2)).map string_key) 0 = true := by
    decide
  have hindex : distinct_below (translation_table_const_hash_table_look_up.used_entries.map (fun e => e.1)) 0 = true := by
    decide
  refine ⟨hlen, rfl, ?_, ?_, ?_, ?_, rfl⟩
  · intro hash attempt
    rw [hlen]
    exact Nat.mod_lt _ (by decide)
  · exact List.Nodup.of_map string_key (distinct_below_nodup _ _ hkeys).1
  · exact (distinct_below_nodup _ _ hindex).1
  · decide

theorem worst_eq_constant_iff (a b : enum_value_kind) :
    a.worst b = .constant ↔ a = .constant ∧ b = .constant := by
  cases a <;> cases b <;> simp [enum_value_kind.worst, enum_value_kind.rank]

theorem worst_eq_unknown_iff (a b : enum_value_kind) :
    a.worst b = .unknown ↔ a = .unknown ∨ b = .unknown := by
  cases a <;> cases b <;> simp [enum_value_kind.worst, enum_value_kind.rank]

theorem worst_comm (a b : enum_value_kind) : a.worst b = b.worst a := by
  cases a <;> cases b <;> simp [enum_value_kind.worst, enum_value_kind.rank]

theorem worst_assoc (a b c : enum_value_kind) :
    (a.worst b).worst c = a.worst (b.worst c) := by
  cases a <;> cases b <;> cases c <;> simp [enum_value_kind.worst, enum_value_kind.rank]

theorem worst_of_perm {cs cs1 : List expression} (h : cs.Perm cs1) :
    spec_classify.worst_of cs = spec_classify.worst_of cs1 := by
  induction h with
  | nil => rfl
  | cons x _ ih => simp only [spec_classify.worst_of, ih]
  | swap x y l =>
    simp only [spec_classify.worst_of]
    rw [← worst_assoc, ← worst_assoc, worst_comm (spec_classify y)]
  | trans _ _ ih1 ih2 => exact ih1.trans ih2

mutual
theorem spec_classify_leaves : ∀ e : expression,
    (spec_classify e = .constant ↔ ∀ l ∈ enum_value_leaves e, l.kind = .literal)
    ∧ (spec_classify e = .unknown
        ↔ ∃ l ∈ enum_value_leaves e, l.kind ≠ .literal ∧ l.kind ≠ .call)
  | .mk kind f cs es => by
    have h := spec_classify_leaves_of_list cs
    cases kind <;>
      simp [spec_classify, enum_value_leaves, expression.kind] <;> exact h
theorem spec_classify_leaves_of_list : ∀ cs : List expression,
    (spec_classify.worst_of cs = .constant
        ↔ ∀ l ∈ enum_value_leaves_of_list cs, l.kind = .literal)
    ∧ (spec_classify.worst_of cs = .unknown
        ↔ ∃ l ∈ enum_value_leaves_of_list cs, l.kind ≠ .literal ∧ l.kind ≠ .call)
  | [] => by simp [spec_classify.worst_of, enum_value_leaves_of_list]
  | c :: rest => by
    have hc := spec_classify_leaves c
    have hr := spec_classify_leaves_of_list rest
    simp only [spec_classify.worst_of, enum_value_leaves_of_list, worst_eq_constant_iff,
      worst_eq_unknown_iff, List.mem_append, hc.1, hc.2, hr.1, hr.2]
    constructor
    · constructor
      · rintro ⟨h1, h2⟩ l (hl | hl)
        · exact h1 l hl
        · exact h2 l hl
      · intro h
        exact ⟨fun l hl => h l (Or.inl hl), fun l hl => h l (Or.inr hl)⟩
    · constructor
      · rintro (⟨l, hl, h⟩ | ⟨l, hl, h⟩)
        · exact ⟨l, Or.inl hl, h⟩
        · exact ⟨l, Or.inr hl, h⟩
      · rintro ⟨l, hl | hl, h⟩
        · exact Or.inl ⟨l, hl, h⟩
        · exact Or.inr ⟨l, hl, h⟩
end

/-- C37: `classify_enum_value_expression` returns `constant` exactly when every leaf
reached by descending only through `paren` and `binary_operator` nodes is a literal; it
returns `computed` exactly when every such leaf is a literal or a call and at least one is
a call; and the result does not change when the children of a node are reordered. -/
theorem classify_enum_value_expression_leaves (e : expression) :
    (classify_enum_value_expression e = .constant
        ↔ ∀ l ∈ enum_value_leaves e, l.kind = .literal)
    ∧ (classify_enum_value_expression e = .computed
        ↔ (∀ l ∈ enum_value_leaves e, l.kind = .literal ∨ l.kind = .call)
          ∧ ∃ l ∈ enum_value_leaves e, l.kind = .call)
    ∧ (∀ (kind : expression_kind) (f : expression_fields) (cs cs1 : List expression)
        (es : List object_property_value_pair), cs.Perm cs1 →
        classify_enum_value_expression (.mk kind f cs es)
          = classify_enum_value_expression (.mk kind f cs1 es)) := by
  have hl := spec_classify_leaves e
  rw [classify_agrees_aux e]
  refine ⟨hl.1, ?_, ?_⟩
  · constructor
    · intro hc
      have h1 : ¬ spec_classify e = .constant := by rw [hc]; decide
      have h2 : ¬ spec_classify e = .unknown := by rw [hc]; decide
      rw [hl.1] at h1
      rw [hl.2] at h2
      push_neg at h1 h2
      refine ⟨fun l hmem => ?_, ?_⟩
      · by_cases hlit : l.kind = .literal
        · exact Or.inl hlit
        · exact Or.inr (h2 l hmem hlit)
      · obtain ⟨l, hmem, hne⟩ := h1
        exact ⟨l, hmem, h2 l hmem hne⟩
    · rintro ⟨hall, l, hmem, hcall⟩
      have h1 : ¬ spec_classify e = .constant := by
        rw [hl.1]
        intro h
        have := h l hmem
        rw [hcall] at this
        exact absurd this (by decide)
      have h2 : ¬ spec_classify e = .unknown := by
        rw [hl.2]
        rintro ⟨l1, hmem1, hn1, hn2⟩
        rcases hall l1 hmem1 with h | h
        · exact hn1 h
        · exact hn2 h
      cases hs : spec_classify e with
      | constant => exact absurd hs h1
      | computed => rfl
      | unknown => exact absurd hs h2
  · intro kind f cs cs1 es hp
    rw [classify_agrees_aux, classify_agrees_aux]
    cases kind <;> simp [spec_classify, worst_of_perm hp]

theorem reserved_keyword_binding_case (t : token_type)
    (h : is_reserved_keyword_except_await_and_yield t = true) :
    t ≠ .kw_await ∧ t ≠ .kw_yield
      ∧ parse_and_visit_let_bindings.is_variable_name t = false
      ∧ t ≠ .reserved_keyword_with_escape_sequence
      ∧ t ≠ .left_curly ∧ t ≠ .left_square := by
  cases t <;> first | exact absurd h (by decide) | decide

/-- The last case of the second `switch` of the loop of `parse_and_visit_let_bindings`. -/
theorem binding_last_case (X : Externals) (declaring_token : token)
    (declaration_kind : variable_kind)
    (allow_in_operator allow_const_without_initializer is_in_for_initializer : Bool)
    (first_binding : Bool) (comma_span : Option source_code_span) (s : PState)
    (h : parse_and_visit_let_bindings.is_last_case s.peek.type = true) :
    parse_and_visit_let_bindings.binding X declaring_token declaration_kind allow_in_operator
        allow_const_without_initializer is_in_for_initializer first_binding comma_span s
      = .ok true { s with diags := s.diags ++
          [if first_binding then
             { type := .diag_let_with_no_bindings, spans := [declaring_token.span] }
           else
             { type := .diag_stray_comma_in_let_statement,
               spans := [comma_span.getD ⟨0, 0⟩] }] } := by
  simp only [parse_and_visit_let_bindings.is_last_case, Bool.not_eq_true', Bool.or_eq_false_iff,
    beq_eq_false_iff_ne, ne_eq] at h
  obtain ⟨⟨⟨⟨⟨⟨⟨⟨⟨⟨⟨h1, h2⟩, h3⟩, h4⟩, h5⟩, h6⟩, h7⟩, h8⟩, h9⟩, h10⟩, h11⟩, h12⟩ := h
  cases first_binding <;>
    simp [parse_and_visit_let_bindings.binding, bind, P.bind, pure, P.pure, peek, get_state,
      report, h1, h2, h3, h4, h5, h6, h7, h8, h9, h10, h11, h12]

/-- A reserved keyword at the start of a line, in the place of a binding, followed by a
token other than `end_of_file`, `=` and `;`. -/
theorem binding_keyword_on_new_line (X : Externals) (declaring_token : token)
    (declaration_kind : variable_kind)
    (allow_in_operator allow_const_without_initializer is_in_for_initializer : Bool)
    (first_binding : Bool) (comma_span : Option source_code_span) (s : PState)
    (kw next : token) (rest : List token)
    (hin : s.input = kw :: next :: rest)
    (hkw : is_reserved_keyword_except_await_and_yield kw.type = true)
    (hnl : kw.has_leading_newline = true)
    (hnext : next.type ≠ .end_of_file ∧ next.type ≠ .equal ∧ next.type ≠ .semicolon) :
    parse_and_visit_let_bindings.binding X declaring_token declaration_kind allow_in_operator
        allow_const_without_initializer is_in_for_initializer first_binding comma_span s
      = .ok true { s with diags := s.diags ++
          [{ type := .diag_let_with_no_bindings, spans := [declaring_token.span] }] } := by
  obtain ⟨h1, h2, h3, h4, h5, h6⟩ := reserved_keyword_binding_case kw.type hkw
  obtain ⟨input, lte, diags, out, stack, f1, f2, f3, f4, depth, options, tx⟩ := s
  simp only at hin
  subst hin
  simp [parse_and_visit_let_bindings.binding, bind, P.bind, pure, P.pure, peek, get_state,
    report, skip, PState.peek, PState.skip, begin_transaction, roll_back_transaction,
    h1, h2, h3, h4, h5, h6, hkw, hnl, hnext.1, hnext.2.1, hnext.2.2]

/-- C34, the code as it stands: in the last case of the `switch` over the first token of a
binding (`;` and every token without a case of its own) `diag_let_with_no_bindings` is
reported only for the first binding, and `diag_stray_comma_in_let_statement` instead after
a binding and a comma.  The code departs from the claim in the case of a reserved keyword:
at the start of a line, followed by a token other than `end_of_file`, `=` and `;`, the
keyword case reports `diag_let_with_no_bindings` without a test of `first_binding`, also
after a binding and a comma. -/
theorem let_with_no_bindings_reported (X : Externals) (declaring_token : token)
    (declaration_kind : variable_kind)
    (allow_in_operator allow_const_without_initializer is_in_for_initializer : Bool)
    (first_binding : Bool) (comma_span : Option source_code_span) (s : PState)
    (kw next : token) (rest : List token) :
    (parse_and_visit_let_bindings.is_last_case s.peek.type = true →
      parse_and_visit_let_bindings.binding X declaring_token declaration_kind
          allow_in_operator allow_const_without_initializer is_in_for_initializer
          first_binding comma_span s
        = .ok true { s with diags := s.diags ++
            [if first_binding then
               { type := .diag_let_with_no_bindings, spans := [declaring_token.span] }
             else
               { type := .diag_stray_comma_in_let_statement,
                 spans := [comma_span.getD ⟨0, 0⟩] }] })
    ∧ (s.input = kw :: next :: rest →
        is_reserved_keyword_except_await_and_yield kw.type = true →
        kw.has_leading_newline = true →
        next.type ≠ .end_of_file ∧ next.type ≠ .equal ∧ next.type ≠ .semicolon →
        parse_and_visit_let_bindings.binding X declaring_token declaration_kind
            allow_in_operator allow_const_without_initializer is_in_for_initializer
            first_binding comma_span s
          = .ok true { s with diags := s.diags ++
              [{ type := .diag_let_with_no_bindings, spans := [declaring_token.span] }] }) :=
  ⟨binding_last_case X declaring_token declaration_kind allow_in_operator
      allow_const_without_initializer is_in_for_initializer first_binding comma_span s,
   binding_keyword_on_new_line X declaring_token declaration_kind allow_in_operator
      allow_const_without_initializer is_in_for_initializer first_binding comma_span s
      kw next rest⟩

/-- C34, the failing input: in `let x,` followed on the next line by `if (`, the keyword
`if` comes after a first binding and a comma, and `diag_let_with_no_bindings` is
reported. -/
theorem let_with_no_bindings_after_comma :
    parse_and_visit_let_bindings sample_externals 3 (tok .kw_let 0 3) true false false
        { input := [ident_tok "x" 4 5, tok .comma 5 6, (tok .kw_if 7 9).on_new_line,
            tok .left_paren 10 11],
          last_token_end := 3 }
      = .ok ()
          { input := [(tok .kw_if 7 9).on_new_line, tok .left_paren 10 11],
            last_token_end := 6,
            diags := [{ type := .diag_let_with_no_bindings, spans := [⟨0, 3⟩] }],
            out := [.visit_variable_declaration ⟨⟨4, 5⟩, "x"⟩ ._let .normal] } := by
  decide

/-- C34 at concrete inputs: `;` in the place of the first binding and after a comma, and
the keyword `if` at the start of a line after a comma. -/
theorem let_with_no_bindings_reported_witness :
    parse_and_visit_let_bindings.binding sample_externals (tok .kw_let 0 3) ._let true false
        false true none { input := [tok .semicolon 3 4], last_token_end := 3 }
      = .ok true { input := [tok .semicolon 3 4], last_token_end := 3,
                   diags := [{ type := .diag_let_with_no_bindings, spans := [⟨0, 3⟩] }] }
    ∧ parse_and_visit_let_bindings.binding sample_externals (tok .kw_let 0 3) ._let true
        false false false (some ⟨5, 6⟩) { input := [tok .semicolon 6 7], last_token_end := 6 }
      = .ok true { input := [tok .semicolon 6 7], last_token_end := 6,
                   diags := [{ type := .diag_stray_comma_in_let_statement,
                               spans := [⟨5, 6⟩] }] }
    ∧ parse_and_visit_let_bindings.binding sample_externals (tok .kw_let 0 3) ._let true
        false false false (some ⟨5, 6⟩)
        { input := [(tok .kw_if 7 9).on_new_line, tok .left_paren 10 11],
          last_token_end := 6 }
      = .ok true { input := [(tok .kw_if 7 9).on_new_line, tok .left_paren 10 11],
                   last_token_end := 6,
                   diags := [{ type := .diag_let_with_no_bindings, spans := [⟨0, 3⟩] }] } :=
  ⟨(let_with_no_bindings_reported sample_externals (tok .kw_let 0 3) ._let true false false
      true none { input := [tok .semicolon 3 4], last_token_end := 3 }
      (tok .semicolon 3 4) (tok .semicolon 3 4) []).1 (by decide),
   (let_with_no_bindings_reported sample_externals (tok .kw_let 0 3) ._let true false false
      false (some ⟨5, 6⟩) { input := [tok .semicolon 6 7], last_token_end := 6 }
      (tok .semicolon 3 4) (tok .semicolon 3 4) []).1 (by decide),
   (let_with_no_bindings_reported sample_externals (tok .kw_let 0 3) ._let true false false
      false (some ⟨5, 6⟩)
      { input := [(tok .kw_if 7 9).on_new_line, tok .left_paren 10 11], last_token_end := 6 }
      ((tok .kw_if 7 9).on_new_line) (tok .left_paren 10 11) []).2 rfl (by decide) rfl
      (by decide)⟩

/-- A name without `as` in the named list of a type-only import that is an identifier or
a contextual keyword. -/
theorem type_only_import_plain_name (X : Externals) (k : source_code_span)
    (is_local_type_import left_is_keyword : Bool) (s : PState) (name next : token)
    (rest : List token)
    (hin : s.input = name :: next :: rest) (hnext : next.type ≠ .kw_as)
    (hname : (is_contextual_keyword name.type || name.type == .identifier) = true) :
    parse_and_visit_named_exports.named_export X (some k) false is_local_type_import
        left_is_keyword s
      = .ok ()
          { s with
            input := next :: rest
            last_token_end := name.end_
            diags := s.diags ++
              if name.type = .kw_let then
                [{ type := .diag_cannot_import_let, spans := [name.span] }]
              else []
            out := s.out ++
              [.visit_variable_declaration name.identifier_name ._import_type .normal] } := by
  obtain ⟨input, lte, diags, out, stack, f1, f2, f3, f4, depth, options, tx⟩ := s
  simp only at hin
  subst hin
  have hk : is_contextual_keyword token_type.kw_let = true := by decide
  simp only [Bool.or_eq_true, beq_iff_eq] at hname
  by_cases hlet : name.type = .kw_let <;>
    simp [hk, parse_and_visit_named_exports.named_export, bind, P.bind, pure, P.pure, peek, skip,
      PState.peek, PState.skip, hnext, hname, hlet, report, visit_variable_declaration, visit]

/-- A name without `as` in the named list of a type-only import that is a strict reserved
keyword. -/
theorem type_only_import_reserved_keyword (X : Externals) (k : source_code_span)
    (is_local_type_import left_is_keyword : Bool) (s : PState) (name next : token)
    (rest : List token)
    (hin : s.input = name :: next :: rest) (hnext : next.type ≠ .kw_as)
    (hname : (is_contextual_keyword name.type || name.type == .identifier) = false)
    (hkw : is_strict_reserved_keyword name.type = true) :
    parse_and_visit_named_exports.named_export X (some k) false is_local_type_import
        left_is_keyword s
      = .ok ()
          { s with
            input := next :: rest
            last_token_end := name.end_
            diags := s.diags ++
              [{ type := .diag_cannot_import_variable_named_keyword,
                 spans := [name.identifier_name.span] }]
            out := s.out ++
              [.visit_variable_declaration name.identifier_name ._import .normal] } := by
  obtain ⟨input, lte, diags, out, stack, f1, f2, f3, f4, depth, options, tx⟩ := s
  simp only at hin
  subst hin
  simp only [Bool.or_eq_false_iff, beq_eq_false_iff_ne, ne_eq] at hname
  simp [parse_and_visit_named_exports.named_export, bind, P.bind, pure, P.pure, peek, skip,
    PState.peek, PState.skip, hnext, hname.1, hname.2, hkw, report, visit_variable_declaration,
    visit]

/-- A string name with `as` and an alias that is an identifier or a contextual keyword, in
the named list of an import. -/
theorem string_import_alias (X : Externals) (s : PState) (str as_token name : token)
    (rest : List token)
    (hin : s.input = str :: as_token :: name :: rest) (has : as_token.type = .kw_as)
    (hname : (is_contextual_keyword name.type || name.type == .identifier) = true) :
    parse_and_visit_named_exports.string_import X s
      = .ok ()
          { s with
            input := rest
            last_token_end := name.end_
            diags := s.diags ++
              if name.type = .kw_let then
                [{ type := .diag_cannot_import_let, spans := [name.span] }]
              else []
            out := s.out ++
              [.visit_variable_declaration name.identifier_name ._import .normal] } := by
  obtain ⟨input, lte, diags, out, stack, f1, f2, f3, f4, depth, options, tx⟩ := s
  simp only at hin
  subst hin
  have hk : is_contextual_keyword token_type.kw_let = true := by decide
  simp only [Bool.or_eq_true, beq_iff_eq] at hname
  by_cases hlet : name.type = .kw_let <;>
    simp [hk, parse_and_visit_named_exports.string_import, bind, P.bind, pure, P.pure, peek, skip,
      PState.peek, PState.skip, has, hname, hlet, report, visit_variable_declaration, visit,
      QLJS_PARSER_UNIMPLEMENTED_IF_NOT_TOKEN]

/-- C35, the code as it stands: in the named list of a type-only import
(`import type { ... }`), a name without `as` that is an identifier or a contextual keyword
is declared with kind `_import_type`.  The code departs from the claim in two cases: a
name that is a strict reserved keyword is reported and declared with kind `_import`, and
the alias of a string name is declared with kind `_import`; in both the kind is written
out as `variable_kind::_import` where the other cases call `imported_variable_kind()`. -/
theorem type_only_import_declaration_kind (X : Externals) (k : source_code_span)
    (is_local_type_import left_is_keyword : Bool) (s : PState)
    (name next str as_token : token) (rest : List token) :
    (s.input = name :: next :: rest → next.type ≠ .kw_as →
      (is_contextual_keyword name.type || name.type == .identifier) = true →
      parse_and_visit_named_exports.named_export X (some k) false is_local_type_import
          left_is_keyword s
        = .ok ()
            { s with
              input := next :: rest
              last_token_end := name.end_
              diags := s.diags ++
                if name.type = .kw_let then
                  [{ type := .diag_cannot_import_let, spans := [name.span] }]
                else []
              out := s.out ++
                [.visit_variable_declaration name.identifier_name ._import_type .normal] })
    ∧ (s.input = name :: next :: rest → next.type ≠ .kw_as →
        (is_contextual_keyword name.type || name.type == .identifier) = false →
        is_strict_reserved_keyword name.type = true →
        parse_and_visit_named_exports.named_export X (some k) false is_local_type_import
            left_is_keyword s
          = .ok ()
              { s with
                input := next :: rest
                last_token_end := name.end_
                diags := s.diags ++
                  [{ type := .diag_cannot_import_variable_named_keyword,
                     spans := [name.identifier_name.span] }]
                out := s.out ++
                  [.visit_variable_declaration name.identifier_name ._import .normal] })
    ∧ (s.input = str :: as_token :: name :: rest → as_token.type = .kw_as →
        (is_contextual_keyword name.type || name.type == .identifier) = true →
        parse_and_visit_named_exports.string_import X s
          = .ok ()
              { s with
                input := rest
                last_token_end := name.end_
                diags := s.diags ++
                  if name.type = .kw_let then
                    [{ type := .diag_cannot_import_let, spans := [name.span] }]
                  else []
                out := s.out ++
                  [.visit_variable_declaration name.identifier_name ._import .normal] }) :=
  ⟨type_only_import_plain_name X k is_local_type_import left_is_keyword s name next rest,
   type_only_import_reserved_keyword X k is_local_type_import left_is_keyword s name next
     rest,
   string_import_alias X s str as_token name rest⟩

/-- C35 at concrete inputs: the names `a` and `var` followed by `}`. -/
theorem type_only_import_declaration_kind_witness :
    parse_and_visit_named_exports.named_export sample_externals (some ⟨7, 11⟩) false false
        false { input := [ident_tok "a" 14 15, tok .right_curly 18 19], last_token_end := 13 }
      = .ok () { input := [tok .right_curly 18 19], last_token_end := 15,
                 out := [.visit_variable_declaration ⟨⟨14, 15⟩, "a"⟩ ._import_type .normal] }
    ∧ parse_and_visit_named_exports.named_export sample_externals (some ⟨7, 11⟩) false false
        true { input := [tok .kw_var 14 17, tok .right_curly 18 19], last_token_end := 13 }
      = .ok () { input := [tok .right_curly 18 19], last_token_end := 17,
                 diags := [{ type := .diag_cannot_import_variable_named_keyword,
                             spans := [⟨14, 17⟩] }],
                 out := [.visit_variable_declaration ⟨⟨14, 17⟩, ""⟩ ._import .normal] } :=
  ⟨(type_only_import_declaration_kind sample_externals ⟨7, 11⟩ false false
      { input := [ident_tok "a" 14 15, tok .right_curly 18 19], last_token_end := 13 }
      (ident_tok "a" 14 15) (tok .right_curly 18 19) (tok .string 0 0) (tok .kw_as 0 0)
      []).1 rfl (by decide) (by decide),
   (type_only_import_declaration_kind sample_externals ⟨7, 11⟩ false true
      { input := [tok .kw_var 14 17, tok .right_curly 18 19], last_token_end := 13 }
      (tok .kw_var 14 17) (tok .right_curly 18 19) (tok .string 0 0) (tok .kw_as 0 0)
      []).2.1 rfl (by decide) (by decide) (by decide)⟩

/-- C35, the failing inputs: in `import type { "a" as b }` the alias `b` of the string
name is declared with kind `_import`, and so is the reserved keyword in
`import type { var }`. -/
theorem type_only_import_declares_import_kind :
    parse_and_visit_named_exports sample_externals 4 (some ⟨7, 11⟩) false
        (initial_state [tok .left_curly 12 13, tok .string 14 17, tok .kw_as 18 20,
          ident_tok "b" 21 22, tok .right_curly 23 24])
      = .ok [] { input := [], last_token_end := 24,
                 out := [.visit_variable_declaration ⟨⟨21, 22⟩, "b"⟩ ._import .normal] }
    ∧ parse_and_visit_named_exports sample_externals 4 (some ⟨7, 11⟩) false
        (initial_state [tok .left_curly 12 13, tok .kw_var 14 17, tok .right_curly 18 19])
      = .ok [] { input := [], last_token_end := 19,
                 diags := [{ type := .diag_cannot_import_variable_named_keyword,
                             spans := [⟨14, 17⟩] }],
                 out := [.visit_variable_declaration ⟨⟨14, 17⟩, ""⟩ ._import .normal] } := by
  constructor <;> decide

/-- A sequence that returns: its first part returned, and the rest returned from there. -/
theorem bind_ok {α β : Type} {m : P α} {f : α → P β} {s s1 : PState} {b : β}
    (h : (m >>= f) s = .ok b s1) : ∃ a s2, m s = .ok a s2 ∧ f a s2 = .ok b s1 := by
  have h1 : P.bind m f s = .ok b s1 := h
  unfold P.bind at h1
  cases hm : m s with
  | ok a s2 => rw [hm] at h1; exact ⟨a, s2, rfl, h1⟩
  | stop r s2 => rw [hm] at h1; cases h1
  | out_of_fuel => rw [hm] at h1; cases h1

theorem pure_ok {α : Type} {a b : α} {s s1 : PState} (h : (pure a : P α) s = .ok b s1) :
    b = a ∧ s1 = s := by
  have h1 : P.pure a s = .ok b s1 := h
  unfold P.pure at h1
  cases h1
  exact ⟨rfl, rfl⟩

theorem ensures_bind {α β : Type} {Q : β → PState → Prop} {m : P α} {f : α → P β}
    (h : ∀ a, Ensures Q (f a)) : Ensures Q (m >>= f) := by
  constructor
  intro s b s1 hb
  obtain ⟨a, s2, _, h2⟩ := bind_ok hb
  exact (h a).run s2 b s1 h2

theorem ensures_bind_value {α β : Type} {Q : β → PState → Prop} (Q1 : α → Prop) {m : P α}
    {f : α → P β} (hm : Ensures (fun a _ => Q1 a) m) (h : ∀ a, Q1 a → Ensures Q (f a)) :
    Ensures Q (m >>= f) := by
  constructor
  intro s b s1 hb
  obtain ⟨a, s2, h1, h2⟩ := bind_ok hb
  exact (h a (hm.run s a s2 h1)).run s2 b s1 h2

theorem ensures_ite {α : Type} {Q : α → PState → Prop} {c : Prop} [Decidable c] {a b : P α}
    (ha : Ensures Q a) (hb : Ensures Q b) : Ensures Q (if c then a else b) := by
  split <;> assumption

theorem ensures_unimplemented {α : Type} {Q : α → PState → Prop} :
    Ensures Q (QLJS_PARSER_UNIMPLEMENTED : P α) := by
  constructor
  intro s b s1 hb
  cases hb

theorem ensures_pure {α : Type} {Q : α → PState → Prop} {a : α} (h : ∀ s, Q a s) :
    Ensures Q (pure a : P α) := by
  constructor
  intro s b s1 hb
  obtain ⟨h1, h2⟩ := pure_ok hb
  rw [h1, h2]
  exact h s

/-- The test `if (this->peek().type == token_type::semicolon)` with nothing assigned and
nothing consumed where it fails. -/
theorem ensures_peek_semicolon {f : token → P (Option loop_style × Option expression)}
    (h : ∀ t, Ensures (fun r s => r.1 = none → s.peek.type ≠ .semicolon) (f t)) :
    Ensures (fun r s => r.1 = none → s.peek.type ≠ .semicolon)
      (peek >>= fun t => if (t.type == .semicolon) = true then f t else pure (none, none)) := by
  constructor
  intro s b s1 hb
  obtain ⟨t, s2, ht, h2⟩ := bind_ok hb
  cases ht
  split at h2
  · exact (h _).run _ _ _ h2
  · rename_i hne
    obtain ⟨_, h3⟩ := pure_ok h2
    intro _
    rw [h3]
    simpa using hne

/-- The lambda `parse_in_or_of_or_condition_update` leaves `for_loop_style` unassigned
only where the token that follows is not `;`. -/
theorem parse_in_or_of_or_condition_update_style (X : Externals)
    (left_paren_token_begin : Nat) (for_token_span : source_code_span)
    (init_expression : expression) :
    Ensures (fun r s => r.1 = none → s.peek.type ≠ .semicolon)
      (parse_and_visit_for.parse_in_or_of_or_condition_update X left_paren_token_begin
        for_token_span init_expression) := by
  unfold parse_and_visit_for.parse_in_or_of_or_condition_update
  simp only []
  repeat' first
    | with_reducible exact ensures_unimplemented
    | with_reducible apply ensures_peek_semicolon
    | with_reducible apply ensures_ite
    | (with_reducible apply ensures_pure; intro s h; cases h)
    | with_reducible apply ensures_bind
    | intro _

/-- The head that starts with `async` leaves `for_loop_style` unassigned only where the
token that follows is not `;`. -/
theorem for_async_style (X : Externals) (left_paren_token_begin : Nat)
    (for_token_span : source_code_span) :
    Ensures (fun r s => r.1 = none → s.peek.type ≠ .semicolon)
      (parse_and_visit_for.async X left_paren_token_begin for_token_span) := by
  unfold parse_and_visit_for.async
  simp only []
  repeat' first
    | with_reducible exact parse_in_or_of_or_condition_update_style X _ _ _
    | with_reducible apply ensures_ite
    | with_reducible apply ensures_bind
    | intro _

/-- The head that starts with `const`, `let` or `var` always assigns `for_loop_style`. -/
theorem for_declaration_style (X : Externals) (fuel left_paren_token_begin : Nat)
    (for_token_span : source_code_span) :
    Ensures (fun r _ => r.1 ≠ none)
      (parse_and_visit_for.declaration X fuel left_paren_token_begin for_token_span) := by
  unfold parse_and_visit_for.declaration
  simp only []
  repeat' first
    | with_reducible exact ensures_unimplemented
    | with_reducible apply
        ensures_bind_value (fun (r : Option loop_style × Option expression) => r.1 ≠ none)
    | with_reducible apply ensures_ite
    | (with_reducible apply ensures_pure; intro s; first | assumption | simp)
    | with_reducible apply ensures_bind
    | intro _ _
    | intro _

/-- The loop over the trailing semicolons of a `for` head reads `for_loop_style` only
when the current token is `;`. -/
theorem extra_semicolons_without_semicolon (X : Externals)
    (for_loop_style : Option loop_style) (fuel : Nat) (s : PState)
    (h : s.peek.type ≠ .semicolon) :
    parse_and_visit_for.extra_semicolons X for_loop_style (fuel + 1) s = .ok () s := by
  rw [parse_and_visit_for.extra_semicolons]
  simp [bind, P.bind, peek, h, pure, P.pure]

/-- C38: in `parse_and_visit_for` the local `for_loop_style` is assigned before it is
read.  The head that starts with a declaration always assigns it; the lambda
`parse_in_or_of_or_condition_update`, also when reached through the head that starts with
`async`, leaves it unassigned only where the token that follows is not `;` (the other
heads, a leading `;` and a lone `)`, assign it in `parse_and_visit_for` itself); and the
loop over the trailing semicolons, when the current token is not `;`, returns at once
without reading it. -/
theorem for_loop_style_assigned_before_read (X : Externals)
    (fuel left_paren_token_begin : Nat) (for_token_span : source_code_span)
    (init_expression : expression) (s s1 : PState)
    (r : Option loop_style × Option expression) :
    (parse_and_visit_for.declaration X fuel left_paren_token_begin for_token_span s
        = .ok r s1 → r.1 ≠ none)
    ∧ (parse_and_visit_for.parse_in_or_of_or_condition_update X left_paren_token_begin
          for_token_span init_expression s = .ok r s1 →
        r.1 = none →
        s1.peek.type ≠ .semicolon
          ∧ ∀ fuel1, parse_and_visit_for.extra_semicolons X r.1 (fuel1 + 1) s1 = .ok () s1)
    ∧ (parse_and_visit_for.async X left_paren_token_begin for_token_span s = .ok r s1 →
        r.1 = none →
        s1.peek.type ≠ .semicolon
          ∧ ∀ fuel1, parse_and_visit_for.extra_semicolons X r.1 (fuel1 + 1) s1 = .ok () s1) := by
  refine ⟨fun h => (for_declaration_style X fuel left_paren_token_begin for_token_span).run s r s1 h,
    fun h hr => ?_, fun h hr => ?_⟩
  · have hne := (parse_in_or_of_or_condition_update_style X _ _ _).run s r s1 h hr
    exact ⟨hne, fun fuel1 => extra_semicolons_without_semicolon X _ fuel1 s1 hne⟩
  · have hne := (for_async_style X _ _).run s r s1 h hr
    exact ⟨hne, fun fuel1 => extra_semicolons_without_semicolon X _ fuel1 s1 hne⟩

/-- C38 at a concrete input: the head `x in y)`, which leaves `for_loop_style`
unassigned, at the `)`. -/
theorem for_loop_style_assigned_before_read_witness :
    (PState.peek { input := [tok .right_paren 11 12], last_token_end := 11,
                   out := [.visit_variable_use ⟨⟨10, 11⟩, "y"⟩] }).type ≠ .semicolon
    ∧ ∀ fuel1, parse_and_visit_for.extra_semicolons sample_externals
          (none, (none : Option expression)).1 (fuel1 + 1)
          { input := [tok .right_paren 11 12], last_token_end := 11,
            out := [.visit_variable_use ⟨⟨10, 11⟩, "y"⟩] }
        = .ok () { input := [tok .right_paren 11 12], last_token_end := 11,
                   out := [.visit_variable_use ⟨⟨10, 11⟩, "y"⟩] } :=
  (for_loop_style_assigned_before_read sample_externals 0 4 ⟨0, 3⟩
    (make_expression_variable ⟨⟨5, 6⟩, "x"⟩ .identifier)
    { input := [tok .kw_in 7 9, ident_tok "y" 10 11, tok .right_paren 11 12],
      last_token_end := 6 }
    { input := [tok .right_paren 11 12], last_token_end := 11,
      out := [.visit_variable_use ⟨⟨10, 11⟩, "y"⟩] }
    (none, none)).2.1 rfl rfl

theorem run_bind_ok {α β : Type} {m : P α} {f : α → P β} {s s1 : PState} {a : α}
    (h : m s = .ok a s1) : (m >>= f) s = f a s1 := by
  show P.bind m f s = f a s1
  unfold P.bind
  rw [h]

theorem declarations_of_append (a b : List identifier) (kind : variable_kind)
    (init_kind : variable_init_kind) :
    declarations_of (a ++ b) kind init_kind
      = declarations_of a kind init_kind ++ declarations_of b kind init_kind := by
  simp [declarations_of]

theorem PState.declared_declared (s : PState) (e1 e2 : List Event) (d1 d2 : List Diag) :
    (s.declared e1 d1).declared e2 d2 = s.declared (e1 ++ e2) (d1 ++ d2) := by
  simp [PState.declared, List.append_assoc]

theorem PState.declared_nil (s : PState) : s.declared [] [] = s := by
  simp [PState.declared]

theorem report_declared (type : diag_type) (spans : List source_code_span) (s : PState) :
    report type spans s = .ok () (s.declared [] [{ type := type, spans := spans }]) := by
  simp [report, PState.declared]

theorem visit_variable_declaration_declared (name : identifier) (kind : variable_kind)
    (init_kind : variable_init_kind) (s : PState) :
    visit_variable_declaration name kind init_kind s
      = .ok () (s.declared [.visit_variable_declaration name kind init_kind] []) := by
  simp [visit_variable_declaration, visit, PState.declared]

mutual
theorem plain_binding_pattern_run (X : Externals) :
    ∀ (e : expression) (kind : variable_kind) (tok : Option source_code_span)
      (init_kind : variable_init_kind) (s : PState), e.is_plain_binding_pattern = true →
      ∃ ds, visit_binding_element X e kind tok init_kind s
        = .ok () (s.declared (declarations_of e.first_child_variable_leaves kind init_kind) ds)
  | .mk k f children entries, kind, tok, init_kind, s, h => by
    have hL := plain_binding_pattern_run_list X children kind tok init_kind
    have hone : expression.is_plain_binding_pattern_list children = true →
        ∀ s : PState, ∃ ds, (match children with
            | child_0 :: _ => visit_binding_element X child_0 kind tok init_kind
            | [] => pure ()) s
          = .ok () (s.declared (declarations_of
              (match children with
               | child_0 :: _ => child_0.first_child_variable_leaves
               | [] => []) kind init_kind) ds) := by
      intro h1 s
      match children, hL, h1 with
      | [], _, _ =>
        refine Exists.intro [] ?_
        simp only [declarations_of, List.map_nil, PState.declared_nil]
        rfl
      | child_0 :: rest, hL, h1 =>
        simp only [expression.is_plain_binding_pattern_list, Bool.and_eq_true] at h1
        exact hL.1 child_0 (List.mem_cons_self _ _) s h1.1
    rw [visit_binding_element.eq_def, expression.first_child_variable_leaves.eq_def]
    cases k <;> simp only [expression.is_plain_binding_pattern,
      Bool.false_eq_true] at h ⊢
    · exact hL.2 s h
    · obtain ⟨ds, hds⟩ := hone h (s.declared []
        [{ type := .diag_non_null_assertion_not_allowed_in_parameter,
           spans := [f.operator_span] }])
      refine ⟨[{ type := .diag_non_null_assertion_not_allowed_in_parameter,
                 spans := [f.operator_span] }] ++ ds, ?_⟩
      refine (run_bind_ok (report_declared _ _ _)).trans (hds.trans ?_)
      rw [PState.declared_declared]
      rfl
    · exact hone h s
    · exact hone h s
    · obtain ⟨ds, hds⟩ := hone h (s.declared []
        [{ type := .diag_stray_comma_in_parameter, spans := [f.operator_span] }])
      refine ⟨[{ type := .diag_stray_comma_in_parameter, spans := [f.operator_span] }] ++ ds,
        ?_⟩
      refine (run_bind_ok (report_declared _ _ _)).trans (hds.trans ?_)
      rw [PState.declared_declared]
      rfl
    · by_cases hlet : ((kind == ._const || kind == ._import || kind == ._let)
          && f.variable_identifier_token_type == .kw_let) = true
      · refine ⟨[{ type := .diag_cannot_declare_variable_named_let_with_let,
                   spans := [f.variable_identifier.span] }], ?_⟩
        simp only [hlet, if_true]
        refine (run_bind_ok (report_declared _ _ _)).trans
          ((visit_variable_declaration_declared _ _ _ _).trans ?_)
        rw [PState.declared_declared]
        rfl
      · refine ⟨[], ?_⟩
        simp only [hlet, Bool.false_eq_true, if_false]
        exact (visit_variable_declaration_declared _ _ _ _).trans rfl
theorem plain_binding_pattern_run_list (X : Externals) :
    ∀ (cs : List expression) (kind : variable_kind) (tok : Option source_code_span)
      (init_kind : variable_init_kind),
      (∀ c ∈ cs, ∀ s, c.is_plain_binding_pattern = true →
        ∃ ds, visit_binding_element X c kind tok init_kind s
          = .ok () (s.declared
              (declarations_of c.first_child_variable_leaves kind init_kind) ds))
      ∧ (∀ s, expression.is_plain_binding_pattern_list cs = true →
        ∃ ds, visit_binding_element_children X cs kind tok init_kind s
          = .ok () (s.declared (declarations_of
              (expression.first_child_variable_leaves_of_list cs) kind init_kind) ds))
  | [], kind, tok, init_kind => by
    constructor
    · intro c hc
      cases hc
    · intro s _
      refine Exists.intro [] ?_
      rw [visit_binding_element_children.eq_def,
        expression.first_child_variable_leaves_of_list.eq_def]
      simp only [declarations_of, List.map_nil, PState.declared_nil]
      first | done | rfl
  | c :: rest, kind, tok, init_kind => by
    have hc := plain_binding_pattern_run X c kind tok init_kind
    have hr := plain_binding_pattern_run_list X rest kind tok init_kind
    constructor
    · intro x hx s hp
      rcases List.mem_cons.mp hx with h1 | h1
      · subst h1; exact hc s hp
      · exact hr.1 x h1 s hp
    · intro s hp
      simp only [expression.is_plain_binding_pattern_list, Bool.and_eq_true] at hp
      obtain ⟨d1, h1⟩ := hc s hp.1
      obtain ⟨d2, h2⟩ := hr.2
        (s.declared (declarations_of c.first_child_variable_leaves kind init_kind) d1) hp.2
      refine ⟨d1 ++ d2, ?_⟩
      rw [visit_binding_element_children.eq_def]
      simp only []
      rw [run_bind_ok h1, h2, PState.declared_declared]
      conv_rhs => rw [expression.first_child_variable_leaves_of_list.eq_def]
      simp only [declarations_of_append]
end

mutual
theorem first_child_variable_leaves_eq :
    ∀ e : expression, e.is_plain_binding_pattern = true → e.has_one_child_wrappers = true →
      e.first_child_variable_leaves = e.variable_leaves
  | .mk k f children entries, hp, hw => by
    have hL := first_child_variable_leaves_list_eq children
    rw [expression.first_child_variable_leaves.eq_def]
    cases k <;> simp only [expression.is_plain_binding_pattern,
      expression.has_one_child_wrappers,
      expression.variable_leaves, Bool.false_eq_true] at hp hw ⊢
    · exact hL.2 hp hw
    all_goals
      match children, hL, hp, hw with
      | [c], hL, hp, hw =>
        simp only [expression.is_plain_binding_pattern_list,
          expression.has_one_child_wrappers_list, Bool.and_eq_true, Bool.and_true,
          List.length_singleton, beq_self_eq_true, true_and] at hp hw
        simp only [expression.variable_leaves_of_list, List.append_nil]
        exact hL.1 c (List.mem_cons_self _ _) hp hw
theorem first_child_variable_leaves_list_eq :
    ∀ cs : List expression,
      (∀ c ∈ cs, c.is_plain_binding_pattern = true → c.has_one_child_wrappers = true →
        c.first_child_variable_leaves = c.variable_leaves)
      ∧ (expression.is_plain_binding_pattern_list cs = true →
        expression.has_one_child_wrappers_list cs = true →
        expression.first_child_variable_leaves_of_list cs
          = expression.variable_leaves_of_list cs)
  | [] => by
    constructor
    · intro c hc
      cases hc
    · intro _ _
      rw [expression.first_child_variable_leaves_of_list.eq_def,
        expression.variable_leaves_of_list]
  | c :: rest => by
    have hc := first_child_variable_leaves_eq c
    have hr := first_child_variable_leaves_list_eq rest
    constructor
    · intro x hx hp hw
      rcases List.mem_cons.mp hx with h1 | h1
      · subst h1; exact hc hp hw
      · exact hr.1 x h1 hp hw
    · intro hp hw
      simp only [expression.is_plain_binding_pattern_list,
        expression.has_one_child_wrappers_list, Bool.and_eq_true] at hp hw
      rw [expression.first_child_variable_leaves_of_list.eq_def]
      simp only [expression.variable_leaves_of_list]
      rw [hc hp.1 hw.1, hr.2 hp.2 hw.2]
end

/-- C31, as amended: for a binding pattern built only from `variable`, `array`, `spread`,
`paren`, `non_null_assertion` and `trailing_comma` nodes, `visit_binding_element` returns
having delivered exactly one `visit_variable_declaration` per variable leaf that is
reached through every item of an `array` node and through the first child of a node of
another kind, in left-to-right order, each with the given kind and the given `init_kind`,
and no other visitor event (it may have reported diagnostics); where each node that is
neither a `variable` nor an `array` has exactly one child, these are all the variable
leaves of the pattern; and for a `literal`, `call`, `dot`, `binary_operator` or
`unary_operator` node it returns having reported one diagnostic and delivered no
event. -/
theorem binding_pattern_declarations (X : Externals) (declaration_kind : variable_kind)
    (declaring_token : Option source_code_span) (init_kind : variable_init_kind)
    (s : PState) :
    (∀ ast : expression, ast.is_plain_binding_pattern = true →
      ∃ ds, visit_binding_element X ast declaration_kind declaring_token init_kind s
        = .ok () { s with
            out := s.out ++ ast.first_child_variable_leaves.map
              (fun name => Event.visit_variable_declaration name declaration_kind init_kind),
            diags := s.diags ++ ds })
    ∧ (∀ ast : expression, ast.is_plain_binding_pattern = true →
        ast.has_one_child_wrappers = true →
        ast.first_child_variable_leaves = ast.variable_leaves)
    ∧ (∀ (k : expression_kind) (f : expression_fields) (children : List expression)
        (entries : List object_property_value_pair),
        k = .literal ∨ k = .call ∨ k = .dot ∨ k = .binary_operator ∨ k = .unary_operator →
        ∃ d, visit_binding_element X (.mk k f children entries) declaration_kind
            declaring_token init_kind s
          = .ok () { s with diags := s.diags ++ [d] }) := by
  refine ⟨?_, first_child_variable_leaves_eq, ?_⟩
  · intro ast h
    exact plain_binding_pattern_run X ast declaration_kind declaring_token init_kind s h
  · intro k f children entries hk
    rw [visit_binding_element.eq_def]
    rcases hk with h | h | h | h | h <;> subst h <;> exact ⟨_, rfl⟩

/-- C31 (amended) at the pattern `[x, ...y]` declared by `let`: both leaves are
declared. -/
theorem binding_pattern_declarations_witness :
    (expression.mk .array {}
        [make_expression_variable ⟨⟨1, 2⟩, "x"⟩ .identifier,
         .mk .spread {} [make_expression_variable ⟨⟨6, 7⟩, "y"⟩ .identifier] []]
        []).is_plain_binding_pattern = true
    ∧ ∃ ds, visit_binding_element sample_externals
        (.mk .array {}
          [make_expression_variable ⟨⟨1, 2⟩, "x"⟩ .identifier,
           .mk .spread {} [make_expression_variable ⟨⟨6, 7⟩, "y"⟩ .identifier] []] [])
        ._let none .normal { input := [] }
      = .ok () { input := [],
                 out := [.visit_variable_declaration ⟨⟨1, 2⟩, "x"⟩ ._let .normal,
                         .visit_variable_declaration ⟨⟨6, 7⟩, "y"⟩ ._let .normal],
                 diags := [] ++ ds } :=
  ⟨by decide,
   (binding_pattern_declarations sample_externals ._let none .normal { input := [] }).1 _
     (by decide)⟩

/-- C31 as stated fails at the pattern `[(p, q,)]`: it is built only from `array`,
`paren`, `trailing_comma` and `variable` nodes and has the two variable leaves `p` and
`q`, but `visit_binding_element` visits the first child of the `trailing_comma` node
only: `p` is declared and `q` is not. -/
theorem trailing_comma_second_child_not_declared :
    trailing_comma_sample.is_plain_binding_pattern = true
    ∧ trailing_comma_sample.variable_leaves = [⟨⟨2, 3⟩, "p"⟩, ⟨⟨5, 6⟩, "q"⟩]
    ∧ visit_binding_element sample_externals trailing_comma_sample ._let none .normal
        { input := [] }
      = .ok () { input := [],
                 out := [.visit_variable_declaration ⟨⟨2, 3⟩, "p"⟩ ._let .normal],
                 diags := [{ type := .diag_stray_comma_in_parameter,
                             spans := [⟨6, 7⟩] }] } := by
  refine ⟨by decide, by decide, ?_⟩
  simp [trailing_comma_sample, visit_binding_element, visit_binding_element_children,
    make_expression_variable, bind, P.bind, pure, P.pure, report, visit_variable_declaration,
    visit]

theorem preserves_bind {α β : Type} {Inv : PState → Prop} {m : P α} {f : α → P β}
    (hm : Preserves Inv m) (hf : ∀ a, Preserves Inv (f a)) : Preserves Inv (m >>= f) := by
  constructor
  intro s b s1 hs hb
  have h1 : P.bind m f s = .ok b s1 := hb
  unfold P.bind at h1
  cases hms : m s with
  | ok a s2 => rw [hms] at h1; exact (hf a).run s2 b s1 (hm.run s a s2 hs hms) h1
  | stop r s2 => rw [hms] at h1; cases h1
  | out_of_fuel => rw [hms] at h1; cases h1

theorem preserves_pure {α : Type} {Inv : PState → Prop} (a : α) :
    Preserves Inv (pure a : P α) := by
  constructor
  intro s b s1 hs hb
  have h1 : P.pure a s = .ok b s1 := hb
  unfold P.pure at h1
  cases h1
  exact hs

theorem preserves_ite {α : Type} {Inv : PState → Prop} {c : Prop} [Decidable c] {a b : P α}
    (ha : Preserves Inv a) (hb : Preserves Inv b) : Preserves Inv (if c then a else b) := by
  split <;> assumption

theorem preserves_report {Inv : PState → Prop}
    (hD : ∀ s d, Inv s → Inv { s with diags := s.diags ++ [d] }) (type : diag_type)
    (spans : List source_code_span) : Preserves Inv (report type spans) := by
  constructor
  intro s b s1 hs hb
  simp only [report, Res.ok.injEq] at hb
  rw [← hb.2]
  exact hD s _ hs

theorem preserves_visit_all {Inv : PState → Prop} {b : List Event}
    (hT : ∀ s, Inv s → Inv { s with out := s.out ++ b }) : Preserves Inv (visit_all b) := by
  constructor
  intro s a s1 hs hb
  simp only [visit_all, Res.ok.injEq] at hb
  rw [← hb.2]
  exact hT s hs

theorem preserves_visit_variable_declaration {Inv : PState → Prop} {kind : variable_kind}
    {init_kind : variable_init_kind}
    (hV : ∀ name s, Inv s →
      Inv { s with out := s.out ++ [.visit_variable_declaration name kind init_kind] })
    (name : identifier) : Preserves Inv (visit_variable_declaration name kind init_kind) := by
  constructor
  intro s a s1 hs hb
  simp only [visit_variable_declaration, visit, Res.ok.injEq] at hb
  rw [← hb.2]
  exact hV name s hs

theorem entry_assertion_normal (kind : variable_kind) :
    visit_binding_element.entry_assertion kind .normal = true := by
  cases kind <;> rfl

mutual
theorem calls_normal_aux {kind : variable_kind} (h : kind.is_const_let_var = false) :
    ∀ e : expression, ∀ c ∈ visit_binding_element.calls e kind .normal, c = (kind, .normal)
  | .mk k f children entries => by
    have hL := calls_normal_list h children
    have hE := calls_normal_entries h entries
    have h0 : ∀ c ∈ (match children with
        | child_0 :: _ => visit_binding_element.calls child_0 kind .normal
        | [] => []), c = (kind, variable_init_kind.normal) := by
      intro c hc
      match children, hL, hc with
      | child_0 :: _, hL, hc => exact hL.1 child_0 (List.mem_cons_self _ _) c hc
    intro c hc
    rw [visit_binding_element.calls.eq_def] at hc
    rcases List.mem_cons.mp hc with h1 | h1
    · exact h1
    · cases k <;> simp only [h, Bool.false_eq_true, if_false] at h1 <;>
        first
        | exact h0 c h1
        | exact hL.2 c h1
        | exact hE c h1
        | cases h1
theorem calls_normal_list {kind : variable_kind} (h : kind.is_const_let_var = false) :
    ∀ cs : List expression,
      (∀ x ∈ cs, ∀ c ∈ visit_binding_element.calls x kind .normal, c = (kind, .normal))
      ∧ ∀ c ∈ visit_binding_element.calls_of_children cs kind .normal, c = (kind, .normal)
  | [] => by
    constructor
    · intro x hx; cases hx
    · intro c hc
      rw [visit_binding_element.calls_of_children.eq_def] at hc
      cases hc
  | x :: rest => by
    have hx := calls_normal_aux h x
    have hr := calls_normal_list h rest
    constructor
    · intro y hy
      rcases List.mem_cons.mp hy with h1 | h1
      · subst h1; exact hx
      · exact hr.1 y h1
    · intro c hc
      rw [visit_binding_element.calls_of_children.eq_def] at hc
      rcases List.mem_append.mp hc with h1 | h1
      · exact hx c h1
      · exact hr.2 c h1
theorem calls_normal_entries {kind : variable_kind} (h : kind.is_const_let_var = false) :
    ∀ es : List object_property_value_pair,
      ∀ c ∈ visit_binding_element.calls_of_entries es kind .normal, c = (kind, .normal)
  | [] => by
    intro c hc
    rw [visit_binding_element.calls_of_entries.eq_def] at hc
    cases hc
  | .mk p v i :: rest => by
    have hv := calls_normal_aux h v
    have hr := calls_normal_entries h rest
    intro c hc
    rw [visit_binding_element.calls_of_entries.eq_def] at hc
    rcases List.mem_append.mp hc with h1 | h1
    · exact hv c h1
    · exact hr c h1
end

set_option linter.unusedTactic false
set_option linter.unreachableTactic false

mutual
theorem preserves_visit_binding_element {X : Externals} {Inv : PState → Prop}
    {kind : variable_kind} (h : kind.is_const_let_var = false)
    (hE : ∀ ast context, Preserves Inv (X.visit_expression ast context))
    (hD : ∀ s d, Inv s → Inv { s with diags := s.diags ++ [d] })
    (hV : ∀ name s, Inv s →
      Inv { s with out := s.out ++ [.visit_variable_declaration name kind .normal] }) :
    ∀ (e : expression) (tok : Option source_code_span),
      (∀ b ∈ e.type_annotations, ∀ s, Inv s → Inv { s with out := s.out ++ b }) →
      Preserves Inv (visit_binding_element X e kind tok .normal)
  | .mk k f children entries, tok, hT => by
    have hL := preserves_visit_binding_element_list h hE hD hV children tok
      (well_formed_children hT)
    have hC := preserves_visit_binding_element_entries h hE hD hV entries tok
      (well_formed_entries hT)
    have hf := well_formed_fields hT
    have h0 : Preserves Inv (match children with
        | child_0 :: _ => visit_binding_element X child_0 kind tok .normal
        | [] => pure ()) := by
      match children, hL with
      | [], _ => exact preserves_pure _
      | child_0 :: _, hL => exact hL.1 child_0 (List.mem_cons_self _ _)
    rw [visit_binding_element.eq_def]
    cases k <;> simp only [h, Bool.false_eq_true, if_false] <;>
    repeat (first
      | exact h0
      | exact hL.2
      | exact hC
      | exact hE _ _
      | exact preserves_pure _
      | exact preserves_report hD _ _
      | exact preserves_visit_all hf
      | exact preserves_visit_variable_declaration hV _
      | apply preserves_bind
      | apply preserves_ite
      | intro _
      | split)
theorem preserves_visit_binding_element_list {X : Externals} {Inv : PState → Prop}
    {kind : variable_kind} (h : kind.is_const_let_var = false)
    (hE : ∀ ast context, Preserves Inv (X.visit_expression ast context))
    (hD : ∀ s d, Inv s → Inv { s with diags := s.diags ++ [d] })
    (hV : ∀ name s, Inv s →
      Inv { s with out := s.out ++ [.visit_variable_declaration name kind .normal] }) :
    ∀ (cs : List expression) (tok : Option source_code_span),
      (∀ c ∈ cs, ∀ b ∈ c.type_annotations, ∀ s, Inv s → Inv { s with out := s.out ++ b }) →
      (∀ c ∈ cs, Preserves Inv (visit_binding_element X c kind tok .normal))
      ∧ Preserves Inv (visit_binding_element_children X cs kind tok .normal)
  | [], tok, hT => by
    constructor
    · intro c hc; cases hc
    · rw [visit_binding_element_children.eq_def]
      exact preserves_pure _
  | c :: rest, tok, hT => by
    have hc := preserves_visit_binding_element h hE hD hV c tok
      (hT c (List.mem_cons_self _ _))
    have hr := preserves_visit_binding_element_list h hE hD hV rest tok
      (fun x hx => hT x (List.mem_cons_of_mem _ hx))
    constructor
    · intro y hy
      rcases List.mem_cons.mp hy with h1 | h1
      · subst h1; exact hc
      · exact hr.1 y h1
    · rw [visit_binding_element_children.eq_def]
      exact preserves_bind hc (fun _ => hr.2)
theorem preserves_visit_binding_element_entries {X : Externals} {Inv : PState → Prop}
    {kind : variable_kind} (h : kind.is_const_let_var = false)
    (hE : ∀ ast context, Preserves Inv (X.visit_expression ast context))
    (hD : ∀ s d, Inv s → Inv { s with diags := s.diags ++ [d] })
    (hV : ∀ name s, Inv s →
      Inv { s with out := s.out ++ [.visit_variable_declaration name kind .normal] }) :
    ∀ (es : List object_property_value_pair) (tok : Option source_code_span),
      (∀ b ∈ expression.type_annotations_of_entries es,
        ∀ s, Inv s → Inv { s with out := s.out ++ b }) →
      Preserves Inv (visit_binding_element_entries X es kind tok .normal)
  | [], tok, hT => by
    rw [visit_binding_element_entries.eq_def]
    exact preserves_pure _
  | .mk p v i :: rest, tok, hT => by
    have hv := preserves_visit_binding_element h hE hD hV v tok (fun b hb => hT b (by
      rw [type_annotations_of_entries_cons]
      simp only [List.mem_append]
      exact Or.inl (Or.inl (Or.inr hb))))
    have hr := preserves_visit_binding_element_entries h hE hD hV rest tok
      (fun b hb => hT b (by
        rw [type_annotations_of_entries_cons]
        exact List.mem_append_right _ hb))
    rw [visit_binding_element_entries.eq_def]
    cases i with
    | some init_expression =>
      exact preserves_bind (hE _ _) (fun _ => preserves_bind hv (fun _ => hr))
    | none =>
      exact preserves_bind (preserves_pure _) (fun _ => preserves_bind hv (fun _ => hr))
end

theorem declarations_normal_append (a b : List Event) :
    declarations_normal (a ++ b) = (declarations_normal a && declarations_normal b) := by
  simp [declarations_normal, List.all_append]

/-- C39: when `visit_binding_element` is called with a declaration kind other than
`_const`, `_let`, `_var` and with `init_kind` `normal`, every call of the recursion has
the same declaration kind and `init_kind` `normal`, so that the entry assertion holds at
each of them; and the function itself delivers no event but
`visit_variable_declaration` with that kind and `init_kind` `normal`: a property of the
state that `visit_expression`, a reported diagnostic, the replay of a type annotation of
the pattern and such a declaration all keep, holds after the call if it held before. -/
theorem visit_binding_element_init_kind_normal (X : Externals)
    (declaration_kind : variable_kind) (ast : expression)
    (declaring_token : Option source_code_span) (Inv : PState → Prop)
    (h : declaration_kind.is_const_let_var = false)
    (hE : ∀ e context s s1, Inv s → X.visit_expression e context s = .ok () s1 → Inv s1)
    (hD : ∀ s d, Inv s → Inv { s with diags := s.diags ++ [d] })
    (hT : ∀ b ∈ ast.type_annotations, ∀ s, Inv s → Inv { s with out := s.out ++ b })
    (hV : ∀ name s, Inv s → Inv { s with
      out := s.out ++ [.visit_variable_declaration name declaration_kind .normal] }) :
    (∀ c ∈ visit_binding_element.calls ast declaration_kind .normal,
      c = (declaration_kind, .normal)
      ∧ visit_binding_element.entry_assertion c.1 c.2 = true)
    ∧ ∀ s s1, Inv s →
        visit_binding_element X ast declaration_kind declaring_token .normal s = .ok () s1 →
        Inv s1 := by
  constructor
  · intro c hc
    have h1 := calls_normal_aux h ast c hc
    rw [h1]
    exact ⟨rfl, entry_assertion_normal _⟩
  · intro s s1 hs hr
    exact (preserves_visit_binding_element h (fun e context => ⟨fun s a s1 => hE e context s s1⟩)
      hD hV ast declaring_token hT).run s () s1 hs hr

/-- C39 at the parameter `[x = y]`, with a `visit_expression` that delivers nothing: the
one event delivered is a declaration with `init_kind` `normal`. -/
theorem visit_binding_element_init_kind_normal_witness :
    variable_kind.is_const_let_var ._parameter = false
    ∧ (∀ c ∈ visit_binding_element.calls
          (.mk .array {}
            [.mk .assignment {}
              [make_expression_variable ⟨⟨1, 2⟩, "x"⟩ .identifier,
               make_expression_variable ⟨⟨5, 6⟩, "y"⟩ .identifier] []] [])
          ._parameter .normal,
        c = (._parameter, .normal)
        ∧ visit_binding_element.entry_assertion c.1 c.2 = true)
    ∧ declarations_normal
        [.visit_variable_declaration ⟨⟨1, 2⟩, "x"⟩ ._parameter .normal] = true :=
  have w := visit_binding_element_init_kind_normal
    { sample_externals with visit_expression := fun _ _ => pure () } ._parameter
    (.mk .array {}
      [.mk .assignment {}
        [make_expression_variable ⟨⟨1, 2⟩, "x"⟩ .identifier,
         make_expression_variable ⟨⟨5, 6⟩, "y"⟩ .identifier] []] [])
    none (fun s => declarations_normal s.out = true) (by decide)
    (fun _ _ s s1 hs hr =>
      (show Preserves (fun s : PState => declarations_normal s.out = true) (pure () : P Unit)
        from preserves_pure ()).run s () s1 hs hr)
    (fun _ _ hs => hs)
    (fun b hb s hs => by
      have hb1 : b = [] := by
        simp [expression.type_annotations, expression.type_annotations_of_list,
          expression.type_annotations_of_entries, make_expression_variable] at hb
        exact hb
      subst hb1
      simpa using hs)
    (fun name s hs => by
      simp only [declarations_normal_append, hs, Bool.true_and]
      rfl)
  ⟨by decide, w.1, w.2 { input := [] } _ (by decide) rfl⟩

set_option linter.unusedTactic false
set_option linter.unreachableTactic false
set_option linter.unusedVariables false

theorem silent_bind {α β : Type} {Q : β → Prop} {m : P α} {f : α → P β}
    (hm : Silent (fun _ => True) m) (hf : ∀ a, Silent Q (f a)) : Silent Q (m >>= f) := by
  constructor
  intro s b s1 hb hq
  have h1 : P.bind m f s = .ok b s1 := hb
  unfold P.bind at h1
  cases hms : m s with
  | ok a s2 =>
    rw [hms] at h1
    exact ((hf a).run s2 b s1 h1 hq).trans (hm.run s a s2 hms trivial)
  | stop r s2 => rw [hms] at h1; cases h1
  | out_of_fuel => rw [hms] at h1; cases h1

theorem silent_of_returns {α : Type} {Q : α → Prop} {m : P α}
    (h : Returns (fun r => ¬ Q r) m) : Silent Q m := by
  constructor
  intro s a s1 ha hq
  exact absurd hq (h s a s1 ha)

theorem silent_ite {α : Type} {Q : α → Prop} {c : Prop} [Decidable c] {a b : P α}
    (ha : Silent Q a) (hb : Silent Q b) : Silent Q (if c then a else b) := by
  split <;> assumption

theorem silent_pure {α : Type} {Q : α → Prop} (a : α) : Silent Q (pure a : P α) := by
  constructor
  intro s b s1 hb _
  have h1 : P.pure a s = .ok b s1 := hb
  unfold P.pure at h1
  cases h1
  rfl

theorem silent_peek : Silent (fun _ => True) peek := by
  constructor
  intro s b s1 hb _
  simp only [peek, Res.ok.injEq] at hb
  rw [← hb.2]

theorem silent_get_state : Silent (fun _ => True) get_state := by
  constructor
  intro s b s1 hb _
  simp only [get_state, Res.ok.injEq] at hb
  rw [← hb.2]

theorem silent_skip : Silent (fun _ => True) skip := by
  constructor
  intro s b s1 hb _
  simp only [skip, Res.ok.injEq] at hb
  rw [← hb.2]
  rfl

theorem silent_begin_transaction : Silent (fun _ => True) begin_transaction := by
  constructor
  intro s b s1 hb _
  simp only [begin_transaction, Res.ok.injEq] at hb
  rw [← hb.2]

theorem silent_commit_transaction (t : lexer_transaction) :
    Silent (fun _ => True) (commit_transaction t) := by
  constructor
  intro s b s1 hb _
  simp only [commit_transaction, Res.ok.injEq] at hb
  rw [← hb.2]

theorem silent_roll_back_transaction (t : lexer_transaction) :
    Silent (fun _ => True) (roll_back_transaction t) := by
  constructor
  intro s b s1 hb _
  simp only [roll_back_transaction, Res.ok.injEq] at hb
  rw [← hb.2]

theorem silent_report (type : diag_type) (spans : List source_code_span) :
    Silent (fun _ => True) (report type spans) := by
  constructor
  intro s b s1 hb _
  simp only [report, Res.ok.injEq] at hb
  rw [← hb.2]

theorem silent_bind_peek {β : Type} {Q : β → Prop} {f : token → P β}
    (hf : ∀ a, Silent Q (f a)) : Silent Q (peek >>= f) := silent_bind silent_peek hf

theorem silent_bind_get_state {β : Type} {Q : β → Prop} {f : PState → P β}
    (hf : ∀ a, Silent Q (f a)) : Silent Q (get_state >>= f) := silent_bind silent_get_state hf

theorem silent_bind_skip {β : Type} {Q : β → Prop} {f : Unit → P β}
    (hf : ∀ a, Silent Q (f a)) : Silent Q (skip >>= f) := silent_bind silent_skip hf

theorem silent_bind_begin_transaction {β : Type} {Q : β → Prop}
    {f : lexer_transaction → P β} (hf : ∀ a, Silent Q (f a)) :
    Silent Q (begin_transaction >>= f) := silent_bind silent_begin_transaction hf

theorem silent_bind_commit_transaction {β : Type} {Q : β → Prop} {t : lexer_transaction}
    {f : Unit → P β} (hf : ∀ a, Silent Q (f a)) : Silent Q (commit_transaction t >>= f) :=
  silent_bind (silent_commit_transaction t) hf

theorem silent_bind_roll_back_transaction {β : Type} {Q : β → Prop}
    {t : lexer_transaction} {f : Unit → P β} (hf : ∀ a, Silent Q (f a)) :
    Silent Q (roll_back_transaction t >>= f) :=
  silent_bind (silent_roll_back_transaction t) hf

theorem silent_bind_report {β : Type} {Q : β → Prop} {type : diag_type}
    {spans : List source_code_span} {f : Unit → P β} (hf : ∀ a, Silent Q (f a)) :
    Silent Q (report type spans >>= f) := silent_bind (silent_report type spans) hf

theorem silent_bind_pure {α β : Type} {Q : β → Prop} {a : α} {f : α → P β}
    (hf : ∀ a, Silent Q (f a)) : Silent Q ((pure a : P α) >>= f) :=
  silent_bind (silent_pure a) hf

theorem silent_bind_ite_report {β : Type} {Q : β → Prop} {c : Prop} [Decidable c]
    {type : diag_type} {spans : List source_code_span} {f : PUnit → P β}
    (hf : ∀ a, Silent Q (f a)) :
    Silent Q ((if c then report type spans else pure PUnit.unit) >>= f) :=
  silent_bind (silent_ite (silent_report type spans) (silent_pure _)) hf

theorem returns_some (b : Bool) :
    Returns (fun r : Option Bool => ¬ r = none) (pure (some b)) :=
  Returns.pure _ (by simp)

set_option maxRecDepth 8000 in
theorem silent_dispatch (X : Externals)
    (hX : ∀ t, Silent (fun _ => True) (X.report_errors_for_escape_sequences_in_keyword t))
    (stmt : parse_statement_type → P Bool) (fuel : Nat) (ty : parse_statement_type) :
    Silent (fun r => r = none) (parse_and_visit_statement.dispatch X stmt fuel ty) := by
  unfold parse_and_visit_statement.dispatch
  unfold parse_and_visit_statement.case_kw_export parse_and_visit_statement.case_semicolon
    parse_and_visit_statement.case_kw_function
    parse_and_visit_statement.case_kw_const_or_kw_var parse_and_visit_statement.case_kw_let
    parse_and_visit_statement.case_kw_abstract parse_and_visit_statement.case_kw_declare
    parse_and_visit_statement.case_kw_async parse_and_visit_statement.case_kw_import
    parse_and_visit_statement.case_expression parse_and_visit_statement.case_kw_await
    parse_and_visit_statement.case_kw_yield
    parse_and_visit_statement.case_reserved_keyword_with_escape_sequence
    parse_and_visit_statement.case_kw_interface parse_and_visit_statement.case_kw_type
    parse_and_visit_statement.case_kw_class parse_and_visit_statement.case_kw_switch
    parse_and_visit_statement.case_kw_return parse_and_visit_statement.case_kw_throw
    parse_and_visit_statement.case_kw_try parse_and_visit_statement.case_kw_catch
    parse_and_visit_statement.case_kw_finally parse_and_visit_statement.case_kw_do
    parse_and_visit_statement.case_kw_for parse_and_visit_statement.case_kw_while
    parse_and_visit_statement.case_kw_with parse_and_visit_statement.case_kw_if
    parse_and_visit_statement.case_kw_else
    parse_and_visit_statement.case_kw_break_or_kw_continue
    parse_and_visit_statement.case_kw_debugger parse_and_visit_statement.case_kw_enum
    parse_and_visit_statement.case_left_curly parse_and_visit_statement.case_kw_case
    parse_and_visit_statement.case_kw_default
    parse_and_visit_statement.case_unexpected_token
    parse_and_visit_statement.label_or_expression_starting_with_identifier
  repeat (first
    | with_reducible exact silent_pure _
    | (with_reducible apply silent_bind_peek; intro _)
    | (with_reducible apply silent_bind_get_state; intro _)
    | (with_reducible apply silent_bind_skip; intro _)
    | (with_reducible apply silent_bind_begin_transaction; intro _)
    | (with_reducible apply silent_bind_commit_transaction; intro _)
    | (with_reducible apply silent_bind_roll_back_transaction; intro _)
    | (with_reducible apply silent_bind_report; intro _)
    | (with_reducible apply silent_bind_pure; intro _)
    | (with_reducible apply silent_bind (hX _); intro _)
    | (with_reducible apply silent_bind_ite_report; intro _)
    | with_reducible apply silent_ite
    | focus
        with_reducible apply silent_of_returns
        repeat (first
          | (with_reducible apply Returns.bind; intro _)
          | with_reducible apply Returns.ite
          | with_reducible exact returns_some _
          | with_reducible exact Returns.unimplemented
          | split
          | dsimp only)
        done
    | split
    | dsimp only)

theorem parse_statement_false_silent (X : Externals)
    (hX : ∀ t, Silent (fun _ => True) (X.report_errors_for_escape_sequences_in_keyword t))
    (stmt : parse_statement_type → P Bool) (ty : parse_statement_type) :
    ∀ (fuel : Nat) (s s1 : PState),
      parse_and_visit_statement.parse_statement X stmt ty fuel s = .ok false s1 →
      s1.out = s.out := by
  intro fuel
  induction fuel with
  | zero => intro s s1 h; cases h
  | succ fuel ih =>
    intro s s1 h
    rw [parse_statement_succ] at h
    have h1 : P.bind (parse_and_visit_statement.dispatch X stmt fuel ty) _ s = .ok false s1 := h
    unfold P.bind at h1
    cases hd : parse_and_visit_statement.dispatch X stmt fuel ty s with
    | out_of_fuel => rw [hd] at h1; cases h1
    | stop r s2 => rw [hd] at h1; cases h1
    | ok r s2 =>
      rw [hd] at h1
      cases r with
      | none =>
        exact (ih s2 s1 h1).trans ((silent_dispatch X hX stmt fuel ty).run s none s2 hd rfl)
      | some r =>
        have h2 : (Res.ok r s2 : Res Bool) = .ok false s1 := h1
        cases h2
        by_cases hp : s.peek.type = .end_of_file ∨ s.peek.type = .right_curly
        · rw [dispatch_end X stmt fuel ty s hp] at hd
          cases hd
          rfl
        · exact absurd rfl (dispatch_ne_false X stmt fuel ty s s1 (some false) hd hp)

/-- C32: whenever `parse_and_visit_statement` returns false, it has delivered no visitor
event since it was called (`report_errors_for_escape_sequences_in_keyword`, which is
given only the diagnostic reporter, delivering none); and when the token at which it was
called is end-of-file or a right curly, it has consumed no token and reported no
diagnostic either: the state is the one in which it was called. -/
theorem parse_and_visit_statement_false_emits_nothing (X : Externals) (fuel : Nat)
    (ty : parse_statement_type) (s s1 : PState)
    (hX : ∀ t s0 a s2,
      X.report_errors_for_escape_sequences_in_keyword t s0 = .ok a s2 → s2.out = s0.out)
    (h : parse_and_visit_statement X fuel ty s = .ok false s1) :
    s1.out = s.out
    ∧ ((s.peek.type = .end_of_file ∨ s.peek.type = .right_curly) → s1 = s) := by
  cases fuel with
  | zero => cases h
  | succ fuel =>
    rw [parse_and_visit_statement_succ] at h
    have h1 : P.bind (depth_guard_enter X) _ s = .ok false s1 := h
    unfold P.bind at h1
    by_cases hd : s.depth + 1 ≤ X.stack_limit
    · rw [depth_guard_enter_ok X s hd] at h1
      have h2 : P.bind (parse_and_visit_statement.parse_statement X
          (parse_and_visit_statement X fuel) ty fuel) _ { s with depth := s.depth + 1 }
          = .ok false s1 := h1
      unfold P.bind at h2
      cases hp : parse_and_visit_statement.parse_statement X
          (parse_and_visit_statement X fuel) ty fuel { s with depth := s.depth + 1 } with
      | out_of_fuel => rw [hp] at h2; cases h2
      | stop r s2 => rw [hp] at h2; cases h2
      | ok r s2 =>
        rw [hp] at h2
        have h3 : (Res.ok r { s2 with depth := s2.depth - 1 } : Res Bool) = .ok false s1 := h2
        cases h3
        constructor
        · exact parse_statement_false_silent X
            (fun t => ⟨fun s0 a s2 h0 _ => hX t s0 a s2 h0⟩) _ ty fuel
            { s with depth := s.depth + 1 } s2 hp
        · intro hend
          cases fuel with
          | zero => cases hp
          | succ fuel =>
            rw [parse_statement_succ] at hp
            have hp1 : P.bind (parse_and_visit_statement.dispatch X
                (parse_and_visit_statement X (fuel + 1)) fuel ty) _
                { s with depth := s.depth + 1 } = .ok false s2 := hp
            unfold P.bind at hp1
            rw [dispatch_end X _ fuel ty { s with depth := s.depth + 1 } hend] at hp1
            have hp2 : (Res.ok false { s with depth := s.depth + 1 } : Res Bool)
                = .ok false s2 := hp1
            cases hp2
            cases s
            simp
    · have : depth_guard_enter X s = .stop .depth_limit_exceeded
          { s with diags := s.diags ++
            [{ type := .diag_depth_limit_exceeded, spans := [s.peek.span] }] } := by
        simp [depth_guard_enter, Nat.lt_of_not_le hd]
      rw [this] at h1
      cases h1

/-- C32 at `await : }` in an async function: false is returned with no event delivered. -/
theorem parse_and_visit_statement_false_emits_nothing_witness :
    ({ input := [tok .right_curly 8 9], last_token_end := 7, in_async_function := true,
       diags := [{ type := .diag_label_named_await_not_allowed_in_async_function,
                   spans := [⟨0, 5⟩, ⟨6, 7⟩] }] } : PState).out
      = ({ initial_state [tok .kw_await 0 5, tok .colon 6 7, tok .right_curly 8 9] with
           in_async_function := true } : PState).out
    ∧ ((({ initial_state [tok .kw_await 0 5, tok .colon 6 7, tok .right_curly 8 9] with
           in_async_function := true } : PState).peek.type = .end_of_file
        ∨ ({ initial_state [tok .kw_await 0 5, tok .colon 6 7, tok .right_curly 8 9] with
           in_async_function := true } : PState).peek.type = .right_curly) →
        ({ input := [tok .right_curly 8 9], last_token_end := 7, in_async_function := true,
           diags := [{ type := .diag_label_named_await_not_allowed_in_async_function,
                       spans := [⟨0, 5⟩, ⟨6, 7⟩] }] } : PState)
          = { initial_state [tok .kw_await 0 5, tok .colon 6 7, tok .right_curly 8 9] with
              in_async_function := true }) :=
  parse_and_visit_statement_false_emits_nothing sample_externals 3 .any_statement_in_block
    { initial_state [tok .kw_await 0 5, tok .colon 6 7, tok .right_curly 8 9] with
      in_async_function := true } _
    (fun _ _ _ _ h0 => by cases h0; rfl) (by decide)

/-- C32 refuted at `await : }` in an async function: `parse_and_visit_statement` returns
false after it has consumed the label `await` and the colon and has reported
`diag_label_named_await_not_allowed_in_async_function`. -/
theorem parse_and_visit_statement_false_after_label :
    parse_and_visit_statement sample_externals 3 .any_statement_in_block
        { initial_state [tok .kw_await 0 5, tok .colon 6 7, tok .right_curly 8 9] with
          in_async_function := true }
      = .ok false
          { input := [tok .right_curly 8 9], last_token_end := 7, in_async_function := true,
            diags := [{ type := .diag_label_named_await_not_allowed_in_async_function,
                        spans := [⟨0, 5⟩, ⟨6, 7⟩] }] } := by
  decide

end quick_lint_js
